import Mathlib

/-!
# nsoracle: bind-variable scanner, piecewise OUT binds, statement executor

A shallow embedding of parts of `nsoracle.c` (the Oracle OCI driver for
AOLserver/NaviServer) and proofs about them.

Conventions of the embedding.

* A C string is the list of its characters; the end of the list plays the
  role of the terminating NUL, and a NUL character inside the list ends the
  string there, as it does in C.
* `isalnum` is the test of the "C" locale: ASCII letters and digits.
* A write outside a fixed-size array is undefined behaviour; the embedding
  reports it as `Outcome.fault` instead of inventing a result.
* Loops whose termination is not structural are run with an iteration budget;
  exhausting the budget is `Outcome.timeout`, and the termination theorems
  show that the budget that is used is never exhausted.
-/

namespace NsOracle

/-! ## Outcomes -/

/-- Result of running a piece of C code: a value, undefined behaviour, or an
exhausted iteration budget. -/
inductive Outcome (α : Type) where
  | done (a : α)
  | fault
  | timeout
  deriving DecidableEq, Repr

/-- Mapping over the value of an outcome. -/
def Outcome.map {α β : Type} (f : α → β) : Outcome α → Outcome β
  | .done a => .done (f a)
  | .fault => .fault
  | .timeout => .timeout


/-! ## `parse_bind_variables` (nsoracle.c, lines 3988-4055) -/

/-- The `enum { base_state, instr_state, bind_state }` of the scanner. -/
inductive ScanState where
  | base_state
  | instr_state
  | bind_state
  deriving DecidableEq, Repr

/-- Number of elements of `char bindbuf[1024]`. -/
def BINDBUF_SIZE : Nat := 1024

/-- The local variables of `parse_bind_variables`.

`before`/`rest` are the pointer `p`: the characters before `p` (nearest
first) and the characters from `p` on.  `bindbuf` holds `bindbuf[0 .. bp)`,
so `bp - bindbuf` is its length.  `names` is the list `head .. tail`.
`current_string_length` is an `int` that is only ever compared with 0; it is
kept modulo `2^32`. -/
structure Scanner where
  before : List Char
  rest : List Char
  state : ScanState
  lastchar : Char
  bindbuf : List Char
  current_string_length : Nat
  names : List (List Char)
  deriving DecidableEq, Repr

/-- The test `*p == '_' || *p == '$' || *p == '#' || isalnum((int) *p)`. -/
def is_bind_char (c : Char) : Bool :=
  c = '_' || c = '$' || c = '#' || c.isAlphanum

/-- The body of the `switch (state)` for the character `c = *p`.
`none` is undefined behaviour: a write to `bindbuf[1024]` or beyond, or `p--`
at the start of the input. -/
def switch_body (c : Char) (s : Scanner) : Option Scanner :=
  match s.state with
  | .base_state =>
      if c = '\'' then
        some { s with state := .instr_state, current_string_length := 0 }
      else if c = ':' then
        some { s with bindbuf := [], state := .bind_state }
      else some s
  | .instr_state =>
      let s1 : Scanner :=
        if c = '\'' ∧ (s.lastchar ≠ '\'' ∨ s.current_string_length = 0) then
          { s with state := .base_state }
        else s
      some { s1 with current_string_length := (s.current_string_length + 1) % 2 ^ 32 }
  | .bind_state =>
      if c = '=' then
        some { s with state := .base_state, bindbuf := [] }
      else if !(is_bind_char c) then
        if s.bindbuf.length < BINDBUF_SIZE then
          match s.before with
          | [] => none
          | b :: bs =>
              some { s with names := s.names ++ [s.bindbuf], state := .base_state,
                            before := bs, rest := b :: s.rest }
        else none
      else if s.bindbuf.length < BINDBUF_SIZE then
        some { s with bindbuf := s.bindbuf ++ [c] }
      else none

/-- The increment of the `for`: `lastchar = *p, p++`. -/
def advance (s : Scanner) : Scanner :=
  match s.rest with
  | [] => { s with lastchar := '\x00' }
  | c :: cs => { s with lastchar := c, before := c :: s.before, rest := cs }

/-- The `for` loop, run for at most `fuel` iterations. -/
def scan_loop : Nat → Scanner → Outcome Scanner
  | fuel, s =>
    match s.rest with
    | [] => .done s
    | c :: _ =>
      if c = '\x00' then .done s
      else
        match fuel with
        | 0 => .timeout
        | fuel + 1 =>
          match switch_body c s with
          | none => .fault
          | some s1 => scan_loop fuel (advance s1)

/-- The code after the loop: a name still open at the end of the input is
terminated and appended. -/
def scan_finish (s : Scanner) : Outcome (List (List Char)) :=
  if s.state = .bind_state then
    if s.bindbuf.length < BINDBUF_SIZE then .done (s.names ++ [s.bindbuf])
    else .fault
  else .done s.names

/-- The initialisation of the `for`. -/
def scan_init (input : List Char) : Scanner :=
  { before := [], rest := input, state := .base_state, lastchar := '\x00',
    bindbuf := [], current_string_length := 0, names := [] }

/-- The loop followed by the final `if`, with an iteration budget. -/
def scan_run (fuel : Nat) (s : Scanner) : Outcome (List (List Char)) :=
  match scan_loop fuel s with
  | .done s1 => scan_finish s1
  | .fault => .fault
  | .timeout => .timeout

/-- The function `parse_bind_variables`: the returned list of names, in list
order.  The budget is `2 * strlen(input) + 1` iterations. -/
def parse_bind_variables (input : List Char) : Outcome (List (List Char)) :=
  scan_run (2 * input.length + 1) (scan_init input)

/-! ### The scan as a recursion on the remaining input

`scan_from` is not a second model: `parse_bind_variables_eq` below proves that
the loop above computes it.  The back-step `p--` shows up as the character
that ends a name being handed to `base_next`. -/

/-- What the `base_state` case does to `(state, bindbuf, current_string_length)`. -/
def base_next (c : Char) (buf : List Char) (csl : Nat) : ScanState × List Char × Nat :=
  if c = '\'' then (.instr_state, buf, 0)
  else if c = ':' then (.bind_state, [], csl)
  else (.base_state, buf, csl)

/-- The value of the final `if` as a function of the state and the buffer. -/
def finish_from (st : ScanState) (buf : List Char) (names : List (List Char)) :
    Outcome (List (List Char)) :=
  if st = .bind_state then
    if buf.length < BINDBUF_SIZE then .done (names ++ [buf]) else .fault
  else .done names

/-- The scan as a recursion on the characters still to be read. -/
def scan_from (st : ScanState) (last : Char) (buf : List Char) (csl : Nat)
    (names : List (List Char)) : List Char → Outcome (List (List Char))
  | [] => finish_from st buf names
  | c :: cs =>
    if c = '\x00' then finish_from st buf names
    else
      match st with
      | .base_state =>
          scan_from (base_next c buf csl).1 c (base_next c buf csl).2.1 (base_next c buf csl).2.2
            names cs
      | .instr_state =>
          scan_from (if c = '\'' ∧ (last ≠ '\'' ∨ csl = 0) then .base_state else .instr_state)
            c buf ((csl + 1) % 2 ^ 32) names cs
      | .bind_state =>
          if c = '=' then scan_from .base_state c [] csl names cs
          else if !(is_bind_char c) then
            if buf.length < BINDBUF_SIZE then
              scan_from (base_next c buf csl).1 c (base_next c buf csl).2.1
                (base_next c buf csl).2.2 (names ++ [buf]) cs
            else .fault
          else if buf.length < BINDBUF_SIZE then scan_from .bind_state c (buf ++ [c]) csl names cs
          else .fault



/-! ### Shapes of input used in the statements -/

/-- Every character of `n` may occur in a placeholder name. -/
def bind_name (n : List Char) : Bool := n.all is_bind_char

/-- Text holding no `:`, no single quote and no NUL. -/
def plain_text (t : List Char) : Bool :=
  t.all (fun c => c != ':' && c != '\'' && c != '\x00')

/-- The text is empty or starts with a character that neither continues a
name nor is `=`. -/
def separator_start : List Char → Bool
  | [] => true
  | c :: _ => !(is_bind_char c) && c != '='

/-- The text `':' n1 t1 ':' n2 t2 ... ':' nk tk` of the pairs `(ni, ti)`. -/
def placeholder_text : List (List Char × List Char) → List Char
  | [] => []
  | (n, t) :: segs => ':' :: (n ++ (t ++ placeholder_text segs))

/-- Each name is a non-empty run of name characters, each text is plain and
starts with a separator, and only the last text may be empty. -/
def well_formed_segments : List (List Char × List Char) → Bool
  | [] => true
  | [(n, t)] => !n.isEmpty && bind_name n && plain_text t && separator_start t
  | (n, t) :: seg :: segs =>
      !n.isEmpty && bind_name n && plain_text t && separator_start t && !t.isEmpty
        && well_formed_segments (seg :: segs)

/-- Bodies of single-quoted literals: characters other than the quote, and
doubled quotes. -/
inductive LiteralBody : List Char → Prop where
  | nil : LiteralBody []
  | char (c : Char) (b : List Char) : c ≠ '\'' → LiteralBody b → LiteralBody (c :: b)
  | doubled (b : List Char) : LiteralBody b → LiteralBody ('\'' :: '\'' :: b)

/-! ### Counting placeholders -/

/-- The name that starts the text is followed by `=`. -/
def name_then_equals (cs : List Char) : Bool :=
  (cs.dropWhile is_bind_char).head? == some '='

/-- Position of a character relative to the single-quoted literals of the
text: outside every literal, inside one, or inside one right after a quote
that either closes it or is the first half of a doubled quote. -/
inductive Region where
  | outside
  | inside
  | after_quote
  deriving DecidableEq, Repr

/-- The count of the spec: the `:name` occurrences (a `:` followed by at
least one name character) outside single-quoted regions, where a doubled
quote inside a literal does not close it. -/
def spec_placeholder_count : Region → List Char → Nat
  | _, [] => 0
  | r, c :: cs =>
      if c = '\x00' then 0
      else
        match r with
        | .inside =>
            if c = '\'' then spec_placeholder_count .after_quote cs
            else spec_placeholder_count .inside cs
        | .after_quote =>
            if c = '\'' then spec_placeholder_count .inside cs
            else if c = ':' then
              (if cs.head?.any is_bind_char then 1 else 0) + spec_placeholder_count .outside cs
            else spec_placeholder_count .outside cs
        | .outside =>
            if c = '\'' then spec_placeholder_count .inside cs
            else if c = ':' then
              (if cs.head?.any is_bind_char then 1 else 0) + spec_placeholder_count .outside cs
            else spec_placeholder_count .outside cs

/-- The count the scanner realises: the `:` outside single-quoted regions
whose name, possibly empty, is not followed by `=`. -/
def open_placeholder_count : Region → List Char → Nat
  | _, [] => 0
  | r, c :: cs =>
      if c = '\x00' then 0
      else
        match r with
        | .inside =>
            if c = '\'' then open_placeholder_count .after_quote cs
            else open_placeholder_count .inside cs
        | .after_quote =>
            if c = '\'' then open_placeholder_count .inside cs
            else if c = ':' then
              (if name_then_equals cs then 0 else 1) + open_placeholder_count .outside cs
            else open_placeholder_count .outside cs
        | .outside =>
            if c = '\'' then open_placeholder_count .inside cs
            else if c = ':' then
              (if name_then_equals cs then 0 else 1) + open_placeholder_count .outside cs
            else open_placeholder_count .outside cs

/-- The number of names the scan adds, by state. -/
def pending_count (st : ScanState) (cs : List Char) : Nat :=
  match st with
  | .base_state => open_placeholder_count .outside cs
  | .instr_state => open_placeholder_count .inside cs
  | .bind_state => (if name_then_equals cs then 0 else 1) + open_placeholder_count .outside cs

/-! ## `DynamicBindOut` (nsoracle.c, lines 91-132) -/

/-- The piece markers of OCI that a bind callback is handed in `*piecep`. -/
inductive Piece where
  | OCI_ONE_PIECE
  | OCI_FIRST_PIECE
  | OCI_NEXT_PIECE
  | OCI_LAST_PIECE
  deriving DecidableEq, Repr

/-- The value of `fetchbuf->inout`; `unset` is the 0 stored by
`malloc_fetch_buffers`. -/
inductive BindDirection where
  | unset
  | BIND_IN
  | BIND_OUT
  deriving DecidableEq, Repr

/-- The two values `DynamicBindOut` returns. -/
inductive CallbackResult where
  | NS_ERROR
  | OCI_CONTINUE
  deriving DecidableEq, Repr

/-- The struct `fetch_buffer_t`, with the fields that `malloc_fetch_buffers`
initialises.  The struct is declared in `nsoracle.h`, which is not among the
sources: sizes and lengths are natural numbers here (so
`buf_size - fetch_length` is 0 when the fill offset is past the buffer), a
handle is `true` when it is not NULL, and `buf`, `name` and `array_values` are
`none` when NULL and else hold the C string or the list they point to.
`fetch_length` is passed to `OCIDefineByPos` as `rlenp` and assigned through
casts to `ub2`: it has 16 bits, and a sum that is stored in it is taken
modulo 65536.  `allocated` is not a field of the struct: it is the number of
bytes of the block that `buf` points to, as the last `Ns_Malloc`, `ns_calloc`,
`Ns_StrDup` or `Ns_Realloc` for `buf` has made it, and it says nothing while
`buf` is NULL. -/
structure fetch_buffer_t where
  type : Int
  lob : Bool
  bind : Bool
  defn : Bool
  size : Nat
  buf_size : Nat
  buf : Option (List Char)
  stmt : Bool
  array_count : Nat
  array_values : Option (List (List Char))
  is_null : Int
  fetch_length : Nat
  piecewise_fetch_length : Nat
  inout : BindDirection
  name : Option (List Char)
  lobs : Bool
  is_lob : Bool
  n_rows : Nat
  allocated : Nat
  deriving DecidableEq, Repr

/-- The descriptor as `malloc_fetch_buffers` initialises it (lines 4495-4519). -/
def malloc_fetch_buffer : fetch_buffer_t :=
  { type := 0, lob := false, bind := false, defn := false, size := 0, buf_size := 0,
    buf := none, stmt := false, array_count := 0, array_values := none, is_null := 0,
    fetch_length := 0, piecewise_fetch_length := 0, inout := .unset, name := none,
    lobs := false, is_lob := false, n_rows := 0, allocated := 0 }

/-- The callback `DynamicBindOut`.  `EXEC_PLSQL_BUFFER_SIZE` is a constant of
`nsoracle.h`.  The write window handed to the engine starts at
`fetch_length` (`*bufpp = &buf[fetch_length]`) and its length is
`piecewise_fetch_length` (`*alenpp`).  The sum of line 109 is stored in the
16 bits of `fetch_length`; `Ns_Realloc` keeps the bytes of the block. -/
def DynamicBindOut (EXEC_PLSQL_BUFFER_SIZE : Nat) (iter : Nat) (piece : Piece)
    (fetchbuf : fetch_buffer_t) : CallbackResult × fetch_buffer_t :=
  if iter ≠ 0 then (.NS_ERROR, fetchbuf)
  else
    let fb1 : fetch_buffer_t :=
      match piece with
      | .OCI_ONE_PIECE => { fetchbuf with fetch_length := 0 }
      | .OCI_FIRST_PIECE => { fetchbuf with fetch_length := 0 }
      | .OCI_NEXT_PIECE =>
          { fetchbuf with
            fetch_length :=
              (fetchbuf.fetch_length + fetchbuf.piecewise_fetch_length) % 65536 }
      | .OCI_LAST_PIECE => fetchbuf
    let fb2 : fetch_buffer_t :=
      if fb1.fetch_length ≥ fb1.buf_size / 2 then
        { fb1 with buf_size := fb1.buf_size + EXEC_PLSQL_BUFFER_SIZE,
                   buf := some (fb1.buf.getD []),
                   allocated := fb1.buf_size + EXEC_PLSQL_BUFFER_SIZE }
      else fb1
    let fb3 : fetch_buffer_t :=
      { fb2 with piecewise_fetch_length := fb2.buf_size - fb2.fetch_length }
    (.OCI_CONTINUE, { fb3 with inout := .BIND_OUT })

/-- The engine has stored a piece of `len` bytes in the window and reported
its length through `*alenpp`, which points at `piecewise_fetch_length`. -/
def piece_stored (len : Nat) (fetchbuf : fetch_buffer_t) : fetch_buffer_t :=
  { fetchbuf with piecewise_fetch_length := len }

/-- A piecewise OUT bind: the engine calls `DynamicBindOut` with iteration 0
once per piece, with marker `piece` for the first of the pieces `lens` and
`OCI_NEXT_PIECE` for the others, and stores the piece after each call.  The
list holds the descriptor as each call returned it. -/
def piecewise_out_calls (E : Nat) : Piece → fetch_buffer_t → List Nat → List fetch_buffer_t
  | _, _, [] => []
  | piece, fb, len :: lens =>
      (DynamicBindOut E 0 piece fb).2 ::
        piecewise_out_calls E .OCI_NEXT_PIECE
          (piece_stored len (DynamicBindOut E 0 piece fb).2) lens

/-- The descriptor after the last piece of the bind has been stored. -/
def piecewise_out_final (E : Nat) : Piece → fetch_buffer_t → List Nat → fetch_buffer_t
  | _, fb, [] => fb
  | piece, fb, len :: lens =>
      piecewise_out_final E .OCI_NEXT_PIECE
        (piece_stored len (DynamicBindOut E 0 piece fb).2) lens

/-! ## The native engine, the handle and the state threaded through the driver -/

/-- The status values of the OCI calls. -/
inductive oci_status_t where
  | OCI_SUCCESS
  | OCI_SUCCESS_WITH_INFO
  | OCI_NEED_DATA
  | OCI_NO_DATA
  | OCI_ERROR
  | OCI_INVALID_HANDLE
  | OCI_STILL_EXECUTING
  | OCI_CONTINUE
  deriving DecidableEq, Repr

/-- The handle types the driver allocates and frees. -/
inductive HandleType where
  | OCI_HTYPE_ENV
  | OCI_HTYPE_ERROR
  | OCI_HTYPE_SVCCTX
  | OCI_HTYPE_STMT
  | OCI_HTYPE_SERVER
  | OCI_HTYPE_SESSION
  deriving DecidableEq, Repr

/-- The attributes the modelled functions get or set. -/
inductive Attr where
  | OCI_ATTR_STMT_TYPE
  | OCI_ATTR_PREFETCH_ROWS
  | OCI_ATTR_PREFETCH_MEMORY
  | OCI_ATTR_PARSE_ERROR_OFFSET
  | OCI_ATTR_SERVER
  | OCI_ATTR_USERNAME
  | OCI_ATTR_PASSWORD
  | OCI_ATTR_SESSION
  | OCI_ATTR_PARAM_COUNT
  | OCI_ATTR_NAME
  | OCI_ATTR_DATA_TYPE
  | OCI_ATTR_DATA_SIZE
  deriving DecidableEq, Repr

/-- The execution modes passed to `OCIStmtExecute`. -/
inductive ExecMode where
  | OCI_DEFAULT
  | OCI_COMMIT_ON_SUCCESS
  deriving DecidableEq, Repr

/-- A call of the native client library, with the arguments the theorems
speak about. -/
inductive NativeCall where
  | OCIEnvCreate
  | OCIEnvNlsCreate
  | OCIHandleAlloc (t : HandleType)
  | OCIHandleFree (t : HandleType)
  | OCIDescriptorFree
  | OCIServerAttach
  | OCIServerDetach
  | OCISessionBegin
  | OCIAttrSet (a : Attr)
  | OCIAttrGet (a : Attr)
  | OCIStmtPrepare (sql : List Char)
  | OCIBindByName (name : List Char) (value_sz : Nat) (data_at_exec : Bool)
  | OCIBindDynamic
  | OCIStmtExecute (iters : Nat) (mode : ExecMode)
  | OCITransCommit
  | OCITransRollback
  | OCIErrorGet
  | OCIParamGet (pos : Nat)
  | OCIDescriptorAlloc
  | OCIDefineByPos (pos : Nat) (value_sz : Int) (dynamic_fetch : Bool)
  | OCIStmtFetch
  | OCIStmtGetPieceInfo
  | OCIStmtSetPieceInfo (window : Nat)
  | OCILobGetLength
  | OCILobRead (bufl : Nat)
  | OCILobWrite (piece : Piece) (data : List Char)
  deriving DecidableEq, Repr

/-- What a native call hands back: its status and the number it leaves in its
out-parameter (the error code of `OCIErrorGet`, the statement type or the
parse-error offset of `OCIAttrGet`). -/
structure Reply where
  status : oci_status_t
  value : Int
  deriving DecidableEq, Repr

/-- The value of `OCI_STMT_SELECT` in `oci.h`. -/
def OCI_STMT_SELECT : Int := 1

/-- The `mode` of a connection. -/
inductive TransactionMode where
  | autocommit
  | transaction
  deriving DecidableEq, Repr

/-- The struct `ora_connection_t`.  `id` stands for the address of the struct:
`Ns_OracleOpenDb` gives every connection a fresh one.  A handle is `true` when
it is not NULL. -/
structure ora_connection_t where
  id : Nat
  env : Bool
  err : Bool
  srv : Bool
  svc : Bool
  auth : Bool
  stmt : Bool
  mode : TransactionMode
  n_columns : Nat
  fetch_buffers : Option (List fetch_buffer_t)
  interp : Bool
  deriving DecidableEq, Repr

/-- The fields of the host's `Ns_DbHandle` that the driver reads or writes. -/
structure Ns_DbHandle where
  connection : Option ora_connection_t
  connected : Bool
  user : Bool
  password : Bool
  cExceptionCode : String
  dsExceptionMsg : String
  deriving DecidableEq, Repr

/-- The state the driver works on: the native calls made so far, the database
handle, the result of the Tcl interpreter, its variables, the `ns_set`s it
knows by id, and the next fresh connection `id`. -/
structure World where
  trace : List NativeCall
  dbh : Ns_DbHandle
  result : String
  tcl_vars : List (List Char × List Char)
  sets : List (List Char × List (List Char × List Char))
  next_id : Nat
  deriving DecidableEq, Repr

/-- What the driver is given from outside: the engine, as the reply it gives
to a call when `n` calls have been made before; what the callbacks that the
engine invokes during an execute leave in the descriptors; `Tcl_SplitList`;
the configuration; and the constants and the conditional of `nsoracle.h`. -/
structure Env where
  engine : Nat → NativeCall → Reply
  callbacks : Nat → List fetch_buffer_t → List fetch_buffer_t
  Tcl_SplitList : List Char → Option (List (List Char))
  prefetch_rows : Nat
  prefetch_memory : Nat
  convert_encoding_p : Bool
  FOR_CASSANDRACLE : Bool
  DML_BUFFER_SIZE : Nat
  EXEC_PLSQL_BUFFER_SIZE : Nat

/-- Driver code: a function of the state that ends in a value and a state, in
undefined behaviour, or with the depth budget of the error recovery used up. -/
def M (α : Type) : Type := World → Outcome (α × World)

/-- Sequencing of driver code. -/
def M.bind {α β : Type} (m : M α) (f : α → M β) : M β := fun w =>
  match m w with
  | .done (a, w1) => f a w1
  | .fault => .fault
  | .timeout => .timeout

/-- Driver code that only returns a value. -/
def M.pure {α : Type} (a : α) : M α := fun w => .done (a, w)

instance : Monad M where
  pure := M.pure
  bind := M.bind

/-- The current state. -/
def get_world : M World := fun w => .done (w, w)

/-- A change of the state. -/
def modify_world (f : World → World) : M Unit := fun w => .done ((), f w)

/-- Undefined behaviour. -/
def M.fault {α : Type} : M α := fun _ => .fault

/-- The depth budget is used up. -/
def M.timeout {α : Type} : M α := fun _ => .timeout

/-- A native call: the engine replies and the call is recorded. -/
def oci (env : Env) (c : NativeCall) : M Reply := fun w =>
  .done (env.engine w.trace.length c, { w with trace := w.trace ++ [c] })

/-- Reading through the local pointer `connection`, whose target has the
identity `cid`: undefined behaviour when the struct has been freed since. -/
def connection_at (cid : Nat) : M ora_connection_t := fun w =>
  match w.dbh.connection with
  | some c => if c.id = cid then .done (c, w) else .fault
  | none => .fault

/-- Writing through the local pointer `connection`. -/
def set_connection (cid : Nat) (f : ora_connection_t → ora_connection_t) : M Unit := fun w =>
  match w.dbh.connection with
  | some c =>
      if c.id = cid then .done ((), { w with dbh := { w.dbh with connection := some (f c) } })
      else .fault
  | none => .fault

/-- Reading `connection->fetch_buffers[i]`. -/
def fetchbuf_at (cid i : Nat) : M fetch_buffer_t := do
  let c ← connection_at cid
  match c.fetch_buffers with
  | none => M.fault
  | some fbs =>
      match fbs[i]? with
      | none => M.fault
      | some fb => pure fb

/-- Writing `connection->fetch_buffers[i]`. -/
def set_fetchbuf (cid i : Nat) (f : fetch_buffer_t → fetch_buffer_t) : M Unit := do
  let fb ← fetchbuf_at cid i
  set_connection cid (fun c =>
    { c with fetch_buffers := c.fetch_buffers.map (fun fbs => fbs.set i (f fb)) })

/-- An `if` without `else`. -/
def M.when (c : Prop) [Decidable c] (m : M Unit) : M Unit :=
  if c then m else pure ()

/-- The loop `for (i = 0; i < n; i++) body(i)`, from `i` on. -/
def for_loop (body : Nat → M Unit) : Nat → Nat → M Unit
  | 0, _ => pure ()
  | n + 1, i => do body i; for_loop body n (i + 1)

/-- `Ns_DbSetException`. -/
def Ns_DbSetException (code msg : String) : M Unit :=
  modify_world (fun w => { w with dbh := { w.dbh with cExceptionCode := code,
                                                       dsExceptionMsg := msg } })

/-! ## The error classifiers and the lifecycle operations -/

/-- The values of the host's `Ns_ReturnCode` and of the driver's `NS_DML`,
`NS_ROWS`. -/
inductive Ns_ReturnCode where
  | NS_OK
  | NS_ERROR
  | NS_DML
  | NS_ROWS
  | NS_END_DATA
  deriving DecidableEq, Repr

/-- The error codes after which `oci_error_p` flushes and closes (lines 4226-4231). -/
def oci_fatal_codes : List Int := [1041, 3113, 12571, 28, 1012, 24324]

/-- The error codes after which `tcl_error_p` flushes, closes and reopens
(lines 4376-4377). -/
def tcl_fatal_codes : List Int := [1041, 3113, 12571]

/-- The text `msgbuf` of the classifiers for a status; for `OCI_ERROR` it is
the text of the engine, which is not modelled. -/
def status_message : oci_status_t → String
  | .OCI_SUCCESS => ""
  | .OCI_SUCCESS_WITH_INFO => "Error - OCI_SUCCESS_WITH_INFO"
  | .OCI_NEED_DATA => "Error - OCI_NEED_DATA"
  | .OCI_NO_DATA => "Error - OCI_NO_DATA"
  | .OCI_ERROR => "OCI_ERROR"
  | .OCI_INVALID_HANDLE => "Error - OCI_INVALID_HANDLE"
  | .OCI_STILL_EXECUTING => "Error - OCI_STILL_EXECUTING"
  | .OCI_CONTINUE => "Error - OCI_CONTINUE"

/-- The function `oci_error_p` (lines 4155-4306), with the flush and the close
it recovers with as parameters.  `dbh` tells whether the argument `dbh` is
non-NULL.  The result is the returned `int` as a truth value.  Of the message
only the name of the call and `msgbuf` are kept. -/
def oci_error_p_with (env : Env) (flush close : M Ns_ReturnCode) (dbh : Bool)
    (ocifn : String) (oci_status : oci_status_t) : M Bool := do
  let w ← get_world
  let connection : Option Nat := if dbh then w.dbh.connection.map (fun c => c.id) else none
  if oci_status = .OCI_SUCCESS then pure false
  else if oci_status = .OCI_SUCCESS_WITH_INFO then pure false
  else do
    let errorcode : Int ←
      (if oci_status = .OCI_ERROR then
        match connection with
        | none => pure 0
        | some _ => do
            let r1 ← oci env .OCIErrorGet
            let _ ← oci env (.OCIAttrGet .OCI_ATTR_PARSE_ERROR_OFFSET)
            if r1.value ∈ oci_fatal_codes then do
              let _ ← flush
              let _ ← close
              pure r1.value
            else if r1.value = 20 ∨ r1.value = 1034 then do
              let _ ← close
              pure r1.value
            else pure r1.value
      else pure 0)
    M.when (dbh = true)
      (Ns_DbSetException (toString errorcode)
        ("error in `" ++ ocifn ++ " ()': " ++ status_message oci_status))
    pure true

/-- The body of the loop of `Ns_OracleFlush` for the descriptor `i`
(lines 3853-3883). -/
def flush_fetchbuf (env : Env) (err : Bool → String → oci_status_t → M Bool)
    (cid i : Nat) : M Unit := do
  let fb ← fetchbuf_at cid i
  M.when (fb.lob = true) (do
    let r ← oci env .OCIDescriptorFree
    let _ ← err true "OCIDescriptorFree" r.status
    set_fetchbuf cid i (fun fb => { fb with lob := false }))
  set_fetchbuf cid i (fun fb => { fb with buf := none, array_values := none })
  let fb ← fetchbuf_at cid i
  M.when (fb.lobs = true) (do
    for_loop (fun _ => do
      let r ← oci env .OCIDescriptorFree
      let _ ← err true "OCIDescriptorFree" r.status
      let _ ← fetchbuf_at cid i
      pure ()) fb.n_rows 0
    set_fetchbuf cid i (fun fb => { fb with lobs := false, n_rows := 0 }))

/-- The function `Ns_OracleFlush` (lines 3820-3891) for the handle of the
state, with the classifier it reports to as a parameter. -/
def Ns_OracleFlush_with (env : Env) (err : Bool → String → oci_status_t → M Bool) :
    M Ns_ReturnCode := do
  let w ← get_world
  match w.dbh.connection with
  | none => pure .NS_OK
  | some c0 => do
      let freed ←
        (if c0.stmt then do
          let r ← oci env (.OCIHandleFree .OCI_HTYPE_STMT)
          if (← err true "OCIHandleFree" r.status) then pure false
          else do
            set_connection c0.id (fun c => { c with stmt := false })
            pure true
        else pure true)
      if freed then do
        set_connection c0.id (fun c => { c with interp := false })
        let c ← connection_at c0.id
        match c.fetch_buffers with
        | none => pure .NS_OK
        | some _ => do
            for_loop (flush_fetchbuf env err c0.id) c.n_columns 0
            set_connection c0.id (fun c => { c with fetch_buffers := none })
            pure .NS_OK
      else pure .NS_ERROR

/-- One release of `Ns_OracleCloseDb`: the call, its report to the classifier
whose verdict is ignored, and the write of 0 to the field. -/
def close_release (env : Env) (err : Bool → String → oci_status_t → M Bool) (cid : Nat)
    (t : HandleType) (clear : ora_connection_t → ora_connection_t) : M Unit := do
  let _ ← connection_at cid
  let r ← oci env (.OCIHandleFree t)
  let _ ← err true "OCIHandleFree" r.status
  set_connection cid clear

/-- The function `Ns_OracleCloseDb` (lines 2983-3032) for the handle of the
state, with the classifier it reports to as a parameter. -/
def Ns_OracleCloseDb_with (env : Env) (err : Bool → String → oci_status_t → M Bool) :
    M Ns_ReturnCode := do
  let w ← get_world
  match w.dbh.connection with
  | none => pure .NS_ERROR
  | some c0 => do
      let r ← oci env .OCIServerDetach
      let _ ← err true "OCIServerDetach" r.status
      close_release env err c0.id .OCI_HTYPE_SVCCTX (fun c => { c with svc := false })
      close_release env err c0.id .OCI_HTYPE_SERVER (fun c => { c with srv := false })
      close_release env err c0.id .OCI_HTYPE_ERROR (fun c => { c with err := false })
      close_release env err c0.id .OCI_HTYPE_SESSION (fun c => { c with auth := false })
      close_release env err c0.id .OCI_HTYPE_ENV (fun c => { c with env := false })
      let _ ← connection_at c0.id
      modify_world (fun w => { w with dbh := { w.dbh with connection := none,
                                                           connected := false } })
      pure .NS_OK

/-- The function `oci_error_p`.  The number bounds the depth to which a
recovery may report errors that start a recovery of their own. -/
def oci_error_p (env : Env) : Nat → Bool → String → oci_status_t → M Bool
  | 0 => oci_error_p_with env M.timeout M.timeout
  | n + 1 =>
      oci_error_p_with env (Ns_OracleFlush_with env (oci_error_p env n))
        (Ns_OracleCloseDb_with env (oci_error_p env n))

/-- The function `Ns_OracleFlush`. -/
def Ns_OracleFlush (env : Env) (fuel : Nat) : M Ns_ReturnCode :=
  Ns_OracleFlush_with env (oci_error_p env fuel)

/-- The function `Ns_OracleCloseDb`. -/
def Ns_OracleCloseDb (env : Env) (fuel : Nat) : M Ns_ReturnCode :=
  Ns_OracleCloseDb_with env (oci_error_p env fuel)
/-- One step of `Ns_OracleOpenDb` that allocates a handle: the call, the report
to the classifier, and on success the pointer stored in the struct.  The
result tells whether the classifier reported an error. -/
def open_step (env : Env) (err : Bool → String → oci_status_t → M Bool) (cid : Nat)
    (c : NativeCall) (ocifn : String) (store : ora_connection_t → ora_connection_t) :
    M Bool := do
  let r ← oci env c
  M.when (r.status = .OCI_SUCCESS ∨ r.status = .OCI_SUCCESS_WITH_INFO)
    (set_connection cid store)
  err true ocifn r.status

/-- The steps of `Ns_OracleOpenDb` after the environment has been created
(lines 2884-2969), each followed by `return NS_ERROR` when the classifier
reports an error. -/
def open_steps (env : Env) (err : Bool → String → oci_status_t → M Bool) (cid : Nat) :
    List (M Bool) :=
  [ open_step env err cid (.OCIHandleAlloc .OCI_HTYPE_ERROR) "OCIHandleAlloc"
      (fun c => { c with err := true }),
    open_step env err cid (.OCIHandleAlloc .OCI_HTYPE_SERVER) "OCIHandleAlloc"
      (fun c => { c with srv := true }),
    open_step env err cid (.OCIHandleAlloc .OCI_HTYPE_SVCCTX) "OCIHandleAlloc"
      (fun c => { c with svc := true }),
    open_step env err cid .OCIServerAttach "OCIServerAttach" id,
    open_step env err cid (.OCIAttrSet .OCI_ATTR_SERVER) "OCIAttrSet" id,
    open_step env err cid (.OCIHandleAlloc .OCI_HTYPE_SESSION) "OCIHandleAlloc"
      (fun c => { c with auth := true }),
    open_step env err cid (.OCIAttrSet .OCI_ATTR_USERNAME) "OCIAttrSet" id,
    open_step env err cid (.OCIAttrSet .OCI_ATTR_PASSWORD) "OCIAttrSet" id,
    open_step env err cid .OCISessionBegin "OCISessionBegin" id,
    open_step env err cid (.OCIAttrSet .OCI_ATTR_SESSION) "OCIAttrSet" id ]

/-- Runs the steps in order up to the first that reports an error; the result
tells whether all of them passed. -/
def run_steps : List (M Bool) → M Bool
  | [] => pure true
  | step :: steps => do
      if (← step) then pure false else run_steps steps

/-- The function `Ns_OracleOpenDb` (lines 2796-2970) for the handle of the
state, with the classifier it reports to as a parameter. -/
def Ns_OracleOpenDb_with (env : Env) (err : Bool → String → oci_status_t → M Bool) :
    M Ns_ReturnCode := do
  let w ← get_world
  if !w.dbh.password then pure .NS_ERROR
  else if !w.dbh.user then pure .NS_ERROR
  else do
    let cid := w.next_id
    modify_world (fun w =>
      { w with
        next_id := w.next_id + 1,
        dbh := { w.dbh with
          connection := some
            { id := cid, env := false, err := false, srv := false, svc := false,
              auth := false, stmt := false, mode := .autocommit, n_columns := 0,
              fetch_buffers := none, interp := false } } })
    let r ← oci env (if env.convert_encoding_p then .OCIEnvNlsCreate else .OCIEnvCreate)
    M.when (r.status = .OCI_SUCCESS ∨ r.status = .OCI_SUCCESS_WITH_INFO)
      (set_connection cid (fun c => { c with env := true }))
    if (← err false (if env.convert_encoding_p then "OCIEnvNlsCreate" else "OCIEnvCreate")
          r.status) then pure .NS_ERROR
    else if (← run_steps (open_steps env err cid)) then do
      modify_world (fun w => { w with dbh := { w.dbh with connected := true } })
      pure .NS_OK
    else pure .NS_ERROR

/-- The function `Ns_OracleOpenDb`. -/
def Ns_OracleOpenDb (env : Env) (fuel : Nat) : M Ns_ReturnCode :=
  Ns_OracleOpenDb_with env (oci_error_p env fuel)

/-- `Tcl_AppendResult`. -/
def Tcl_AppendResult (msg : String) : M Unit :=
  modify_world (fun w => { w with result := w.result ++ msg })

/-- `Tcl_SetResult`. -/
def Tcl_SetResult (msg : String) : M Unit :=
  modify_world (fun w => { w with result := msg })

/-- `Tcl_SetResult(interp, dbh->dsExceptionMsg.string, TCL_VOLATILE)`. -/
def Tcl_SetResult_exception : M Unit :=
  modify_world (fun w => { w with result := w.dbh.dsExceptionMsg })

/-- The function `tcl_error_p` (lines 4314-4420).  The result is the returned
`int` as a truth value. -/
def tcl_error_p (env : Env) (fuel : Nat) (ocifn : String) (oci_status : oci_status_t) :
    M Bool := do
  let w ← get_world
  let connection : Option Nat := w.dbh.connection.map (fun c => c.id)
  if oci_status = .OCI_SUCCESS then pure false
  else do
    M.when (oci_status = .OCI_ERROR ∧ connection.isSome) (do
      let r1 ← oci env .OCIErrorGet
      let _ ← oci env (.OCIAttrGet .OCI_ATTR_PARSE_ERROR_OFFSET)
      M.when (r1.value ∈ tcl_fatal_codes) (do
        let _ ← Ns_OracleFlush env fuel
        let _ ← Ns_OracleCloseDb env fuel
        let _ ← Ns_OracleOpenDb env fuel
        pure ()))
    Tcl_AppendResult ("error in `" ++ ocifn ++ " ()': " ++ status_message oci_status)
    pure true

/-! ## Built-in statements -/

/-- The string up to its terminating NUL. -/
def c_string (s : List Char) : List Char := s.takeWhile (fun c => c != '\x00')

/-- `strcmp(a, b) == 0`. -/
def strcmp_eq (a b : List Char) : Bool := c_string a == c_string b

/-- `strcasecmp(a, b) == 0`. -/
def strcasecmp_eq (a b : List Char) : Bool :=
  (c_string a).map Char.toLower == (c_string b).map Char.toLower

/-- `isspace` of the "C" locale. -/
def isspace (c : Char) : Bool :=
  c = ' ' || c = '\t' || c = '\n' || c = '\x0b' || c = '\x0c' || c = '\r'

/-- The function `allow_sql_p` (lines 4101-4147), which is compiled when
`FOR_CASSANDRACLE` is defined: only statements that start with `select` pass.
Without `FOR_CASSANDRACLE` the name is a macro of `nsoracle.h` that lets every
statement pass. -/
def allow_sql_p (env : Env) (sql : List Char) : M Bool :=
  if env.FOR_CASSANDRACLE then
    if (((c_string sql).dropWhile isspace).take 6).map Char.toLower != "select".toList then do
      Ns_DbSetException "ORA" "Sql Rejected"
      pure false
    else pure true
  else pure true

/-- The function `handle_builtins` (lines 4601-4653).  The local pointer
`connection` is `dbh->connection` as read at entry; each of the three built-in
branches starts by reading or writing through it, which is undefined
behaviour when it is NULL. -/
def handle_builtins (env : Env) (fuel : Nat) (sql : List Char) : M Ns_ReturnCode := do
  let w ← get_world
  if strcasecmp_eq sql "begin transaction".toList then
    match w.dbh.connection with
    | none => M.fault
    | some c0 => do
        set_connection c0.id (fun c => { c with mode := .transaction })
        pure .NS_DML
  else if strcasecmp_eq sql "end transaction".toList then
    match w.dbh.connection with
    | none => M.fault
    | some c0 => do
        let r ← oci env .OCITransCommit
        if (← oci_error_p env fuel true "OCITransCommit" r.status) then do
          let _ ← Ns_OracleFlush env fuel
          pure .NS_ERROR
        else do
          set_connection c0.id (fun c => { c with mode := .autocommit })
          pure .NS_DML
  else if strcasecmp_eq sql "abort transaction".toList then
    match w.dbh.connection with
    | none => M.fault
    | some c0 => do
        let r ← oci env .OCITransRollback
        if (← oci_error_p env fuel true "OCITransRollback" r.status) then do
          let _ ← Ns_OracleFlush env fuel
          pure .NS_ERROR
        else do
          set_connection c0.id (fun c => { c with mode := .autocommit })
          pure .NS_DML
  else do
    if (← allow_sql_p env sql) then pure .NS_OK
    else do
      let _ ← Ns_OracleFlush env fuel
      pure .NS_ERROR

/-! ## `OracleSelect` (nsoracle.c, lines 892-1395) -/

/-- What `OracleSelect` returns.  `fetch_rows` stands for the point after the
execute of a query, line 1351, from where the source binds and fetches rows. -/
inductive SelectResult where
  | TCL_OK
  | TCL_ERROR
  | NS_ERROR
  | fetch_rows
  deriving DecidableEq, Repr

/-- The position a placeholder name denotes: `strtol(name, &nbuf, 10)` with
`*nbuf == '\0'`, for a name made of name characters.  Such a name is read as
a number exactly when all its characters are digits; the empty name is read
as 0. -/
def positional_index (name : List Char) : Option Nat :=
  if name.all Char.isDigit then
    some (name.foldl (fun n c => 10 * n + (c.toNat - '0'.toNat)) 0)
  else none

/-- `strlen`. -/
def strlen (s : List Char) : Nat := (c_string s).length

/-- `Ns_SetUpdate`: the value of the key is replaced, or the pair is added. -/
def Ns_SetUpdate (key value : List Char) :
    List (List Char × List Char) → List (List Char × List Char)
  | [] => [(key, value)]
  | (k, v) :: fields =>
      if k = key then (key, value) :: fields else (k, v) :: Ns_SetUpdate key value fields

/-- The arguments of a call of `OracleSelect` once they are decoded (lines
925-949): the flags of the subcommand, the index of the SQL text in `objv`,
and the id of the set of `-bind`. -/
structure SelectArgs where
  objv : List (List Char)
  dml_p : Bool
  array_p : Bool
  argv_base : Nat
  set : Option (List Char)
  deriving DecidableEq, Repr

/-- The error exit of the bind loop: `Ns_OracleFlush(dbh)` and
`return TCL_ERROR`. -/
def bind_error (env : Env) (fuel : Nat) : M (Option Nat) := do
  let _ ← Ns_OracleFlush env fuel
  pure none

/-- Where the value of the placeholder `var` comes from (lines 1093-1159): the
argument at its position, the variable of the interpreter, or the field of the
set.  `none` is the error exit, taken after the message has been appended. -/
def bind_value (a : SelectArgs) (cid i : Nat) (var : List Char) : M (Option (List Char)) := do
  match positional_index var with
  | some index =>
      if index < 1 ∨ index > a.objv.length - a.argv_base - 1 then do
        Tcl_AppendResult
          (if index < 1 then
            "invalid positional variable `:" ++ String.mk var ++ "', valid values start with 1"
          else "not enough arguments for positional variable ':" ++ String.mk var ++ "'")
        pure none
      else
        match a.objv[index + a.argv_base]? with
        | some value => pure (some value)
        | none => M.fault
  | none =>
      match a.set with
      | none => do
          set_fetchbuf cid i (fun fb => { fb with name := some var })
          let w ← get_world
          match w.tcl_vars.lookup var with
          | some value => pure (some value)
          | none => do
              Tcl_AppendResult ("undefined variable `" ++ String.mk var ++ "'")
              pure none
      | some set => do
          let w ← get_world
          match (w.sets.lookup set).bind (fun fields => fields.lookup var) with
          | some value => pure (some value)
          | none => do
              Tcl_AppendResult ("undefined set element `" ++ String.mk var ++ "'")
              pure none

/-- The body of the bind loop for the placeholder `var` with index `i` (lines
1086-1280).  `iters` is the local variable of that name; the result is its
new value, or `none` when the body has returned `TCL_ERROR`. -/
def bind_variable (env : Env) (fuel : Nat) (a : SelectArgs) (cid i : Nat)
    (var : List Char) (iters : Nat) : M (Option Nat) := do
  set_fetchbuf cid i (fun fb => { fb with type := -1 })
  match (← bind_value a cid i var) with
  | none => bind_error env fuel
  | some value =>
    let prepared : Option (Nat × Nat) ←
      (if a.array_p then
        match env.Tcl_SplitList value with
        | none => pure none
        | some values => do
            set_fetchbuf cid i (fun fb =>
              { fb with array_count := values.length, array_values := some values })
            if i = 0 then
              pure (some (values.length, ((values.take values.length).map strlen).foldl max 0))
            else if iters ≠ values.length then do
              Tcl_AppendResult "non-matching numbers of rows"
              pure none
            else pure (some (iters, ((values.take iters).map strlen).foldl max 0))
      else if a.dml_p then do
        set_fetchbuf cid i (fun fb =>
          { fb with buf := some ((c_string value).take env.DML_BUFFER_SIZE),
                    allocated := env.DML_BUFFER_SIZE,
                    fetch_length := env.DML_BUFFER_SIZE % 65536, is_null := 0 })
        pure (some (iters, 0))
      else do
        set_fetchbuf cid i (fun fb =>
          { fb with buf := some (c_string value),
                    allocated := strlen value + 1,
                    fetch_length := (strlen value % 65536 + 1) % 65536, is_null := 0 })
        pure (some (iters, 0)))
    match prepared with
    | none => bind_error env fuel
    | some (iters, max_length) => do
      let fb ← fetchbuf_at cid i
      let r ← oci env (.OCIBindByName var (if a.array_p then max_length else fb.fetch_length)
        (a.array_p || a.dml_p))
      M.when (r.status = .OCI_SUCCESS ∨ r.status = .OCI_SUCCESS_WITH_INFO)
        (set_fetchbuf cid i (fun fb => { fb with bind := true }))
      if (← oci_error_p env fuel true "OCIBindByName" r.status) then do
        Tcl_SetResult_exception
        bind_error env fuel
      else if a.array_p || a.dml_p then do
        let r ← oci env .OCIBindDynamic
        if (← tcl_error_p env fuel "OCIBindDynamic" r.status) then bind_error env fuel
        else pure (some iters)
      else pure (some iters)

/-- The bind loop (lines 1083-1282) from the placeholder with index `i` on. -/
def bind_loop (env : Env) (fuel : Nat) (a : SelectArgs) (cid : Nat) :
    List (List Char) → Nat → Nat → M (Option Nat)
  | [], _, iters => pure (some iters)
  | var :: vars, i, iters => do
      match (← bind_variable env fuel a cid i var iters) with
      | none => pure none
      | some iters => bind_loop env fuel a cid vars (i + 1) iters

/-- The loop over the placeholders after the execute of a scalar DML (lines
1297-1312): the buffers the engine has filled through `DynamicBindOut` are
written back to the variable or to the field of the set. -/
def return_binds (a : SelectArgs) (cid : Nat) : List (List Char) → Nat → M Unit
  | [], _ => pure ()
  | var :: vars, i => do
      let fb ← fetchbuf_at cid i
      M.when (fb.inout = .BIND_OUT)
        (match fb.buf with
        | none => M.fault
        | some buf =>
            match a.set with
            | none =>
                modify_world (fun w => { w with tcl_vars := Ns_SetUpdate var buf w.tcl_vars })
            | some set =>
                modify_world (fun w =>
                  { w with sets := w.sets.map (fun s =>
                      if s.1 = set then (s.1, Ns_SetUpdate var buf s.2) else s) }))
      return_binds a cid vars (i + 1)

/-- The statements of `OracleSelect` from the allocation of the statement
handle to the commit (lines 982-1349), for decoded arguments and the SQL text
`query`. -/
def select_statement (env : Env) (fuel : Nat) (a : SelectArgs) (cid : Nat)
    (query : List Char) : M SelectResult := do
  let r ← oci env (.OCIHandleAlloc .OCI_HTYPE_STMT)
  M.when (r.status = .OCI_SUCCESS ∨ r.status = .OCI_SUCCESS_WITH_INFO)
    (set_connection cid (fun c => { c with stmt := true }))
  if (← tcl_error_p env fuel "OCIHandleAlloc" r.status) then do
    let _ ← Ns_OracleFlush env fuel
    pure .TCL_ERROR
  else do
  let r ← oci env (.OCIStmtPrepare query)
  if (← tcl_error_p env fuel "OCIStmtPrepare" r.status) then do
    let _ ← Ns_OracleFlush env fuel
    pure .TCL_ERROR
  else do
  let r ← oci env (.OCIAttrGet .OCI_ATTR_STMT_TYPE)
  let type := r.value
  if (← oci_error_p env fuel true "OCIAttrGet" r.status) then do
    Tcl_SetResult_exception
    let _ ← Ns_OracleFlush env fuel
    pure .NS_ERROR
  else do
  let attrs_ok : Bool ←
    (if type = OCI_STMT_SELECT then do
      let rows_ok : Bool ←
        (if env.prefetch_rows > 0 then do
          let r ← oci env (.OCIAttrSet .OCI_ATTR_PREFETCH_ROWS)
          if (← oci_error_p env fuel true "OCIAttrSet" r.status) then pure false
          else pure true
        else pure true)
      if rows_ok then
        if env.prefetch_memory > 0 then do
          let r ← oci env (.OCIAttrSet .OCI_ATTR_PREFETCH_MEMORY)
          if (← oci_error_p env fuel true "OCIAttrSet" r.status) then pure false
          else pure true
        else pure true
      else pure false
    else pure true)
  if !attrs_ok then do
    Tcl_SetResult_exception
    let _ ← Ns_OracleFlush env fuel
    pure .NS_ERROR
  else do
  let iters : Nat := if type = OCI_STMT_SELECT then 0 else 1
  if type ≠ OCI_STMT_SELECT ∧ !a.dml_p then do
    Ns_DbSetException "ORA" "Query was not a statement returning rows."
    Tcl_SetResult_exception
    let _ ← Ns_OracleFlush env fuel
    pure .TCL_ERROR
  else if type = OCI_STMT_SELECT ∧ a.dml_p then do
    Ns_DbSetException "ORA" "Query was not a DML statement."
    Tcl_SetResult_exception
    let _ ← Ns_OracleFlush env fuel
    pure .TCL_ERROR
  else
  match parse_bind_variables query with
  | .fault => M.fault
  | .timeout => M.timeout
  | .done bind_variables => do
  set_connection cid (fun c => { c with n_columns := bind_variables.length })
  M.when (bind_variables.length > 0)
    (set_connection cid (fun c =>
      { c with fetch_buffers := some (List.replicate bind_variables.length malloc_fetch_buffer) }))
  match (← bind_loop env fuel a cid bind_variables 0 iters) with
  | none => pure .TCL_ERROR
  | some iters => do
  let time := (← get_world).trace.length
  let r ← oci env (.OCIStmtExecute iters .OCI_DEFAULT)
  M.when ((a.array_p || a.dml_p) = true)
    (set_connection cid (fun c =>
      { c with fetch_buffers := c.fetch_buffers.map (env.callbacks time) }))
  M.when ((a.dml_p && !a.array_p) = true) (return_binds a cid bind_variables 0)
  let c ← connection_at cid
  M.when (c.n_columns > 0 ∧ c.fetch_buffers.isSome)
    (set_connection cid (fun c => { c with fetch_buffers := none }))
  if (← oci_error_p env fuel true "OCIStmtExecute" r.status) then do
    Tcl_SetResult_exception
    let _ ← Ns_OracleFlush env fuel
    pure .TCL_ERROR
  else if a.dml_p then do
    let c ← connection_at cid
    if c.mode = .autocommit then do
      let r ← oci env .OCITransCommit
      if (← oci_error_p env fuel true "OCITransCommit" r.status) then do
        Tcl_SetResult_exception
        let _ ← Ns_OracleFlush env fuel
        pure .TCL_ERROR
      else pure .TCL_OK
    else pure .TCL_OK
  else pure .fetch_rows

/-- The decoding of the words of the command (lines 915-949): `objv[1]` is the
subcommand, and the SQL text is `objv[3]`, or `objv[5]` after `-bind` and the
id of a set. -/
def select_args (objv : List (List Char)) : SelectArgs :=
  { objv := objv,
    dml_p := strcmp_eq (objv.getD 1 []) "dml".toList
      || strcmp_eq (objv.getD 1 []) "array_dml".toList,
    array_p := strcmp_eq (objv.getD 1 []) "array_dml".toList,
    argv_base := if strcmp_eq (objv.getD 3 []) "-bind".toList then 5 else 3,
    set := if strcmp_eq (objv.getD 3 []) "-bind".toList then some (objv.getD 4 []) else none }

/-- The SQL text of the command. -/
def select_query (objv : List (List Char)) : List Char :=
  objv.getD (select_args objv).argv_base []

/-- The function `OracleSelect` up to line 1349.  `objv` holds the words of the
command: the command, the subcommand, the handle, then either the SQL text
and the positional values or `-bind`, the id of a set, the SQL text and the
positional values. -/
def OracleSelect (env : Env) (fuel : Nat) (objv : List (List Char)) : M SelectResult := do
  if objv.length < 4 ∨ (strcmp_eq (objv.getD 3 []) "-bind".toList ∧ objv.length < 6) then do
    Tcl_AppendResult "wrong # args: should be \"dbhandle ?-bind set? sql ?arg1 .. argN?\""
    pure .TCL_ERROR
  else do
  let w ← get_world
  match w.dbh.connection with
  | none => do
      Tcl_SetResult "error: no connection"
      pure .TCL_ERROR
  | some c0 => do
  set_connection c0.id (fun c => { c with interp := true })
  let a := select_args objv
  if (a.set.bind (fun set => w.sets.lookup set)).isNone ∧ a.set.isSome then do
    Tcl_AppendResult ("invalid set id `" ++ String.mk (objv.getD 4 []) ++ "'")
    pure .TCL_ERROR
  else do
  let query := select_query objv
  if !(← allow_sql_p env query) then do
    Tcl_AppendResult ("SQL " ++ String.mk query ++ " has been rejected by the Oracle driver")
    pure .TCL_ERROR
  else do
  match (← handle_builtins env fuel query) with
  | .NS_DML => pure .TCL_OK
  | .NS_ERROR => do
      Tcl_SetResult_exception
      pure .TCL_ERROR
  | .NS_OK => select_statement env fuel a c0.id query
  | _ => do
      Tcl_AppendResult "internal error"
      pure .TCL_ERROR

/-! ## Reasoning about driver code -/

/-- Whenever the code, started in a state with `P`, ends in a value and a
state, these satisfy `Q`. -/
def Triple {α : Type} (P : World → Prop) (m : M α) (Q : α → World → Prop) : Prop :=
  ∀ w, P w → ∀ a w1, m w = .done (a, w1) → Q a w1

/-- The code keeps the property `I` of the state. -/
def Preserves {α : Type} (I : World → Prop) (m : M α) : Prop :=
  Triple I m (fun _ => I)

/-- The call is an execute of a statement. -/
def is_execute : NativeCall → Bool
  | .OCIStmtExecute _ _ => true
  | _ => false

/-- The iteration counts of the executes among the calls, in order. -/
def executes : List NativeCall → List Nat
  | [] => []
  | .OCIStmtExecute iters _ :: calls => iters :: executes calls
  | _ :: calls => executes calls

/-- A property of the state that the lifecycle operations and the classifiers
cannot disturb: it survives a recorded call other than an execute, a write to
a field of the connection other than `mode`, the release of the connection,
and a change of the exception or of the result of the interpreter. -/
structure FrameInv (I : World → Prop) : Prop where
  call : ∀ w c, I w → is_execute c = false → I { w with trace := w.trace ++ [c] }
  conn : ∀ w c c1, I w → w.dbh.connection = some c → c1.mode = c.mode → c1.id = c.id →
    I { w with dbh := { w.dbh with connection := some c1 } }
  close : ∀ w, I w → I { w with dbh := { w.dbh with connection := none, connected := false } }
  exception : ∀ w code msg, I w →
    I { w with dbh := { w.dbh with cExceptionCode := code, dsExceptionMsg := msg } }
  result : ∀ w r, I w → I { w with result := r }

/-! ## States and engines used in the statements -/

/-- Every connection of the state is in mode `m`. -/
def mode_is (m : TransactionMode) (w : World) : Prop :=
  ∀ c, w.dbh.connection = some c → c.mode = m

/-- The state `w` with the mode of its connection `c` set to `m`. -/
def with_mode (w : World) (c : ora_connection_t) (m : TransactionMode) : World :=
  { w with dbh := { w.dbh with connection := some { c with mode := m } } }

/-- The status is one of the two that the classifier `oci_error_p` takes for
success. -/
def succeeded (st : oci_status_t) : Prop :=
  st = .OCI_SUCCESS ∨ st = .OCI_SUCCESS_WITH_INFO

instance (st : oci_status_t) : Decidable (succeeded st) := by
  unfold succeeded; exact inferInstance

/-- An engine whose every call succeeds and reports the statement type
`type`, a list splitter that splits at blanks, and the default configuration. -/
def example_env (type : Int) : Env :=
  { engine := fun _ c =>
      match c with
      | .OCIAttrGet .OCI_ATTR_STMT_TYPE => ⟨.OCI_SUCCESS, type⟩
      | _ => ⟨.OCI_SUCCESS, 0⟩,
    callbacks := fun _ fbs => fbs,
    Tcl_SplitList := fun s => some ((c_string s).splitOn ' '),
    prefetch_rows := 0, prefetch_memory := 0, convert_encoding_p := false,
    FOR_CASSANDRACLE := false, DML_BUFFER_SIZE := 4096, EXEC_PLSQL_BUFFER_SIZE := 4096 }

/-- As `example_env 0`, with an engine whose commit fails with ORA-00600. -/
def failing_commit_env : Env :=
  { example_env 0 with
    engine := fun _ c =>
      match c with
      | .OCITransCommit => ⟨.OCI_ERROR, 0⟩
      | .OCIErrorGet => ⟨.OCI_SUCCESS, 600⟩
      | _ => ⟨.OCI_SUCCESS, 0⟩ }

/-- An open connection in autocommit mode with no statement. -/
def example_connection : ora_connection_t :=
  { id := 0, env := true, err := true, srv := true, svc := true, auth := true,
    stmt := false, mode := .autocommit, n_columns := 0, fetch_buffers := none,
    interp := false }

/-- A state with `example_connection` and no call made yet. -/
def example_world : World :=
  { trace := [],
    dbh := { connection := some example_connection, connected := true, user := true,
             password := true, cExceptionCode := "", dsExceptionMsg := "" },
    result := "", tcl_vars := [], sets := [], next_id := 1 }

/-- A property of the state that survives every recorded call other than an
execute and every change that leaves alone the calls recorded, the variables
of the interpreter and the sets. -/
structure TraceInv (I : World → Prop) : Prop where
  call : ∀ w c, I w → is_execute c = false → I { w with trace := w.trace ++ [c] }
  other : ∀ w w1, I w → w1.trace = w.trace → w1.tcl_vars = w.tcl_vars → w1.sets = w.sets →
    I w1

/-- The executes made so far are `k`. -/
def executes_are (k : List Nat) (w : World) : Prop := executes w.trace = k

/-- The executes made so far are `k`, and the variables of the interpreter
and the sets are `vars` and `sets`. -/
def bind_state (k : List Nat) (vars : List (List Char × List Char))
    (sets : List (List Char × List (List Char × List Char))) (w : World) : Prop :=
  executes w.trace = k ∧ w.tcl_vars = vars ∧ w.sets = sets

/-- The value the bind loop takes for the placeholder `var` (lines 1093-1159):
the argument at its position when the name is a number, else the field of the
set of `-bind`, else the variable of the interpreter. -/
def resolved_value (a : SelectArgs) (vars : List (List Char × List Char))
    (sets : List (List Char × List (List Char × List Char))) (var : List Char) :
    Option (List Char) :=
  match positional_index var with
  | some index =>
      if index < 1 ∨ index > a.objv.length - a.argv_base - 1 then none
      else a.objv[index + a.argv_base]?
  | none =>
      match a.set with
      | none => vars.lookup var
      | some set => (sets.lookup set).bind (fun fields => fields.lookup var)

/-- The number of elements of the list that the value of the placeholder `var`
splits into, for the variables `vars` and the sets `sets`. -/
def split_count (env : Env) (a : SelectArgs) (vars : List (List Char × List Char))
    (sets : List (List Char × List (List Char × List Char))) (var : List Char) : Option Nat :=
  ((resolved_value a vars sets var).bind env.Tcl_SplitList).map List.length

/-- The engine reports the statement type `type` whenever it is asked. -/
def reports_type (env : Env) (p : Int → Prop) : Prop :=
  ∀ t, p (env.engine t (.OCIAttrGet .OCI_ATTR_STMT_TYPE)).value

/-- What the iteration count `n` of an execute has to be: 0 when the engine
reports a query, 1 when it reports another kind of statement and the command
is not `array_dml`, and for `array_dml` the number of elements that the value
of every placeholder of the statement splits into. -/
def iteration_count_ok (env : Env) (a : SelectArgs) (vars : List (List Char × List Char))
    (sets : List (List Char × List (List Char × List Char))) (query : List Char)
    (n : Nat) : Prop :=
  (reports_type env (fun type => type = OCI_STMT_SELECT) → n = 0) ∧
  (reports_type env (fun type => type ≠ OCI_STMT_SELECT) → a.array_p = false → n = 1) ∧
  (a.array_p = true → ∀ names, parse_bind_variables query = .done names →
    ∀ var ∈ names, split_count env a vars sets var = some n)

/-- What a run of `OracleSelect` that started with the executes `k` ends in:
either no execute has been added and an error is returned, or one execute has
been added and its iteration count is as it has to be. -/
def select_post (env : Env) (a : SelectArgs) (vars : List (List Char × List Char))
    (sets : List (List Char × List (List Char × List Char))) (query : List Char)
    (k : List Nat) (r : SelectResult) (w : World) : Prop :=
  (executes w.trace = k ∧ (r = .TCL_ERROR ∨ r = .NS_ERROR)) ∨
    ∃ n, executes w.trace = k ++ [n] ∧ iteration_count_ok env a vars sets query n

/-- The statement is one of the three that `handle_builtins` handles itself. -/
def is_builtin (sql : List Char) : Prop :=
  strcasecmp_eq sql "begin transaction".toList = true ∨
  strcasecmp_eq sql "end transaction".toList = true ∨
  strcasecmp_eq sql "abort transaction".toList = true

/-- The value of an outcome, or `d` when there is none. -/
def Outcome.get {α : Type} (o : Outcome α) (d : α) : α :=
  match o with
  | .done a => a
  | .fault => d
  | .timeout => d

/-- The words of `ns_ora array_dml db "insert into t values (:1, :2)"` with
the lists `a b c` and `x y`. -/
def mismatched_array_dml : List (List Char) :=
  ["ns_ora".toList, "array_dml".toList, "db".toList,
   "insert into t values (:1, :2)".toList, "a b c".toList, "x y".toList]

/-- The words of `ns_ora array_dml db "insert into t values (:1, :2)"` with
the lists `a b c` and `x y z`. -/
def matched_array_dml : List (List Char) :=
  ["ns_ora".toList, "array_dml".toList, "db".toList,
   "insert into t values (:1, :2)".toList, "a b c".toList, "x y z".toList]

/-- The words of `ns_ora dml db "update t set a = :1"` with the value `v`. -/
def scalar_dml : List (List Char) :=
  ["ns_ora".toList, "dml".toList, "db".toList, "update t set a = :1".toList, "v".toList]

/-- The words of `ns_ora select db "select a from t where b = :1"` with the
value `v`. -/
def select_command : List (List Char) :=
  ["ns_ora".toList, "select".toList, "db".toList, "select a from t where b = :1".toList,
   "v".toList]


/-! ## Runs that return -/

/-- Whenever the code is started in a state with `P`, it returns a value and a
state, and these satisfy `Q`. -/
def Total {α : Type} (P : World → Prop) (m : M α) (Q : α → World → Prop) : Prop :=
  ∀ w, P w → ∃ a w1, m w = .done (a, w1) ∧ Q a w1

/-- Every call of the engine succeeds. -/
def engine_succeeds (env : Env) : Prop :=
  ∀ t c, (env.engine t c).status = .OCI_SUCCESS

/-- The callbacks that the engine invokes during an execute keep the number of
descriptors, and when every descriptor has a buffer before, every descriptor
marked `BIND_OUT` has one afterwards. -/
def callbacks_sound (env : Env) : Prop :=
  ∀ t fbs, (env.callbacks t fbs).length = fbs.length ∧
    ((∀ fb ∈ fbs, fb.buf ≠ none) →
      ∀ fb ∈ env.callbacks t fbs, fb.inout = .BIND_OUT → fb.buf ≠ none)

/-- The connection `cid` is there and an array of descriptors it has is as
long as `n_columns` says. -/
def settled (cid : Nat) (w : World) : Prop :=
  ∃ c, w.dbh.connection = some c ∧ c.id = cid ∧
    ∀ fbs, c.fetch_buffers = some fbs → fbs.length = c.n_columns

/-- The connection `cid` is there with no array of descriptors. -/
def idle (cid : Nat) (w : World) : Prop :=
  ∃ c, w.dbh.connection = some c ∧ c.id = cid ∧ c.fetch_buffers = none

/-- The connection `cid` is there with `n` columns and, when `n` is not 0, an
array of `n` descriptors. -/
def columns_ready (cid n : Nat) (w : World) : Prop :=
  ∃ c, w.dbh.connection = some c ∧ c.id = cid ∧ c.n_columns = n ∧
    (∀ fbs, c.fetch_buffers = some fbs → fbs.length = n) ∧
    (0 < n → c.fetch_buffers ≠ none)

/-- The state of the bind loop: the connection `cid` has its `n` columns, the
executes made so far are `k`, and the variables of the interpreter and the
sets are `vars` and `sets`. -/
def loop_state (cid n : Nat) (k : List Nat) (vars : List (List Char × List Char))
    (sets : List (List Char × List (List Char × List Char))) (w : World) : Prop :=
  columns_ready cid n w ∧ bind_state k vars sets w

/-- The connection `cid` is there. -/
def open_at (cid : Nat) (w : World) : Prop :=
  ∃ c, w.dbh.connection = some c ∧ c.id = cid

/-- The connection `cid` is there and, when `n` is not 0, it has an array of
`n` descriptors in which every descriptor marked `BIND_OUT` has a buffer. -/
def outs_ready (cid n : Nat) (w : World) : Prop :=
  ∃ c, w.dbh.connection = some c ∧ c.id = cid ∧
    (0 < n → ∃ fbs, c.fetch_buffers = some fbs ∧ fbs.length = n ∧
      ∀ fb ∈ fbs, fb.inout = .BIND_OUT → fb.buf ≠ none)

/-- The state in which `OracleSelect` starts on a statement: the connection
`cid` is there with no array of descriptors, the executes made so far are
`k`, and the variables of the interpreter and the sets are `vars` and `sets`. -/
def entry_state (cid : Nat) (k : List Nat) (vars : List (List Char × List Char))
    (sets : List (List Char × List (List Char × List Char))) (w : World) : Prop :=
  idle cid w ∧ bind_state k vars sets w

/-- The descriptors with an index below `i` of an array of descriptors of the
connection have a buffer. -/
def bufs_upto (i : Nat) (w : World) : Prop :=
  ∀ c fbs, w.dbh.connection = some c → c.fetch_buffers = some fbs →
    ∀ j < i, ∀ fb, fbs[j]? = some fb → fb.buf ≠ none


/-! ## `Ns_OracleExec` (nsoracle.c, lines 3102-3249) and `Ns_OracleResetHandle` -/

/-- The execute of `Ns_OracleExec` and the report of its status (lines
3210-3241): the mode of the execute is `OCI_COMMIT_ON_SUCCESS` when the
connection is in autocommit mode; after `OCI_ERROR` the function fetches the
error itself and reports first the status of that call, then the status of
the execute.  The result tells whether one of the three tests sends the
function to `Ns_OracleFlush(dbh); return NS_ERROR`. -/
def Ns_OracleExec_execute (env : Env) (fuel : Nat) (cid : Nat) (iters : Nat) : M Bool := do
  let c ← connection_at cid
  let r ← oci env (.OCIStmtExecute iters
    (if c.mode = .autocommit then .OCI_COMMIT_ON_SUCCESS else .OCI_DEFAULT))
  if r.status = .OCI_ERROR then do
    let r1 ← oci env .OCIErrorGet
    if (← oci_error_p env fuel true "OCIErrorGet" r1.status) then pure true
    else oci_error_p env fuel true "OCIStmtExecute" r.status
  else oci_error_p env fuel true "OCIStmtExecute" r.status

/-- The statements of `Ns_OracleExec` after the built-ins (lines 3154-3248),
for the local pointer `connection` with the identity `cid`. -/
def exec_statement (env : Env) (fuel : Nat) (cid : Nat) (sql : List Char) :
    M Ns_ReturnCode := do
  let _ ← connection_at cid
  let r ← oci env (.OCIHandleAlloc .OCI_HTYPE_STMT)
  M.when (r.status = .OCI_SUCCESS ∨ r.status = .OCI_SUCCESS_WITH_INFO)
    (set_connection cid (fun c => { c with stmt := true }))
  if (← oci_error_p env fuel true "OCIHandleAlloc" r.status) then do
    let _ ← Ns_OracleFlush env fuel
    pure .NS_ERROR
  else do
  let r ← oci env (.OCIStmtPrepare sql)
  if (← oci_error_p env fuel true "OCIStmtPrepare" r.status) then do
    let _ ← Ns_OracleFlush env fuel
    pure .NS_ERROR
  else do
  let r ← oci env (.OCIAttrGet .OCI_ATTR_STMT_TYPE)
  let type := r.value
  if (← oci_error_p env fuel true "OCIAttrGet" r.status) then do
    let _ ← Ns_OracleFlush env fuel
    pure .NS_ERROR
  else do
  let attrs_ok : Bool ←
    (if type = OCI_STMT_SELECT then do
      let rows_ok : Bool ←
        (if env.prefetch_rows > 0 then do
          let r ← oci env (.OCIAttrSet .OCI_ATTR_PREFETCH_ROWS)
          if (← oci_error_p env fuel true "OCIAttrSet" r.status) then pure false
          else pure true
        else pure true)
      if rows_ok then
        if env.prefetch_memory > 0 then do
          let r ← oci env (.OCIAttrSet .OCI_ATTR_PREFETCH_MEMORY)
          if (← oci_error_p env fuel true "OCIAttrSet" r.status) then pure false
          else pure true
        else pure true
      else pure false
    else pure true)
  if !attrs_ok then do
    let _ ← Ns_OracleFlush env fuel
    pure .NS_ERROR
  else do
  if (← Ns_OracleExec_execute env fuel cid (if type = OCI_STMT_SELECT then 0 else 1)) then do
    let _ ← Ns_OracleFlush env fuel
    pure .NS_ERROR
  else if type = OCI_STMT_SELECT then pure .NS_ROWS
  else pure .NS_DML

/-- The function `Ns_OracleExec` (lines 3102-3249) for the handle of the
state and a statement `sql` that is not NULL. -/
def Ns_OracleExec (env : Env) (fuel : Nat) (sql : List Char) : M Ns_ReturnCode := do
  let w ← get_world
  match w.dbh.connection with
  | none => pure .NS_ERROR
  | some c0 => do
      let _ ← Ns_OracleFlush env fuel
      match (← handle_builtins env fuel sql) with
      | .NS_DML => pure .NS_DML
      | .NS_ERROR => pure .NS_ERROR
      | .NS_OK => exec_statement env fuel c0.id sql
      | _ => pure .NS_ERROR

/-- The function `Ns_OracleResetHandle` (lines 3903-3933) for the handle of
the state.  Without a connection it returns 0, which is `NS_OK` in the host's
headers. -/
def Ns_OracleResetHandle (env : Env) (fuel : Nat) : M Ns_ReturnCode := do
  let w ← get_world
  match w.dbh.connection with
  | none => pure .NS_OK
  | some c0 =>
      if c0.mode = .transaction then do
        let r ← oci env .OCITransRollback
        if (← oci_error_p env fuel true "OCITransRollback" r.status) then pure .NS_ERROR
        else do
          set_connection c0.id (fun c => { c with mode := .autocommit })
          pure .NS_OK
      else pure .NS_OK

/-! ## The executes and commits of the other DML paths -/

/-- The execute of `OraclePLSQL` and the report of its status (lines 486-495).
The result is the verdict of the classifier. -/
def OraclePLSQL_execute (env : Env) (fuel : Nat) (cid : Nat) : M Bool := do
  let c ← connection_at cid
  let r ← oci env (.OCIStmtExecute 1
    (if c.mode = .autocommit then .OCI_COMMIT_ON_SUCCESS else .OCI_DEFAULT))
  oci_error_p env fuel true "OCIStmtExecute" r.status

/-- The execute of `OracleExecPLSQL` and the report of its status (lines
634-641). -/
def OracleExecPLSQL_execute (env : Env) (fuel : Nat) (cid : Nat) : M Bool := do
  let c ← connection_at cid
  let r ← oci env (.OCIStmtExecute 1
    (if c.mode = .autocommit then .OCI_COMMIT_ON_SUCCESS else .OCI_DEFAULT))
  tcl_error_p env fuel "OCIStmtExecute" r.status

/-- The execute of `OracleExecPLSQLBind` and the report of its status (lines
841-850). -/
def OracleExecPLSQLBind_execute (env : Env) (fuel : Nat) (cid : Nat) : M Bool := do
  let c ← connection_at cid
  let r ← oci env (.OCIStmtExecute 1
    (if c.mode = .autocommit then .OCI_COMMIT_ON_SUCCESS else .OCI_DEFAULT))
  tcl_error_p env fuel "OCIStmtExecute" r.status

/-- The execute of `OracleLobDML` and the report of its status (lines
1561-1566). -/
def OracleLobDML_execute (env : Env) (fuel : Nat) (cid : Nat) : M Bool := do
  let _ ← connection_at cid
  let r ← oci env (.OCIStmtExecute 1 .OCI_DEFAULT)
  tcl_error_p env fuel "OCIStmtExecute" r.status

/-- The commit of `OracleLobDML` (lines 1623-1630), reached when the execute
and the writes of the LOBs have passed.  The result is the verdict of the
classifier, `false` when no commit is made. -/
def OracleLobDML_commit (env : Env) (fuel : Nat) (cid : Nat) : M Bool := do
  let c ← connection_at cid
  if c.mode = .autocommit then do
    let r ← oci env .OCITransCommit
    tcl_error_p env fuel "OCITransCommit" r.status
  else pure false

/-- The execute of `OracleLobDMLBind` and the report of its status (lines
1833-1838). -/
def OracleLobDMLBind_execute (env : Env) (fuel : Nat) (cid : Nat) : M Bool := do
  let _ ← connection_at cid
  let r ← oci env (.OCIStmtExecute 1 .OCI_DEFAULT)
  tcl_error_p env fuel "OCIStmtExecute" r.status

/-- The commit of `OracleLobDMLBind` (lines 1904-1911). -/
def OracleLobDMLBind_commit (env : Env) (fuel : Nat) (cid : Nat) : M Bool := do
  let c ← connection_at cid
  if c.mode = .autocommit then do
    let r ← oci env .OCITransCommit
    tcl_error_p env fuel "OCITransCommit" r.status
  else pure false

/-- The execute of `OracleSelect` and what follows it up to the commit (lines
1286-1349), as in `select_statement`: `names` are the placeholders, `iters`
the iteration count.  The result is `TCL_ERROR` when the execute or the
commit has failed, `TCL_OK` after a DML, and `fetch_rows` at line 1351. -/
def OracleSelect_execute (env : Env) (fuel : Nat) (a : SelectArgs) (cid : Nat)
    (names : List (List Char)) (iters : Nat) : M SelectResult := do
  let time := (← get_world).trace.length
  let r ← oci env (.OCIStmtExecute iters .OCI_DEFAULT)
  M.when ((a.array_p || a.dml_p) = true)
    (set_connection cid (fun c =>
      { c with fetch_buffers := c.fetch_buffers.map (env.callbacks time) }))
  M.when ((a.dml_p && !a.array_p) = true) (return_binds a cid names 0)
  let c ← connection_at cid
  M.when (c.n_columns > 0 ∧ c.fetch_buffers.isSome)
    (set_connection cid (fun c => { c with fetch_buffers := none }))
  if (← oci_error_p env fuel true "OCIStmtExecute" r.status) then do
    Tcl_SetResult_exception
    let _ ← Ns_OracleFlush env fuel
    pure .TCL_ERROR
  else if a.dml_p then do
    let c ← connection_at cid
    if c.mode = .autocommit then do
      let r ← oci env .OCITransCommit
      if (← oci_error_p env fuel true "OCITransCommit" r.status) then do
        Tcl_SetResult_exception
        let _ ← Ns_OracleFlush env fuel
        pure .TCL_ERROR
      else pure .TCL_OK
    else pure .TCL_OK
  else pure .fetch_rows

/-! ## Classes of native calls and properties that the recovery keeps -/

/-- The native calls made by the classifiers, by `Ns_OracleFlush` and by
`Ns_OracleCloseDb`. -/
def is_recovery_call : NativeCall → Bool
  | .OCIErrorGet => true
  | .OCIAttrGet .OCI_ATTR_PARSE_ERROR_OFFSET => true
  | .OCIHandleFree _ => true
  | .OCIDescriptorFree => true
  | .OCIServerDetach => true
  | _ => false

/-- The native calls made by `Ns_OracleOpenDb`. -/
def is_open_call : NativeCall → Bool
  | .OCIEnvCreate => true
  | .OCIEnvNlsCreate => true
  | .OCIHandleAlloc .OCI_HTYPE_ERROR => true
  | .OCIHandleAlloc .OCI_HTYPE_SERVER => true
  | .OCIHandleAlloc .OCI_HTYPE_SVCCTX => true
  | .OCIHandleAlloc .OCI_HTYPE_SESSION => true
  | .OCIServerAttach => true
  | .OCISessionBegin => true
  | .OCIAttrSet .OCI_ATTR_SERVER => true
  | .OCIAttrSet .OCI_ATTR_USERNAME => true
  | .OCIAttrSet .OCI_ATTR_PASSWORD => true
  | .OCIAttrSet .OCI_ATTR_SESSION => true
  | _ => false

/-- The native calls made by the recovery of the classifiers, the reopening of
the connection included. -/
def is_lifecycle_call (c : NativeCall) : Bool := is_recovery_call c || is_open_call c

/-- Every call of the class `q` succeeds. -/
def calls_succeed (env : Env) (q : NativeCall → Bool) : Prop :=
  ∀ t c, q c = true → (env.engine t c).status = .OCI_SUCCESS

/-- The struct `c1` is the struct `c` after a write that keeps its identity
and its mode and gives it no statement handle and no interpreter. -/
def released (c c1 : ora_connection_t) : Prop :=
  c1.id = c.id ∧ c1.mode = c.mode ∧ (c1.stmt = true → c.stmt = true) ∧
    (c1.interp = true → c.interp = true)

/-- A property of the state that the classifier `oci_error_p`,
`Ns_OracleFlush` and `Ns_OracleCloseDb` cannot disturb: it survives the calls
they make, a write to the connection that keeps the identity and the mode and
sets no statement handle and no interpreter, the release of the connection, and a change of the
exception. -/
structure RecoveryInv (I : World → Prop) : Prop where
  call : ∀ w c, I w → is_recovery_call c = true → I { w with trace := w.trace ++ [c] }
  conn : ∀ w c c1, I w → w.dbh.connection = some c → released c c1 →
    I { w with dbh := { w.dbh with connection := some c1 } }
  close : ∀ w, I w → I { w with dbh := { w.dbh with connection := none, connected := false } }
  exception : ∀ w code msg, I w →
    I { w with dbh := { w.dbh with cExceptionCode := code, dsExceptionMsg := msg } }

/-- A property of the calls recorded that survives the calls of the recovery
and of the reopening. -/
structure LifecycleInv (I : World → Prop) : Prop where
  call : ∀ w c, I w → is_lifecycle_call c = true → I { w with trace := w.trace ++ [c] }
  other : ∀ w w1, I w → w1.trace = w.trace → I w1

/-- The calls recorded that satisfy `p` are `k`. -/
def calls_are (p : NativeCall → Bool) (k : List NativeCall) (w : World) : Prop :=
  w.trace.filter p = k

/-- The call brings a statement into being or runs it: the allocation of a
statement handle, a prepare or an execute. -/
def is_statement_call : NativeCall → Bool
  | .OCIHandleAlloc .OCI_HTYPE_STMT => true
  | .OCIStmtPrepare _ => true
  | .OCIStmtExecute _ _ => true
  | _ => false

/-- The call asks for a commit: `OCITransCommit`, or an execute in the mode
`OCI_COMMIT_ON_SUCCESS`. -/
def is_commit_request : NativeCall → Bool
  | .OCITransCommit => true
  | .OCIStmtExecute _ .OCI_COMMIT_ON_SUCCESS => true
  | _ => false

/-- The call is a bind or an execute. -/
def is_bind_or_execute : NativeCall → Bool
  | .OCIBindByName _ _ _ => true
  | .OCIBindDynamic => true
  | .OCIStmtExecute _ _ => true
  | _ => false

/-- The connection of the state, when there is one, has no statement handle. -/
def stmt_null (w : World) : Prop :=
  ∀ c, w.dbh.connection = some c → c.stmt = false

/-- The connection of the state, when there is one, has no statement handle,
no array of descriptors and no interpreter: what `Ns_OracleFlush` leaves. -/
def flushed (w : World) : Prop :=
  ∀ c, w.dbh.connection = some c →
    c.stmt = false ∧ c.fetch_buffers = none ∧ c.interp = false


/-! ## Engines and states of the recovery -/

/-- The engine reports the error code `code` whenever it is asked. -/
def reports_code (env : Env) (code : Int) : Prop :=
  ∀ t, (env.engine t .OCIErrorGet).value = code

/-- The struct that `Ns_OracleOpenDb` leaves when all its calls succeed. -/
def fresh_connection (id : Nat) : ora_connection_t :=
  { id := id, env := true, err := true, srv := true, svc := true, auth := true,
    stmt := false, mode := .autocommit, n_columns := 0, fetch_buffers := none,
    interp := false }

/-- The text that the classifiers report for the call `ocifn` and the status
`st`. -/
def error_text (ocifn : String) (st : oci_status_t) : String :=
  "error in `" ++ ocifn ++ " ()': " ++ status_message st

/-- As `example_env 0`, with an engine that reports the error code `code`. -/
def code_env (code : Int) : Env :=
  { example_env 0 with
    engine := fun _ c =>
      match c with
      | .OCIErrorGet => ⟨.OCI_SUCCESS, code⟩
      | _ => ⟨.OCI_SUCCESS, 0⟩ }

/-- As `code_env code`, with an engine whose executes fail. -/
def failing_execute_env (code : Int) : Env :=
  { example_env 0 with
    engine := fun _ c =>
      match c with
      | .OCIStmtExecute _ _ => ⟨.OCI_ERROR, 0⟩
      | .OCIErrorGet => ⟨.OCI_SUCCESS, code⟩
      | _ => ⟨.OCI_SUCCESS, 0⟩ }

/-- As `example_env 1`, with an engine whose prepare succeeds with a warning. -/
def with_info_env : Env :=
  { example_env OCI_STMT_SELECT with
    engine := fun _ c =>
      match c with
      | .OCIStmtPrepare _ => ⟨.OCI_SUCCESS_WITH_INFO, 0⟩
      | .OCIAttrGet .OCI_ATTR_STMT_TYPE => ⟨.OCI_SUCCESS, OCI_STMT_SELECT⟩
      | _ => ⟨.OCI_SUCCESS, 0⟩ }


/-- As `example_env 0`, with an engine that fails every release of a handle
with ORA-00600. -/
def failing_free_env : Env :=
  { example_env 0 with
    engine := fun _ c =>
      match c with
      | .OCIHandleFree _ => ⟨.OCI_ERROR, 0⟩
      | .OCIErrorGet => ⟨.OCI_SUCCESS, 600⟩
      | _ => ⟨.OCI_SUCCESS, 0⟩ }

/-- As `example_env 0`, with an engine that fails every rollback with
ORA-00600. -/
def failing_rollback_env : Env :=
  { example_env 0 with
    engine := fun _ c =>
      match c with
      | .OCITransRollback => ⟨.OCI_ERROR, 0⟩
      | .OCIErrorGet => ⟨.OCI_SUCCESS, 600⟩
      | _ => ⟨.OCI_SUCCESS, 0⟩ }

/-- The state `example_world` with a statement handle on its connection. -/
def statement_world : World :=
  { example_world with
    dbh := { example_world.dbh with
      connection := some { example_connection with stmt := true } } }

/-- The state `example_world` with its connection in explicit-transaction
mode. -/
def transaction_world : World := with_mode example_world example_connection .transaction


/-- The connection of the state has no statement handle and the calls recorded
that bring a statement into being or run it are `k`. -/
def no_statement (k : List NativeCall) (w : World) : Prop :=
  stmt_null w ∧ calls_are is_statement_call k w

/-- The words of `ns_ora dml db "end transaction"`. -/
def builtin_command : List (List Char) :=
  ["ns_ora".toList, "dml".toList, "db".toList, "end transaction".toList]

/-- The kind of statement that the engine reports is not the kind the
subcommand is for: not a query for `select`, `1row` and `0or1row`, or a query
for `dml` and `array_dml`. -/
def kind_mismatch (env : Env) (a : SelectArgs) : Prop :=
  (reports_type env (fun type => type ≠ OCI_STMT_SELECT) ∧ a.dml_p = false) ∨
  (reports_type env (fun type => type = OCI_STMT_SELECT) ∧ a.dml_p = true)

/-- The message of `OracleSelect` for a statement of the wrong kind. -/
def mismatch_message (a : SelectArgs) : String :=
  if a.dml_p then "Query was not a DML statement."
  else "Query was not a statement returning rows."

/-- The words of `ns_ora dml db "select a from t"`. -/
def dml_of_query : List (List Char) :=
  ["ns_ora".toList, "dml".toList, "db".toList, "select a from t".toList]


/-- Every run of the code `m` from the state `w` that returns has added the
commit requests `k`, in this order, to those recorded, and no other. -/
def requests_added {α : Type} (m : M α) (w : World) (k : List NativeCall) : Prop :=
  ∀ r w1, m w = .done (r, w1) →
    w1.trace.filter is_commit_request = w.trace.filter is_commit_request ++ k

/-- The words of `ns_ora dml db "update t set a = 1"`. -/
def plain_dml : List (List Char) :=
  ["ns_ora".toList, "dml".toList, "db".toList, "update t set a = 1".toList]


/-! ## The single-row modes of `OracleSelect` (nsoracle.c, lines 1351-1441) -/

/-- The state after `Ns_TclEnterSet(interp, set, dynamic)`: the set is known
to the interpreter by a new id, and the id is appended to the result.  The id
is the letter `d` for a dynamic set and `t` for a static one, followed by a
number that no set has yet. -/
def entered (set : List (List Char × List Char)) (dynamic : Bool) (w : World) : World :=
  { w with
    sets := w.sets ++ [((if dynamic then 'd' else 't') :: (toString w.sets.length).toList, set)],
    result := w.result ++ String.mk ((if dynamic then 'd' else 't') ::
      (toString w.sets.length).toList) }

/-- `Ns_TclEnterSet`. -/
def Ns_TclEnterSet (set : List (List Char × List Char)) (dynamic : Bool) : M Unit :=
  modify_world (entered set dynamic)

/-- The function `Oracle0or1Row` (lines 1406-1441).  `getrow` stands for
`Ns_OracleGetRow`: it is given the set `row` and returns its code and what it
has left in the set.  `row` is `none` for a NULL pointer; `nrows` is the value
of `*nrows` when the function is entered, and the result is the returned
pointer with the value of `*nrows` at the exit.  `Ns_DbFlush` is the flush of
the host, which calls `Ns_OracleFlush`, and `Ns_SetCopy` returns a set with
the same fields. -/
def Oracle0or1Row (env : Env) (fuel : Nat)
    (getrow : List (List Char × List Char) →
      M (Ns_ReturnCode × List (List Char × List Char)))
    (row : Option (List (List Char × List Char))) (nrows : Int) :
    M (Option (List (List Char × List Char)) × Int) :=
  match row with
  | none => pure (none, nrows)
  | some row0 => do
      let r1 ← getrow row0
      if r1.1 = .NS_END_DATA then pure (some r1.2, 0)
      else do
        let r2 ← getrow r1.2
        match r2.1 with
        | .NS_END_DATA => pure (some r2.2, 1)
        | .NS_OK => do
            Ns_DbSetException "ORA" "Query returned more than one row."
            Tcl_SetResult_exception
            let _ ← Ns_OracleFlush env fuel
            pure (none, nrows)
        | _ => pure (none, nrows)

/-- The statements of `OracleSelect` for a query after its execute (lines
1351-1394).  `bindrow` stands for `Ns_OracleBindRow`, which is given the set
`dbh->row` that `Ns_SetTrunc` has emptied and returns it with the names of the
columns, or NULL; `getrow` stands for `Ns_OracleGetRow`; `subcommand` is
`objv[1]`, and `nrows` is the indeterminate value of the local variable of
that name before it is assigned. -/
def select_rows (env : Env) (fuel : Nat)
    (bindrow : List (List Char × List Char) → M (Option (List (List Char × List Char))))
    (getrow : List (List Char × List Char) →
      M (Ns_ReturnCode × List (List Char × List Char)))
    (subcommand : List Char) (nrows : Int) : M SelectResult := do
  let setPtr ← bindrow []
  if strcmp_eq subcommand "1row".toList ∨ strcmp_eq subcommand "0or1row".toList then do
    let found ← Oracle0or1Row env fuel getrow setPtr nrows
    let row : Option (List (List Char × List Char)) ←
      (if found.1.isSome ∧ strcmp_eq subcommand "1row".toList ∧ found.2 ≠ 1 then do
        Ns_DbSetException "ORA" "Query did not return a row."
        Tcl_SetResult_exception
        pure none
      else pure found.1)
    match row with
    | none => do
        let _ ← Ns_OracleFlush env fuel
        pure .TCL_ERROR
    | some set => do
        (match (if found.2 = 0 then none else some set) with
          | some set => Ns_TclEnterSet set true
          | none => pure ())
        pure .TCL_OK
  else do
    (match setPtr with
      | some set => Ns_TclEnterSet set false
      | none => pure ())
    pure .TCL_OK

/-- The function `OracleSelect` in full: the statements up to the execute, and
for a query the statements after it. -/
def OracleSelect_rows (env : Env) (fuel : Nat)
    (bindrow : List (List Char × List Char) → M (Option (List (List Char × List Char))))
    (getrow : List (List Char × List Char) →
      M (Ns_ReturnCode × List (List Char × List Char)))
    (nrows : Int) (objv : List (List Char)) : M SelectResult := do
  match (← OracleSelect env fuel objv) with
  | .fetch_rows => select_rows env fuel bindrow getrow (objv.getD 1 []) nrows
  | r => pure r

/-- An array of descriptors of the connection is as long as `n_columns` says. -/
def buffers_fit (w : World) : Prop :=
  ∀ c fbs, w.dbh.connection = some c → c.fetch_buffers = some fbs →
    fbs.length = c.n_columns

/-- The query yields the rows `rows`: started in the state `w` on the set
`row`, the calls of `getrow`, each on the set that the call before has left,
return `NS_OK` with the rows in turn and then `NS_END_DATA`, which leaves the
set as it is. -/
def yields (getrow : List (List Char × List Char) →
      M (Ns_ReturnCode × List (List Char × List Char))) :
    List (List (List Char × List Char)) → List (List Char × List Char) → World → Prop
  | [], row, w => ∃ w1, getrow row w = .done ((.NS_END_DATA, row), w1) ∧ buffers_fit w1
  | x :: rows, row, w =>
      ∃ w1, getrow row w = .done ((.NS_OK, x), w1) ∧ buffers_fit w1 ∧ yields getrow rows x w1

/-- A cursor over the rows `rows` that tells where it is by the set it is
given: on the set of the column names it returns the first row, on a row the
row after it. -/
def example_getrow (cols : List (List Char × List Char))
    (rows : List (List (List Char × List Char))) (row : List (List Char × List Char)) :
    M (Ns_ReturnCode × List (List Char × List Char)) :=
  match (if row = cols then rows.head? else (rows.dropWhile (fun x => x != row)).tail.head?) with
  | some x => pure (.NS_OK, x)
  | none => pure (.NS_END_DATA, row)

/-- The set of a query with the column `a`, before a row is fetched. -/
def example_columns : List (List Char × List Char) := [("a".toList, [])]

/-- The rows of the column `a` with the values `1` and `2`. -/
def example_rows : List (List (List Char × List Char)) :=
  [[("a".toList, "1".toList)], [("a".toList, "2".toList)]]

/-- A stand-in for `Ns_OracleBindRow` that returns the set with the names of
the columns `cols`. -/
def example_bindrow (cols : List (List Char × List Char))
    (_ : List (List Char × List Char)) : M (Option (List (List Char × List Char))) :=
  pure (some cols)

/-! ## The windows of `DynamicBindOut` and the scanner without its guard -/

/-- The engine reports for every piece of `lens` a length that is at most the
window `DynamicBindOut` handed out for it, in a bind whose first call has the
marker `piece` and whose later calls have `OCI_NEXT_PIECE`. -/
def pieces_fit (E : Nat) : Piece → fetch_buffer_t → List Nat → Prop
  | _, _, [] => True
  | piece, fb, len :: lens =>
      len ≤ (DynamicBindOut E 0 piece fb).2.piecewise_fetch_length ∧
        pieces_fit E .OCI_NEXT_PIECE (piece_stored len (DynamicBindOut E 0 piece fb).2) lens

/-- The body of the `switch` of the simplified scanner: as `switch_body`, but
in `instr_state` every single quote closes the literal. -/
def simplified_switch_body (c : Char) (s : Scanner) : Option Scanner :=
  match s.state with
  | .base_state =>
      if c = '\'' then
        some { s with state := .instr_state, current_string_length := 0 }
      else if c = ':' then
        some { s with bindbuf := [], state := .bind_state }
      else some s
  | .instr_state =>
      let s1 : Scanner :=
        if c = '\'' then { s with state := .base_state }
        else s
      some { s1 with current_string_length := (s.current_string_length + 1) % 2 ^ 32 }
  | .bind_state =>
      if c = '=' then
        some { s with state := .base_state, bindbuf := [] }
      else if !(is_bind_char c) then
        if s.bindbuf.length < BINDBUF_SIZE then
          match s.before with
          | [] => none
          | b :: bs =>
              some { s with names := s.names ++ [s.bindbuf], state := .base_state,
                            before := bs, rest := b :: s.rest }
        else none
      else if s.bindbuf.length < BINDBUF_SIZE then
        some { s with bindbuf := s.bindbuf ++ [c] }
      else none

/-- The loop of the simplified scanner. -/
def simplified_scan_loop : Nat → Scanner → Outcome Scanner
  | fuel, s =>
    match s.rest with
    | [] => .done s
    | c :: _ =>
      if c = '\x00' then .done s
      else
        match fuel with
        | 0 => .timeout
        | fuel + 1 =>
          match simplified_switch_body c s with
          | none => .fault
          | some s1 => simplified_scan_loop fuel (advance s1)

/-- The simplified scanner: `parse_bind_variables` with the guard
`lastchar != '\'' || current_string_length == 0` taken out of the test of
`instr_state`. -/
def simplified_parse_bind_variables (input : List Char) : Outcome (List (List Char)) :=
  match simplified_scan_loop (2 * input.length + 1) (scan_init input) with
  | .done s1 => scan_finish s1
  | .fault => .fault
  | .timeout => .timeout

/-- The local variables of `parse_bind_variables` after `k` iterations of its
loop; `none` when the loop has ended before or has run into undefined
behaviour. -/
def scan_steps : Nat → Scanner → Option Scanner
  | 0, s => some s
  | k + 1, s =>
    match s.rest with
    | [] => none
    | c :: _ =>
      if c = '\x00' then none
      else
        match switch_body c s with
        | none => none
        | some s1 => scan_steps k (advance s1)

/-- The guard of `instr_state` holds in the state `s`. -/
def quote_guard (s : Scanner) : Prop :=
  s.lastchar ≠ '\'' ∨ s.current_string_length = 0

/-! ## Where the value of a placeholder comes from -/

/-- The value the specification describes for the placeholder `var`: the first
that is there among the argument at its position, when its name is a number
from 1 on, the field of that name in the set of `-bind`, and the variable of
that name in the interpreter. -/
def first_available_value (a : SelectArgs) (vars : List (List Char × List Char))
    (sets : List (List Char × List (List Char × List Char))) (var : List Char) :
    Option (List Char) :=
  match (positional_index var).bind
      (fun index => if 1 ≤ index then a.objv[index + a.argv_base]? else none) with
  | some value => some value
  | none =>
      match (a.set.bind (fun set => sets.lookup set)).bind (fun fields => fields.lookup var) with
      | some value => some value
      | none => vars.lookup var

/-- The state `example_world` with the variable `x` in the interpreter and a
set `s` that has the field `y` only. -/
def bind_set_world : World :=
  { example_world with
    tcl_vars := [("x".toList, "1".toList)],
    sets := [("s".toList, [("y".toList, "2".toList)])] }

/-- The words of `ns_ora dml db -bind s "update t set a = :x"`. -/
def set_bind_dml : List (List Char) :=
  ["ns_ora".toList, "dml".toList, "db".toList, "-bind".toList, "s".toList,
    "update t set a = :x".toList]

/-- The state `bind_set_world` inside the bind loop of a statement with one
placeholder: a statement handle and an array of one descriptor. -/
def bind_loop_world : World :=
  { bind_set_world with
    dbh := { bind_set_world.dbh with
      connection := some { example_connection with
        stmt := true, n_columns := 1, fetch_buffers := some [malloc_fetch_buffer] } } }

/-! ## The teardown of `Ns_OracleCloseDb` -/

/-- The native calls that release a handle or detach from the server. -/
def is_release_call : NativeCall → Bool
  | .OCIServerDetach => true
  | .OCIHandleFree _ => true
  | _ => false

/-- The engine never reports one of the error codes after which `oci_error_p`
closes the connection itself (lines 4226-4260). -/
def no_closing_code (env : Env) : Prop :=
  ∀ t, (env.engine t .OCIErrorGet).value ∉ oci_fatal_codes ∧
    (env.engine t .OCIErrorGet).value ≠ 20 ∧ (env.engine t .OCIErrorGet).value ≠ 1034

/-- The connection `cid` is there and the release calls made so far are `k`. -/
def teardown_state (cid : Nat) (k : List NativeCall) (w : World) : Prop :=
  open_at cid w ∧ w.trace.filter is_release_call = k

/-- As `example_env 0`, with an engine that fails the first call, when it is a
detach, with ORA-03113. -/
def failing_detach_env : Env :=
  { example_env 0 with
    engine := fun t c =>
      match c with
      | .OCIServerDetach => if t = 0 then ⟨.OCI_ERROR, 0⟩ else ⟨.OCI_SUCCESS, 0⟩
      | .OCIErrorGet => ⟨.OCI_SUCCESS, 3113⟩
      | _ => ⟨.OCI_SUCCESS, 0⟩ }

/-- As `example_env 0`, with an engine that fails every release with
ORA-00600. -/
def failing_release_env : Env :=
  { example_env 0 with
    engine := fun _ c =>
      match c with
      | .OCIServerDetach => ⟨.OCI_ERROR, 0⟩
      | .OCIHandleFree _ => ⟨.OCI_INVALID_HANDLE, 0⟩
      | .OCIErrorGet => ⟨.OCI_SUCCESS, 600⟩
      | _ => ⟨.OCI_SUCCESS, 0⟩ }

/-- A handle with credentials and no connection. -/
def closed_world : World :=
  { example_world with
    dbh := { example_world.dbh with connection := none, connected := false } }

/-! ## `Ns_OracleBindRow` (nsoracle.c, lines 3263-3555) -/

/-- The value of `OCI_TYPECODE_CLOB` in `oci.h`. -/
def OCI_TYPECODE_CLOB : Int := 112

/-- The value of `OCI_TYPECODE_BLOB` in `oci.h`. -/
def OCI_TYPECODE_BLOB : Int := 113

/-- The value of `SQLT_RDD` in `oci.h`. -/
def SQLT_RDD : Int := 104

/-- The value of `SQLT_NUM` in `oci.h`. -/
def SQLT_NUM : Int := 2

/-- The value of `SQLT_LNG` in `oci.h`. -/
def SQLT_LNG : Int := 8

/-- The value of `SQLT_DAT` in `oci.h`. -/
def SQLT_DAT : Int := 12

/-- The value of `SQLT_TIMESTAMP` in `oci.h`. -/
def SQLT_TIMESTAMP : Int := 187

/-- The value of `SQLT_TIMESTAMP_TZ` in `oci.h`. -/
def SQLT_TIMESTAMP_TZ : Int := 188

/-- The value of `SQLT_BIN` in `oci.h`. -/
def SQLT_BIN : Int := 23

/-- The value of `SB4MAXVAL` in `oci.h`. -/
def SB4MAXVAL : Int := 2147483647

/-- The column type is handled by the `default` case of the `switch` of the
first loop (lines 3371-3466). -/
def default_case (type : Int) : Prop :=
  type ≠ OCI_TYPECODE_CLOB ∧ type ≠ OCI_TYPECODE_BLOB ∧ type ≠ SQLT_RDD ∧ type ≠ SQLT_NUM ∧
    type ≠ SQLT_LNG ∧ type ≠ SQLT_DAT ∧ type ≠ SQLT_TIMESTAMP ∧ type ≠ SQLT_TIMESTAMP_TZ

instance (type : Int) : Decidable (default_case type) := by
  unfold default_case; exact inferInstance

/-- What the `switch` of the first loop (lines 3371-3466) stores in the
descriptor of a column.  `lob_buffer_size` and `char_expansion` are the
configuration values `LobBufferSize` and `CharExpansion`; `size` is what the
engine has reported as `OCI_ATTR_DATA_SIZE`, which only the `default` case
asks for.  A buffer that `Ns_Malloc` has just returned is `some []`. -/
def column_buffer (lob_buffer_size char_expansion size : Nat) (fb : fetch_buffer_t) :
    fetch_buffer_t :=
  if fb.type = OCI_TYPECODE_CLOB ∨ fb.type = OCI_TYPECODE_BLOB then fb
  else if fb.type = SQLT_RDD then
    { fb with size := 18, buf_size := 18 + 8, buf := some [], allocated := 18 + 8 }
  else if fb.type = SQLT_NUM then
    { fb with size := 81, buf_size := 81 + 8, buf := some [], allocated := 81 + 8 }
  else if fb.type = SQLT_LNG then
    { fb with buf_size := lob_buffer_size, buf := some [], allocated := lob_buffer_size }
  else if fb.type = SQLT_DAT then
    { fb with size := 20, buf_size := 20 + 8, buf := some [], allocated := 20 + 8 }
  else if fb.type = SQLT_TIMESTAMP then
    { fb with size := 26, buf_size := 26 + 8, buf := some [], allocated := 26 + 8 }
  else if fb.type = SQLT_TIMESTAMP_TZ then
    { fb with size := 33, buf_size := 33 + 8, buf := some [], allocated := 33 + 8 }
  else
    { fb with
      size := size,
      buf_size := (if fb.type = SQLT_BIN then size * 2 + 8 else size + 8) * char_expansion,
      buf := some [],
      allocated := (if fb.type = SQLT_BIN then size * 2 + 8 else size + 8) * char_expansion }

/-- The `switch` of the first loop for the column `i` (lines 3371-3466): the
`default` case asks the engine for the size of the column and returns 0
after a flush when that fails.  The result tells whether the loop goes on. -/
def size_column (env : Env) (fuel : Nat) (lob_buffer_size char_expansion : Nat)
    (cid i : Nat) : M Bool := do
  let fb ← fetchbuf_at cid i
  if default_case fb.type then do
    let r ← oci env (.OCIAttrGet .OCI_ATTR_DATA_SIZE)
    set_fetchbuf cid i (fun fb => { fb with size := r.value.toNat })
    if (← oci_error_p env fuel true "OCIAttrGet" r.status) then do
      let _ ← Ns_OracleFlush env fuel
      pure false
    else do
      set_fetchbuf cid i (column_buffer lob_buffer_size char_expansion r.value.toNat)
      pure true
  else do
    set_fetchbuf cid i (column_buffer lob_buffer_size char_expansion 0)
    pure true

/-- `downcase`. -/
def downcase (s : List Char) : List Char := (c_string s).map Char.toLower

/-- The body of the first loop of `Ns_OracleBindRow` for the column `i`
(lines 3324-3470).  `column_name` is the name the engine hands out for
`OCI_ATTR_NAME`; the result is the row with the column added, or `none` when
the function has returned 0. -/
def describe_column (env : Env) (fuel : Nat) (lob_buffer_size char_expansion : Nat)
    (column_name : Nat → List Char) (cid i : Nat) (row : List (List Char × List Char)) :
    M (Option (List (List Char × List Char))) := do
  let r ← oci env (.OCIParamGet (i + 1))
  if (← oci_error_p env fuel true "OCIParamGet" r.status) then do
    let _ ← Ns_OracleFlush env fuel
    pure none
  else do
  let r ← oci env (.OCIAttrGet .OCI_ATTR_NAME)
  if (← oci_error_p env fuel true "OCIAttrGet" r.status) then do
    let _ ← Ns_OracleFlush env fuel
    pure none
  else do
  let r ← oci env (.OCIAttrGet .OCI_ATTR_DATA_TYPE)
  set_fetchbuf cid i (fun fb => { fb with type := r.value })
  if (← oci_error_p env fuel true "OCIAttrGet" r.status) then do
    let _ ← Ns_OracleFlush env fuel
    pure none
  else do
  if (← size_column env fuel lob_buffer_size char_expansion cid i) then
    pure (some (row ++ [(downcase (column_name i), [])]))
  else pure none

/-- The first loop of `Ns_OracleBindRow`, from the column `i` on. -/
def describe_columns (env : Env) (fuel : Nat) (lob_buffer_size char_expansion : Nat)
    (column_name : Nat → List Char) (cid : Nat) :
    Nat → Nat → List (List Char × List Char) → M (Option (List (List Char × List Char)))
  | 0, _, row => pure (some row)
  | n + 1, i, row => do
      match (← describe_column env fuel lob_buffer_size char_expansion column_name cid i row) with
      | none => pure none
      | some row =>
          describe_columns env fuel lob_buffer_size char_expansion column_name cid n (i + 1) row

/-- The body of the second loop of `Ns_OracleBindRow` for the column `i`
(lines 3481-3550): the buffer of the column is handed to the engine.  The
result tells whether the loop goes on. -/
def define_column (env : Env) (fuel : Nat) (cid i : Nat) : M Bool := do
  let fb ← fetchbuf_at cid i
  if fb.type = OCI_TYPECODE_CLOB ∨ fb.type = OCI_TYPECODE_BLOB then do
    let r ← oci env .OCIDescriptorAlloc
    M.when (r.status = .OCI_SUCCESS ∨ r.status = .OCI_SUCCESS_WITH_INFO)
      (set_fetchbuf cid i (fun fb => { fb with lob := true }))
    if (← oci_error_p env fuel true "OCIDescriptorAlloc" r.status) then do
      let _ ← Ns_OracleFlush env fuel
      pure false
    else do
    let r ← oci env (.OCIDefineByPos (i + 1) (-1) false)
    M.when (r.status = .OCI_SUCCESS ∨ r.status = .OCI_SUCCESS_WITH_INFO)
      (set_fetchbuf cid i (fun fb => { fb with defn := true }))
    if (← oci_error_p env fuel true "OCIDefineByPos" r.status) then do
      let _ ← Ns_OracleFlush env fuel
      pure false
    else pure true
  else do
    let r ← oci env
      (if fb.type = SQLT_LNG then .OCIDefineByPos (i + 1) SB4MAXVAL true
        else .OCIDefineByPos (i + 1) fb.buf_size false)
    M.when (r.status = .OCI_SUCCESS ∨ r.status = .OCI_SUCCESS_WITH_INFO)
      (set_fetchbuf cid i (fun fb => { fb with defn := true }))
    if (← oci_error_p env fuel true "OCIDefineByPos" r.status) then do
      let _ ← Ns_OracleFlush env fuel
      pure false
    else pure true

/-- The second loop of `Ns_OracleBindRow`, from the column `i` on. -/
def define_columns (env : Env) (fuel : Nat) (cid : Nat) : Nat → Nat → M Bool
  | 0, _ => pure true
  | n + 1, i => do
      if (← define_column env fuel cid i) then define_columns env fuel cid n (i + 1)
      else pure false

/-- The function `Ns_OracleBindRow` for the handle of the state.  `row` is
the set `dbh->row`; the result is the set with the names of the columns, or
`none` for the returned 0. -/
def Ns_OracleBindRow (env : Env) (fuel : Nat) (lob_buffer_size char_expansion : Nat)
    (column_name : Nat → List Char) (row : List (List Char × List Char)) :
    M (Option (List (List Char × List Char))) := do
  let w ← get_world
  match w.dbh.connection with
  | none => pure none
  | some c0 =>
    if !c0.stmt then pure none
    else if c0.fetch_buffers.isSome then do
      let _ ← Ns_OracleFlush env fuel
      pure none
    else do
    let r ← oci env (.OCIAttrGet .OCI_ATTR_PARAM_COUNT)
    set_connection c0.id (fun c => { c with n_columns := r.value.toNat })
    if (← oci_error_p env fuel true "OCIAttrGet" r.status) then do
      let _ ← Ns_OracleFlush env fuel
      pure none
    else do
    set_connection c0.id (fun c =>
      { c with fetch_buffers := some (List.replicate c.n_columns malloc_fetch_buffer) })
    let c ← connection_at c0.id
    match (← describe_columns env fuel lob_buffer_size char_expansion column_name c0.id
        c.n_columns 0 row) with
    | none => pure none
    | some row => do
        let c ← connection_at c0.id
        if (← define_columns env fuel c0.id c.n_columns 0) then pure (some row)
        else pure none

/-! ## The `SQLT_LNG` case of `Ns_OracleGetRow` (nsoracle.c, lines 3689-3786) -/

/-- The start of a pass of the `do` loop (lines 3717-3722): the fill offset
moves past the piece of `ret_len` bytes stored in the pass before, and the
buffer is doubled when the offset is past half of it.  The sum of line 3717
is stored in the 16 bits of `fetch_length`; `ns_realloc` keeps the bytes of
the block. -/
def long_window (ret_len : Nat) (fb : fetch_buffer_t) : fetch_buffer_t :=
  if (fb.fetch_length + ret_len) % 65536 > fb.buf_size / 2 then
    { fb with fetch_length := (fb.fetch_length + ret_len) % 65536,
              buf_size := fb.buf_size * 2,
              buf := some (fb.buf.getD []), allocated := fb.buf_size * 2 }
  else { fb with fetch_length := (fb.fetch_length + ret_len) % 65536 }

/-- The engine has stored the bytes `piece` in the window that starts at the
fill offset. -/
def window_filled (piece : List Char) (fb : fetch_buffer_t) : fetch_buffer_t :=
  { fb with buf := some ((fb.buf.getD []).take fb.fetch_length ++ piece) }

/-- The `do` loop of the `SQLT_LNG` case (lines 3709-3776), for at most `n`
passes.  `pieces t` is what the engine stores in the window during the fetch
it is asked for when `t` calls have been made, and the length of that is
what it leaves in `ret_len`.  The result tells whether the loop has ended
without `return NS_ERROR`. -/
def long_loop (env : Env) (fuel : Nat) (pieces : Nat → List Char) (cid i : Nat) :
    Nat → Nat → M Bool
  | 0, _ => M.timeout
  | n + 1, ret_len => do
      set_fetchbuf cid i (long_window ret_len)
      let fb ← fetchbuf_at cid i
      let r ← oci env .OCIStmtGetPieceInfo
      if (← oci_error_p env fuel true "OCIStmtGetPieceInfo" r.status) then do
        let _ ← Ns_OracleFlush env fuel
        pure false
      else do
      let r ← oci env (.OCIStmtSetPieceInfo (fb.buf_size - fb.fetch_length))
      if (← oci_error_p env fuel true "OCIStmtGetPieceInfo" r.status) then do
        let _ ← Ns_OracleFlush env fuel
        pure false
      else do
      let time := (← get_world).trace.length
      let r ← oci env .OCIStmtFetch
      set_fetchbuf cid i (window_filled (pieces time))
      let failed ←
        (if r.status ≠ .OCI_NEED_DATA then oci_error_p env fuel true "OCIStmtFetch" r.status
          else pure false)
      if failed then do
        let _ ← Ns_OracleFlush env fuel
        pure false
      else if r.status = .OCI_NO_DATA then pure true
      else if r.status = .OCI_SUCCESS_WITH_INFO ∨ r.status = .OCI_NEED_DATA then
        long_loop env fuel pieces cid i n (pieces time).length
      else pure true

/-- The `SQLT_LNG` case of the loop over the columns of `Ns_OracleGetRow`
(lines 3689-3786) for the column `i`, with at most `n` passes of its loop.
The result is the value put into the row with `Ns_SetPutValue`, the C string
that starts at `fetchbuf->buf`, or `none` for `return NS_ERROR`. -/
def long_column (env : Env) (fuel : Nat) (pieces : Nat → List Char) (cid i n : Nat) :
    M (Option (List Char)) := do
  let fb ← fetchbuf_at cid i
  let fetched : Bool ←
    (if fb.is_null = -1 then do
      set_fetchbuf cid i (fun fb => { fb with buf := some [] })
      pure true
    else if fb.is_null ≠ 0 then do
      let _ ← Ns_OracleFlush env fuel
      pure false
    else do
      set_fetchbuf cid i (fun fb => { fb with buf := some [], fetch_length := 0 })
      long_loop env fuel pieces cid i n 0)
  if fetched then do
    let fb ← fetchbuf_at cid i
    set_fetchbuf cid i (fun fb => { fb with buf := some ((fb.buf.getD []).take fb.fetch_length) })
    pure (some (c_string ((fb.buf.getD []).take fb.fetch_length)))
  else pure none

/-! ## States and engines for the buffers of the columns -/

/-- The state `w` with the descriptor `i` of its connection `c` replaced by
`d`. -/
def with_fetchbuf (w : World) (c : ora_connection_t) (i : Nat) (d : fetch_buffer_t) : World :=
  { w with dbh := { w.dbh with
      connection := some { c with
        fetch_buffers := c.fetch_buffers.map (fun fbs => fbs.set i d) } } }

/-- A connection with a statement and one descriptor, of a column whose type
the engine has reported as `type`. -/
def column_world (type : Int) : World :=
  { example_world with
    dbh := { example_world.dbh with
      connection := some { example_connection with
        stmt := true, n_columns := 1,
        fetch_buffers := some [{ malloc_fetch_buffer with type := type }] } } }

/-- As `example_env 0`, with an engine that reports 10 bytes as the size of a
column. -/
def column_env : Env :=
  { example_env 0 with
    engine := fun _ c =>
      match c with
      | .OCIAttrGet .OCI_ATTR_DATA_SIZE => ⟨.OCI_SUCCESS, 10⟩
      | _ => ⟨.OCI_SUCCESS, 0⟩ }

/-! ## Engines that deliver a LONG value in pieces -/

/-- From the time `t` on the engine delivers a LONG value to the loop of
`Ns_OracleGetRow` in pieces: it accepts the window of every pass, answers the
fetch of a pass with `OCI_NEED_DATA` after it has stored one of the pieces
`ps`, and the fetch of the last pass with `OCI_SUCCESS` after it has stored
the piece `last`. -/
def delivers_long (env : Env) (pieces : Nat → List Char) :
    Nat → List (List Char) → List Char → Prop
  | t, [], last =>
      (env.engine t .OCIStmtGetPieceInfo).status = .OCI_SUCCESS ∧
      (∀ window, (env.engine (t + 1) (.OCIStmtSetPieceInfo window)).status = .OCI_SUCCESS) ∧
      (env.engine (t + 2) .OCIStmtFetch).status = .OCI_SUCCESS ∧ pieces (t + 2) = last
  | t, p :: ps, last =>
      (env.engine t .OCIStmtGetPieceInfo).status = .OCI_SUCCESS ∧
      (∀ window, (env.engine (t + 1) (.OCIStmtSetPieceInfo window)).status = .OCI_SUCCESS) ∧
      (env.engine (t + 2) .OCIStmtFetch).status = .OCI_NEED_DATA ∧ pieces (t + 2) = p ∧
      delivers_long env pieces (t + 3) ps last

/-- A connection with a statement and one descriptor, of a LONG column with a
buffer of 16 bytes. -/
def long_world : World :=
  { example_world with
    dbh := { example_world.dbh with
      connection := some { example_connection with
        stmt := true, n_columns := 1,
        fetch_buffers := some [{ malloc_fetch_buffer with
          type := SQLT_LNG, buf_size := 16, buf := some [], allocated := 16 }] } } }

/-- As `example_env 0`, with an engine whose fetches ask for more data until
six calls have been made. -/
def long_env : Env :=
  { example_env 0 with
    engine := fun t c =>
      match c with
      | .OCIStmtFetch => if t < 5 then ⟨.OCI_NEED_DATA, 0⟩ else ⟨.OCI_SUCCESS, 0⟩
      | _ => ⟨.OCI_SUCCESS, 0⟩ }

/-- The pieces `hello ` and `world` of a LONG value, stored by the fetches
that are the third and the sixth call. -/
def long_pieces (t : Nat) : List Char :=
  if t = 2 then "hello ".toList else if t = 5 then "world".toList else []

/-! ## `free_fetch_buffers` and `OraclePLSQL` (nsoracle.c, lines 4530-4585 and 299-536) -/

/-- The body of the loop of `free_fetch_buffers` for the descriptor `i`
(lines 4542-4578). -/
def free_fetchbuf (env : Env) (err : Bool → String → oci_status_t → M Bool)
    (cid i : Nat) : M Unit := do
  let fb ← fetchbuf_at cid i
  M.when (fb.lob = true) (do
    let r ← oci env .OCIDescriptorFree
    let _ ← err true "OCIDescriptorFree" r.status
    set_fetchbuf cid i (fun fb => { fb with lob := false }))
  let fb ← fetchbuf_at cid i
  M.when (fb.buf.isSome = true)
    (set_fetchbuf cid i (fun fb => { fb with buf := none, buf_size := 0 }))
  M.when (fb.array_values.isSome = true)
    (set_fetchbuf cid i (fun fb => { fb with array_values := none, array_count := 0 }))
  M.when (fb.lobs = true) (do
    for_loop (fun _ => do
      let r ← oci env .OCIDescriptorFree
      let _ ← err true "OCIDescriptorFree" r.status
      let _ ← fetchbuf_at cid i
      pure ()) fb.n_rows 0
    set_fetchbuf cid i (fun fb => { fb with lobs := false, n_rows := 0 }))

/-- The function `free_fetch_buffers` for the local pointer `connection` with
the identity `cid`, which the callers have checked not to be NULL. -/
def free_fetch_buffers (env : Env) (fuel : Nat) (cid : Nat) : M Unit := do
  let c ← connection_at cid
  match c.fetch_buffers with
  | none => pure ()
  | some _ => do
      for_loop (free_fetchbuf env (oci_error_p env fuel) cid) c.n_columns 0
      set_connection cid (fun c => { c with fetch_buffers := none })

/-- What `OraclePLSQL` returns. -/
inductive PlsqlResult where
  | TCL_ERROR
  | NS_OK
  deriving DecidableEq, Repr

/-- The error exit of the bind loop of `OraclePLSQL`: `Ns_OracleFlush(dbh)`,
`free_fetch_buffers(connection)` and `return TCL_ERROR`. -/
def plsql_bind_error (env : Env) (fuel : Nat) (cid : Nat) : M (Option Nat) := do
  let _ ← Ns_OracleFlush env fuel
  free_fetch_buffers env fuel cid
  pure none

/-- The body of the bind loop of `OraclePLSQL` for the placeholder `var`
with index `i` (lines 356-476).  `ref` is the name of the ref cursor,
`refcursor_count` is the local variable of that name; the result is its new
value, or `none` when the body has returned `TCL_ERROR`.  The field
`external_type` is not kept: it is `SQLT_RSET` exactly in the descriptor of a
placeholder with the name `ref`. -/
def plsql_bind_variable (env : Env) (fuel : Nat) (MAX_DYNAMIC_BUFFER : Nat)
    (ref : List Char) (cid i : Nat) (var : List Char) (refcursor_count : Nat) :
    M (Option Nat) := do
  set_fetchbuf cid i (fun fb => { fb with type := -1 })
  let w ← get_world
  set_fetchbuf cid i (fun fb => { fb with name := some var })
  if (w.tcl_vars.lookup var).isNone ∧ strcmp_eq var ref = false then do
    Tcl_AppendResult (" bind variable :" ++ String.mk var ++ " does not exist. ")
    plsql_bind_error env fuel cid
  else if strcmp_eq var ref then
    if refcursor_count = 1 then do
      Tcl_SetResult "invalid plsql statement, you can only have a single ref cursors. "
      pure none
    else do
      set_fetchbuf cid i (fun fb => { fb with inout := .BIND_OUT, size := 0 })
      let r ← oci env (.OCIHandleAlloc .OCI_HTYPE_STMT)
      M.when (r.status = .OCI_SUCCESS ∨ r.status = .OCI_SUCCESS_WITH_INFO)
        (set_fetchbuf cid i (fun fb => { fb with stmt := true }))
      if (← oci_error_p env fuel true "OCIHandleAlloc" r.status) then do
        Tcl_SetResult_exception
        plsql_bind_error env fuel cid
      else do
      let r ← oci env (.OCIBindByName var 0 false)
      M.when (r.status = .OCI_SUCCESS ∨ r.status = .OCI_SUCCESS_WITH_INFO)
        (set_fetchbuf cid i (fun fb => { fb with bind := true }))
      if (← oci_error_p env fuel true "OCIBindByName" r.status) then do
        Tcl_SetResult_exception
        plsql_bind_error env fuel cid
      else if (← oci_error_p env fuel true "OCIBindByName" r.status) then do
        Tcl_SetResult_exception
        plsql_bind_error env fuel cid
      else pure (some 1)
  else do
    set_fetchbuf cid i (fun fb => { fb with is_null := 0 })
    let r ← oci env (.OCIBindByName var MAX_DYNAMIC_BUFFER true)
    M.when (r.status = .OCI_SUCCESS ∨ r.status = .OCI_SUCCESS_WITH_INFO)
      (set_fetchbuf cid i (fun fb => { fb with bind := true }))
    if (← oci_error_p env fuel true "OCIBindByName" r.status) then do
      Tcl_SetResult_exception
      plsql_bind_error env fuel cid
    else do
    let r ← oci env .OCIBindDynamic
    if (← oci_error_p env fuel true "OCIBindByName" r.status) then do
      Tcl_SetResult_exception
      plsql_bind_error env fuel cid
    else pure (some refcursor_count)

/-- The bind loop of `OraclePLSQL` (lines 356-476) from the placeholder with
index `i` on. -/
def plsql_bind_loop (env : Env) (fuel : Nat) (MAX_DYNAMIC_BUFFER : Nat) (ref : List Char)
    (cid : Nat) : List (List Char) → Nat → Nat → M (Option Nat)
  | [], _, refcursor_count => pure (some refcursor_count)
  | var :: vars, i, refcursor_count => do
      match (← plsql_bind_variable env fuel MAX_DYNAMIC_BUFFER ref cid i var
          refcursor_count) with
      | none => pure none
      | some count => plsql_bind_loop env fuel MAX_DYNAMIC_BUFFER ref cid vars (i + 1) count

/-- The loop of `OraclePLSQL` after the execute (lines 502-529), from the
placeholder with index `i` on: the values of the OUT placeholders are
written to the variables, and the statement of the ref cursor takes the
place of the statement of the connection.  The result tells whether the loop
has ended without `return TCL_ERROR`. -/
def plsql_return_loop (env : Env) (fuel : Nat) (ref : List Char) (cid : Nat) :
    List (List Char) → Nat → M Bool
  | [], _ => pure true
  | var :: vars, i => do
      let fb ← fetchbuf_at cid i
      let ok : Bool ←
        (if fb.inout = .BIND_OUT then
          if strcmp_eq var ref then do
            let r ← oci env (.OCIHandleFree .OCI_HTYPE_STMT)
            if (← tcl_error_p env fuel "OCIStmtExecute" r.status) then do
              let _ ← Ns_OracleFlush env fuel
              free_fetch_buffers env fuel cid
              pure false
            else do
              set_connection cid (fun c => { c with stmt := fb.stmt })
              pure true
          else
            match fb.buf with
            | none => M.fault
            | some buf => do
                modify_world (fun w => { w with tcl_vars := Ns_SetUpdate var buf w.tcl_vars })
                pure true
        else pure true)
      if ok then plsql_return_loop env fuel ref cid vars (i + 1) else pure false

/-- The function `OraclePLSQL` (lines 299-536).  `objv` holds the words of
the command: the command, the subcommand, the handle, the SQL text and, when
there is one, the name of the ref cursor.  `MAX_DYNAMIC_BUFFER` is a constant
of `nsoracle.h`. -/
def OraclePLSQL (env : Env) (fuel : Nat) (MAX_DYNAMIC_BUFFER : Nat)
    (objv : List (List Char)) : M PlsqlResult := do
  if objv.length < 4 then do
    Tcl_SetResult ("wrong # args: should be \"" ++ String.mk (objv.getD 0 []) ++ " "
      ++ String.mk (objv.getD 1 []) ++ " dbhandle sql ?ref?\"")
    pure .TCL_ERROR
  else do
  let w ← get_world
  match w.dbh.connection with
  | none => M.fault
  | some c0 => do
  set_connection c0.id (fun c => { c with interp := true })
  let query := objv.getD 3 []
  let r ← oci env (.OCIHandleAlloc .OCI_HTYPE_STMT)
  M.when (r.status = .OCI_SUCCESS ∨ r.status = .OCI_SUCCESS_WITH_INFO)
    (set_connection c0.id (fun c => { c with stmt := true }))
  if (← tcl_error_p env fuel "OCIHandleAlloc" r.status) then do
    let _ ← Ns_OracleFlush env fuel
    pure .TCL_ERROR
  else do
  let r ← oci env (.OCIStmtPrepare query)
  if (← tcl_error_p env fuel "OCIStmtPrepare" r.status) then do
    let _ ← Ns_OracleFlush env fuel
    pure .TCL_ERROR
  else
  match parse_bind_variables query with
  | .fault => M.fault
  | .timeout => M.timeout
  | .done bind_variables => do
  set_connection c0.id (fun c =>
    { c with n_columns := bind_variables.length,
             fetch_buffers := some (List.replicate bind_variables.length malloc_fetch_buffer) })
  let ref : List Char := if objv.length = 5 then objv.getD 4 [] else []
  match (← plsql_bind_loop env fuel MAX_DYNAMIC_BUFFER ref c0.id bind_variables 0 0) with
  | none => pure .TCL_ERROR
  | some _ => do
  let c ← connection_at c0.id
  let time := (← get_world).trace.length
  let r ← oci env (.OCIStmtExecute 1
    (if c.mode = .autocommit then .OCI_COMMIT_ON_SUCCESS else .OCI_DEFAULT))
  set_connection c0.id (fun c =>
    { c with fetch_buffers := c.fetch_buffers.map (env.callbacks time) })
  if (← oci_error_p env fuel true "OCIStmtExecute" r.status) then do
    let _ ← Ns_OracleFlush env fuel
    free_fetch_buffers env fuel c0.id
    pure .TCL_ERROR
  else do
  if (← plsql_return_loop env fuel ref c0.id bind_variables 0) then do
    free_fetch_buffers env fuel c0.id
    pure .NS_OK
  else pure .TCL_ERROR

/-- The words of `ns_ora plsql db "begin :c := f; :c := g; end;" c`. -/
def two_ref_cursors : List (List Char) :=
  ["ns_ora".toList, "plsql".toList, "db".toList, "begin :c := f; :c := g; end;".toList,
    "c".toList]

/-! ## Streaming a LOB (nsoracle.c, lines 4793-4961 and 5009-5230)

The file system is not part of the state.  A file that is read is given by
its bytes, and `read` hands out as many bytes as it is asked for while there
are some; what is written to a file or to the connection is the result of
the function, and a `write` is complete.  Lengths are natural numbers except
where the source subtracts below zero. -/

/-- The bytes that the calls of `OCILobWrite` in a list of calls hand to the
engine, in order. -/
def lob_written : List NativeCall → List Char
  | [] => []
  | .OCILobWrite _ data :: calls => data ++ lob_written calls
  | _ :: calls => lob_written calls

theorem scan_run_step (n : Nat) (s : Scanner) (c : Char) (cs : List Char)
    (hr : s.rest = c :: cs) (hc : c ≠ '\x00') :
    scan_run (n + 1) s
      = match switch_body c s with
        | none => .fault
        | some s1 => scan_run n (advance s1) := by
  unfold scan_run
  rw [scan_loop, hr]
  simp only [hc, if_false]
  cases switch_body c s <;> rfl

theorem scan_run_eq_scan_from (fuel : Nat) :
    ∀ s : Scanner, (s.state = .bind_state → s.before ≠ []) →
      2 * s.rest.length + (if s.state = .bind_state then 1 else 0) ≤ fuel →
      scan_run fuel s
        = scan_from s.state s.lastchar s.bindbuf s.current_string_length s.names s.rest := by
  induction fuel with
  | zero =>
    rintro ⟨before, rest, state, lastchar, bindbuf, csl, names⟩ _ hf
    cases rest with
    | nil => simp [scan_run, scan_loop, scan_from, scan_finish, finish_from]
    | cons c cs => simp at hf
  | succ n ih =>
    rintro ⟨before, rest, state, lastchar, bindbuf, csl, names⟩ hinv hf
    cases rest with
    | nil => simp [scan_run, scan_loop, scan_from, scan_finish, finish_from]
    | cons c cs =>
      by_cases hc : c = '\x00'
      · simp [scan_run, scan_loop, scan_from, scan_finish, finish_from, hc]
      · rw [scan_run_step n _ c cs rfl hc]
        simp only [List.length_cons] at hf
        cases state with
        | base_state =>
          simp only [scan_from, hc, if_false, switch_body, base_next]
          split_ifs <;> simp only [advance] <;>
            rw [ih _ (by simp) (by simp at hf ⊢; omega)]
        | instr_state =>
          simp only [scan_from, hc, if_false, switch_body]
          split_ifs <;> simp only [advance] <;>
            rw [ih _ (by simp) (by simp at hf ⊢; omega)]
        | bind_state =>
          cases before with
          | nil => simp at hinv
          | cons b bs =>
            simp only [scan_from, hc, if_false, switch_body]
            split_ifs <;> simp only [advance] <;>
              first
              | rfl
              | (rw [ih _ (by simp) (by simp at hf ⊢; omega)]
                 simp only [scan_from, hc, if_false])
              | rw [ih _ (by simp) (by simp at hf ⊢; omega)]

theorem parse_bind_variables_eq (input : List Char) :
    parse_bind_variables input = scan_from .base_state '\x00' [] 0 [] input := by
  unfold parse_bind_variables
  rw [scan_run_eq_scan_from _ _ (by simp [scan_init]) (by simp [scan_init])]
  rfl

theorem scan_from_irrel (cs : List Char) :
    ∀ (st : ScanState) (last last1 : Char) (buf buf1 : List Char) (csl csl1 : Nat)
      (names : List (List Char)),
      (st = .bind_state → buf = buf1) →
      (st = .instr_state → csl = csl1 ∧ last = last1) →
      scan_from st last buf csl names cs = scan_from st last1 buf1 csl1 names cs := by
  induction cs with
  | nil =>
    intro st last last1 buf buf1 csl csl1 names hb _
    cases st <;> simp_all [scan_from, finish_from]
  | cons c cs ih =>
    intro st last last1 buf buf1 csl csl1 names hb hi
    by_cases hc : c = '\x00'
    · cases st <;> simp_all [scan_from, finish_from]
    · cases st with
      | base_state =>
        simp only [scan_from, hc, if_false, base_next]
        split_ifs <;> apply ih <;> simp
      | instr_state =>
        obtain ⟨h1, h2⟩ := hi rfl
        subst h1 h2
        simp only [scan_from, hc, if_false]
        apply ih
        · intro h; split_ifs at h
        · simp
      | bind_state =>
        have := hb rfl
        subst this
        simp only [scan_from, hc, if_false, base_next]
        split_ifs <;> first | rfl | (apply ih <;> simp)

theorem scan_from_names (cs : List Char) :
    ∀ (st : ScanState) (last : Char) (buf : List Char) (csl : Nat) (names : List (List Char)),
      scan_from st last buf csl names cs
        = (scan_from st last buf csl [] cs).map (fun l => names ++ l) := by
  induction cs with
  | nil =>
    intro st last buf csl names
    cases st <;> simp [scan_from, finish_from, Outcome.map]; split_ifs <;> simp [Outcome.map]
  | cons c cs ih =>
    intro st last buf csl names
    by_cases hc : c = '\x00'
    · cases st <;> simp [scan_from, finish_from, Outcome.map, hc]; split_ifs <;>
        simp [Outcome.map]
    · cases st with
      | base_state =>
        simp only [scan_from, hc, if_false]
        exact ih _ _ _ _ _
      | instr_state =>
        simp only [scan_from, hc, if_false]
        exact ih _ _ _ _ _
      | bind_state =>
        simp only [scan_from, hc, if_false]
        split_ifs
        · exact ih _ _ _ _ _
        · rw [ih _ _ _ _ (names ++ [buf]), ih _ _ _ _ ([] ++ [buf])]
          cases scan_from (base_next c buf csl).1 c (base_next c buf csl).2.1
            (base_next c buf csl).2.2 [] cs <;> simp [Outcome.map]
        · rfl
        · exact ih _ _ _ _ _
        · rfl


/-! ## Steps of the scan -/

theorem is_bind_char_ne {c : Char} (h : is_bind_char c = true) :
    c ≠ '\x00' ∧ c ≠ '=' ∧ c ≠ ':' ∧ c ≠ '\'' ∧ c ≠ ' ' := by
  refine ⟨?_, ?_, ?_, ?_, ?_⟩ <;> (rintro rfl; revert h; decide)

theorem scan_from_base_char (c : Char) (cs : List Char) (last last1 : Char)
    (buf buf1 : List Char) (csl csl1 : Nat) (names : List (List Char))
    (h1 : c ≠ ':') (h2 : c ≠ '\'') (h3 : c ≠ '\x00') :
    scan_from .base_state last buf csl names (c :: cs)
      = scan_from .base_state last1 buf1 csl1 names cs := by
  simp only [scan_from, h3, if_false, base_next, h1, h2]
  exact scan_from_irrel cs _ _ _ _ _ _ _ _ (by simp) (by simp)

theorem scan_from_base_plain (t : List Char) (ht : plain_text t = true) (cs : List Char)
    (last last1 : Char) (buf buf1 : List Char) (csl csl1 : Nat) (names : List (List Char)) :
    scan_from .base_state last buf csl names (t ++ cs)
      = scan_from .base_state last1 buf1 csl1 names cs := by
  induction t generalizing last buf csl with
  | nil => exact scan_from_irrel cs _ _ _ _ _ _ _ _ (by simp) (by simp)
  | cons c t ih =>
    simp only [plain_text, List.all_cons, Bool.and_eq_true, bne_iff_ne, ne_eq] at ht
    obtain ⟨⟨⟨h1, h2⟩, h3⟩, ht⟩ := ht
    rw [List.cons_append, scan_from_base_char c _ last c buf buf csl csl names h1 h2 h3]
    exact ih ht _ _ _

theorem scan_from_base_colon (cs : List Char) (last last1 : Char) (buf : List Char)
    (csl csl1 : Nat) (names : List (List Char)) :
    scan_from .base_state last buf csl names (':' :: cs)
      = scan_from .bind_state last1 [] csl1 names cs := by
  simp only [scan_from, base_next]
  simp only [show ¬ (':' = '\x00') by decide, show ¬ (':' = '\'') by decide, if_false, if_true]
  exact scan_from_irrel cs _ _ _ _ _ _ _ _ (by simp) (by simp)

theorem scan_from_bind_name (n : List Char) (hn : bind_name n = true) (cs : List Char)
    (last last1 : Char) (buf : List Char) (csl csl1 : Nat) (names : List (List Char))
    (hlen : buf.length + n.length ≤ BINDBUF_SIZE) :
    scan_from .bind_state last buf csl names (n ++ cs)
      = scan_from .bind_state last1 (buf ++ n) csl1 names cs := by
  induction n generalizing last buf csl with
  | nil =>
    rw [List.append_nil]
    exact scan_from_irrel cs _ _ _ _ _ _ _ _ (by simp) (by simp)
  | cons c n ih =>
    simp only [bind_name, List.all_cons, Bool.and_eq_true] at hn
    obtain ⟨hc, hn⟩ := hn
    obtain ⟨h0, h1, -, -, -⟩ := is_bind_char_ne hc
    simp only [List.length_cons] at hlen
    have hlt : buf.length < BINDBUF_SIZE := by omega
    rw [List.cons_append]
    simp only [scan_from, h0, h1, hc, hlt, if_false, if_true, Bool.not_true, Bool.false_eq_true]
    rw [ih hn c (buf ++ [c]) csl (by simp; omega)]
    simp

theorem scan_from_bind_stop (c : Char) (cs : List Char) (last last1 : Char)
    (buf buf1 : List Char) (csl csl1 : Nat) (names : List (List Char))
    (hc : is_bind_char c = false) (h1 : c ≠ '=') (h0 : c ≠ '\x00')
    (hlen : buf.length < BINDBUF_SIZE) :
    scan_from .bind_state last buf csl names (c :: cs)
      = scan_from .base_state last1 buf1 csl1 (names ++ [buf]) (c :: cs) := by
  simp only [scan_from, h0, h1, hc, hlen, if_false, if_true, Bool.not_false, base_next]
  split_ifs <;> exact scan_from_irrel cs _ _ _ _ _ _ _ _ (by simp) (by simp)

theorem scan_from_bind_equals (cs : List Char) (last last1 : Char)
    (buf buf1 : List Char) (csl csl1 : Nat) (names : List (List Char)) :
    scan_from .bind_state last buf csl names ('=' :: cs)
      = scan_from .base_state last1 buf1 csl1 names cs := by
  simp only [scan_from]
  simp only [show ¬ ('=' = '\x00') by decide, if_false, if_true]
  exact scan_from_irrel cs _ _ _ _ _ _ _ _ (by simp) (by simp)

theorem scan_from_segments (segs : List (List Char × List Char)) :
    ∀ (last : Char) (buf : List Char) (csl : Nat) (names : List (List Char)),
      well_formed_segments segs = true →
      (∀ seg ∈ segs, seg.1.length < BINDBUF_SIZE) →
      scan_from .base_state last buf csl names (placeholder_text segs)
        = .done (names ++ segs.map Prod.fst) := by
  induction segs with
  | nil => intro last buf csl names _ _; simp [placeholder_text, scan_from, finish_from]
  | cons seg segs ih =>
    intro last buf csl names hwf hlen
    obtain ⟨n, t⟩ := seg
    have hn : n.length < BINDBUF_SIZE := hlen (n, t) (by simp)
    rw [placeholder_text, scan_from_base_colon _ last ':' buf csl 0]
    cases segs with
    | nil =>
      simp only [well_formed_segments, Bool.and_eq_true] at hwf
      obtain ⟨⟨⟨-, hbn⟩, hpt⟩, hss⟩ := hwf
      rw [scan_from_bind_name n hbn _ ':' ':' [] 0 0 names (by simp; omega)]
      simp only [placeholder_text, List.append_nil, List.nil_append]
      cases t with
      | nil => simp [scan_from, finish_from, hn]
      | cons c t =>
        simp only [separator_start, Bool.and_eq_true, Bool.not_eq_true', bne_iff_ne, ne_eq] at hss
        have hpt1 := hpt
        simp only [plain_text, List.all_cons, Bool.and_eq_true, bne_iff_ne, ne_eq] at hpt1
        rw [scan_from_bind_stop c t ':' ':' n n 0 0 names hss.1 hss.2 hpt1.1.2 hn]
        have := scan_from_base_plain (c :: t) hpt [] ':' ':' n n 0 0 (names ++ [n])
        rw [List.append_nil] at this
        rw [this]
        simp [scan_from, finish_from]
    | cons seg1 segs =>
      simp only [well_formed_segments, Bool.and_eq_true] at hwf
      obtain ⟨⟨⟨⟨⟨-, hbn⟩, hpt⟩, hss⟩, hne⟩, hrest⟩ := hwf
      rw [scan_from_bind_name n hbn _ ':' ':' [] 0 0 names (by simp; omega)]
      cases t with
      | nil => simp at hne
      | cons c t =>
        simp only [separator_start, Bool.and_eq_true, Bool.not_eq_true', bne_iff_ne, ne_eq] at hss
        have hpt1 := hpt
        simp only [plain_text, List.all_cons, Bool.and_eq_true, bne_iff_ne, ne_eq] at hpt1
        simp only [List.nil_append]
        rw [List.cons_append, scan_from_bind_stop c _ ':' ':' n n 0 0 names hss.1 hss.2 hpt1.1.2 hn]
        rw [← List.cons_append, scan_from_base_plain (c :: t) hpt _ ':' ':' n n 0 0 (names ++ [n])]
        rw [ih ':' n 0 (names ++ [n]) (by simpa [well_formed_segments] using hrest)
          (fun s hs => hlen s (List.mem_cons_of_mem _ hs))]
        simp

/-- Names shorter than `bindbuf` come back in source order, one element per
occurrence, a repeated name repeated and a name open at the end included. -/
theorem parse_bind_variables_source_order (t0 : List Char)
    (segs : List (List Char × List Char))
    (h0 : plain_text t0 = true) (hwf : well_formed_segments segs = true)
    (hlen : ∀ seg ∈ segs, seg.1.length < BINDBUF_SIZE) :
    parse_bind_variables (t0 ++ placeholder_text segs) = .done (segs.map Prod.fst) := by
  rw [parse_bind_variables_eq, scan_from_base_plain t0 h0 _ '\x00' '\x00' [] [] 0 0 [],
    scan_from_segments segs _ _ _ _ hwf hlen]
  simp


/-! ## Literals -/

theorem scan_from_literal_body (b : List Char) (hb : LiteralBody b) :
    ∀ (last : Char) (buf : List Char) (csl : Nat) (names : List (List Char)),
      (last ≠ '\'' ∨ csl = 0) →
      scan_from .instr_state last buf csl names (b ++ ['\'']) = .done names := by
  induction hb with
  | nil =>
    intro last buf csl names hg
    simp [scan_from, finish_from, hg]
  | char c b hc _ ih =>
    intro last buf csl names _
    by_cases h0 : c = '\x00'
    · simp [scan_from, finish_from, h0]
    · simp only [List.cons_append, scan_from, h0, hc, false_and, if_false]
      exact ih c buf _ names (Or.inl hc)
  | doubled b _ ih =>
    intro last buf csl names hg
    simp only [List.cons_append, scan_from, base_next, hg, and_self, if_true]
    simp only [show ¬ ('\'' = '\x00') by decide, if_false]
    exact ih _ _ _ _ (Or.inr rfl)

/-- C3: a single-quoted literal whose body is made of characters other than the
quote (`:` included) and of doubled quotes yields no placeholder. -/
theorem literal_yields_no_placeholder (b : List Char) (hb : LiteralBody b) :
    parse_bind_variables ('\'' :: (b ++ ['\''])) = .done [] := by
  rw [parse_bind_variables_eq]
  simp only [scan_from, base_next]
  simp only [show ¬ ('\'' = '\x00') by decide, if_false, if_true]
  exact scan_from_literal_body b hb _ _ _ _ (Or.inr rfl)

theorem literal_body_example :
    LiteralBody ['i', 't', '\'', '\'', 's', ' ', ':', 'n', 'o', 't', 'a', 'b', 'i', 'n', 'd'] :=
  .char 'i' _ (by decide) <| .char 't' _ (by decide) <| .doubled _ <|
  .char 's' _ (by decide) <| .char ' ' _ (by decide) <| .char ':' _ (by decide) <|
  .char 'n' _ (by decide) <| .char 'o' _ (by decide) <| .char 't' _ (by decide) <|
  .char 'a' _ (by decide) <| .char 'b' _ (by decide) <| .char 'i' _ (by decide) <|
  .char 'n' _ (by decide) <| .char 'd' _ (by decide) <| .nil

/-- C3, at the literal `'it''s :notabind'`. -/
theorem literal_yields_no_placeholder_witness :
    LiteralBody "it''s :notabind".toList ∧
      parse_bind_variables "'it''s :notabind'".toList = .done [] := by
  have e1 : "it''s :notabind".toList
      = ['i', 't', '\'', '\'', 's', ' ', ':', 'n', 'o', 't', 'a', 'b', 'i', 'n', 'd'] := by
    decide
  have e2 : "'it''s :notabind'".toList = '\'' ::
      (['i', 't', '\'', '\'', 's', ' ', ':', 'n', 'o', 't', 'a', 'b', 'i', 'n', 'd'] ++ ['\'']) := by
    decide
  rw [e1, e2]
  exact ⟨literal_body_example, literal_yields_no_placeholder _ literal_body_example⟩

/-! ## Termination and the capacity of `bindbuf` -/

theorem scan_from_ne_timeout (cs : List Char) :
    ∀ (st : ScanState) (last : Char) (buf : List Char) (csl : Nat) (names : List (List Char)),
      scan_from st last buf csl names cs ≠ .timeout := by
  induction cs with
  | nil =>
    intro st last buf csl names
    simp only [scan_from, finish_from]
    split_ifs <;> simp
  | cons c cs ih =>
    intro st last buf csl names
    cases st <;> simp only [scan_from, finish_from] <;> split_ifs <;>
      first | exact ih _ _ _ _ _ | simp

theorem parse_bind_variables_terminates (input : List Char) :
    parse_bind_variables input ≠ .timeout := by
  rw [parse_bind_variables_eq]
  exact scan_from_ne_timeout _ _ _ _ _ _


/-- C5: the scan of a name of 1023 characters returns it, and the scan of a name
of 1024 characters writes the terminating NUL to `bindbuf[1024]`, one element
past the end of the array. -/
theorem parse_bind_variables_overflow :
    parse_bind_variables (':' :: List.replicate 1023 'a') = .done [List.replicate 1023 'a'] ∧
      parse_bind_variables (':' :: List.replicate 1024 'a') = .fault := by
  constructor <;> decide!

/-- C1: a text of the claimed form, `:` followed by a name of 1024 characters and
a blank, is not scanned to the list of its names: the scan leaves `bindbuf`. -/
theorem source_order_fails_on_long_name :
    plain_text [] = true ∧
      well_formed_segments [(List.replicate 1024 'n', [' '])] = true ∧
      parse_bind_variables ([] ++ placeholder_text [(List.replicate 1024 'n', [' '])])
        = .fault := by
  refine ⟨?_, ?_, ?_⟩ <;> decide!

/-- The source-order theorem at a text with a repeated name and a name open at
the end of the input. -/
theorem parse_bind_variables_source_order_example :
    parse_bind_variables "update t set a = :v, b = :v where id = :id".toList
      = .done ["v".toList, "v".toList, "id".toList] := by
  have e : "update t set a = :v, b = :v where id = :id".toList
      = "update t set a = ".toList ++ placeholder_text
          [("v".toList, ", b = ".toList), ("v".toList, " where id = ".toList),
           ("id".toList, [])] := by
    decide
  rw [e]
  exact parse_bind_variables_source_order _ _ (by decide) (by decide) (by decide)

/-! ## A name followed by `=` -/

/-- C4, as stated, fails: the scan of `:a=` returns no name at all, while the scan
of `:a ` returns `a`. -/
theorem name_before_equals_counterexample :
    parse_bind_variables ":a=".toList = .done [] ∧
      parse_bind_variables ":a ".toList = .done ["a".toList] := by
  constructor <;> decide!

/-- C4, amended: a name followed by `=` is dropped, the scan of `:n=r` returns
what the scan of `r` returns, whereas the scan of `:n r` returns `n` followed
by what the scan of `r` returns (names shorter than `bindbuf`). -/
theorem name_before_equals_dropped (n r : List Char) (hn : bind_name n = true)
    (hlen : n.length < BINDBUF_SIZE) :
    parse_bind_variables (':' :: (n ++ '=' :: r)) = parse_bind_variables r ∧
    parse_bind_variables (':' :: (n ++ ' ' :: r))
      = (parse_bind_variables r).map (fun l => n :: l) := by
  simp only [parse_bind_variables_eq]
  constructor
  · rw [scan_from_base_colon _ _ ':' _ _ 0,
      scan_from_bind_name n hn _ ':' ':' [] 0 0 [] (by simp; omega),
      scan_from_bind_equals _ _ '\x00' _ [] _ 0]
  · rw [scan_from_base_colon _ _ ':' _ _ 0,
      scan_from_bind_name n hn _ ':' ':' [] 0 0 [] (by simp; omega),
      scan_from_bind_stop ' ' r ':' ':' _ [] 0 0 [] (by decide) (by decide) (by decide)
        (by simpa using hlen),
      scan_from_base_char ' ' r ':' '\x00' [] [] 0 0 _ (by decide) (by decide) (by decide),
      scan_from_names]
    simp

/-- C4, amended, at the name `p_id` before ` => :v`. -/
theorem name_before_equals_dropped_witness :
    bind_name "p_id".toList = true ∧ "p_id".toList.length < BINDBUF_SIZE ∧
    parse_bind_variables (':' :: ("p_id".toList ++ '=' :: "> :v".toList))
      = parse_bind_variables "> :v".toList ∧
    parse_bind_variables (':' :: ("p_id".toList ++ ' ' :: "> :v".toList))
      = (parse_bind_variables "> :v".toList).map (fun l => "p_id".toList :: l) :=
  ⟨by decide, by decide,
    name_before_equals_dropped "p_id".toList "> :v".toList (by decide) (by decide)⟩

/-! ## The number of placeholders -/

theorem open_placeholder_count_after_quote (cs : List Char) :
    open_placeholder_count .after_quote cs = open_placeholder_count .outside cs := by
  cases cs with
  | nil => simp [open_placeholder_count]
  | cons d cs1 => simp only [open_placeholder_count]

theorem open_placeholder_count_quote (cs : List Char) :
    open_placeholder_count .inside ('\'' :: cs) = open_placeholder_count .outside cs := by
  simp only [open_placeholder_count, show ¬ ('\'' = '\x00') by decide, if_false, if_true]
  exact open_placeholder_count_after_quote cs

theorem base_next_count (c : Char) (cs buf : List Char) (csl : Nat) (h0 : c ≠ '\x00') :
    pending_count (base_next c buf csl).1 cs = open_placeholder_count .outside (c :: cs) := by
  simp only [base_next, open_placeholder_count, h0, if_false]
  split_ifs <;> simp_all [pending_count]

theorem base_next_guard (c : Char) (buf : List Char) (csl : Nat) :
    (base_next c buf csl).1 = .instr_state → c ≠ '\'' ∨ (base_next c buf csl).2.2 = 0 := by
  simp only [base_next]
  split_ifs <;> simp

theorem name_then_equals_cons (c : Char) (cs : List Char) (h : is_bind_char c = true) :
    name_then_equals (c :: cs) = name_then_equals cs := by
  simp [name_then_equals, h]

theorem name_then_equals_stop (c : Char) (cs : List Char) (h : is_bind_char c = false)
    (h1 : c ≠ '=') : name_then_equals (c :: cs) = false := by
  simp [name_then_equals, h, h1]

theorem scan_from_count (cs : List Char) :
    ∀ (st : ScanState) (last : Char) (buf : List Char) (csl : Nat) (names : List (List Char)),
      (st = .instr_state → last ≠ '\'' ∨ csl = 0) →
      scan_from st last buf csl names cs ≠ .fault →
      ∃ l, scan_from st last buf csl names cs = .done l ∧
        l.length = names.length + pending_count st cs := by
  induction cs with
  | nil =>
    intro st last buf csl names _ hnf
    cases st
    · simp [scan_from, finish_from, pending_count, open_placeholder_count]
    · simp [scan_from, finish_from, pending_count, open_placeholder_count]
    · by_cases hlt : buf.length < BINDBUF_SIZE
      · simp [scan_from, finish_from, pending_count, open_placeholder_count,
          name_then_equals, hlt]
      · simp [scan_from, finish_from, hlt] at hnf
  | cons c cs ih =>
    intro st last buf csl names hg hnf
    by_cases h0 : c = '\x00'
    · subst h0
      cases st
      · simp [scan_from, finish_from, pending_count, open_placeholder_count]
      · simp [scan_from, finish_from, pending_count, open_placeholder_count]
      · by_cases hlt : buf.length < BINDBUF_SIZE
        · have hz : is_bind_char '\x00' = false := by decide
          simp [scan_from, finish_from, pending_count, open_placeholder_count,
            name_then_equals, hlt, hz]
        · simp [scan_from, finish_from, hlt] at hnf
    · cases st with
      | base_state =>
        simp only [scan_from, h0, if_false] at hnf ⊢
        obtain ⟨l, hl, hlen⟩ := ih _ _ _ _ _ (base_next_guard c buf csl) hnf
        exact ⟨l, hl, by rw [hlen, base_next_count c cs buf csl h0]; rfl⟩
      | instr_state =>
        simp only [scan_from, h0, if_false] at hnf ⊢
        have hg := hg rfl
        by_cases h1 : c = '\''
        · subst h1
          simp only [hg, and_self, if_true] at hnf ⊢
          simp only [pending_count, open_placeholder_count_quote]
          exact ih _ _ _ _ _ (by simp) hnf
        · simp only [h1, false_and, if_false] at hnf ⊢
          simp only [pending_count, open_placeholder_count, h0, h1, if_false]
          exact ih _ _ _ _ _ (fun _ => Or.inl h1) hnf
      | bind_state =>
        simp only [scan_from, h0, if_false] at hnf ⊢
        by_cases h1 : c = '='
        · subst h1
          simp only [if_true] at hnf ⊢
          obtain ⟨l, hl, hlen⟩ := ih _ _ _ _ _ (by simp) hnf
          refine ⟨l, hl, ?_⟩
          have hz : is_bind_char '=' = false := by decide
          simp [hlen, pending_count, open_placeholder_count, name_then_equals, hz]
        · simp only [h1, if_false] at hnf ⊢
          by_cases hlt : buf.length < BINDBUF_SIZE
          · simp only [hlt, if_true] at hnf ⊢
            by_cases h2 : is_bind_char c = true
            · simp only [h2, Bool.not_true, Bool.false_eq_true, if_false] at hnf ⊢
              obtain ⟨-, -, h3, h4, -⟩ := is_bind_char_ne h2
              obtain ⟨l, hl, hlen⟩ := ih _ _ _ _ _ (by simp) hnf
              refine ⟨l, hl, ?_⟩
              simp [hlen, pending_count, open_placeholder_count, name_then_equals_cons c cs h2,
                h0, h3, h4]
            · simp only [h2, Bool.not_false, if_true] at hnf ⊢
              simp only [Bool.not_eq_true] at h2
              obtain ⟨l, hl, hlen⟩ := ih _ _ _ _ _ (base_next_guard c buf csl) hnf
              refine ⟨l, hl, ?_⟩
              rw [hlen, base_next_count c cs buf csl h0]
              simp only [pending_count, name_then_equals_stop c cs h2 h1, List.length_append,
                List.length_singleton]
              simp only [Bool.false_eq_true, if_false]
              omega
          · simp [hlt] at hnf


/-- C2, as stated, fails: `:a=1` holds one `:name` outside quotes and the scan
returns no placeholder. -/
theorem placeholder_count_counterexample :
    spec_placeholder_count .outside ":a=1".toList = 1 ∧
      parse_bind_variables ":a=1".toList = .done [] := by
  constructor <;> decide!

/-- C2, amended: whenever the scan stays inside `bindbuf`, the number of
placeholders returned is the number of `:` outside single-quoted regions whose
name, possibly empty, is not followed by `=`. -/
theorem placeholder_count_eq_open_count (input : List Char)
    (h : parse_bind_variables input ≠ .fault) :
    ∃ l, parse_bind_variables input = .done l ∧
      l.length = open_placeholder_count .outside input := by
  rw [parse_bind_variables_eq] at h ⊢
  obtain ⟨l, hl, hlen⟩ := scan_from_count input _ _ _ _ _ (by simp) h
  exact ⟨l, hl, by simpa [pending_count] using hlen⟩

/-- C2, at the text of the spec: the scan returns exactly `x` and `2`, in that
order, and two is the count. -/
theorem placeholder_count_eq_open_count_witness :
    parse_bind_variables
        "select * from t where a = :x and b = 'lit:not_a_bind' and c = :2".toList
      = .done ["x".toList, "2".toList] ∧
    parse_bind_variables
        "select * from t where a = :x and b = 'lit:not_a_bind' and c = :2".toList ≠ .fault ∧
    ∃ l, parse_bind_variables
        "select * from t where a = :x and b = 'lit:not_a_bind' and c = :2".toList = .done l ∧
      l.length = open_placeholder_count .outside
        "select * from t where a = :x and b = 'lit:not_a_bind' and c = :2".toList :=
  ⟨by decide!, by decide!, placeholder_count_eq_open_count _ (by decide!)⟩

/-! ## Piecewise OUT binds -/

theorem DynamicBindOut_buf_size_le (E iter : Nat) (piece : Piece) (fb : fetch_buffer_t) :
    fb.buf_size ≤ (DynamicBindOut E iter piece fb).2.buf_size := by
  unfold DynamicBindOut
  cases piece <;> simp only <;> split_ifs <;> simp

theorem DynamicBindOut_next_fetch_length (E : Nat) (fb : fetch_buffer_t) :
    (DynamicBindOut E 0 .OCI_NEXT_PIECE fb).2.fetch_length
      = (fb.fetch_length + fb.piecewise_fetch_length) % 65536 := by
  unfold DynamicBindOut
  simp only [ne_eq, not_true_eq_false, if_false]
  split_ifs <;> rfl

theorem DynamicBindOut_first_fetch_length (E : Nat) (fb : fetch_buffer_t) :
    (DynamicBindOut E 0 .OCI_FIRST_PIECE fb).2.fetch_length = 0 := by
  unfold DynamicBindOut
  simp only [ne_eq, not_true_eq_false, if_false]
  split_ifs <;> rfl

theorem piecewise_out_calls_chain (E : Nat) (lens : List Nat) :
    ∀ (piece : Piece) (fb0 fb : fetch_buffer_t), fb0.buf_size ≤ fb.buf_size →
      List.Chain (fun a b => a.buf_size ≤ b.buf_size) fb0
        (piecewise_out_calls E piece fb lens) := by
  induction lens with
  | nil => intro piece fb0 fb _; exact List.Chain.nil
  | cons len lens ih =>
    intro piece fb0 fb h
    rw [piecewise_out_calls]
    exact List.Chain.cons (le_trans h (DynamicBindOut_buf_size_le E 0 piece fb))
      (ih .OCI_NEXT_PIECE _ _ (le_refl _))

theorem piecewise_out_calls_length (E : Nat) (lens : List Nat) :
    ∀ (piece : Piece) (fb : fetch_buffer_t),
      (piecewise_out_calls E piece fb lens).length = lens.length := by
  induction lens with
  | nil => intro piece fb; rfl
  | cons len lens ih => intro piece fb; simp [piecewise_out_calls, ih]

theorem piecewise_out_calls_next_offset (E : Nat) (lens : List Nat) :
    ∀ (fb : fetch_buffer_t) (k : Nat), k < lens.length →
      ((piecewise_out_calls E .OCI_NEXT_PIECE fb lens)[k]?).map (fun d => d.fetch_length)
        = some ((fb.fetch_length + fb.piecewise_fetch_length + (lens.take k).sum) % 65536) := by
  induction lens with
  | nil => intro fb k hk; simp at hk
  | cons len lens ih =>
    intro fb k hk
    rw [piecewise_out_calls]
    cases k with
    | zero => simp [DynamicBindOut_next_fetch_length]
    | succ k =>
      simp only [List.length_cons, Nat.add_lt_add_iff_right] at hk
      simp only [List.getElem?_cons_succ, List.take_succ_cons, List.sum_cons]
      rw [ih _ k hk]
      simp only [piece_stored, DynamicBindOut_next_fetch_length, Option.some.injEq]
      omega

theorem piecewise_out_calls_offset (E : Nat) (fb : fetch_buffer_t) (lens : List Nat) (k : Nat)
    (hk : k < lens.length) :
    ((piecewise_out_calls E .OCI_FIRST_PIECE fb lens)[k]?).map (fun d => d.fetch_length)
      = some ((lens.take k).sum % 65536) := by
  cases lens with
  | nil => simp at hk
  | cons len lens =>
      rw [piecewise_out_calls]
      cases k with
      | zero => simp [DynamicBindOut_first_fetch_length]
      | succ k =>
        simp only [List.length_cons, Nat.add_lt_add_iff_right] at hk
        simp only [List.getElem?_cons_succ, List.take_succ_cons, List.sum_cons]
        rw [piecewise_out_calls_next_offset E lens _ k hk]
        simp [piece_stored, DynamicBindOut_first_fetch_length]

/-- C6: in a piecewise OUT bind the buffer size never decreases from the
descriptor handed in through the successive calls and there is one call per
piece, but the window of a call does not always start at the sum of the
lengths of the pieces before it.  The offset `fetch_length` has 16 bits: the
window of the call for piece `k` starts at that sum modulo 65536, which is
the sum as long as the earlier pieces have less than 65536 bytes together.
With an increment of 4096 bytes and 17 pieces of 4096 bytes, each of which
fits its window, the window of the last call starts at the offset 0 and has
all the 65536 bytes of the buffer, over the 16 pieces stored before. -/
theorem piecewise_out_offset_wraps (E : Nat) (fb : fetch_buffer_t) (lens : List Nat) :
    List.Chain (fun a b => a.buf_size ≤ b.buf_size) fb
        (piecewise_out_calls E .OCI_FIRST_PIECE fb lens) ∧
      (piecewise_out_calls E .OCI_FIRST_PIECE fb lens).length = lens.length ∧
      (∀ k, k < lens.length →
        ((piecewise_out_calls E .OCI_FIRST_PIECE fb lens)[k]?).map (fun d => d.fetch_length)
          = some ((lens.take k).sum % 65536)) ∧
      (∀ k, k < lens.length → (lens.take k).sum < 65536 →
        ((piecewise_out_calls E .OCI_FIRST_PIECE fb lens)[k]?).map (fun d => d.fetch_length)
          = some ((lens.take k).sum)) ∧
      pieces_fit 4096 .OCI_FIRST_PIECE malloc_fetch_buffer (List.replicate 17 4096) ∧
      ((List.replicate 17 4096).take 16).sum = 65536 ∧
      ((piecewise_out_calls 4096 .OCI_FIRST_PIECE malloc_fetch_buffer
          (List.replicate 17 4096))[16]?).map
        (fun d => (d.fetch_length, d.piecewise_fetch_length, d.buf_size))
        = some (0, 65536, 65536) := by
  refine ⟨piecewise_out_calls_chain E lens _ fb fb (le_refl _),
    piecewise_out_calls_length E lens _ fb,
    fun k hk => piecewise_out_calls_offset E fb lens k hk, fun k hk hlt => ?_, ?_, ?_, ?_⟩
  · rw [piecewise_out_calls_offset E fb lens k hk, Nat.mod_eq_of_lt hlt]
  · simp only [List.replicate, pieces_fit]
    decide
  · decide
  · decide

theorem piecewise_out_final_next (E : Nat) (lens : List Nat) :
    ∀ (fb : fetch_buffer_t), lens ≠ [] →
      (piecewise_out_final E .OCI_NEXT_PIECE fb lens).fetch_length
          = (fb.fetch_length + fb.piecewise_fetch_length + lens.dropLast.sum) % 65536 ∧
        (piecewise_out_final E .OCI_NEXT_PIECE fb lens).piecewise_fetch_length
          = lens.getLast?.getD 0 := by
  induction lens with
  | nil => intro fb h; exact absurd rfl h
  | cons len lens ih =>
    intro fb _
    rw [piecewise_out_final]
    cases lens with
    | nil =>
      simp [piecewise_out_final, piece_stored, DynamicBindOut_next_fetch_length]
    | cons len2 lens =>
      obtain ⟨h1, h2⟩ := ih (piece_stored len (DynamicBindOut E 0 .OCI_NEXT_PIECE fb).2) (by simp)
      rw [h1, h2]
      simp only [piece_stored, DynamicBindOut_next_fetch_length, List.dropLast_cons₂,
        List.sum_cons, List.getLast?_cons_cons, and_true]
      omega

theorem sum_dropLast_add_getLast (l : List Nat) :
    l.dropLast.sum + l.getLast?.getD 0 = l.sum := by
  induction l with
  | nil => rfl
  | cons a l ih =>
    cases l with
    | nil => simp
    | cons b l =>
      simp only [List.dropLast_cons₂, List.sum_cons, List.getLast?_cons_cons] at ih ⊢
      omega

/-- C7, as stated, fails: after the pieces of 3 and 2 bytes, `fetch_length` is 3
and not 5. -/
theorem final_length_counterexample :
    (piecewise_out_final 4096 .OCI_FIRST_PIECE malloc_fetch_buffer [3, 2]).fetch_length = 3 ∧
      [3, 2].sum = 5 := by
  decide

/-- C7, amended: when the pieces before the last have less than 65536 bytes
together, which the 16 bits of `fetch_length` can hold, then after the last
piece `fetch_length` is the sum of the lengths of the pieces before the last,
and the length of the last piece is in `piecewise_fetch_length`, so the two
add up to the sum of all pieces. -/
theorem final_length_excludes_last_piece (E : Nat) (fb : fetch_buffer_t) (lens : List Nat)
    (h : lens ≠ []) (hsum : lens.dropLast.sum < 65536) :
    (piecewise_out_final E .OCI_FIRST_PIECE fb lens).fetch_length = lens.dropLast.sum ∧
      (piecewise_out_final E .OCI_FIRST_PIECE fb lens).fetch_length
        + (piecewise_out_final E .OCI_FIRST_PIECE fb lens).piecewise_fetch_length = lens.sum := by
  cases lens with
  | nil => exact absurd rfl h
  | cons len lens =>
    rw [piecewise_out_final]
    cases lens with
    | nil => simp [piecewise_out_final, piece_stored, DynamicBindOut_first_fetch_length]
    | cons len2 lens =>
      obtain ⟨h1, h2⟩ := piecewise_out_final_next E (len2 :: lens)
        (piece_stored len (DynamicBindOut E 0 .OCI_FIRST_PIECE fb).2) (by simp)
      rw [h1, h2]
      have := sum_dropLast_add_getLast (len2 :: lens)
      simp only [piece_stored, DynamicBindOut_first_fetch_length, List.dropLast_cons₂,
        List.sum_cons] at this hsum ⊢
      rw [Nat.mod_eq_of_lt (by omega)]
      omega

/-- C7, amended, at the pieces of 3 and 2 bytes. -/
theorem final_length_excludes_last_piece_witness :
    ([3, 2] : List Nat) ≠ [] ∧ ([3, 2] : List Nat).dropLast.sum < 65536 ∧
    (piecewise_out_final 4096 .OCI_FIRST_PIECE malloc_fetch_buffer [3, 2]).fetch_length
      = [3, 2].dropLast.sum ∧
    (piecewise_out_final 4096 .OCI_FIRST_PIECE malloc_fetch_buffer [3, 2]).fetch_length
      + (piecewise_out_final 4096 .OCI_FIRST_PIECE malloc_fetch_buffer [3, 2]).piecewise_fetch_length
      = [3, 2].sum :=
  ⟨by decide, by decide,
    final_length_excludes_last_piece 4096 malloc_fetch_buffer [3, 2] (by decide) (by decide)⟩

/-! ## Rules for driver code -/

theorem bind_apply {α β : Type} (m : M α) (f : α → M β) (w : World) :
    (m >>= f) w = match m w with
      | .done (a, w1) => f a w1
      | .fault => .fault
      | .timeout => .timeout := rfl

theorem pure_apply {α : Type} (a : α) (w : World) : (pure a : M α) w = .done (a, w) := rfl

theorem triple_bind {α β : Type} {P : World → Prop} {Q : α → World → Prop}
    {R : β → World → Prop} {m : M α} {f : α → M β}
    (h1 : Triple P m Q) (h2 : ∀ a, Triple (Q a) (f a) R) : Triple P (m >>= f) R := by
  intro w hw b w2 h
  rw [bind_apply] at h
  cases hm : m w with
  | done p =>
    obtain ⟨a, w1⟩ := p
    rw [hm] at h
    exact h2 a w1 (h1 w hw a w1 hm) b w2 h
  | fault => rw [hm] at h; cases h
  | timeout => rw [hm] at h; cases h

theorem triple_pure {α : Type} {P : World → Prop} {Q : α → World → Prop} {a : α}
    (h : ∀ w, P w → Q a w) : Triple P (pure a : M α) Q := by
  intro w hw b w1 hb
  rw [pure_apply] at hb
  cases hb
  exact h w hw

theorem triple_weaken {α : Type} {P S : World → Prop} {Q T : α → World → Prop} {m : M α}
    (h : Triple S m T) (hp : ∀ w, P w → S w) (hq : ∀ a w, T a w → Q a w) :
    Triple P m Q :=
  fun w hw a w1 hm => hq a w1 (h w (hp w hw) a w1 hm)

theorem triple_ite {α : Type} {P : World → Prop} {Q : α → World → Prop} {c : Prop}
    [Decidable c] {m1 m2 : M α} (h1 : c → Triple P m1 Q) (h2 : ¬c → Triple P m2 Q) :
    Triple P (if c then m1 else m2) Q := by
  split
  · exact h1 ‹_›
  · exact h2 ‹_›

theorem triple_fault {α : Type} {P : World → Prop} {Q : α → World → Prop} :
    Triple P (M.fault : M α) Q := by
  intro w _ a w1 h; cases h

theorem triple_timeout {α : Type} {P : World → Prop} {Q : α → World → Prop} :
    Triple P (M.timeout : M α) Q := by
  intro w _ a w1 h; cases h

theorem triple_get_world {P : World → Prop} :
    Triple P get_world (fun a w => P w ∧ a = w) := by
  intro w hw a w1 h
  cases h
  exact ⟨hw, rfl⟩

theorem triple_modify_world {P : World → Prop} {Q : Unit → World → Prop} {f : World → World}
    (h : ∀ w, P w → Q () (f w)) : Triple P (modify_world f) Q := by
  intro w hw a w1 hm
  cases hm
  exact h w hw

theorem triple_oci {P : World → Prop} {Q : Reply → World → Prop} {env : Env} {c : NativeCall}
    (h : ∀ w, P w → Q (env.engine w.trace.length c) { w with trace := w.trace ++ [c] }) :
    Triple P (oci env c) Q := by
  intro w hw a w1 hm
  cases hm
  exact h w hw

theorem triple_connection_at {P : World → Prop} {cid : Nat} :
    Triple P (connection_at cid)
      (fun c w => P w ∧ w.dbh.connection = some c ∧ c.id = cid) := by
  intro w hw a w1 hm
  unfold connection_at at hm
  split at hm
  · split at hm
    · cases hm; exact ⟨hw, ‹_›, ‹_›⟩
    · cases hm
  · cases hm

theorem triple_set_connection {P : World → Prop} {Q : Unit → World → Prop} {cid : Nat}
    {f : ora_connection_t → ora_connection_t}
    (h : ∀ w c, P w → w.dbh.connection = some c → c.id = cid →
      Q () { w with dbh := { w.dbh with connection := some (f c) } }) :
    Triple P (set_connection cid f) Q := by
  intro w hw a w1 hm
  unfold set_connection at hm
  split at hm
  · split at hm
    · cases hm; exact h w _ hw ‹_› ‹_›
    · cases hm
  · cases hm

/-! ## Operations that keep a frame invariant -/

theorem preserves_pure {α : Type} {I : World → Prop} (a : α) : Preserves I (pure a : M α) :=
  triple_pure (fun _ h => h)

theorem preserves_bind {α β : Type} {I : World → Prop} {m : M α} {f : α → M β}
    (h1 : Preserves I m) (h2 : ∀ a, Preserves I (f a)) : Preserves I (m >>= f) :=
  triple_bind h1 h2

theorem preserves_ite {α : Type} {I : World → Prop} {c : Prop} [Decidable c] {m1 m2 : M α}
    (h1 : Preserves I m1) (h2 : Preserves I m2) : Preserves I (if c then m1 else m2) :=
  triple_ite (fun _ => h1) (fun _ => h2)

theorem preserves_when {I : World → Prop} {c : Prop} [Decidable c] {m : M Unit}
    (h : Preserves I m) : Preserves I (M.when c m) := by
  unfold M.when
  exact preserves_ite h (preserves_pure _)

theorem preserves_get_world {I : World → Prop} : Preserves I get_world :=
  triple_weaken triple_get_world (fun _ h => h) (fun _ _ h => h.1)

theorem preserves_fault {α : Type} {I : World → Prop} : Preserves I (M.fault : M α) :=
  triple_fault

theorem preserves_timeout {α : Type} {I : World → Prop} : Preserves I (M.timeout : M α) :=
  triple_timeout

theorem preserves_oci {I : World → Prop} (hI : FrameInv I) (env : Env) (c : NativeCall)
    (hc : is_execute c = false) : Preserves I (oci env c) :=
  triple_oci (fun w hw => hI.call w c hw hc)

theorem preserves_connection_at {I : World → Prop} (cid : Nat) :
    Preserves I (connection_at cid) :=
  triple_weaken triple_connection_at (fun _ h => h) (fun _ _ h => h.1)

theorem preserves_set_connection {I : World → Prop} (hI : FrameInv I) (cid : Nat)
    (f : ora_connection_t → ora_connection_t)
    (hf : ∀ c, (f c).mode = c.mode ∧ (f c).id = c.id) :
    Preserves I (set_connection cid f) :=
  triple_set_connection (fun w c hw hc _ => hI.conn w c (f c) hw hc (hf c).1 (hf c).2)

theorem preserves_fetchbuf_at {I : World → Prop} (cid i : Nat) :
    Preserves I (fetchbuf_at cid i) := by
  unfold fetchbuf_at
  refine preserves_bind (preserves_connection_at cid) (fun c => ?_)
  split
  · exact preserves_fault
  · split
    · exact preserves_fault
    · exact preserves_pure _

theorem preserves_set_fetchbuf {I : World → Prop} (hI : FrameInv I) (cid i : Nat)
    (f : fetch_buffer_t → fetch_buffer_t) : Preserves I (set_fetchbuf cid i f) := by
  unfold set_fetchbuf
  refine preserves_bind (preserves_fetchbuf_at cid i) (fun fb => ?_)
  exact preserves_set_connection hI cid _ (fun c => ⟨rfl, rfl⟩)

theorem preserves_for_loop {I : World → Prop} (body : Nat → M Unit)
    (h : ∀ i, Preserves I (body i)) : ∀ n i, Preserves I (for_loop body n i) := by
  intro n
  induction n with
  | zero => intro i; exact preserves_pure _
  | succ n ih => intro i; exact preserves_bind (h i) (fun _ => ih (i + 1))

theorem preserves_Ns_DbSetException {I : World → Prop} (hI : FrameInv I) (code msg : String) :
    Preserves I (Ns_DbSetException code msg) :=
  triple_modify_world (fun w hw => hI.exception w code msg hw)

theorem preserves_oci_error_p_with {I : World → Prop} (hI : FrameInv I) (env : Env)
    (flush close : M Ns_ReturnCode) (hf : Preserves I flush) (hc : Preserves I close)
    (dbh : Bool) (ocifn : String) (st : oci_status_t) :
    Preserves I (oci_error_p_with env flush close dbh ocifn st) := by
  unfold oci_error_p_with
  refine preserves_bind preserves_get_world (fun w => ?_)
  refine preserves_ite (preserves_pure _) (preserves_ite (preserves_pure _) ?_)
  refine preserves_bind ?_ (fun code => preserves_bind ?_ (fun _ => preserves_pure _))
  · refine preserves_ite ?_ (preserves_pure _)
    split
    · exact preserves_pure _
    · refine preserves_bind (preserves_oci hI env _ rfl) (fun r1 => ?_)
      refine preserves_bind (preserves_oci hI env _ rfl) (fun _ => ?_)
      refine preserves_ite ?_ (preserves_ite ?_ (preserves_pure _))
      · exact preserves_bind hf (fun _ => preserves_bind hc (fun _ => preserves_pure _))
      · exact preserves_bind hc (fun _ => preserves_pure _)
  · exact preserves_when (preserves_Ns_DbSetException hI _ _)

theorem preserves_flush_fetchbuf {I : World → Prop} (hI : FrameInv I) (env : Env)
    (err : Bool → String → oci_status_t → M Bool)
    (he : ∀ d f st, Preserves I (err d f st)) (cid i : Nat) :
    Preserves I (flush_fetchbuf env err cid i) := by
  unfold flush_fetchbuf
  refine preserves_bind (preserves_fetchbuf_at cid i) (fun fb => ?_)
  refine preserves_bind (preserves_when ?_) (fun _ => ?_)
  · refine preserves_bind (preserves_oci hI env _ rfl) (fun r => ?_)
    exact preserves_bind (he _ _ _) (fun _ => preserves_set_fetchbuf hI cid i _)
  refine preserves_bind (preserves_set_fetchbuf hI cid i _) (fun _ => ?_)
  refine preserves_bind (preserves_fetchbuf_at cid i) (fun fb1 => ?_)
  refine preserves_when ?_
  refine preserves_bind (preserves_for_loop _ (fun _ => ?_) _ _)
    (fun _ => preserves_set_fetchbuf hI cid i _)
  refine preserves_bind (preserves_oci hI env _ rfl) (fun r => ?_)
  refine preserves_bind (he _ _ _) (fun _ => ?_)
  exact preserves_bind (preserves_fetchbuf_at cid i) (fun _ => preserves_pure _)

theorem preserves_Ns_OracleFlush_with {I : World → Prop} (hI : FrameInv I) (env : Env)
    (err : Bool → String → oci_status_t → M Bool)
    (he : ∀ d f st, Preserves I (err d f st)) :
    Preserves I (Ns_OracleFlush_with env err) := by
  unfold Ns_OracleFlush_with
  refine preserves_bind preserves_get_world (fun w => ?_)
  split
  · exact preserves_pure _
  · refine preserves_bind ?_ (fun freed => ?_)
    · refine preserves_ite ?_ (preserves_pure _)
      refine preserves_bind (preserves_oci hI env _ rfl) (fun r => ?_)
      refine preserves_bind (he _ _ _) (fun b => ?_)
      refine preserves_ite (preserves_pure _) ?_
      exact preserves_bind (preserves_set_connection hI _ _ (fun c => ⟨rfl, rfl⟩))
        (fun _ => preserves_pure _)
    · refine preserves_ite ?_ (preserves_pure _)
      refine preserves_bind (preserves_set_connection hI _ _ (fun c => ⟨rfl, rfl⟩)) (fun _ => ?_)
      refine preserves_bind (preserves_connection_at _) (fun c => ?_)
      split
      · exact preserves_pure _
      · refine preserves_bind (preserves_for_loop _
          (fun i => preserves_flush_fetchbuf hI env err he _ i) _ _) (fun _ => ?_)
        exact preserves_bind (preserves_set_connection hI _ _ (fun c => ⟨rfl, rfl⟩))
          (fun _ => preserves_pure _)

theorem preserves_close_release {I : World → Prop} (hI : FrameInv I) (env : Env)
    (err : Bool → String → oci_status_t → M Bool)
    (he : ∀ d f st, Preserves I (err d f st)) (cid : Nat) (t : HandleType)
    (clear : ora_connection_t → ora_connection_t)
    (hclear : ∀ c, (clear c).mode = c.mode ∧ (clear c).id = c.id) :
    Preserves I (close_release env err cid t clear) := by
  unfold close_release
  refine preserves_bind (preserves_connection_at cid) (fun _ => ?_)
  refine preserves_bind (preserves_oci hI env _ rfl) (fun r => ?_)
  exact preserves_bind (he _ _ _) (fun _ => preserves_set_connection hI cid clear hclear)

theorem preserves_Ns_OracleCloseDb_with {I : World → Prop} (hI : FrameInv I) (env : Env)
    (err : Bool → String → oci_status_t → M Bool)
    (he : ∀ d f st, Preserves I (err d f st)) :
    Preserves I (Ns_OracleCloseDb_with env err) := by
  unfold Ns_OracleCloseDb_with
  refine preserves_bind preserves_get_world (fun w => ?_)
  split
  · exact preserves_pure _
  · refine preserves_bind (preserves_oci hI env _ rfl) (fun r => ?_)
    refine preserves_bind (he _ _ _) (fun _ => ?_)
    refine preserves_bind (preserves_close_release hI env err he _ _ _ (fun c => ⟨rfl, rfl⟩))
      (fun _ => ?_)
    refine preserves_bind (preserves_close_release hI env err he _ _ _ (fun c => ⟨rfl, rfl⟩))
      (fun _ => ?_)
    refine preserves_bind (preserves_close_release hI env err he _ _ _ (fun c => ⟨rfl, rfl⟩))
      (fun _ => ?_)
    refine preserves_bind (preserves_close_release hI env err he _ _ _ (fun c => ⟨rfl, rfl⟩))
      (fun _ => ?_)
    refine preserves_bind (preserves_close_release hI env err he _ _ _ (fun c => ⟨rfl, rfl⟩))
      (fun _ => ?_)
    refine preserves_bind (preserves_connection_at _) (fun _ => ?_)
    exact preserves_bind (triple_modify_world (fun w hw => hI.close w hw))
      (fun _ => preserves_pure _)

theorem preserves_oci_error_p {I : World → Prop} (hI : FrameInv I) (env : Env) (fuel : Nat) :
    ∀ (dbh : Bool) (ocifn : String) (st : oci_status_t),
      Preserves I (oci_error_p env fuel dbh ocifn st) := by
  induction fuel with
  | zero =>
    intro dbh ocifn st
    exact preserves_oci_error_p_with hI env _ _ preserves_timeout preserves_timeout dbh ocifn st
  | succ n ih =>
    intro dbh ocifn st
    exact preserves_oci_error_p_with hI env _ _
      (preserves_Ns_OracleFlush_with hI env _ ih)
      (preserves_Ns_OracleCloseDb_with hI env _ ih) dbh ocifn st

theorem preserves_Ns_OracleFlush {I : World → Prop} (hI : FrameInv I) (env : Env) (fuel : Nat) :
    Preserves I (Ns_OracleFlush env fuel) :=
  preserves_Ns_OracleFlush_with hI env _ (preserves_oci_error_p hI env fuel)

theorem preserves_Ns_OracleCloseDb {I : World → Prop} (hI : FrameInv I) (env : Env)
    (fuel : Nat) : Preserves I (Ns_OracleCloseDb env fuel) :=
  preserves_Ns_OracleCloseDb_with hI env _ (preserves_oci_error_p hI env fuel)

/-- The classifier `oci_error_p` reports no error for the two success statuses
and leaves the state alone, and reports an error for every other status. -/
theorem oci_error_p_success (env : Env) (fuel : Nat) (dbh : Bool) (ocifn : String)
    (st : oci_status_t) (h : st = .OCI_SUCCESS ∨ st = .OCI_SUCCESS_WITH_INFO) (w : World) :
    oci_error_p env fuel dbh ocifn st w = .done (false, w) := by
  cases fuel <;> rcases h with h | h <;> subst h <;> rfl

theorem oci_error_p_with_failure (env : Env) (flush close : M Ns_ReturnCode) (dbh : Bool)
    (ocifn : String) (st : oci_status_t)
    (h : st ≠ .OCI_SUCCESS ∧ st ≠ .OCI_SUCCESS_WITH_INFO) :
    Triple (fun _ => True) (oci_error_p_with env flush close dbh ocifn st)
      (fun b _ => b = true) := by
  unfold oci_error_p_with
  refine triple_bind (Q := fun _ _ => True) (fun _ _ _ _ _ => trivial) (fun w => ?_)
  simp only [h.1, h.2, if_false]
  refine triple_bind (Q := fun _ _ => True) (fun _ _ _ _ _ => trivial) (fun _ => ?_)
  refine triple_bind (Q := fun _ _ => True) (fun _ _ _ _ _ => trivial) (fun _ => ?_)
  exact triple_pure (fun _ _ => rfl)

theorem oci_error_p_failure (env : Env) (fuel : Nat) (dbh : Bool) (ocifn : String)
    (st : oci_status_t) (h : st ≠ .OCI_SUCCESS ∧ st ≠ .OCI_SUCCESS_WITH_INFO) :
    Triple (fun _ => True) (oci_error_p env fuel dbh ocifn st) (fun b _ => b = true) := by
  cases fuel <;> exact oci_error_p_with_failure env _ _ dbh ocifn st h

/-! ## The transaction mode machine -/

theorem frame_mode_is (m : TransactionMode) : FrameInv (mode_is m) where
  call := fun w c h _ => h
  conn := fun w c c1 h hc hm _ c2 h2 => by
    simp only [Option.some.injEq] at h2
    subst h2
    rw [hm]
    exact h c hc
  close := fun w h c hc => by simp at hc
  exception := fun w code msg h => h
  result := fun w r h => h

theorem get_world_bind {α : Type} (f : World → M α) (w : World) :
    (get_world >>= f) w = f w w := rfl

theorem handle_builtins_begin (env : Env) (fuel : Nat) (w : World) (c : ora_connection_t)
    (hc : w.dbh.connection = some c) :
    handle_builtins env fuel "begin transaction".toList w
      = .done (.NS_DML, with_mode w c .transaction) := by
  unfold handle_builtins
  rw [get_world_bind]
  simp only [hc]
  rw [if_pos (by decide)]
  simp only [bind_apply, set_connection, hc, if_true, pure_apply, with_mode]

theorem handle_builtins_end_ok (env : Env) (fuel : Nat) (w : World) (c : ora_connection_t)
    (hc : w.dbh.connection = some c)
    (hs : succeeded (env.engine w.trace.length .OCITransCommit).status) :
    handle_builtins env fuel "end transaction".toList w
      = .done (.NS_DML,
          { with_mode w c .autocommit with trace := w.trace ++ [.OCITransCommit] }) := by
  unfold handle_builtins
  rw [get_world_bind]
  simp only [hc]
  rw [if_neg (by decide), if_pos (by decide)]
  simp only [bind_apply, oci, oci_error_p_success env fuel true _ _ hs, Bool.false_eq_true,
    if_false, set_connection, hc, if_true, pure_apply, with_mode]

theorem handle_builtins_abort_ok (env : Env) (fuel : Nat) (w : World) (c : ora_connection_t)
    (hc : w.dbh.connection = some c)
    (hs : succeeded (env.engine w.trace.length .OCITransRollback).status) :
    handle_builtins env fuel "abort transaction".toList w
      = .done (.NS_DML,
          { with_mode w c .autocommit with trace := w.trace ++ [.OCITransRollback] }) := by
  unfold handle_builtins
  rw [get_world_bind]
  simp only [hc]
  rw [if_neg (by decide), if_neg (by decide), if_pos (by decide)]
  simp only [bind_apply, oci, oci_error_p_success env fuel true _ _ hs, Bool.false_eq_true,
    if_false, set_connection, hc, if_true, pure_apply, with_mode]

theorem not_succeeded {st : oci_status_t} (h : ¬ succeeded st) :
    st ≠ .OCI_SUCCESS ∧ st ≠ .OCI_SUCCESS_WITH_INFO :=
  ⟨fun e => h (Or.inl e), fun e => h (Or.inr e)⟩

theorem builtin_failure (env : Env) (fuel : Nat) (call : NativeCall) (ocifn : String)
    (hcall : is_execute call = false) (c0 : ora_connection_t) (m : TransactionMode)
    (w : World) (hm : mode_is m w) (hs : ¬ succeeded (env.engine w.trace.length call).status)
    (r : Ns_ReturnCode) (w1 : World)
    (h : (do
      let r ← oci env call
      if (← oci_error_p env fuel true ocifn r.status) then do
        let _ ← Ns_OracleFlush env fuel
        pure Ns_ReturnCode.NS_ERROR
      else do
        set_connection c0.id (fun c => { c with mode := .autocommit })
        pure Ns_ReturnCode.NS_DML : M Ns_ReturnCode) w = .done (r, w1)) :
    r = .NS_ERROR ∧ mode_is m w1 := by
  have hI := frame_mode_is m
  refine triple_bind (P := fun w0 => w0 = w)
    (Q := fun rep w2 => mode_is m w2 ∧ ¬ succeeded rep.status)
    (R := fun r w2 => r = .NS_ERROR ∧ mode_is m w2) ?_ ?_ w rfl r w1 h
  · exact triple_oci (fun w0 hw0 => by subst hw0; exact ⟨hI.call _ _ hm hcall, hs⟩)
  · intro rep
    refine triple_bind (Q := fun b w2 => mode_is m w2 ∧ b = true) ?_ ?_
    · intro w2 hw2 b w3 hb
      exact ⟨preserves_oci_error_p hI env fuel _ _ _ w2 hw2.1 b w3 hb,
        oci_error_p_failure env fuel _ _ _ (not_succeeded hw2.2) w2 trivial b w3 hb⟩
    · intro b
      by_cases hb : b = true
      · subst hb
        simp only [if_true]
        refine triple_bind (Q := fun _ w2 => mode_is m w2) ?_
          (fun _ => triple_pure (fun w2 h2 => ⟨rfl, h2⟩))
        exact triple_weaken (preserves_Ns_OracleFlush hI env fuel) (fun _ h => h.1)
          (fun _ _ h => h)
      · intro w2 hw2
        exact absurd hw2.2 hb

theorem handle_builtins_end_failed (env : Env) (fuel : Nat) (w : World) (c : ora_connection_t)
    (hc : w.dbh.connection = some c)
    (hs : ¬ succeeded (env.engine w.trace.length .OCITransCommit).status)
    (r : Ns_ReturnCode) (w1 : World)
    (h : handle_builtins env fuel "end transaction".toList w = .done (r, w1)) :
    r = .NS_ERROR ∧ mode_is c.mode w1 := by
  unfold handle_builtins at h
  rw [get_world_bind] at h
  simp only [hc] at h
  rw [if_neg (by decide), if_pos (by decide)] at h
  refine builtin_failure env fuel .OCITransCommit "OCITransCommit" rfl c c.mode w ?_ hs r w1 h
  intro c1 h1
  rw [hc] at h1
  cases h1
  rfl

theorem handle_builtins_abort_failed (env : Env) (fuel : Nat) (w : World)
    (c : ora_connection_t) (hc : w.dbh.connection = some c)
    (hs : ¬ succeeded (env.engine w.trace.length .OCITransRollback).status)
    (r : Ns_ReturnCode) (w1 : World)
    (h : handle_builtins env fuel "abort transaction".toList w = .done (r, w1)) :
    r = .NS_ERROR ∧ mode_is c.mode w1 := by
  unfold handle_builtins at h
  rw [get_world_bind] at h
  simp only [hc] at h
  rw [if_neg (by decide), if_neg (by decide), if_pos (by decide)] at h
  refine builtin_failure env fuel .OCITransRollback "OCITransRollback" rfl c c.mode w ?_ hs
    r w1 h
  intro c1 h1
  rw [hc] at h1
  cases h1
  rfl

/-- C10, as stated, fails: when the native commit reports an error, `begin
transaction` followed by `end transaction` returns `NS_ERROR` with the
connection still in explicit-transaction mode. -/
theorem transaction_machine_counterexample :
    (handle_builtins failing_commit_env 1 "begin transaction".toList >>= fun _ =>
      handle_builtins failing_commit_env 1 "end transaction".toList) example_world
      = .done (.NS_ERROR,
          { with_mode example_world example_connection .transaction with
            trace := [.OCITransCommit, .OCIErrorGet, .OCIAttrGet .OCI_ATTR_PARSE_ERROR_OFFSET],
            dbh := { (with_mode example_world example_connection .transaction).dbh with
              cExceptionCode := "600",
              dsExceptionMsg := "error in `OCITransCommit ()': OCI_ERROR" } }) := by
  decide!

/-- C10, amended: `begin transaction` sets the mode to explicit-transaction
without a native call; `end transaction` issues one commit and `abort
transaction` one rollback, and when the call succeeds the mode becomes
autocommit, while when it fails `handle_builtins` returns `NS_ERROR` and the
mode of a connection that is still there is what it was; so with a succeeding
engine begin followed by abort ends in autocommit with one rollback and no
commit, and begin followed by end ends in autocommit with one commit. -/
theorem transaction_machine (env : Env) (fuel : Nat) (w : World) (c : ora_connection_t)
    (hc : w.dbh.connection = some c) :
    handle_builtins env fuel "begin transaction".toList w
        = .done (.NS_DML, with_mode w c .transaction) ∧
    (succeeded (env.engine w.trace.length .OCITransCommit).status →
      handle_builtins env fuel "end transaction".toList w
        = .done (.NS_DML,
            { with_mode w c .autocommit with trace := w.trace ++ [.OCITransCommit] }) ∧
      (handle_builtins env fuel "begin transaction".toList >>= fun _ =>
          handle_builtins env fuel "end transaction".toList) w
        = .done (.NS_DML,
            { with_mode w c .autocommit with trace := w.trace ++ [.OCITransCommit] })) ∧
    (succeeded (env.engine w.trace.length .OCITransRollback).status →
      handle_builtins env fuel "abort transaction".toList w
        = .done (.NS_DML,
            { with_mode w c .autocommit with trace := w.trace ++ [.OCITransRollback] }) ∧
      (handle_builtins env fuel "begin transaction".toList >>= fun _ =>
          handle_builtins env fuel "abort transaction".toList) w
        = .done (.NS_DML,
            { with_mode w c .autocommit with trace := w.trace ++ [.OCITransRollback] })) ∧
    (¬ succeeded (env.engine w.trace.length .OCITransCommit).status →
      ∀ r w1, handle_builtins env fuel "end transaction".toList w = .done (r, w1) →
        r = .NS_ERROR ∧ mode_is c.mode w1) ∧
    (¬ succeeded (env.engine w.trace.length .OCITransRollback).status →
      ∀ r w1, handle_builtins env fuel "abort transaction".toList w = .done (r, w1) →
        r = .NS_ERROR ∧ mode_is c.mode w1) := by
  refine ⟨handle_builtins_begin env fuel w c hc, fun hs => ⟨?_, ?_⟩, fun hs => ⟨?_, ?_⟩,
    fun hs r w1 h => handle_builtins_end_failed env fuel w c hc hs r w1 h,
    fun hs r w1 h => handle_builtins_abort_failed env fuel w c hc hs r w1 h⟩
  · exact handle_builtins_end_ok env fuel w c hc hs
  · rw [bind_apply, handle_builtins_begin env fuel w c hc]
    exact handle_builtins_end_ok env fuel (with_mode w c .transaction)
      { c with mode := .transaction } rfl hs
  · exact handle_builtins_abort_ok env fuel w c hc hs
  · rw [bind_apply, handle_builtins_begin env fuel w c hc]
    exact handle_builtins_abort_ok env fuel (with_mode w c .transaction)
      { c with mode := .transaction } rfl hs

/-- C10, amended, at an open connection in autocommit mode and an engine whose
calls succeed. -/
theorem transaction_machine_witness :
    example_world.dbh.connection = some example_connection ∧
    (handle_builtins (example_env 0) 0 "begin transaction".toList >>= fun _ =>
        handle_builtins (example_env 0) 0 "abort transaction".toList) example_world
      = .done (.NS_DML,
          { with_mode example_world example_connection .autocommit with
            trace := example_world.trace ++ [.OCITransRollback] }) :=
  ⟨rfl, ((transaction_machine (example_env 0) 0 example_world example_connection rfl).2.2.1
    (Or.inl rfl)).2⟩

/-! ## Operations that keep the executes and the variables -/

theorem executes_append (tr : List NativeCall) (c : NativeCall) :
    executes (tr ++ [c])
      = executes tr ++ (match c with | .OCIStmtExecute iters _ => [iters] | _ => []) := by
  induction tr with
  | nil => cases c <;> rfl
  | cons d tr ih => cases d <;> simp [executes, ih]

theorem executes_append_other (tr : List NativeCall) (c : NativeCall)
    (h : is_execute c = false) : executes (tr ++ [c]) = executes tr := by
  rw [executes_append]
  cases c <;> simp_all [is_execute]

theorem trace_inv_executes_are (k : List Nat) : TraceInv (executes_are k) where
  call := fun w c h hc => by
    show executes (w.trace ++ [c]) = k
    rw [executes_append_other _ _ hc]; exact h
  other := fun w w1 h ht _ _ => by
    show executes w1.trace = k
    rw [ht]; exact h

theorem trace_inv_bind_state (k : List Nat) (vars : List (List Char × List Char))
    (sets : List (List Char × List (List Char × List Char))) :
    TraceInv (bind_state k vars sets) where
  call := fun w c h hc => by
    refine ⟨?_, h.2.1, h.2.2⟩
    show executes (w.trace ++ [c]) = k
    rw [executes_append_other _ _ hc]; exact h.1
  other := fun w w1 h ht hv hs => by
    refine ⟨?_, hv.trans h.2.1, hs.trans h.2.2⟩
    show executes w1.trace = k
    rw [ht]; exact h.1

theorem TraceInv.frame {I : World → Prop} (hI : TraceInv I) : FrameInv I where
  call := hI.call
  conn := fun w _ _ h _ _ _ => hI.other w _ h rfl rfl rfl
  close := fun w h => hI.other w _ h rfl rfl rfl
  exception := fun w _ _ h => hI.other w _ h rfl rfl rfl
  result := fun w _ h => hI.other w _ h rfl rfl rfl

theorem preserves_set_connection_any {I : World → Prop} (hI : TraceInv I) (cid : Nat)
    (f : ora_connection_t → ora_connection_t) : Preserves I (set_connection cid f) :=
  triple_set_connection (fun w _ hw _ _ => hI.other w _ hw rfl rfl rfl)

theorem preserves_Tcl_AppendResult {I : World → Prop} (hI : TraceInv I) (msg : String) :
    Preserves I (Tcl_AppendResult msg) :=
  triple_modify_world (fun w hw => hI.other w _ hw rfl rfl rfl)

theorem preserves_Tcl_SetResult {I : World → Prop} (hI : TraceInv I) (msg : String) :
    Preserves I (Tcl_SetResult msg) :=
  triple_modify_world (fun w hw => hI.other w _ hw rfl rfl rfl)

theorem preserves_Tcl_SetResult_exception {I : World → Prop} (hI : TraceInv I) :
    Preserves I Tcl_SetResult_exception :=
  triple_modify_world (fun w hw => hI.other w _ hw rfl rfl rfl)

theorem preserves_open_step {I : World → Prop} (hI : TraceInv I) (env : Env)
    (err : Bool → String → oci_status_t → M Bool) (he : ∀ d f st, Preserves I (err d f st))
    (cid : Nat) (c : NativeCall) (hc : is_execute c = false) (ocifn : String)
    (store : ora_connection_t → ora_connection_t) :
    Preserves I (open_step env err cid c ocifn store) := by
  unfold open_step
  refine preserves_bind (preserves_oci hI.frame env c hc) (fun r => ?_)
  exact preserves_bind (preserves_when (preserves_set_connection_any hI cid store))
    (fun _ => he _ _ _)

theorem preserves_run_steps {I : World → Prop} (steps : List (M Bool))
    (h : ∀ s ∈ steps, Preserves I s) : Preserves I (run_steps steps) := by
  induction steps with
  | nil => exact preserves_pure _
  | cons s steps ih =>
    unfold run_steps
    refine preserves_bind (h s (List.mem_cons_self _ _)) (fun b => ?_)
    exact preserves_ite (preserves_pure _) (ih (fun t ht => h t (List.mem_cons_of_mem _ ht)))

theorem preserves_open_steps {I : World → Prop} (hI : TraceInv I) (env : Env)
    (err : Bool → String → oci_status_t → M Bool) (he : ∀ d f st, Preserves I (err d f st))
    (cid : Nat) : ∀ s ∈ open_steps env err cid, Preserves I s := by
  intro s hs
  simp only [open_steps, List.mem_cons, List.mem_singleton, List.not_mem_nil, or_false] at hs
  rcases hs with h | h | h | h | h | h | h | h | h | h <;> subst h <;>
    exact preserves_open_step hI env err he cid _ (by rfl) _ _

theorem preserves_Ns_OracleOpenDb_with {I : World → Prop} (hI : TraceInv I) (env : Env)
    (err : Bool → String → oci_status_t → M Bool) (he : ∀ d f st, Preserves I (err d f st)) :
    Preserves I (Ns_OracleOpenDb_with env err) := by
  unfold Ns_OracleOpenDb_with
  refine preserves_bind preserves_get_world (fun w => ?_)
  refine preserves_ite (preserves_pure _) (preserves_ite (preserves_pure _) ?_)
  refine preserves_bind (triple_modify_world (fun w hw => hI.other w _ hw rfl rfl rfl))
    (fun _ => ?_)
  refine preserves_bind (preserves_oci hI.frame env _
    (by cases env.convert_encoding_p <;> rfl)) (fun r => ?_)
  refine preserves_bind (preserves_when (preserves_set_connection_any hI _ _)) (fun _ => ?_)
  refine preserves_bind (he _ _ _) (fun b => ?_)
  refine preserves_ite (preserves_pure _) ?_
  refine preserves_bind (preserves_run_steps _ (preserves_open_steps hI env err he _))
    (fun b => ?_)
  refine preserves_ite ?_ (preserves_pure _)
  exact preserves_bind (triple_modify_world (fun w hw => hI.other w _ hw rfl rfl rfl))
    (fun _ => preserves_pure _)

theorem preserves_Ns_OracleOpenDb {I : World → Prop} (hI : TraceInv I) (env : Env)
    (fuel : Nat) : Preserves I (Ns_OracleOpenDb env fuel) :=
  preserves_Ns_OracleOpenDb_with hI env _ (preserves_oci_error_p hI.frame env fuel)

theorem preserves_tcl_error_p {I : World → Prop} (hI : TraceInv I) (env : Env) (fuel : Nat)
    (ocifn : String) (st : oci_status_t) : Preserves I (tcl_error_p env fuel ocifn st) := by
  unfold tcl_error_p
  refine preserves_bind preserves_get_world (fun w => ?_)
  refine preserves_ite (preserves_pure _) ?_
  refine preserves_bind (preserves_when ?_)
    (fun _ => preserves_bind (preserves_Tcl_AppendResult hI _) (fun _ => preserves_pure _))
  refine preserves_bind (preserves_oci hI.frame env _ rfl) (fun r1 => ?_)
  refine preserves_bind (preserves_oci hI.frame env _ rfl) (fun _ => ?_)
  refine preserves_when ?_
  refine preserves_bind (preserves_Ns_OracleFlush hI.frame env fuel) (fun _ => ?_)
  refine preserves_bind (preserves_Ns_OracleCloseDb hI.frame env fuel) (fun _ => ?_)
  exact preserves_bind (preserves_Ns_OracleOpenDb hI env fuel) (fun _ => preserves_pure _)

theorem preserves_allow_sql_p {I : World → Prop} (hI : TraceInv I) (env : Env)
    (sql : List Char) : Preserves I (allow_sql_p env sql) := by
  unfold allow_sql_p
  refine preserves_ite (preserves_ite ?_ (preserves_pure _)) (preserves_pure _)
  exact preserves_bind (preserves_Ns_DbSetException hI.frame _ _) (fun _ => preserves_pure _)

theorem preserves_handle_builtins {I : World → Prop} (hI : TraceInv I) (env : Env)
    (fuel : Nat) (sql : List Char) : Preserves I (handle_builtins env fuel sql) := by
  unfold handle_builtins
  refine preserves_bind preserves_get_world (fun w => ?_)
  refine preserves_ite ?_ (preserves_ite ?_ (preserves_ite ?_ ?_))
  · split
    · exact preserves_fault
    · exact preserves_bind (preserves_set_connection_any hI _ _) (fun _ => preserves_pure _)
  · split
    · exact preserves_fault
    · refine preserves_bind (preserves_oci hI.frame env _ rfl) (fun r => ?_)
      refine preserves_bind (preserves_oci_error_p hI.frame env fuel _ _ _) (fun b => ?_)
      refine preserves_ite ?_ ?_
      · exact preserves_bind (preserves_Ns_OracleFlush hI.frame env fuel)
          (fun _ => preserves_pure _)
      · exact preserves_bind (preserves_set_connection_any hI _ _) (fun _ => preserves_pure _)
  · split
    · exact preserves_fault
    · refine preserves_bind (preserves_oci hI.frame env _ rfl) (fun r => ?_)
      refine preserves_bind (preserves_oci_error_p hI.frame env fuel _ _ _) (fun b => ?_)
      refine preserves_ite ?_ ?_
      · exact preserves_bind (preserves_Ns_OracleFlush hI.frame env fuel)
          (fun _ => preserves_pure _)
      · exact preserves_bind (preserves_set_connection_any hI _ _) (fun _ => preserves_pure _)
  · refine preserves_bind (preserves_allow_sql_p hI env sql) (fun b => ?_)
    refine preserves_ite (preserves_pure _) ?_
    exact preserves_bind (preserves_Ns_OracleFlush hI.frame env fuel)
      (fun _ => preserves_pure _)

/-! ## The bind loop -/

theorem triple_assume {α : Type} {φ : Prop} {P : World → Prop} {Q : α → World → Prop}
    {m : M α} (h : φ → Triple P m Q) : Triple (fun w => P w ∧ φ) m Q :=
  fun w hw a w1 hm => h hw.2 w hw.1 a w1 hm

theorem triple_and_pure {α : Type} {φ : Prop} {P : World → Prop} {Q : α → World → Prop}
    {m : M α} (hφ : φ) (h : Triple P m Q) : Triple P m (fun a w => Q a w ∧ φ) :=
  fun w hw a w1 hm => ⟨h w hw a w1 hm, hφ⟩

theorem triple_bind_error {I : World → Prop} (hI : TraceInv I) (env : Env) (fuel : Nat)
    (Q : Option Nat → World → Prop) (hQ : ∀ w, I w → Q none w) :
    Triple I (bind_error env fuel) Q := by
  unfold bind_error
  exact triple_bind (preserves_Ns_OracleFlush hI.frame env fuel)
    (fun _ => triple_pure hQ)

theorem triple_bind_value (k : List Nat) (vars : List (List Char × List Char))
    (sets : List (List Char × List (List Char × List Char))) (a : SelectArgs) (cid i : Nat)
    (var : List Char) :
    Triple (bind_state k vars sets) (bind_value a cid i var)
      (fun res w => bind_state k vars sets w ∧
        ∀ value, res = some value → resolved_value a vars sets var = some value) := by
  have hI := trace_inv_bind_state k vars sets
  unfold bind_value resolved_value
  split
  · rename_i index hidx
    refine triple_ite (fun hc => ?_) (fun hc => ?_)
    · exact triple_bind (preserves_Tcl_AppendResult hI _)
        (fun _ => triple_pure (fun w hw => ⟨hw, fun _ h => by cases h⟩))
    · simp only [hc, if_false]
      split
      · rename_i value hv
        exact triple_pure (fun w hw => ⟨hw, fun v h => by cases h; exact hv⟩)
      · exact triple_fault
  · split
    · refine triple_bind (preserves_set_fetchbuf hI.frame cid i _) (fun _ => ?_)
      refine triple_bind triple_get_world (fun w0 => ?_)
      split
      · rename_i value hv
        refine triple_pure (fun w hw => ⟨hw.1, fun v h => ?_⟩)
        cases h
        rw [← hw.1.2.1, ← hw.2]
        exact hv
      · exact triple_bind
          (triple_weaken (preserves_Tcl_AppendResult hI _) (fun _ h => h.1) (fun _ _ h => h))
          (fun _ => triple_pure (fun w hw => ⟨hw, fun _ h => by cases h⟩))
    · refine triple_bind triple_get_world (fun w0 => ?_)
      split
      · rename_i value hv
        refine triple_pure (fun w hw => ⟨hw.1, fun v h => ?_⟩)
        cases h
        rw [← hw.1.2.2, ← hw.2]
        exact hv
      · exact triple_bind
          (triple_weaken (preserves_Tcl_AppendResult hI _) (fun _ h => h.1) (fun _ _ h => h))
          (fun _ => triple_pure (fun w hw => ⟨hw, fun _ h => by cases h⟩))

theorem triple_prepared_array (k : List Nat) (vars : List (List Char × List Char))
    (sets : List (List Char × List (List Char × List Char))) (env : Env) (cid i : Nat)
    (value : List Char) (iters : Nat) :
    Triple (bind_state k vars sets)
      (match env.Tcl_SplitList value with
        | none => (pure none : M (Option (Nat × Nat)))
        | some values => do
            set_fetchbuf cid i (fun fb =>
              { fb with array_count := values.length, array_values := some values })
            if i = 0 then
              pure (some (values.length, ((values.take values.length).map strlen).foldl max 0))
            else if iters ≠ values.length then do
              Tcl_AppendResult "non-matching numbers of rows"
              pure none
            else pure (some (iters, ((values.take iters).map strlen).foldl max 0)))
      (fun res w => bind_state k vars sets w ∧
        ∀ it ml, res = some (it, ml) →
          (env.Tcl_SplitList value).map List.length = some it ∧ (i ≠ 0 → it = iters)) := by
  have hI := trace_inv_bind_state k vars sets
  split
  · exact triple_pure (fun w hw => ⟨hw, fun _ _ h => by cases h⟩)
  · rename_i values hv
    refine triple_bind (preserves_set_fetchbuf hI.frame cid i _) (fun _ => ?_)
    refine triple_ite (fun h0 => ?_) (fun h0 => triple_ite (fun hne => ?_) (fun hne => ?_))
    · refine triple_pure (fun w hw => ⟨hw, fun it ml h => ?_⟩)
      cases h
      exact ⟨by rw [hv]; rfl, fun h => absurd h0 h⟩
    · exact triple_bind (preserves_Tcl_AppendResult hI _)
        (fun _ => triple_pure (fun w hw => ⟨hw, fun _ _ h => by cases h⟩))
    · refine triple_pure (fun w hw => ⟨hw, fun it ml h => ?_⟩)
      cases h
      exact ⟨by rw [hv, not_not.mp hne]; rfl, fun _ => rfl⟩

theorem triple_bind_variable (k : List Nat) (vars : List (List Char × List Char))
    (sets : List (List Char × List (List Char × List Char))) (env : Env) (fuel : Nat)
    (a : SelectArgs) (cid i : Nat) (var : List Char) (iters : Nat) :
    Triple (bind_state k vars sets) (bind_variable env fuel a cid i var iters)
      (fun res w => bind_state k vars sets w ∧
        ∀ it, res = some it →
          (a.array_p = false → it = iters) ∧
          (a.array_p = true →
            ((resolved_value a vars sets var).bind env.Tcl_SplitList).map List.length = some it
              ∧ (i ≠ 0 → it = iters))) := by
  have hI := trace_inv_bind_state k vars sets
  unfold bind_variable
  refine triple_bind (preserves_set_fetchbuf hI.frame cid i _) (fun _ => ?_)
  refine triple_bind (triple_bind_value k vars sets a cid i var) (fun res => ?_)
  split
  · exact triple_weaken (triple_bind_error hI env fuel _
      (fun w hw => ⟨hw, fun _ h => by cases h⟩)) (fun _ h => h.1) (fun _ _ h => h)
  · rename_i value
    refine triple_weaken (S := fun w => bind_state k vars sets w ∧
      resolved_value a vars sets var = some value) ?_ (fun w h => ⟨h.1, h.2 value rfl⟩)
      (fun _ _ h => h)
    refine triple_assume (fun hres => ?_)
    refine triple_bind (Q := fun prepared w => bind_state k vars sets w ∧
      ∀ it ml, prepared = some (it, ml) →
        (a.array_p = false → it = iters) ∧
        (a.array_p = true →
          (env.Tcl_SplitList value).map List.length = some it ∧ (i ≠ 0 → it = iters))) ?_ ?_
    · refine triple_ite (fun harr => ?_) (fun harr => triple_ite (fun hdml => ?_) (fun hdml => ?_))
      · refine triple_weaken (triple_prepared_array k vars sets env cid i value iters)
          (fun _ h => h) (fun res w h => ⟨h.1, fun it ml hp => ⟨fun hf => ?_, fun _ => h.2 it ml hp⟩⟩)
        rw [harr] at hf; cases hf
      · refine triple_bind (preserves_set_fetchbuf hI.frame cid i _) (fun _ => ?_)
        refine triple_pure (fun w hw => ⟨hw, fun it ml h => ?_⟩)
        cases h
        exact ⟨fun _ => rfl, fun ht => absurd ht harr⟩
      · refine triple_bind (preserves_set_fetchbuf hI.frame cid i _) (fun _ => ?_)
        refine triple_pure (fun w hw => ⟨hw, fun it ml h => ?_⟩)
        cases h
        exact ⟨fun _ => rfl, fun ht => absurd ht harr⟩
    · intro prepared
      split
      · exact triple_weaken (triple_bind_error hI env fuel _
          (fun w hw => ⟨hw, fun _ h => by cases h⟩)) (fun _ h => h.1) (fun _ _ h => h)
      · rename_i it ml
        refine triple_weaken (S := fun w => bind_state k vars sets w ∧
          ((a.array_p = false → it = iters) ∧
            (a.array_p = true →
              (env.Tcl_SplitList value).map List.length = some it ∧ (i ≠ 0 → it = iters))))
          ?_ (fun w h => ⟨h.1, h.2 it ml rfl⟩) (fun _ _ h => h)
        refine triple_assume (fun hit => ?_)
        have hgood : ∀ w, bind_state k vars sets w → bind_state k vars sets w ∧
            ∀ it1, some it = some it1 →
              (a.array_p = false → it1 = iters) ∧
              (a.array_p = true →
                ((resolved_value a vars sets var).bind env.Tcl_SplitList).map List.length
                  = some it1 ∧ (i ≠ 0 → it1 = iters)) := by
          intro w hw
          refine ⟨hw, fun it1 h1 => ?_⟩
          cases h1
          refine ⟨hit.1, fun harr => ?_⟩
          rw [hres]
          exact hit.2 harr
        have hbad : ∀ w, bind_state k vars sets w → bind_state k vars sets w ∧
            ∀ it1, (none : Option Nat) = some it1 →
              (a.array_p = false → it1 = iters) ∧
              (a.array_p = true →
                ((resolved_value a vars sets var).bind env.Tcl_SplitList).map List.length
                  = some it1 ∧ (i ≠ 0 → it1 = iters)) :=
          fun w hw => ⟨hw, fun _ h => by cases h⟩
        refine triple_bind (preserves_fetchbuf_at cid i) (fun fb => ?_)
        refine triple_bind (preserves_oci hI.frame env _ rfl) (fun r => ?_)
        refine triple_bind (preserves_when (preserves_set_fetchbuf hI.frame cid i _))
          (fun _ => ?_)
        refine triple_bind (preserves_oci_error_p hI.frame env fuel _ _ _) (fun b => ?_)
        refine triple_ite (fun _ => ?_) (fun _ => triple_ite (fun _ => ?_) (fun _ => ?_))
        · exact triple_bind (preserves_Tcl_SetResult_exception hI)
            (fun _ => triple_bind_error hI env fuel _ hbad)
        · refine triple_bind (preserves_oci hI.frame env _ rfl) (fun r => ?_)
          refine triple_bind (preserves_tcl_error_p hI env fuel _ _) (fun b => ?_)
          exact triple_ite (fun _ => triple_bind_error hI env fuel _ hbad)
            (fun _ => triple_pure hgood)
        · exact triple_pure hgood

theorem triple_bind_loop (k : List Nat) (vars : List (List Char × List Char))
    (sets : List (List Char × List (List Char × List Char))) (env : Env) (fuel : Nat)
    (a : SelectArgs) (cid : Nat) (names : List (List Char)) :
    ∀ (i iters : Nat),
      Triple (bind_state k vars sets) (bind_loop env fuel a cid names i iters)
        (fun res w => bind_state k vars sets w ∧
          ∀ it, res = some it →
            (a.array_p = false → it = iters) ∧
            (a.array_p = true →
              (∀ var ∈ names, split_count env a vars sets var = some it) ∧
              ((names = [] ∨ i ≠ 0) → it = iters))) := by
  induction names with
  | nil =>
    intro i iters
    refine triple_pure (fun w hw => ⟨hw, fun it h => ?_⟩)
    cases h
    exact ⟨fun _ => rfl, fun _ => ⟨fun _ h => (by cases h), fun _ => rfl⟩⟩
  | cons var names ih =>
    intro i iters
    unfold bind_loop
    refine triple_bind (triple_bind_variable k vars sets env fuel a cid i var iters)
      (fun res => ?_)
    split
    · exact triple_pure (fun w hw => ⟨hw.1, fun _ h => by cases h⟩)
    · rename_i it1
      refine triple_weaken (S := fun w => bind_state k vars sets w ∧
        ((a.array_p = false → it1 = iters) ∧
          (a.array_p = true →
            split_count env a vars sets var = some it1 ∧ (i ≠ 0 → it1 = iters))))
        ?_ (fun w h => ⟨h.1, h.2 it1 rfl⟩) (fun _ _ h => h)
      refine triple_assume (fun h1 => ?_)
      refine triple_weaken (ih (i + 1) it1) (fun _ h => h) (fun res w h => ⟨h.1, ?_⟩)
      intro it hit
      obtain ⟨hf, ht⟩ := h.2 it hit
      refine ⟨fun hp => (hf hp).trans (h1.1 hp), fun hp => ?_⟩
      obtain ⟨hall, hsame⟩ := ht hp
      have e : it = it1 := hsame (Or.inr (Nat.succ_ne_zero i))
      refine ⟨fun v hv => ?_, fun hi => ?_⟩
      · rcases List.mem_cons.mp hv with h | h
        · subst h; rw [e]; exact (h1.2 hp).1
        · exact hall v h
      · rcases hi with h | h
        · cases h
        · rw [e]; exact (h1.2 hp).2 h

theorem preserves_return_binds (k : List Nat) (a : SelectArgs) (cid : Nat)
    (names : List (List Char)) :
    ∀ i, Preserves (executes_are k) (return_binds a cid names i) := by
  induction names with
  | nil => intro i; exact preserves_pure _
  | cons var names ih =>
    intro i
    unfold return_binds
    refine preserves_bind (preserves_fetchbuf_at cid i) (fun fb => ?_)
    refine preserves_bind (preserves_when ?_) (fun _ => ih (i + 1))
    split
    · exact preserves_fault
    · split
      · exact triple_modify_world (fun w hw => hw)
      · exact triple_modify_world (fun w hw => hw)

theorem triple_after_execute (env : Env) (fuel : Nat) (a : SelectArgs) (cid : Nat)
    (names : List (List Char)) (time : Nat) (r : Reply) (k : List Nat) :
    Triple (executes_are k)
      (do
        M.when ((a.array_p || a.dml_p) = true)
          (set_connection cid (fun c =>
            { c with fetch_buffers := c.fetch_buffers.map (env.callbacks time) }))
        M.when ((a.dml_p && !a.array_p) = true) (return_binds a cid names 0)
        let c ← connection_at cid
        M.when (c.n_columns > 0 ∧ c.fetch_buffers.isSome)
          (set_connection cid (fun c => { c with fetch_buffers := none }))
        if (← oci_error_p env fuel true "OCIStmtExecute" r.status) then do
          Tcl_SetResult_exception
          let _ ← Ns_OracleFlush env fuel
          pure SelectResult.TCL_ERROR
        else if a.dml_p then do
          let c ← connection_at cid
          if c.mode = .autocommit then do
            let r ← oci env .OCITransCommit
            if (← oci_error_p env fuel true "OCITransCommit" r.status) then do
              Tcl_SetResult_exception
              let _ ← Ns_OracleFlush env fuel
              pure SelectResult.TCL_ERROR
            else pure SelectResult.TCL_OK
          else pure SelectResult.TCL_OK
        else pure SelectResult.fetch_rows : M SelectResult)
      (fun _ w => executes_are k w) := by
  have hI := trace_inv_executes_are k
  refine preserves_bind (preserves_when (preserves_set_connection_any hI _ _)) (fun _ => ?_)
  refine preserves_bind (preserves_when (preserves_return_binds k a cid names 0)) (fun _ => ?_)
  refine preserves_bind (preserves_connection_at cid) (fun c => ?_)
  refine preserves_bind (preserves_when (preserves_set_connection_any hI _ _)) (fun _ => ?_)
  refine preserves_bind (preserves_oci_error_p hI.frame env fuel _ _ _) (fun b => ?_)
  refine preserves_ite ?_ (preserves_ite ?_ (preserves_pure _))
  · exact preserves_bind (preserves_Tcl_SetResult_exception hI)
      (fun _ => preserves_bind (preserves_Ns_OracleFlush hI.frame env fuel)
        (fun _ => preserves_pure _))
  · refine preserves_bind (preserves_connection_at cid) (fun c => ?_)
    refine preserves_ite ?_ (preserves_pure _)
    refine preserves_bind (preserves_oci hI.frame env _ rfl) (fun r => ?_)
    refine preserves_bind (preserves_oci_error_p hI.frame env fuel _ _ _) (fun b => ?_)
    refine preserves_ite ?_ (preserves_pure _)
    exact preserves_bind (preserves_Tcl_SetResult_exception hI)
      (fun _ => preserves_bind (preserves_Ns_OracleFlush hI.frame env fuel)
        (fun _ => preserves_pure _))

/-! ## `OracleSelect` up to the execute -/

theorem triple_flush_fail {I : World → Prop} (hI : TraceInv I) (env : Env) (fuel : Nat)
    (r : SelectResult) (Q : SelectResult → World → Prop) (hQ : ∀ w, I w → Q r w) :
    Triple I (do let _ ← Ns_OracleFlush env fuel; pure r : M SelectResult) Q :=
  triple_bind (preserves_Ns_OracleFlush hI.frame env fuel) (fun _ => triple_pure hQ)

theorem triple_select_statement (k : List Nat) (vars : List (List Char × List Char))
    (sets : List (List Char × List (List Char × List Char))) (env : Env) (fuel : Nat)
    (a : SelectArgs) (ha : a.array_p = true → a.dml_p = true) (cid : Nat)
    (query : List Char) :
    Triple (bind_state k vars sets) (select_statement env fuel a cid query)
      (select_post env a vars sets query k) := by
  have hI := trace_inv_bind_state k vars sets
  have herr : ∀ r : SelectResult, (r = .TCL_ERROR ∨ r = .NS_ERROR) →
      ∀ w, bind_state k vars sets w → select_post env a vars sets query k r w :=
    fun r hr w hw => Or.inl ⟨hw.1, hr⟩
  unfold select_statement
  refine triple_bind (preserves_oci hI.frame env _ rfl) (fun r => ?_)
  refine triple_bind (preserves_when (preserves_set_connection_any hI _ _)) (fun _ => ?_)
  refine triple_bind (preserves_tcl_error_p hI env fuel _ _) (fun b => ?_)
  refine triple_ite (fun _ => triple_flush_fail hI env fuel _ _ (herr _ (Or.inl rfl)))
    (fun _ => ?_)
  refine triple_bind (preserves_oci hI.frame env _ rfl) (fun r => ?_)
  refine triple_bind (preserves_tcl_error_p hI env fuel _ _) (fun b => ?_)
  refine triple_ite (fun _ => triple_flush_fail hI env fuel _ _ (herr _ (Or.inl rfl)))
    (fun _ => ?_)
  refine triple_bind (Q := fun rep w => bind_state k vars sets w ∧
    ∃ t, rep = env.engine t (.OCIAttrGet .OCI_ATTR_STMT_TYPE))
    (triple_oci (fun w hw => ⟨hI.call w _ hw rfl, ⟨_, rfl⟩⟩)) (fun rep => ?_)
  refine triple_assume (fun hrep => ?_)
  refine triple_bind (preserves_oci_error_p hI.frame env fuel _ _ _) (fun b => ?_)
  refine triple_ite (fun _ => triple_bind (preserves_Tcl_SetResult_exception hI)
    (fun _ => triple_flush_fail hI env fuel _ _ (herr _ (Or.inr rfl)))) (fun _ => ?_)
  refine triple_bind (Q := fun _ w => bind_state k vars sets w) ?_ (fun attrs_ok => ?_)
  · refine preserves_ite ?_ (preserves_pure _)
    refine preserves_bind ?_ (fun rows_ok => ?_)
    · refine preserves_ite ?_ (preserves_pure _)
      refine preserves_bind (preserves_oci hI.frame env _ rfl) (fun r => ?_)
      exact preserves_bind (preserves_oci_error_p hI.frame env fuel _ _ _)
        (fun b => preserves_ite (preserves_pure _) (preserves_pure _))
    · refine preserves_ite (preserves_ite ?_ (preserves_pure _)) (preserves_pure _)
      refine preserves_bind (preserves_oci hI.frame env _ rfl) (fun r => ?_)
      exact preserves_bind (preserves_oci_error_p hI.frame env fuel _ _ _)
        (fun b => preserves_ite (preserves_pure _) (preserves_pure _))
  refine triple_ite (fun _ => triple_bind (preserves_Tcl_SetResult_exception hI)
    (fun _ => triple_flush_fail hI env fuel _ _ (herr _ (Or.inr rfl)))) (fun _ => ?_)
  refine triple_ite (fun _ => triple_bind (preserves_Ns_DbSetException hI.frame _ _)
    (fun _ => triple_bind (preserves_Tcl_SetResult_exception hI)
      (fun _ => triple_flush_fail hI env fuel _ _ (herr _ (Or.inl rfl))))) (fun hm1 => ?_)
  refine triple_ite (fun _ => triple_bind (preserves_Ns_DbSetException hI.frame _ _)
    (fun _ => triple_bind (preserves_Tcl_SetResult_exception hI)
      (fun _ => triple_flush_fail hI env fuel _ _ (herr _ (Or.inl rfl))))) (fun hm2 => ?_)
  split
  · exact triple_fault
  · exact triple_timeout
  · rename_i names hparse
    refine triple_bind (preserves_set_connection_any hI _ _) (fun _ => ?_)
    refine triple_bind (preserves_when (preserves_set_connection_any hI _ _)) (fun _ => ?_)
    refine triple_bind (triple_bind_loop k vars sets env fuel a cid names 0 _) (fun res => ?_)
    rcases res with _ | it
    · exact triple_pure (fun w hw => herr _ (Or.inl rfl) w hw.1)
    · refine triple_weaken (S := fun w => bind_state k vars sets w ∧
        ((a.array_p = false →
            it = if rep.value = OCI_STMT_SELECT then 0 else 1) ∧
          (a.array_p = true → (∀ var ∈ names, split_count env a vars sets var = some it) ∧
            ((names = [] ∨ 0 ≠ 0) → it = if rep.value = OCI_STMT_SELECT then 0 else 1))))
        ?_ (fun w h => ⟨h.1, h.2 it rfl⟩) (fun _ _ h => h)
      refine triple_assume (fun hit => ?_)
      refine triple_bind (Q := fun _ w => bind_state k vars sets w)
        (triple_weaken triple_get_world (fun _ h => h) (fun _ _ h => h.1)) (fun w0 => ?_)
      refine triple_bind (Q := fun _ w => executes_are (k ++ [it]) w) ?_ (fun r => ?_)
      · refine triple_oci (fun w hw => ?_)
        show executes (w.trace ++ [_]) = k ++ [it]
        rw [executes_append, hw.1]
      · refine triple_weaken (triple_after_execute env fuel a cid names _ r (k ++ [it]))
          (fun _ h => h) (fun res w h => Or.inr ⟨it, h, ?_, ?_, ?_⟩)
        · intro hsel
          obtain ⟨t, ht⟩ := hrep
          have htype : rep.value = OCI_STMT_SELECT := by rw [ht]; exact hsel t
          have hdml : a.dml_p = false := by
            by_contra hd
            exact hm2 ⟨htype, by simpa using hd⟩
          have harr : a.array_p = false := by
            by_contra hp
            rw [ha (by simpa using hp)] at hdml
            cases hdml
          rw [hit.1 harr, if_pos htype]
        · intro hnot harr
          obtain ⟨t, ht⟩ := hrep
          have htype : rep.value ≠ OCI_STMT_SELECT := by rw [ht]; exact hnot t
          rw [hit.1 harr, if_neg htype]
        · intro harr names1 hp1
          rw [hparse] at hp1
          cases hp1
          exact (hit.2 harr).1

theorem scan_from_no_marker (q : List Char) :
    ∀ (last : Char) (buf : List Char) (csl : Nat) (names : List (List Char)),
      (∀ c ∈ c_string q, c ≠ ':' ∧ c ≠ '\'') →
      scan_from .base_state last buf csl names q = .done names := by
  induction q with
  | nil => intro last buf csl names _; simp [scan_from, finish_from]
  | cons c cs ih =>
    intro last buf csl names h
    by_cases h0 : c = '\x00'
    · simp [scan_from, finish_from, h0]
    · have hcs : c_string (c :: cs) = c :: c_string cs := by
        simp [c_string, List.takeWhile_cons, h0]
      rw [hcs] at h
      obtain ⟨h1, h2⟩ := h c (List.mem_cons_self _ _)
      rw [scan_from_base_char c cs last c buf buf csl csl names h1 h2 h0]
      exact ih _ _ _ _ (fun d hd => h d (List.mem_cons_of_mem _ hd))

theorem strcasecmp_eq_no_marker (q target : List Char)
    (ht : ∀ c : Char, c = ':' ∨ c = '\'' →
      c.toLower ∉ (c_string target).map Char.toLower)
    (h : strcasecmp_eq q target = true) :
    ∀ c ∈ c_string q, c ≠ ':' ∧ c ≠ '\'' := by
  intro c hc
  have hmem : c.toLower ∈ (c_string target).map Char.toLower := by
    have e : (c_string q).map Char.toLower = (c_string target).map Char.toLower := by
      simpa [strcasecmp_eq] using h
    rw [← e]
    exact List.mem_map_of_mem _ hc
  exact ⟨fun e => ht c (Or.inl e) hmem, fun e => ht c (Or.inr e) hmem⟩

theorem builtin_has_no_placeholder (q : List Char) (h : is_builtin q) :
    parse_bind_variables q = .done [] := by
  rw [parse_bind_variables_eq]
  apply scan_from_no_marker
  rcases h with h | h | h
  · refine strcasecmp_eq_no_marker q _ ?_ h
    rintro c (rfl | rfl) <;> decide
  · refine strcasecmp_eq_no_marker q _ ?_ h
    rintro c (rfl | rfl) <;> decide
  · refine strcasecmp_eq_no_marker q _ ?_ h
    rintro c (rfl | rfl) <;> decide

theorem triple_handle_builtins {I : World → Prop} (hI : TraceInv I) (env : Env)
    (fuel : Nat) (sql : List Char) :
    Triple I (handle_builtins env fuel sql)
      (fun r w => I w ∧ (r = .NS_DML → is_builtin sql)) := by
  unfold handle_builtins
  refine triple_bind preserves_get_world (fun w => ?_)
  refine triple_ite (fun h1 => ?_) (fun h1 => triple_ite (fun h2 => ?_)
    (fun h2 => triple_ite (fun h3 => ?_) (fun h3 => ?_)))
  · split
    · exact triple_fault
    · exact triple_bind (preserves_set_connection_any hI _ _)
        (fun _ => triple_pure (fun w hw => ⟨hw, fun _ => Or.inl h1⟩))
  · split
    · exact triple_fault
    · refine triple_bind (preserves_oci hI.frame env _ rfl) (fun r => ?_)
      refine triple_bind (preserves_oci_error_p hI.frame env fuel _ _ _) (fun b => ?_)
      refine triple_ite (fun _ => ?_) (fun _ => ?_)
      · exact triple_bind (preserves_Ns_OracleFlush hI.frame env fuel)
          (fun _ => triple_pure (fun w hw => ⟨hw, fun _ => Or.inr (Or.inl h2)⟩))
      · exact triple_bind (preserves_set_connection_any hI _ _)
          (fun _ => triple_pure (fun w hw => ⟨hw, fun _ => Or.inr (Or.inl h2)⟩))
  · split
    · exact triple_fault
    · refine triple_bind (preserves_oci hI.frame env _ rfl) (fun r => ?_)
      refine triple_bind (preserves_oci_error_p hI.frame env fuel _ _ _) (fun b => ?_)
      refine triple_ite (fun _ => ?_) (fun _ => ?_)
      · exact triple_bind (preserves_Ns_OracleFlush hI.frame env fuel)
          (fun _ => triple_pure (fun w hw => ⟨hw, fun _ => Or.inr (Or.inr h3)⟩))
      · exact triple_bind (preserves_set_connection_any hI _ _)
          (fun _ => triple_pure (fun w hw => ⟨hw, fun _ => Or.inr (Or.inr h3)⟩))
  · refine triple_bind (preserves_allow_sql_p hI env sql) (fun b => ?_)
    refine triple_ite (fun _ => triple_pure (fun w hw => ⟨hw, fun h => by cases h⟩))
      (fun _ => ?_)
    exact triple_bind (preserves_Ns_OracleFlush hI.frame env fuel)
      (fun _ => triple_pure (fun w hw => ⟨hw, fun h => by cases h⟩))

theorem select_args_array_dml (objv : List (List Char)) :
    (select_args objv).array_p = true → (select_args objv).dml_p = true := by
  intro h
  simp only [select_args] at h
  simp only [select_args, Bool.or_eq_true]
  exact Or.inr h

theorem triple_OracleSelect (k : List Nat) (vars : List (List Char × List Char))
    (sets : List (List Char × List (List Char × List Char))) (env : Env) (fuel : Nat)
    (objv : List (List Char)) :
    Triple (bind_state k vars sets) (OracleSelect env fuel objv)
      (fun r w =>
        select_post env (select_args objv) vars sets (select_query objv) k r w ∨
        (executes w.trace = k ∧ is_builtin (select_query objv))) := by
  have hI := trace_inv_bind_state k vars sets
  have herr : ∀ w, bind_state k vars sets w →
      select_post env (select_args objv) vars sets (select_query objv) k .TCL_ERROR w ∨
        (executes w.trace = k ∧ is_builtin (select_query objv)) :=
    fun w hw => Or.inl (Or.inl ⟨hw.1, Or.inl rfl⟩)
  unfold OracleSelect
  refine triple_ite (fun _ => triple_bind (preserves_Tcl_AppendResult hI _)
    (fun _ => triple_pure herr)) (fun _ => ?_)
  refine triple_bind preserves_get_world (fun w0 => ?_)
  split
  · exact triple_bind (preserves_Tcl_SetResult hI _) (fun _ => triple_pure herr)
  · refine triple_bind (preserves_set_connection_any hI _ _) (fun _ => ?_)
    refine triple_ite (fun _ => triple_bind (preserves_Tcl_AppendResult hI _)
      (fun _ => triple_pure herr)) (fun _ => ?_)
    refine triple_bind (preserves_allow_sql_p hI env _) (fun b => ?_)
    refine triple_ite (fun _ => triple_bind (preserves_Tcl_AppendResult hI _)
      (fun _ => triple_pure herr)) (fun _ => ?_)
    refine triple_bind (triple_handle_builtins hI env fuel _) (fun code => ?_)
    cases code
    · exact triple_weaken
        (triple_select_statement k vars sets env fuel _ (select_args_array_dml objv) _ _)
        (fun _ h => h.1) (fun _ _ h => Or.inl h)
    · exact triple_bind
        (triple_weaken (preserves_Tcl_SetResult_exception hI) (fun _ h => h.1) (fun _ _ h => h))
        (fun _ => triple_pure herr)
    · exact triple_pure (fun w hw => Or.inr ⟨hw.1.1, hw.2 rfl⟩)
    · exact triple_bind
        (triple_weaken (preserves_Tcl_AppendResult hI _) (fun _ h => h.1) (fun _ _ h => h))
        (fun _ => triple_pure herr)
    · exact triple_bind
        (triple_weaken (preserves_Tcl_AppendResult hI _) (fun _ h => h.1) (fun _ _ h => h))
        (fun _ => triple_pure herr)


/-! ## Rules for runs that return -/

theorem total_bind {α β : Type} {P : World → Prop} {Q : α → World → Prop}
    {R : β → World → Prop} {m : M α} {f : α → M β}
    (h1 : Total P m Q) (h2 : ∀ a, Total (Q a) (f a) R) : Total P (m >>= f) R := by
  intro w hw
  obtain ⟨a, w1, hm, hq⟩ := h1 w hw
  obtain ⟨b, w2, hf, hr⟩ := h2 a w1 hq
  refine ⟨b, w2, ?_, hr⟩
  rw [bind_apply, hm]
  exact hf

theorem total_pure {α : Type} {P : World → Prop} {Q : α → World → Prop} {a : α}
    (h : ∀ w, P w → Q a w) : Total P (pure a : M α) Q :=
  fun w hw => ⟨a, w, rfl, h w hw⟩

theorem total_weaken {α : Type} {P S : World → Prop} {Q T : α → World → Prop} {m : M α}
    (h : Total S m T) (hp : ∀ w, P w → S w) (hq : ∀ a w, T a w → Q a w) :
    Total P m Q := by
  intro w hw
  obtain ⟨a, w1, hm, ht⟩ := h w (hp w hw)
  exact ⟨a, w1, hm, hq a w1 ht⟩

theorem total_and {α : Type} {P S : World → Prop} {Q T : α → World → Prop} {m : M α}
    (h1 : Total P m Q) (h2 : Triple S m T) :
    Total (fun w => P w ∧ S w) m (fun a w => Q a w ∧ T a w) := by
  intro w hw
  obtain ⟨a, w1, hm, hq⟩ := h1 w hw.1
  exact ⟨a, w1, hm, hq, h2 w hw.2 a w1 hm⟩

theorem total_assume {α : Type} {φ : Prop} {P : World → Prop} {Q : α → World → Prop}
    {m : M α} (h : φ → Total P m Q) : Total (fun w => P w ∧ φ) m Q :=
  fun w hw => h hw.2 w hw.1

theorem total_ite {α : Type} {P : World → Prop} {Q : α → World → Prop} {c : Prop}
    [Decidable c] {m1 m2 : M α} (h1 : c → Total P m1 Q) (h2 : ¬c → Total P m2 Q) :
    Total P (if c then m1 else m2) Q := by
  split
  · exact h1 ‹_›
  · exact h2 ‹_›

theorem total_when {P : World → Prop} {Q : Unit → World → Prop} {c : Prop} [Decidable c]
    {m : M Unit} (h1 : c → Total P m Q) (h2 : ¬c → ∀ w, P w → Q () w) :
    Total P (M.when c m) Q := by
  unfold M.when
  exact total_ite h1 (fun hc => total_pure (h2 hc))

theorem total_get_world {P : World → Prop} :
    Total P get_world (fun a w => P w ∧ a = w) :=
  fun w hw => ⟨w, w, rfl, hw, rfl⟩

theorem total_modify_world {P : World → Prop} {Q : Unit → World → Prop} {f : World → World}
    (h : ∀ w, P w → Q () (f w)) : Total P (modify_world f) Q :=
  fun w hw => ⟨(), f w, rfl, h w hw⟩

theorem total_oci {P : World → Prop} {Q : Reply → World → Prop} {env : Env} {c : NativeCall}
    (h : ∀ w, P w → Q (env.engine w.trace.length c) { w with trace := w.trace ++ [c] }) :
    Total P (oci env c) Q :=
  fun w hw => ⟨_, _, rfl, h w hw⟩

theorem connection_at_apply (cid : Nat) (w : World) (c : ora_connection_t)
    (hc : w.dbh.connection = some c) (hid : c.id = cid) :
    connection_at cid w = .done (c, w) := by
  unfold connection_at
  rw [hc]
  simp [hid]

theorem set_connection_apply (cid : Nat) (f : ora_connection_t → ora_connection_t) (w : World)
    (c : ora_connection_t) (hc : w.dbh.connection = some c) (hid : c.id = cid) :
    set_connection cid f w
      = .done ((), { w with dbh := { w.dbh with connection := some (f c) } }) := by
  unfold set_connection
  rw [hc]
  simp [hid]

theorem fetchbuf_at_apply (cid i : Nat) (w : World) (c : ora_connection_t)
    (fbs : List fetch_buffer_t) (fb : fetch_buffer_t)
    (hc : w.dbh.connection = some c) (hid : c.id = cid) (hf : c.fetch_buffers = some fbs)
    (hi : fbs[i]? = some fb) : fetchbuf_at cid i w = .done (fb, w) := by
  unfold fetchbuf_at
  rw [bind_apply, connection_at_apply cid w c hc hid]
  simp only [hf, hi]
  rfl

theorem tcl_error_p_success (env : Env) (fuel : Nat) (ocifn : String) (w : World) :
    tcl_error_p env fuel ocifn .OCI_SUCCESS w = .done (false, w) := rfl

theorem columns_ready_settled {cid n : Nat} {w : World} (h : columns_ready cid n w) :
    settled cid w := by
  obtain ⟨c, hc, hid, hn, hl, _⟩ := h
  exact ⟨c, hc, hid, fun fbs hf => by rw [hn]; exact hl fbs hf⟩

theorem idle_settled {cid : Nat} {w : World} (h : idle cid w) : settled cid w := by
  obtain ⟨c, hc, hid, hf⟩ := h
  exact ⟨c, hc, hid, fun fbs h => by rw [hf] at h; cases h⟩


theorem total_if_false {α : Type} {P : World → Prop} {Q : α → World → Prop} {b : Bool}
    {m1 m2 : M α} (h : Total P m2 Q) :
    Total (fun w => P w ∧ b = false) (if b = true then m1 else m2) Q := by
  intro w hw
  rw [hw.2]
  exact h w hw.1

theorem total_oci_error_p {P : World → Prop} (env : Env) (fuel : Nat) (dbh : Bool)
    (ocifn : String) (st : oci_status_t) (h : st = .OCI_SUCCESS) :
    Total P (oci_error_p env fuel dbh ocifn st) (fun b w => P w ∧ b = false) :=
  fun w hw => ⟨false, w, oci_error_p_success env fuel dbh ocifn st (Or.inl h) w, hw, rfl⟩

theorem total_tcl_error_p {P : World → Prop} (env : Env) (fuel : Nat)
    (ocifn : String) (st : oci_status_t) (h : st = .OCI_SUCCESS) :
    Total P (tcl_error_p env fuel ocifn st) (fun b w => P w ∧ b = false) := by
  subst h
  exact fun w hw => ⟨false, w, tcl_error_p_success env fuel ocifn w, hw, rfl⟩

theorem total_connection_at {P : World → Prop} {cid : Nat}
    (h : ∀ w, P w → ∃ c, w.dbh.connection = some c ∧ c.id = cid) :
    Total P (connection_at cid)
      (fun c w => P w ∧ w.dbh.connection = some c ∧ c.id = cid) := by
  intro w hw
  obtain ⟨c, hc, hid⟩ := h w hw
  exact ⟨c, w, connection_at_apply cid w c hc hid, hw, hc, hid⟩

theorem total_set_connection {P : World → Prop} {Q : Unit → World → Prop} {cid : Nat}
    {f : ora_connection_t → ora_connection_t}
    (h : ∀ w, P w → ∃ c, w.dbh.connection = some c ∧ c.id = cid ∧
      Q () { w with dbh := { w.dbh with connection := some (f c) } }) :
    Total P (set_connection cid f) Q := by
  intro w hw
  obtain ⟨c, hc, hid, hq⟩ := h w hw
  exact ⟨(), _, set_connection_apply cid f w c hc hid, hq⟩

theorem total_fetchbuf_at (cid n i : Nat) (hi : i < n) :
    Total (columns_ready cid n) (fetchbuf_at cid i) (fun _ w => columns_ready cid n w) := by
  intro w hw
  obtain ⟨c, hc, hid, hn, hl, hb⟩ := hw
  cases hf : c.fetch_buffers with
  | none => exact absurd hf (hb (by omega))
  | some fbs =>
    have hlen := hl fbs hf
    have hi2 : i < fbs.length := by omega
    exact ⟨fbs[i], w, fetchbuf_at_apply cid i w c fbs _ hc hid hf
      (List.getElem?_eq_getElem hi2), c, hc, hid, hn, hl, hb⟩

theorem total_set_fetchbuf (cid n i : Nat) (hi : i < n) (f : fetch_buffer_t → fetch_buffer_t) :
    Total (columns_ready cid n) (set_fetchbuf cid i f) (fun _ w => columns_ready cid n w) := by
  unfold set_fetchbuf
  refine total_bind (total_fetchbuf_at cid n i hi) (fun fb => ?_)
  refine total_set_connection (fun w hw => ?_)
  obtain ⟨c, hc, hid, hn, hl, hb⟩ := hw
  refine ⟨c, hc, hid, _, rfl, hid, hn, ?_, ?_⟩
  · intro fbs hf
    cases hf0 : c.fetch_buffers with
    | none => simp [hf0] at hf
    | some fbs0 =>
      simp only [hf0, Option.map_some', Option.some.injEq] at hf
      rw [← hf, List.length_set]
      exact hl fbs0 hf0
  · intro hpos
    cases hf0 : c.fetch_buffers with
    | none => exact absurd hf0 (hb hpos)
    | some fbs0 => simp

theorem columns_ready_congr {cid n : Nat} {w w1 : World}
    (h : w1.dbh.connection = w.dbh.connection) (hw : columns_ready cid n w) :
    columns_ready cid n w1 := by
  obtain ⟨c, hc, rest⟩ := hw
  exact ⟨c, by rw [h]; exact hc, rest⟩

theorem loop_state_call {cid n : Nat} {k : List Nat} {vars : List (List Char × List Char)}
    {sets : List (List Char × List (List Char × List Char))} {w : World} (c : NativeCall)
    (hc : is_execute c = false) (hw : loop_state cid n k vars sets w) :
    loop_state cid n k vars sets { w with trace := w.trace ++ [c] } :=
  ⟨columns_ready_congr rfl hw.1, (trace_inv_bind_state k vars sets).call w c hw.2 hc⟩

theorem total_loop_oci (env : Env) (hs : engine_succeeds env) (cid n : Nat) (k : List Nat)
    (vars : List (List Char × List Char))
    (sets : List (List Char × List (List Char × List Char))) (c : NativeCall)
    (hc : is_execute c = false) :
    Total (loop_state cid n k vars sets) (oci env c)
      (fun r w => loop_state cid n k vars sets w ∧ r.status = .OCI_SUCCESS) :=
  total_oci (fun _ hw => ⟨loop_state_call c hc hw, hs _ _⟩)

theorem total_loop_set_fetchbuf (cid n : Nat) (k : List Nat)
    (vars : List (List Char × List Char))
    (sets : List (List Char × List (List Char × List Char))) (i : Nat) (hi : i < n)
    (f : fetch_buffer_t → fetch_buffer_t) :
    Total (loop_state cid n k vars sets) (set_fetchbuf cid i f)
      (fun _ w => loop_state cid n k vars sets w) :=
  total_and (total_set_fetchbuf cid n i hi f)
    (preserves_set_fetchbuf (trace_inv_bind_state k vars sets).frame cid i f)

theorem total_loop_fetchbuf_at (cid n : Nat) (k : List Nat)
    (vars : List (List Char × List Char))
    (sets : List (List Char × List (List Char × List Char))) (i : Nat) (hi : i < n) :
    Total (loop_state cid n k vars sets) (fetchbuf_at cid i)
      (fun _ w => loop_state cid n k vars sets w) :=
  total_and (total_fetchbuf_at cid n i hi) (preserves_fetchbuf_at cid i)

theorem total_loop_Tcl_AppendResult (cid n : Nat) (k : List Nat)
    (vars : List (List Char × List Char))
    (sets : List (List Char × List (List Char × List Char))) (msg : String) :
    Total (loop_state cid n k vars sets) (Tcl_AppendResult msg)
      (fun _ w => loop_state cid n k vars sets w) :=
  total_modify_world (fun w hw => ⟨columns_ready_congr rfl hw.1,
    (trace_inv_bind_state k vars sets).other w _ hw.2 rfl rfl rfl⟩)


theorem total_if_true {α : Type} {P : World → Prop} {Q : α → World → Prop} {b : Bool}
    {m1 m2 : M α} (h : Total P m1 Q) :
    Total (fun w => P w ∧ b = true) (if b = true then m1 else m2) Q := by
  intro w hw
  rw [hw.2]
  exact h w hw.1

theorem total_for_loop {I : World → Prop} (body : Nat → M Unit) (b : Nat)
    (h : ∀ j, j < b → Total I (body j) (fun _ => I)) :
    ∀ m i, i + m ≤ b → Total I (for_loop body m i) (fun _ => I) := by
  intro m
  induction m with
  | zero => intro i _; exact total_pure (fun _ hw => hw)
  | succ m ih =>
    intro i hi
    exact total_bind (h i (by omega)) (fun _ => ih (i + 1) (by omega))

theorem total_ready_oci (env : Env) (hs : engine_succeeds env) (cid n : Nat) (c : NativeCall) :
    Total (columns_ready cid n) (oci env c)
      (fun r w => columns_ready cid n w ∧ r.status = .OCI_SUCCESS) :=
  total_oci (fun _ hw => ⟨columns_ready_congr rfl hw, hs _ _⟩)

theorem total_flush_fetchbuf (env : Env) (hs : engine_succeeds env) (fuel cid n i : Nat)
    (hi : i < n) :
    Total (columns_ready cid n) (flush_fetchbuf env (oci_error_p env fuel) cid i)
      (fun _ => columns_ready cid n) := by
  unfold flush_fetchbuf
  refine total_bind (total_fetchbuf_at cid n i hi) (fun fb => ?_)
  refine total_bind (Q := fun _ => columns_ready cid n) ?_ (fun _ => ?_)
  · refine total_when (fun _ => ?_) (fun _ _ hw => hw)
    refine total_bind (total_ready_oci env hs cid n _) (fun r => ?_)
    refine total_assume (fun hr => ?_)
    refine total_bind (total_oci_error_p env fuel true _ _ hr) (fun _ => ?_)
    exact total_weaken (total_set_fetchbuf cid n i hi _) (fun _ h => h.1) (fun _ _ h => h)
  · refine total_bind (total_set_fetchbuf cid n i hi _) (fun _ => ?_)
    refine total_bind (total_fetchbuf_at cid n i hi) (fun fb1 => ?_)
    refine total_when (fun _ => ?_) (fun _ _ hw => hw)
    refine total_bind (Q := fun _ => columns_ready cid n) ?_
      (fun _ => total_set_fetchbuf cid n i hi _)
    refine total_for_loop _ fb1.n_rows (fun j _ => ?_) fb1.n_rows 0 (by omega)
    refine total_bind (total_ready_oci env hs cid n _) (fun r => ?_)
    refine total_assume (fun hr => ?_)
    refine total_bind (total_oci_error_p env fuel true _ _ hr) (fun _ => ?_)
    refine total_bind (total_weaken (total_fetchbuf_at cid n i hi) (fun _ h => h.1)
      (fun _ _ h => h)) (fun _ => total_pure (fun _ hw => hw))

theorem settled_congr {cid : Nat} {w w1 : World}
    (h : w1.dbh.connection = w.dbh.connection) (hw : settled cid w) : settled cid w1 := by
  obtain ⟨c, hc, rest⟩ := hw
  exact ⟨c, by rw [h]; exact hc, rest⟩

theorem total_settled_set_connection (cid : Nat) (f : ora_connection_t → ora_connection_t)
    (hf : ∀ c, (f c).id = c.id ∧ (f c).n_columns = c.n_columns ∧
      (f c).fetch_buffers = c.fetch_buffers) :
    Total (settled cid) (set_connection cid f) (fun _ => settled cid) := by
  refine total_set_connection (fun w hw => ?_)
  obtain ⟨c, hc, hid, hl⟩ := hw
  refine ⟨c, hc, hid, f c, rfl, by rw [(hf c).1]; exact hid, fun fbs h => ?_⟩
  rw [(hf c).2.1]
  rw [(hf c).2.2] at h
  exact hl fbs h

theorem total_Ns_OracleFlush (env : Env) (hs : engine_succeeds env) (fuel cid : Nat) :
    Total (settled cid) (Ns_OracleFlush env fuel) (fun _ _ => True) := by
  intro w hw
  have hw0 := hw
  obtain ⟨c, hc, hid, hl⟩ := hw
  subst hid
  unfold Ns_OracleFlush Ns_OracleFlush_with
  rw [get_world_bind]
  simp only [hc]
  refine total_bind (P := settled c.id) (Q := fun freed w => settled c.id w ∧ freed = true)
    (R := fun _ _ => True) ?_ (fun freed => ?_) w hw0
  · refine total_ite (fun _ => ?_) (fun _ => total_pure (fun _ h => ⟨h, rfl⟩))
    refine total_bind (Q := fun r w => settled c.id w ∧ r.status = .OCI_SUCCESS)
      (total_oci (fun _ h => ⟨settled_congr rfl h, hs _ _⟩)) (fun r => ?_)
    refine total_assume (fun hr => ?_)
    refine total_bind (total_oci_error_p env fuel true _ _ hr) (fun b => ?_)
    refine total_if_false ?_
    exact total_bind (total_settled_set_connection c.id _ (fun _ => ⟨rfl, rfl, rfl⟩))
      (fun _ => total_pure (fun _ h => ⟨h, rfl⟩))
  · refine total_if_true ?_
    refine total_bind (total_settled_set_connection c.id _ (fun _ => ⟨rfl, rfl, rfl⟩))
      (fun _ => ?_)
    refine total_bind (total_connection_at (fun w h => ?_)) (fun c1 => ?_)
    · obtain ⟨c2, h2, hid2, _⟩ := h
      exact ⟨c2, h2, hid2⟩
    · split
      · exact total_pure (fun _ _ => trivial)
      · rename_i fbs hfbs
        refine total_weaken (S := columns_ready c.id c1.n_columns) (T := fun _ _ => True)
          ?_ (fun w h => ?_) (fun _ _ h => h)
        · refine total_bind (total_for_loop _ c1.n_columns
            (fun j hj => total_flush_fetchbuf env hs fuel c.id c1.n_columns j hj)
            c1.n_columns 0 (by omega)) (fun _ => ?_)
          refine total_bind (Q := fun _ _ => True) (total_set_connection (fun w h => ?_))
            (fun _ => total_pure (fun _ _ => trivial))
          obtain ⟨c2, h2, hid2, _⟩ := h
          exact ⟨c2, h2, hid2, trivial⟩
        · obtain ⟨⟨c2, h2, hid2, hl2⟩, h3, hid3⟩ := h
          rw [h2] at h3
          cases h3
          exact ⟨c1, h2, hid2, rfl, fun fbs1 hf1 => hl2 fbs1 hf1, fun _ => by rw [hfbs]; simp⟩


theorem total_bind_value (cid n : Nat) (k : List Nat) (vars : List (List Char × List Char))
    (sets : List (List Char × List (List Char × List Char))) (a : SelectArgs) (i : Nat)
    (hi : i < n) (var : List Char) :
    Total (loop_state cid n k vars sets) (bind_value a cid i var)
      (fun res w => loop_state cid n k vars sets w ∧ res = resolved_value a vars sets var) := by
  unfold bind_value resolved_value
  split
  · rename_i index hidx
    refine total_ite (fun hc => ?_) (fun hc => ?_)
    · refine total_bind (total_loop_Tcl_AppendResult cid n k vars sets _) (fun _ => ?_)
      exact total_pure (fun w hw => ⟨hw, by rw [if_pos hc]⟩)
    · simp only [hc, if_false]
      split
      · rename_i value hv
        exact total_pure (fun w hw => ⟨hw, hv.symm⟩)
      · rename_i hv
        exfalso
        have hlen := List.getElem?_eq_none_iff.mp hv
        omega
  · split
    · refine total_bind (total_loop_set_fetchbuf cid n k vars sets i hi _) (fun _ => ?_)
      refine total_bind total_get_world (fun w0 => ?_)
      split
      · rename_i value hv
        refine total_pure (fun w hw => ⟨hw.1, ?_⟩)
        rw [← hw.1.2.2.1, ← hw.2]
        exact hv.symm
      · rename_i hv
        refine total_bind (Q := fun _ w => loop_state cid n k vars sets w ∧ w0.tcl_vars = vars)
          (total_modify_world (fun w hw => ⟨⟨columns_ready_congr rfl hw.1.1,
            (trace_inv_bind_state k vars sets).other w _ hw.1.2 rfl rfl rfl⟩, ?_⟩))
          (fun _ => total_pure (fun w hw => ⟨hw.1, ?_⟩))
        · rw [hw.2]; exact hw.1.2.2.1
        · rw [← hw.2]; exact hv.symm
    · rename_i set
      refine total_bind total_get_world (fun w0 => ?_)
      split
      · rename_i value hv
        refine total_pure (fun w hw => ⟨hw.1, ?_⟩)
        rw [← hw.1.2.2.2, ← hw.2]
        exact hv.symm
      · rename_i hv
        refine total_bind (Q := fun _ w => loop_state cid n k vars sets w ∧ w0.sets = sets)
          (total_modify_world (fun w hw => ⟨⟨columns_ready_congr rfl hw.1.1,
            (trace_inv_bind_state k vars sets).other w _ hw.1.2 rfl rfl rfl⟩, ?_⟩))
          (fun _ => total_pure (fun w hw => ⟨hw.1, ?_⟩))
        · rw [hw.2]; exact hw.1.2.2.2
        · rw [← hw.2]; exact hv.symm


theorem total_bind_error (env : Env) (hs : engine_succeeds env) (fuel cid n : Nat)
    (k : List Nat) (vars : List (List Char × List Char))
    (sets : List (List Char × List (List Char × List Char))) :
    Total (loop_state cid n k vars sets) (bind_error env fuel) (fun res _ => res = none) := by
  unfold bind_error
  refine total_bind (Q := fun _ _ => True) ?_ (fun _ => total_pure (fun _ _ => rfl))
  exact total_weaken (total_Ns_OracleFlush env hs fuel cid)
    (fun _ h => columns_ready_settled h.1) (fun _ _ h => h)

theorem total_bind_variable (env : Env) (hs : engine_succeeds env) (fuel cid n : Nat)
    (k : List Nat) (vars : List (List Char × List Char))
    (sets : List (List Char × List (List Char × List Char))) (a : SelectArgs) (i : Nat)
    (hi : i < n) (var : List Char) (iters : Nat) :
    Total (loop_state cid n k vars sets) (bind_variable env fuel a cid i var iters)
      (fun res w => (res = none ∨ loop_state cid n k vars sets w) ∧
        (a.array_p = true → ∀ N, split_count env a vars sets var = some N →
          (i = 0 ∨ iters = N) → res = some N) ∧
        (a.array_p = false → (resolved_value a vars sets var).isSome = true →
          res = some iters)) := by
  unfold bind_variable
  refine total_bind (total_loop_set_fetchbuf cid n k vars sets i hi _) (fun _ => ?_)
  refine total_bind (total_bind_value cid n k vars sets a i hi var) (fun res => ?_)
  split
  · refine total_assume (fun hres => ?_)
    refine total_weaken (total_bind_error env hs fuel cid n k vars sets) (fun _ h => h)
      (fun r w hr => ⟨Or.inl hr, fun _ N hN _ => ?_, fun _ hsome => ?_⟩)
    · rw [split_count, ← hres] at hN
      cases hN
    · rw [← hres] at hsome
      cases hsome
  · rename_i value
    refine total_assume (fun hres => ?_)
    refine total_bind (Q := fun prepared w => loop_state cid n k vars sets w ∧
      (a.array_p = true → ∀ N, (env.Tcl_SplitList value).map List.length = some N →
        (i = 0 ∨ iters = N) → ∃ ml, prepared = some (N, ml)) ∧
      (a.array_p = false → ∃ ml, prepared = some (iters, ml))) ?_ ?_
    · refine total_ite (fun harr => ?_) (fun harr => total_ite (fun hdml => ?_) (fun hdml => ?_))
      · split
        · rename_i hv
          refine total_pure (fun w hw => ⟨hw, fun _ N hN _ => ?_, fun hf => ?_⟩)
          · rw [hv] at hN
            cases hN
          · rw [harr] at hf
            cases hf
        · rename_i values hv
          refine total_bind (total_loop_set_fetchbuf cid n k vars sets i hi _) (fun _ => ?_)
          refine total_ite (fun h0 => ?_)
            (fun h0 => total_ite (fun hne => ?_) (fun hne => ?_))
          · refine total_pure (fun w hw => ⟨hw, fun _ N hN _ => ?_, fun hf => ?_⟩)
            · rw [hv] at hN
              cases hN
              exact ⟨_, rfl⟩
            · rw [harr] at hf
              cases hf
          · refine total_bind (total_loop_Tcl_AppendResult cid n k vars sets _) (fun _ => ?_)
            refine total_pure (fun w hw => ⟨hw, fun _ N hN hor => ?_, fun hf => ?_⟩)
            · rw [hv] at hN
              cases hN
              rcases hor with h | h
              · exact absurd h h0
              · exact absurd h hne
            · rw [harr] at hf
              cases hf
          · refine total_pure (fun w hw => ⟨hw, fun _ N hN _ => ?_, fun hf => ?_⟩)
            · rw [hv] at hN
              cases hN
              rw [not_not.mp hne]
              exact ⟨_, rfl⟩
            · rw [harr] at hf
              cases hf
      · refine total_bind (total_loop_set_fetchbuf cid n k vars sets i hi _) (fun _ => ?_)
        exact total_pure (fun w hw => ⟨hw, fun ht => absurd ht harr, fun _ => ⟨_, rfl⟩⟩)
      · refine total_bind (total_loop_set_fetchbuf cid n k vars sets i hi _) (fun _ => ?_)
        exact total_pure (fun w hw => ⟨hw, fun ht => absurd ht harr, fun _ => ⟨_, rfl⟩⟩)
    · intro prepared
      have hsplit : ∀ N, split_count env a vars sets var = some N →
          (env.Tcl_SplitList value).map List.length = some N := by
        intro N hN
        rw [split_count, ← hres] at hN
        exact hN
      split
      · refine total_assume (fun hp => ?_)
        refine total_weaken (total_bind_error env hs fuel cid n k vars sets) (fun _ h => h)
          (fun r w hr => ⟨Or.inl hr, fun harr N hN hor => ?_, fun hf => ?_⟩)
        · obtain ⟨ml, hml⟩ := hp.1 harr N (hsplit N hN) hor
          cases hml
        · obtain ⟨ml, hml⟩ := hp.2 hf
          cases hml
      · rename_i it ml
        refine total_assume (fun hp => ?_)
        have hgood : ∀ w, loop_state cid n k vars sets w →
            (some it = none ∨ loop_state cid n k vars sets w) ∧
            (a.array_p = true → ∀ N, split_count env a vars sets var = some N →
              (i = 0 ∨ iters = N) → some it = some N) ∧
            (a.array_p = false → (resolved_value a vars sets var).isSome = true →
              some it = some iters) := by
          intro w hw
          refine ⟨Or.inr hw, fun harr N hN hor => ?_, fun hf _ => ?_⟩
          · obtain ⟨ml1, hml⟩ := hp.1 harr N (hsplit N hN) hor
            cases hml
            rfl
          · obtain ⟨ml1, hml⟩ := hp.2 hf
            cases hml
            rfl
        refine total_bind (total_loop_fetchbuf_at cid n k vars sets i hi) (fun fb => ?_)
        refine total_bind (total_loop_oci env hs cid n k vars sets _ rfl) (fun r => ?_)
        refine total_assume (fun hr => ?_)
        refine total_bind (Q := fun _ => loop_state cid n k vars sets)
          (total_when (fun _ => total_loop_set_fetchbuf cid n k vars sets i hi _)
            (fun _ _ h => h)) (fun _ => ?_)
        refine total_bind (total_oci_error_p env fuel true _ _ hr) (fun b => ?_)
        refine total_if_false ?_
        refine total_ite (fun _ => ?_) (fun _ => total_pure hgood)
        refine total_bind (total_loop_oci env hs cid n k vars sets _ rfl) (fun r2 => ?_)
        refine total_assume (fun hr2 => ?_)
        refine total_bind (total_tcl_error_p env fuel _ _ hr2) (fun b2 => ?_)
        exact total_if_false (total_pure hgood)


theorem total_bind_loop (env : Env) (hs : engine_succeeds env) (fuel cid n : Nat)
    (k : List Nat) (vars : List (List Char × List Char))
    (sets : List (List Char × List (List Char × List Char))) (a : SelectArgs)
    (names : List (List Char)) :
    ∀ (i iters : Nat), i + names.length ≤ n →
      Total (loop_state cid n k vars sets) (bind_loop env fuel a cid names i iters)
        (fun res w => (res = none ∨ loop_state cid n k vars sets w) ∧
          (names = [] → res = some iters) ∧
          (a.array_p = true → ∀ N, (∀ var ∈ names, split_count env a vars sets var = some N) →
            (i = 0 ∨ iters = N) → names ≠ [] → res = some N) ∧
          (a.array_p = false →
            (∀ var ∈ names, (resolved_value a vars sets var).isSome = true) →
            res = some iters)) := by
  induction names with
  | nil =>
    intro i iters _
    exact total_pure (fun w hw => ⟨Or.inr hw, fun _ => rfl, fun _ _ _ _ h => absurd rfl h,
      fun _ _ => rfl⟩)
  | cons var rest ih =>
    intro i iters hi
    simp only [List.length_cons] at hi
    unfold bind_loop
    refine total_bind (total_bind_variable env hs fuel cid n k vars sets a i (by omega)
      var iters) (fun res => ?_)
    split
    · refine total_pure (fun w hw => ⟨Or.inl rfl, fun h => (by cases h),
        fun harr N hall hor _ => ?_, fun hf hall => ?_⟩)
      · exact hw.2.1 harr N (hall var (List.mem_cons_self _ _)) hor
      · exact absurd (hw.2.2 hf (hall var (List.mem_cons_self _ _))) (by simp)
    · rename_i it
      refine total_assume (fun hp => ?_)
      refine total_weaken (ih (i + 1) it (by omega))
        (fun w h => h.resolve_left (by simp))
        (fun r w h => ⟨h.1, fun hnil => (by cases hnil), fun harr N hall hor _ => ?_,
          fun hf hall => ?_⟩)
      · have hit : it = N := by
          have e := hp.1 harr N (hall var (List.mem_cons_self _ _)) hor
          cases e
          rfl
        subst hit
        by_cases hrest : rest = []
        · exact h.2.1 hrest
        · exact h.2.2.1 harr it (fun v hv => hall v (List.mem_cons_of_mem _ hv))
            (Or.inr rfl) hrest
      · have hit : it = iters := by
          have e := hp.2 hf (hall var (List.mem_cons_self _ _))
          cases e
          rfl
        subst hit
        exact h.2.2.2 hf (fun v hv => hall v (List.mem_cons_of_mem _ hv))

theorem outs_ready_congr {cid n : Nat} {w w1 : World}
    (h : w1.dbh.connection = w.dbh.connection) (hw : outs_ready cid n w) :
    outs_ready cid n w1 := by
  obtain ⟨c, hc, rest⟩ := hw
  exact ⟨c, by rw [h]; exact hc, rest⟩

theorem total_return_binds (a : SelectArgs) (cid n : Nat) (names : List (List Char)) :
    ∀ i, i + names.length ≤ n →
      Total (outs_ready cid n) (return_binds a cid names i) (fun _ => outs_ready cid n) := by
  induction names with
  | nil => intro i _; exact total_pure (fun _ h => h)
  | cons var rest ih =>
    intro i hi
    simp only [List.length_cons] at hi
    unfold return_binds
    refine total_bind (Q := fun fb w => outs_ready cid n w ∧
      (fb.inout = .BIND_OUT → fb.buf ≠ none)) ?_ (fun fb => ?_)
    · intro w hw
      obtain ⟨c, hc, hid, hb⟩ := hw
      obtain ⟨fbs, hf, hlen, hout⟩ := hb (by omega)
      have hi2 : i < fbs.length := by omega
      exact ⟨fbs[i], w, fetchbuf_at_apply cid i w c fbs _ hc hid hf
        (List.getElem?_eq_getElem hi2), ⟨c, hc, hid, hb⟩,
        hout _ (List.getElem_mem _)⟩
    · refine total_assume (fun hfb => ?_)
      refine total_bind (Q := fun _ => outs_ready cid n) ?_ (fun _ => ih (i + 1) (by omega))
      refine total_when (fun hout => ?_) (fun _ _ h => h)
      split
      · rename_i hbuf
        exact absurd hbuf (hfb hout)
      · split
        · exact total_modify_world (fun w hw => outs_ready_congr rfl hw)
        · exact total_modify_world (fun w hw => outs_ready_congr rfl hw)


/-! ## The buffers of the scalar binds -/

theorem bufs_upto_congr {i : Nat} {w w1 : World}
    (h : w1.dbh.connection = w.dbh.connection) (hw : bufs_upto i w) : bufs_upto i w1 := by
  intro c fbs hc
  rw [h] at hc
  exact hw c fbs hc

theorem triple_fetchbuf_at {P : World → Prop} (cid i : Nat) :
    Triple P (fetchbuf_at cid i)
      (fun fb w => P w ∧ ∃ c fbs, w.dbh.connection = some c ∧ c.fetch_buffers = some fbs ∧
        fbs[i]? = some fb) := by
  unfold fetchbuf_at
  refine triple_bind triple_connection_at (fun c => ?_)
  split
  · exact triple_fault
  · rename_i fbs hf
    split
    · exact triple_fault
    · rename_i fb hi
      exact triple_pure (fun w hw => ⟨hw.1, c, fbs, hw.2.1, hf, hi⟩)

theorem triple_bufs_set_fetchbuf (cid i m : Nat) (f : fetch_buffer_t → fetch_buffer_t)
    (hf : ∀ fb, fb.buf ≠ none → (f fb).buf ≠ none) :
    Triple (bufs_upto m) (set_fetchbuf cid i f) (fun _ => bufs_upto m) := by
  unfold set_fetchbuf
  refine triple_bind (triple_fetchbuf_at cid i) (fun fb => ?_)
  refine triple_set_connection (fun w c hw hc _ => ?_)
  obtain ⟨hb, c1, fbs, hc1, hfbs, hi⟩ := hw
  rw [hc] at hc1
  cases hc1
  intro c2 fbs2 hc2 hf2 j hj fb2 hfb2
  simp only [Option.some.injEq] at hc2
  subst hc2
  simp only [hfbs, Option.map_some', Option.some.injEq] at hf2
  subst hf2
  rw [List.getElem?_set] at hfb2
  split at hfb2
  · rename_i hij
    split at hfb2
    · cases hfb2
      subst hij
      exact hf fb (hb c fbs hc hfbs i hj fb hi)
    · cases hfb2
  · exact hb c fbs hc hfbs j hj fb2 hfb2

theorem triple_bufs_set_buf (cid i : Nat) (f : fetch_buffer_t → fetch_buffer_t)
    (hf : ∀ fb, (f fb).buf ≠ none) :
    Triple (bufs_upto i) (set_fetchbuf cid i f) (fun _ => bufs_upto (i + 1)) := by
  unfold set_fetchbuf
  refine triple_bind (triple_fetchbuf_at cid i) (fun fb => ?_)
  refine triple_set_connection (fun w c hw hc _ => ?_)
  obtain ⟨hb, c1, fbs, hc1, hfbs, hi⟩ := hw
  rw [hc] at hc1
  cases hc1
  intro c2 fbs2 hc2 hf2 j hj fb2 hfb2
  simp only [Option.some.injEq] at hc2
  subst hc2
  simp only [hfbs, Option.map_some', Option.some.injEq] at hf2
  subst hf2
  rw [List.getElem?_set] at hfb2
  split at hfb2
  · split at hfb2
    · cases hfb2
      exact hf fb
    · cases hfb2
  · rename_i hij
    exact hb c fbs hc hfbs j (by omega) fb2 hfb2

theorem triple_oci_error_p_false {P : World → Prop} (env : Env) (fuel : Nat) (dbh : Bool)
    (ocifn : String) (st : oci_status_t) :
    Triple P (oci_error_p env fuel dbh ocifn st) (fun b w => b = false → P w) := by
  by_cases h : st = .OCI_SUCCESS ∨ st = .OCI_SUCCESS_WITH_INFO
  · intro w hw b w1 hrun
    rw [oci_error_p_success env fuel dbh ocifn st h w] at hrun
    cases hrun
    exact fun _ => hw
  · intro w hw b w1 hrun hb
    have ht := oci_error_p_failure env fuel dbh ocifn st
      ⟨fun e => h (Or.inl e), fun e => h (Or.inr e)⟩ w trivial b w1 hrun
    rw [hb] at ht
    cases ht

theorem triple_tcl_error_p_false {P : World → Prop} (env : Env) (fuel : Nat)
    (ocifn : String) (st : oci_status_t) :
    Triple P (tcl_error_p env fuel ocifn st) (fun b w => b = false → P w) := by
  by_cases h : st = .OCI_SUCCESS
  · subst h
    intro w hw b w1 hrun
    rw [tcl_error_p_success env fuel ocifn w] at hrun
    cases hrun
    exact fun _ => hw
  · unfold tcl_error_p
    refine triple_bind (Q := fun _ _ => True) (fun _ _ _ _ _ => trivial) (fun w0 => ?_)
    rw [if_neg h]
    refine triple_bind (Q := fun _ _ => True) (fun _ _ _ _ _ => trivial) (fun _ => ?_)
    refine triple_bind (Q := fun _ _ => True) (fun _ _ _ _ _ => trivial) (fun _ => ?_)
    exact triple_pure (fun _ _ hb => by cases hb)


theorem triple_bufs_modify {m : Nat} {f : World → World}
    (hf : ∀ w, (f w).dbh.connection = w.dbh.connection) :
    Triple (bufs_upto m) (modify_world f) (fun _ => bufs_upto m) :=
  triple_modify_world (fun w hw => bufs_upto_congr (hf w) hw)

theorem triple_bufs_oci (env : Env) (m : Nat) (c : NativeCall) :
    Triple (bufs_upto m) (oci env c) (fun _ => bufs_upto m) :=
  triple_oci (fun _ hw => bufs_upto_congr rfl hw)

theorem triple_bufs_bind_value (a : SelectArgs) (cid i m : Nat) (var : List Char) :
    Triple (bufs_upto m) (bind_value a cid i var) (fun _ => bufs_upto m) := by
  unfold bind_value
  split
  · refine triple_ite (fun _ => ?_) (fun _ => ?_)
    · exact triple_bind (triple_bufs_modify (fun _ => rfl)) (fun _ => triple_pure (fun _ h => h))
    · split
      · exact triple_pure (fun _ h => h)
      · exact triple_fault
  · split
    · refine triple_bind (triple_bufs_set_fetchbuf cid i m _ (fun _ h => h)) (fun _ => ?_)
      refine triple_bind preserves_get_world (fun w0 => ?_)
      split
      · exact triple_pure (fun _ h => h)
      · exact triple_bind (triple_bufs_modify (fun _ => rfl))
          (fun _ => triple_pure (fun _ h => h))
    · refine triple_bind preserves_get_world (fun w0 => ?_)
      split
      · exact triple_pure (fun _ h => h)
      · exact triple_bind (triple_bufs_modify (fun _ => rfl))
          (fun _ => triple_pure (fun _ h => h))

theorem triple_none {P : World → Prop} {Q : Option Nat → World → Prop} (env : Env)
    (fuel : Nat) (hQ : ∀ w, Q none w) : Triple P (bind_error env fuel) Q := by
  unfold bind_error
  exact triple_bind (Q := fun _ _ => True) (fun _ _ _ _ _ => trivial)
    (fun _ => triple_pure (fun w _ => hQ w))

theorem triple_bufs_bind_variable (env : Env) (fuel : Nat) (a : SelectArgs)
    (harr : a.array_p = false) (cid i : Nat) (var : List Char) (iters : Nat) :
    Triple (bufs_upto i) (bind_variable env fuel a cid i var iters)
      (fun res w => res ≠ none → bufs_upto (i + 1) w) := by
  have hnone : ∀ w : World, (none : Option Nat) ≠ none → bufs_upto (i + 1) w :=
    fun _ h => absurd rfl h
  unfold bind_variable
  refine triple_bind (triple_bufs_set_fetchbuf cid i i _ (fun _ h => h)) (fun _ => ?_)
  refine triple_bind (triple_bufs_bind_value a cid i i var) (fun res => ?_)
  split
  · exact triple_none env fuel hnone
  · rename_i value
    refine triple_bind (Q := fun _ => bufs_upto (i + 1)) ?_ (fun prepared => ?_)
    · rw [if_neg (by rw [harr]; simp)]
      refine triple_ite (fun _ => ?_) (fun _ => ?_)
      · exact triple_bind (triple_bufs_set_buf cid i _ (fun _ => by simp))
          (fun _ => triple_pure (fun _ h => h))
      · exact triple_bind (triple_bufs_set_buf cid i _ (fun _ => by simp))
          (fun _ => triple_pure (fun _ h => h))
    · split
      · exact triple_none env fuel hnone
      · refine triple_bind (preserves_fetchbuf_at cid i) (fun fb => ?_)
        refine triple_bind (triple_bufs_oci env _ _) (fun r => ?_)
        refine triple_bind (preserves_when
          (triple_bufs_set_fetchbuf cid i (i + 1) _ (fun _ h => h))) (fun _ => ?_)
        refine triple_bind (triple_oci_error_p_false env fuel _ _ _) (fun b => ?_)
        refine triple_ite (fun _ => ?_) (fun hb => ?_)
        · exact triple_bind (Q := fun _ _ => True) (fun _ _ _ _ _ => trivial)
            (fun _ => triple_none env fuel hnone)
        · refine triple_weaken (S := bufs_upto (i + 1)) (T := fun res w => res ≠ none →
            bufs_upto (i + 1) w) ?_ (fun w h => h (by simpa using hb)) (fun _ _ h => h)
          refine triple_ite (fun _ => ?_) (fun _ => triple_pure (fun _ h _ => h))
          refine triple_bind (triple_bufs_oci env _ _) (fun r => ?_)
          refine triple_bind (triple_tcl_error_p_false env fuel _ _) (fun b2 => ?_)
          refine triple_ite (fun _ => triple_none env fuel hnone) (fun hb2 => ?_)
          exact triple_pure (fun w h _ => h (by simpa using hb2))

theorem triple_bufs_bind_loop (env : Env) (fuel : Nat) (a : SelectArgs)
    (harr : a.array_p = false) (cid : Nat) (names : List (List Char)) :
    ∀ (i iters : Nat),
      Triple (bufs_upto i) (bind_loop env fuel a cid names i iters)
        (fun res w => res ≠ none → bufs_upto (i + names.length) w) := by
  induction names with
  | nil =>
    intro i iters
    exact triple_pure (fun _ h _ => h)
  | cons var rest ih =>
    intro i iters
    unfold bind_loop
    refine triple_bind (triple_bufs_bind_variable env fuel a harr cid i var iters)
      (fun res => ?_)
    split
    · exact triple_pure (fun _ _ h => absurd rfl h)
    · rename_i it
      refine triple_weaken (ih (i + 1) it) (fun w h => h (by simp)) (fun res w h hr => ?_)
      have h2 := h hr
      simp only [List.length_cons]
      rw [show i + (rest.length + 1) = i + 1 + rest.length by omega]
      exact h2


theorem open_at_congr {cid : Nat} {w w1 : World}
    (h : w1.dbh.connection = w.dbh.connection) (hw : open_at cid w) : open_at cid w1 := by
  obtain ⟨c, hc, hid⟩ := hw
  exact ⟨c, by rw [h]; exact hc, hid⟩

theorem total_open_set_connection (cid : Nat) (f : ora_connection_t → ora_connection_t)
    (hf : ∀ c, (f c).id = c.id) :
    Total (open_at cid) (set_connection cid f) (fun _ => open_at cid) := by
  refine total_set_connection (fun w hw => ?_)
  obtain ⟨c, hc, hid⟩ := hw
  exact ⟨c, hc, hid, f c, rfl, by rw [hf c]; exact hid⟩

theorem total_after_execute (env : Env) (hs : engine_succeeds env) (fuel : Nat)
    (a : SelectArgs) (hcb : a.dml_p = true → a.array_p = false → callbacks_sound env)
    (cid : Nat) (names : List (List Char)) (time : Nat) (r : Reply)
    (hr : r.status = .OCI_SUCCESS) :
    Total (fun w => columns_ready cid names.length w ∧
        ((a.dml_p && !a.array_p) = true → bufs_upto names.length w))
      (do
        M.when ((a.array_p || a.dml_p) = true)
          (set_connection cid (fun c =>
            { c with fetch_buffers := c.fetch_buffers.map (env.callbacks time) }))
        M.when ((a.dml_p && !a.array_p) = true) (return_binds a cid names 0)
        let c ← connection_at cid
        M.when (c.n_columns > 0 ∧ c.fetch_buffers.isSome)
          (set_connection cid (fun c => { c with fetch_buffers := none }))
        if (← oci_error_p env fuel true "OCIStmtExecute" r.status) then do
          Tcl_SetResult_exception
          let _ ← Ns_OracleFlush env fuel
          pure SelectResult.TCL_ERROR
        else if a.dml_p then do
          let c ← connection_at cid
          if c.mode = .autocommit then do
            let r ← oci env .OCITransCommit
            if (← oci_error_p env fuel true "OCITransCommit" r.status) then do
              Tcl_SetResult_exception
              let _ ← Ns_OracleFlush env fuel
              pure SelectResult.TCL_ERROR
            else pure SelectResult.TCL_OK
          else pure SelectResult.TCL_OK
        else pure SelectResult.fetch_rows : M SelectResult)
      (fun res _ => res = if a.dml_p = true then .TCL_OK else .fetch_rows) := by
  have hopen : ∀ w, columns_ready cid names.length w → open_at cid w := by
    intro w hw
    obtain ⟨c, hc, hid, _⟩ := hw
    exact ⟨c, hc, hid⟩
  refine total_bind (Q := fun _ w => open_at cid w ∧
    ((a.dml_p && !a.array_p) = true → outs_ready cid names.length w)) ?_ (fun _ => ?_)
  · refine total_when (fun hc => ?_) (fun hc w hw => ⟨hopen w hw.1, fun hd => ?_⟩)
    · refine total_set_connection (fun w hw => ?_)
      obtain ⟨⟨c, hc1, hid, hn, hl, hb⟩, hbufs⟩ := hw
      refine ⟨c, hc1, hid, ⟨_, rfl, hid⟩, fun hd => ⟨_, rfl, hid, fun hpos => ?_⟩⟩
      have hupto := hbufs hd
      simp only [Bool.and_eq_true, Bool.not_eq_true'] at hd
      have hsound := hcb hd.1 hd.2
      cases hf : c.fetch_buffers with
      | none => exact absurd hf (hb hpos)
      | some fbs =>
        refine ⟨env.callbacks time fbs, rfl, ?_, (hsound time fbs).2 (fun fb hmem => ?_)⟩
        · rw [(hsound time fbs).1]
          exact hl fbs hf
        · obtain ⟨j, hj⟩ := List.mem_iff_getElem?.mp hmem
          have hjl : j < fbs.length := by
            by_contra hge
            rw [List.getElem?_eq_none (by omega)] at hj
            cases hj
          exact hupto c fbs hc1 hf j (by rw [← hl fbs hf]; exact hjl) fb hj
    · exfalso
      simp only [Bool.and_eq_true, Bool.not_eq_true'] at hd
      simp [hd.1] at hc
  · refine total_bind (Q := fun _ w => open_at cid w) ?_ (fun _ => ?_)
    · refine total_when (fun hd => ?_) (fun _ _ hw => hw.1)
      refine total_weaken (total_return_binds a cid names.length names 0 (by omega))
        (fun w hw => hw.2 hd) (fun _ w hw => ?_)
      obtain ⟨c, hc, hid, _⟩ := hw
      exact ⟨c, hc, hid⟩
    · refine total_bind (total_connection_at (fun w hw => hw)) (fun c => ?_)
      refine total_bind (Q := fun _ w => open_at cid w) ?_ (fun _ => ?_)
      · refine total_when (fun _ => ?_) (fun _ _ hw => hw.1)
        exact total_weaken (total_open_set_connection cid _ (fun _ => rfl))
          (fun _ hw => hw.1) (fun _ _ h => h)
      · refine total_bind (total_oci_error_p env fuel true _ _ hr) (fun b => ?_)
        refine total_if_false ?_
        refine total_ite (fun hd => ?_) (fun hd => total_pure (fun _ _ => by rw [if_neg hd]))
        refine total_bind (total_connection_at (fun w hw => hw)) (fun c1 => ?_)
        refine total_ite (fun _ => ?_) (fun _ => total_pure (fun _ _ => by rw [if_pos hd]))
        refine total_bind (Q := fun r1 _ => r1.status = .OCI_SUCCESS)
          (total_oci (fun _ _ => hs _ _)) (fun r1 => ?_)
        intro w hw
        obtain ⟨b1, w1, h1, _, hb1⟩ :=
          total_oci_error_p (P := fun _ => True) env fuel true "OCITransCommit" r1.status hw
            w trivial
        refine ⟨.TCL_OK, w1, ?_, by rw [if_pos hd]⟩
        rw [bind_apply, h1, hb1]
        rfl


theorem total_if_not_true {α : Type} {P : World → Prop} {Q : α → World → Prop} {b : Bool}
    {m1 m2 : M α} (h : Total P m2 Q) :
    Total (fun w => P w ∧ b = true) (if (!b) = true then m1 else m2) Q := by
  intro w hw
  rw [hw.2]
  exact h w hw.1

theorem entry_state_keep {cid : Nat} {k : List Nat} {vars : List (List Char × List Char)}
    {sets : List (List Char × List (List Char × List Char))} {w w1 : World}
    (hc : w1.dbh.connection = w.dbh.connection) (ht : w1.trace = w.trace)
    (hv : w1.tcl_vars = w.tcl_vars) (hs : w1.sets = w.sets)
    (hw : entry_state cid k vars sets w) : entry_state cid k vars sets w1 := by
  obtain ⟨⟨c, h1, h2, h3⟩, hb⟩ := hw
  exact ⟨⟨c, by rw [hc]; exact h1, h2, h3⟩,
    (trace_inv_bind_state k vars sets).other w w1 hb ht hv hs⟩

theorem total_entry_oci (env : Env) (hs : engine_succeeds env) (cid : Nat) (k : List Nat)
    (vars : List (List Char × List Char))
    (sets : List (List Char × List (List Char × List Char))) (c : NativeCall)
    (hc : is_execute c = false) :
    Total (entry_state cid k vars sets) (oci env c)
      (fun r w => entry_state cid k vars sets w ∧ r.status = .OCI_SUCCESS) := by
  refine total_oci (fun w hw => ⟨⟨?_, (trace_inv_bind_state k vars sets).call w c hw.2 hc⟩,
    hs _ _⟩)
  obtain ⟨c1, h1, h2, h3⟩ := hw.1
  exact ⟨c1, h1, h2, h3⟩

theorem total_entry_set_connection (cid : Nat) (k : List Nat)
    (vars : List (List Char × List Char))
    (sets : List (List Char × List (List Char × List Char)))
    (f : ora_connection_t → ora_connection_t)
    (hf : ∀ c, (f c).id = c.id ∧ (f c).fetch_buffers = c.fetch_buffers) :
    Total (entry_state cid k vars sets) (set_connection cid f)
      (fun _ => entry_state cid k vars sets) := by
  refine total_set_connection (fun w hw => ?_)
  obtain ⟨⟨c, h1, h2, h3⟩, hb⟩ := hw
  refine ⟨c, h1, h2, ⟨f c, rfl, by rw [(hf c).1]; exact h2, by rw [(hf c).2]; exact h3⟩, ?_⟩
  exact (trace_inv_bind_state k vars sets).other w _ hb rfl rfl rfl

theorem total_entry_flush_fail (env : Env) (hs : engine_succeeds env) (fuel cid : Nat)
    (k : List Nat) (vars : List (List Char × List Char))
    (sets : List (List Char × List (List Char × List Char))) (r : SelectResult) :
    Total (entry_state cid k vars sets)
      (do let _ ← Ns_OracleFlush env fuel; pure r : M SelectResult)
      (fun res _ => res = r) := by
  refine total_bind (Q := fun _ _ => True) ?_ (fun _ => total_pure (fun _ _ => rfl))
  exact total_weaken (total_Ns_OracleFlush env hs fuel cid)
    (fun _ h => idle_settled h.1) (fun _ _ h => h)

theorem total_entry_exception_fail (env : Env) (hs : engine_succeeds env) (fuel cid : Nat)
    (k : List Nat) (vars : List (List Char × List Char))
    (sets : List (List Char × List (List Char × List Char))) (code msg : String)
    (r : SelectResult) :
    Total (entry_state cid k vars sets)
      (do
        Ns_DbSetException code msg
        Tcl_SetResult_exception
        let _ ← Ns_OracleFlush env fuel
        pure r : M SelectResult)
      (fun res _ => res = r) := by
  refine total_bind (Q := fun _ => entry_state cid k vars sets)
    (total_modify_world (fun w hw => entry_state_keep rfl rfl rfl rfl hw)) (fun _ => ?_)
  refine total_bind (Q := fun _ => entry_state cid k vars sets)
    (total_modify_world (fun w hw => entry_state_keep rfl rfl rfl rfl hw)) (fun _ => ?_)
  exact total_entry_flush_fail env hs fuel cid k vars sets r

theorem total_entry_attr_set (env : Env) (hs : engine_succeeds env) (fuel cid : Nat)
    (k : List Nat) (vars : List (List Char × List Char))
    (sets : List (List Char × List (List Char × List Char))) (c : NativeCall)
    (hc : is_execute c = false) (ocifn : String) :
    Total (entry_state cid k vars sets)
      (do
        let r ← oci env c
        if (← oci_error_p env fuel true ocifn r.status) then pure false
        else pure true : M Bool)
      (fun ok w => entry_state cid k vars sets w ∧ ok = true) := by
  refine total_bind (total_entry_oci env hs cid k vars sets c hc) (fun r => ?_)
  refine total_assume (fun hr => ?_)
  refine total_bind (total_oci_error_p env fuel true _ _ hr) (fun b => ?_)
  exact total_if_false (total_pure (fun _ h => ⟨h, rfl⟩))

theorem total_select_statement (env : Env) (hs : engine_succeeds env) (fuel : Nat)
    (a : SelectArgs) (hcb : a.dml_p = true → a.array_p = false → callbacks_sound env)
    (cid : Nat) (query : List Char) (names : List (List Char))
    (hparse : parse_bind_variables query = .done names) (k : List Nat)
    (vars : List (List Char × List Char))
    (sets : List (List Char × List (List Char × List Char))) :
    Total (entry_state cid k vars sets) (select_statement env fuel a cid query)
      (fun res _ =>
        reports_type env (fun type => (type = OCI_STMT_SELECT ↔ a.dml_p = false)) →
        (a.array_p = true → ∃ N, ∀ var ∈ names, split_count env a vars sets var = some N) →
        (a.array_p = false →
          ∀ var ∈ names, (resolved_value a vars sets var).isSome = true) →
        res = if a.dml_p = true then .TCL_OK else .fetch_rows) := by
  unfold select_statement
  refine total_bind (total_entry_oci env hs cid k vars sets _ rfl) (fun r => ?_)
  refine total_assume (fun hr => ?_)
  refine total_bind (Q := fun _ => entry_state cid k vars sets)
    (total_when (fun _ => total_entry_set_connection cid k vars sets _ (fun _ => ⟨rfl, rfl⟩))
      (fun _ _ h => h)) (fun _ => ?_)
  refine total_bind (total_tcl_error_p env fuel _ _ hr) (fun b => ?_)
  refine total_if_false ?_
  refine total_bind (total_entry_oci env hs cid k vars sets _ rfl) (fun r => ?_)
  refine total_assume (fun hr => ?_)
  refine total_bind (total_tcl_error_p env fuel _ _ hr) (fun b => ?_)
  refine total_if_false ?_
  refine total_bind (Q := fun rep w => entry_state cid k vars sets w ∧
    (rep.status = .OCI_SUCCESS ∧ ∃ t, rep = env.engine t (.OCIAttrGet .OCI_ATTR_STMT_TYPE)))
    ?_ (fun rep => ?_)
  · intro w hw
    obtain ⟨r1, w1, h1, hq, hst⟩ := total_entry_oci env hs cid k vars sets
      (.OCIAttrGet .OCI_ATTR_STMT_TYPE) rfl w hw
    refine ⟨r1, w1, h1, hq, hst, w.trace.length, ?_⟩
    cases h1
    rfl
  refine total_assume (fun hrep => ?_)
  refine total_bind (total_oci_error_p env fuel true _ _ hrep.1) (fun b => ?_)
  refine total_if_false ?_
  refine total_bind (Q := fun ok w => entry_state cid k vars sets w ∧ ok = true) ?_
    (fun attrs_ok => ?_)
  · refine total_ite (fun _ => ?_) (fun _ => total_pure (fun _ h => ⟨h, rfl⟩))
    refine total_bind (Q := fun ok w => entry_state cid k vars sets w ∧ ok = true) ?_
      (fun rows_ok => ?_)
    · exact total_ite (fun _ => total_entry_attr_set env hs fuel cid k vars sets
          (.OCIAttrSet .OCI_ATTR_PREFETCH_ROWS) rfl _)
        (fun _ => total_pure (fun _ h => ⟨h, rfl⟩))
    · refine total_if_true ?_
      exact total_ite (fun _ => total_entry_attr_set env hs fuel cid k vars sets
          (.OCIAttrSet .OCI_ATTR_PREFETCH_MEMORY) rfl _)
        (fun _ => total_pure (fun _ h => ⟨h, rfl⟩))
  refine total_if_not_true ?_
  obtain ⟨hst, t, ht⟩ := hrep
  refine total_ite (fun hm1 => ?_) (fun hm1 => total_ite (fun hm2 => ?_) (fun hm2 => ?_))
  · refine total_weaken (total_entry_exception_fail env hs fuel cid k vars sets _ _ _)
      (fun _ h => h) (fun res w hres htype _ _ => ?_)
    exfalso
    have h1 := htype t
    rw [← ht] at h1
    simp only [Bool.not_eq_true'] at hm1
    exact hm1.1 (h1.mpr hm1.2)
  · refine total_weaken (total_entry_exception_fail env hs fuel cid k vars sets _ _ _)
      (fun _ h => h) (fun res w hres htype _ _ => ?_)
    exfalso
    have h1 := htype t
    rw [← ht] at h1
    have h2 := h1.mp hm2.1
    rw [hm2.2] at h2
    cases h2
  · split
    · rename_i h
      rw [hparse] at h
      cases h
    · rename_i h
      rw [hparse] at h
      cases h
    · rename_i names1 h1
      have hnames : names1 = names := by
        rw [hparse] at h1
        cases h1
        rfl
      subst hnames
      refine total_bind (Q := fun _ w => (∃ c, w.dbh.connection = some c ∧ c.id = cid ∧
        c.fetch_buffers = none ∧ c.n_columns = names1.length) ∧ bind_state k vars sets w)
        (total_set_connection (fun w hw => ?_)) (fun _ => ?_)
      · obtain ⟨⟨c, h1, h2, h3⟩, hb⟩ := hw
        exact ⟨c, h1, h2, ⟨_, rfl, h2, h3, rfl⟩,
          (trace_inv_bind_state k vars sets).other w _ hb rfl rfl rfl⟩
      refine total_bind (Q := fun _ => loop_state cid names1.length k vars sets) ?_
        (fun _ => ?_)
      · refine total_when (fun hpos => total_set_connection (fun w hw => ?_))
          (fun hpos w hw => ?_)
        · obtain ⟨⟨c, h1, h2, h3, h4⟩, hb⟩ := hw
          refine ⟨c, h1, h2, ⟨_, rfl, h2, h4, fun fbs hf => ?_, fun _ => by simp⟩,
            (trace_inv_bind_state k vars sets).other w _ hb rfl rfl rfl⟩
          simp only [Option.some.injEq] at hf
          rw [← hf, List.length_replicate]
        · obtain ⟨⟨c, h1, h2, h3, h4⟩, hb⟩ := hw
          refine ⟨⟨c, h1, h2, h4, fun fbs hf => ?_, fun h0 => absurd h0 hpos⟩, hb⟩
          rw [h3] at hf
          cases hf
      have hbufs : Triple (bufs_upto 0) (bind_loop env fuel a cid names1 0
          (if (env.engine t (.OCIAttrGet .OCI_ATTR_STMT_TYPE)).value = OCI_STMT_SELECT
            then 0 else 1))
          (fun res w => res ≠ none → (a.dml_p && !a.array_p) = true →
            bufs_upto names1.length w) := by
        cases hp : a.array_p with
        | true => exact fun _ _ _ _ _ _ hf => absurd hf (by simp)
        | false =>
          refine triple_weaken (triple_bufs_bind_loop env fuel a hp cid names1 0 _)
            (fun _ h => h) (fun res w h hr _ => ?_)
          have h2 := h hr
          rw [Nat.zero_add] at h2
          exact h2
      rw [ht]
      refine total_bind (total_weaken (total_and (total_bind_loop env hs fuel cid
        names1.length k vars sets a names1 0 _ (by omega)) hbufs)
        (fun w hw => ⟨hw, fun _ _ _ _ j hj => absurd hj (Nat.not_lt_zero j)⟩)
        (fun _ _ h => h)) (fun res => ?_)
      rcases res with _ | it
      · refine total_pure (fun w hw htype harr hsc => ?_)
        exfalso
        cases hp : a.array_p with
        | true =>
          obtain ⟨N, hall⟩ := harr hp
          by_cases hnil : names1 = []
          · exact absurd (hw.1.2.1 hnil) (by simp)
          · exact absurd (hw.1.2.2.1 hp N hall (Or.inl rfl) hnil) (by simp)
        | false => exact absurd (hw.1.2.2.2 hp (hsc hp)) (by simp)
      · refine total_weaken (S := fun w => columns_ready cid names1.length w ∧
            ((a.dml_p && !a.array_p) = true → bufs_upto names1.length w))
          (T := fun res _ => res = if a.dml_p = true then .TCL_OK else .fetch_rows) ?_
          (fun w h => ⟨(h.1.1.resolve_left (by simp)).1, h.2 (by simp)⟩)
          (fun res w h _ _ _ => h)
        refine total_bind (Q := fun _ w => columns_ready cid names1.length w ∧
            ((a.dml_p && !a.array_p) = true → bufs_upto names1.length w))
          (total_weaken total_get_world (fun _ h => h) (fun _ _ h => h.1)) (fun w0 => ?_)
        refine total_bind (Q := fun r w => (columns_ready cid names1.length w ∧
            ((a.dml_p && !a.array_p) = true → bufs_upto names1.length w)) ∧
            r.status = .OCI_SUCCESS)
          (total_oci (fun _ hw => ⟨⟨columns_ready_congr rfl hw.1,
            fun hd => bufs_upto_congr rfl (hw.2 hd)⟩, hs _ _⟩)) (fun r => ?_)
        refine total_assume (fun hr => ?_)
        exact total_after_execute env hs fuel a hcb cid names1 _ r hr


theorem total_allow_sql_p (env : Env) (cid : Nat) (k : List Nat)
    (vars : List (List Char × List Char))
    (sets : List (List Char × List (List Char × List Char))) (sql : List Char) :
    Total (entry_state cid k vars sets) (allow_sql_p env sql)
      (fun b w => entry_state cid k vars sets w ∧
        (env.FOR_CASSANDRACLE = false → b = true) ∧
        (b = true → ∀ w1, allow_sql_p env sql w1 = .done (true, w1))) := by
  unfold allow_sql_p
  refine total_ite (fun hc => total_ite (fun hp => ?_) (fun hp => ?_)) (fun hc => ?_)
  · refine total_bind (Q := fun _ => entry_state cid k vars sets)
      (total_modify_world (fun w hw => entry_state_keep rfl rfl rfl rfl hw)) (fun _ => ?_)
    refine total_pure (fun w hw => ⟨hw, fun hf => ?_, fun hb => by cases hb⟩)
    rw [hf] at hc
    cases hc
  · refine total_pure (fun w hw => ⟨hw, fun _ => rfl, fun _ w1 => ?_⟩)
    rw [if_pos hc, if_neg hp]
    rfl
  · refine total_pure (fun w hw => ⟨hw, fun _ => rfl, fun _ w1 => ?_⟩)
    rw [if_neg hc]
    rfl

theorem total_handle_builtins (env : Env) (fuel cid : Nat) (k : List Nat)
    (vars : List (List Char × List Char))
    (sets : List (List Char × List (List Char × List Char))) (sql : List Char)
    (hnb : ¬ is_builtin sql) (hallow : ∀ w1, allow_sql_p env sql w1 = .done (true, w1)) :
    Total (entry_state cid k vars sets) (handle_builtins env fuel sql)
      (fun r w => entry_state cid k vars sets w ∧ r = .NS_OK) := by
  intro w hw
  obtain ⟨c, hc, _⟩ := hw.1
  refine ⟨.NS_OK, w, ?_, hw, rfl⟩
  unfold handle_builtins
  rw [get_world_bind]
  simp only [hc]
  rw [if_neg (fun h => hnb (Or.inl h)), if_neg (fun h => hnb (Or.inr (Or.inl h))),
    if_neg (fun h => hnb (Or.inr (Or.inr h))), bind_apply, hallow w]
  rfl

/-- For an engine whose calls succeed and a connection with no array of
descriptors, `OracleSelect` returns on every statement that is not a built-in
and whose placeholders the scan returns; and when the command is well formed,
the statement is let through, the engine reports a query exactly for the
commands that are not DML, and every placeholder has a value that fits the
subcommand, it returns `TCL_OK` for DML and reaches the fetch of the rows for
a query. -/
theorem total_OracleSelect (env : Env) (hs : engine_succeeds env) (fuel : Nat)
    (objv : List (List Char)) (names : List (List Char))
    (hcb : (select_args objv).dml_p = true → (select_args objv).array_p = false →
      callbacks_sound env)
    (hparse : parse_bind_variables (select_query objv) = .done names)
    (hnb : ¬ is_builtin (select_query objv))
    (w : World) (hidle : ∀ c, w.dbh.connection = some c → c.fetch_buffers = none) :
    ∃ r w1, OracleSelect env fuel objv w = .done (r, w1) ∧
      (¬ (objv.length < 4 ∨
          (strcmp_eq (objv.getD 3 []) "-bind".toList = true ∧ objv.length < 6)) →
        w.dbh.connection ≠ none →
        ¬ (((select_args objv).set.bind (fun set => w.sets.lookup set)).isNone = true ∧
          (select_args objv).set.isSome = true) →
        env.FOR_CASSANDRACLE = false →
        reports_type env
          (fun type => (type = OCI_STMT_SELECT ↔ (select_args objv).dml_p = false)) →
        ((select_args objv).array_p = true →
          ∃ N, ∀ var ∈ names,
            split_count env (select_args objv) w.tcl_vars w.sets var = some N) →
        ((select_args objv).array_p = false →
          ∀ var ∈ names,
            (resolved_value (select_args objv) w.tcl_vars w.sets var).isSome = true) →
        r = if (select_args objv).dml_p = true then .TCL_OK else .fetch_rows) := by
  unfold OracleSelect
  by_cases hargs : objv.length < 4 ∨
      (strcmp_eq (objv.getD 3 []) "-bind".toList = true ∧ objv.length < 6)
  · rw [if_pos hargs]
    exact ⟨.TCL_ERROR, _, rfl, fun h => absurd hargs h⟩
  rw [if_neg hargs, get_world_bind]
  cases hconn : w.dbh.connection with
  | none => exact ⟨.TCL_ERROR, _, rfl, fun _ h => absurd rfl h⟩
  | some c0 =>
    simp only []
    have hentry : entry_state c0.id (executes w.trace) w.tcl_vars w.sets w :=
      ⟨⟨c0, hconn, rfl, hidle c0 hconn⟩, rfl, rfl, rfl⟩
    refine total_weaken (S := entry_state c0.id (executes w.trace) w.tcl_vars w.sets)
      (T := fun r _ =>
        ¬ (((select_args objv).set.bind (fun set => w.sets.lookup set)).isNone = true ∧
          (select_args objv).set.isSome = true) →
        env.FOR_CASSANDRACLE = false →
        reports_type env
          (fun type => (type = OCI_STMT_SELECT ↔ (select_args objv).dml_p = false)) →
        ((select_args objv).array_p = true →
          ∃ N, ∀ var ∈ names,
            split_count env (select_args objv) w.tcl_vars w.sets var = some N) →
        ((select_args objv).array_p = false →
          ∀ var ∈ names,
            (resolved_value (select_args objv) w.tcl_vars w.sets var).isSome = true) →
        r = if (select_args objv).dml_p = true then .TCL_OK else .fetch_rows)
      ?_ (fun _ h => h) (fun r w1 h _ _ => h) w hentry
    refine total_bind (total_entry_set_connection c0.id _ _ _ _ (fun _ => ⟨rfl, rfl⟩))
      (fun _ => ?_)
    refine total_ite (fun hset => ?_) (fun hset => ?_)
    · exact total_bind (Q := fun _ _ => True) (total_modify_world (fun _ _ => trivial))
        (fun _ => total_pure (fun _ _ h => absurd hset h))
    refine total_bind (total_allow_sql_p env c0.id _ _ _ _) (fun b => ?_)
    refine total_assume (fun hb => ?_)
    refine total_ite (fun hnot => ?_) (fun hnot => ?_)
    · refine total_bind (Q := fun _ _ => True) (total_modify_world (fun _ _ => trivial))
        (fun _ => total_pure (fun _ _ _ hcass => ?_))
      rw [hb.1 hcass] at hnot
      cases hnot
    have hbt : b = true := by
      cases b
      · exact absurd rfl hnot
      · rfl
    refine total_bind (total_handle_builtins env fuel c0.id _ _ _ _ hnb (hb.2 hbt))
      (fun r => ?_)
    refine total_assume (fun hr => ?_)
    subst hr
    simp only []
    exact total_weaken (total_select_statement env hs fuel (select_args objv) hcb c0.id
      (select_query objv) names hparse _ _ _) (fun _ h => h)
      (fun r w1 h _ _ htype harr hsc => h htype harr hsc)


/-! ## Array DML and the iteration count -/

/-- C8: in `array_dml`, when the values of two placeholders of the statement
split into lists of different lengths, every call of `OracleSelect` that
returns returns an error and has made no native execute; and with an engine
whose calls succeed and a connection that holds no array of descriptors, the
call does return, with an error and no native execute. -/
theorem array_dml_mismatch_rejected (env : Env) (fuel : Nat) (objv : List (List Char))
    (w : World) (names : List (List Char)) (var1 var2 : List Char) (n1 n2 : Nat)
    (harr : (select_args objv).array_p = true)
    (hparse : parse_bind_variables (select_query objv) = .done names)
    (h1 : var1 ∈ names) (h2 : var2 ∈ names)
    (hc1 : split_count env (select_args objv) w.tcl_vars w.sets var1 = some n1)
    (hc2 : split_count env (select_args objv) w.tcl_vars w.sets var2 = some n2)
    (hne : n1 ≠ n2) :
    (∀ r w1, OracleSelect env fuel objv w = .done (r, w1) →
      (r = .TCL_ERROR ∨ r = .NS_ERROR) ∧ executes w1.trace = executes w.trace) ∧
    (engine_succeeds env → (∀ c, w.dbh.connection = some c → c.fetch_buffers = none) →
      ∃ r w1, OracleSelect env fuel objv w = .done (r, w1) ∧
        (r = .TCL_ERROR ∨ r = .NS_ERROR) ∧ executes w1.trace = executes w.trace) := by
  have hpart : ∀ r w1, OracleSelect env fuel objv w = .done (r, w1) →
      (r = .TCL_ERROR ∨ r = .NS_ERROR) ∧ executes w1.trace = executes w.trace := by
    intro r w1 hrun
    have h := triple_OracleSelect (executes w.trace) w.tcl_vars w.sets env fuel objv w
      ⟨rfl, rfl, rfl⟩ r w1 hrun
    rcases h with (⟨he, hr⟩ | ⟨n, _, hn⟩) | ⟨_, hb⟩
    · exact ⟨hr, he⟩
    · have e1 := hn.2.2 harr names hparse var1 h1
      have e2 := hn.2.2 harr names hparse var2 h2
      rw [hc1] at e1
      rw [hc2] at e2
      cases e1
      cases e2
      exact absurd rfl hne
    · rw [builtin_has_no_placeholder _ hb] at hparse
      cases hparse
      cases h1
  refine ⟨hpart, fun hs hidle => ?_⟩
  have hnb : ¬ is_builtin (select_query objv) := by
    intro hb
    rw [builtin_has_no_placeholder _ hb] at hparse
    cases hparse
    cases h1
  obtain ⟨r, w1, hrun, _⟩ := total_OracleSelect env hs fuel objv names
    (fun _ hf => by rw [harr] at hf; cases hf) hparse hnb w hidle
  exact ⟨r, w1, hrun, hpart r w1 hrun⟩

/-- C9: a call of `OracleSelect` that returns has made no execute or exactly
one, and the iteration count of that execute is 0 when the engine reports a
query, 1 when it reports another kind of statement and the command is not
`array_dml`, and `N` for `array_dml` when the statement has a placeholder and
the value of every placeholder splits into `N` elements.  And the execute is
made: with an engine whose calls succeed and which reports a query exactly for
the commands that are not DML, callbacks that keep the descriptors, a
connection that holds no array of descriptors, a well-formed command that is
let through and is no built-in, and a value for every placeholder that fits
the subcommand, the call returns and has made exactly one execute, with the
iteration count 0 for a query, 1 for a scalar DML and `N` for an array DML
with at least one placeholder. -/
theorem execute_iteration_count (env : Env) (fuel : Nat) (objv : List (List Char))
    (w : World) :
    (∀ r w1, OracleSelect env fuel objv w = .done (r, w1) →
      (executes w1.trace = executes w.trace ∨
      ∃ n, executes w1.trace = executes w.trace ++ [n] ∧
        (reports_type env (fun type => type = OCI_STMT_SELECT) → n = 0) ∧
        (reports_type env (fun type => type ≠ OCI_STMT_SELECT) →
          (select_args objv).array_p = false → n = 1) ∧
        (∀ names N, (select_args objv).array_p = true →
          parse_bind_variables (select_query objv) = .done names → names ≠ [] →
          (∀ var ∈ names,
            split_count env (select_args objv) w.tcl_vars w.sets var = some N) → n = N))) ∧
    (∀ names, engine_succeeds env → callbacks_sound env →
      (∀ c, w.dbh.connection = some c → c.fetch_buffers = none) →
      w.dbh.connection ≠ none →
      ¬ (objv.length < 4 ∨
        (strcmp_eq (objv.getD 3 []) "-bind".toList = true ∧ objv.length < 6)) →
      ¬ (((select_args objv).set.bind (fun set => w.sets.lookup set)).isNone = true ∧
        (select_args objv).set.isSome = true) →
      env.FOR_CASSANDRACLE = false →
      ¬ is_builtin (select_query objv) →
      parse_bind_variables (select_query objv) = .done names →
      reports_type env
        (fun type => (type = OCI_STMT_SELECT ↔ (select_args objv).dml_p = false)) →
      ((select_args objv).array_p = true →
        ∃ N, ∀ var ∈ names,
          split_count env (select_args objv) w.tcl_vars w.sets var = some N) →
      ((select_args objv).array_p = false →
        ∀ var ∈ names,
          (resolved_value (select_args objv) w.tcl_vars w.sets var).isSome = true) →
      ∃ r w1 n, OracleSelect env fuel objv w = .done (r, w1) ∧
        executes w1.trace = executes w.trace ++ [n] ∧
        ((select_args objv).dml_p = false → n = 0) ∧
        ((select_args objv).dml_p = true → (select_args objv).array_p = false → n = 1) ∧
        (∀ N, (select_args objv).array_p = true → names ≠ [] →
          (∀ var ∈ names,
            split_count env (select_args objv) w.tcl_vars w.sets var = some N) → n = N)) := by
  have hpart : ∀ r w1, OracleSelect env fuel objv w = .done (r, w1) →
      (executes w1.trace = executes w.trace ∧ (r = .TCL_ERROR ∨ r = .NS_ERROR)) ∨
      (∃ n, executes w1.trace = executes w.trace ++ [n] ∧
        iteration_count_ok env (select_args objv) w.tcl_vars w.sets (select_query objv) n) ∨
      (executes w1.trace = executes w.trace ∧ is_builtin (select_query objv)) := by
    intro r w1 hrun
    have h := triple_OracleSelect (executes w.trace) w.tcl_vars w.sets env fuel objv w
      ⟨rfl, rfl, rfl⟩ r w1 hrun
    rcases h with (h | h) | h
    · exact Or.inl h
    · exact Or.inr (Or.inl h)
    · exact Or.inr (Or.inr h)
  refine ⟨fun r w1 hrun => ?_, fun names hs hcb hidle hconn hargs hset hcass hnb hparse htype
    harr hsc => ?_⟩
  · rcases hpart r w1 hrun with ⟨he, _⟩ | ⟨n, he, hn⟩ | ⟨he, _⟩
    · exact Or.inl he
    · refine Or.inr ⟨n, he, hn.1, hn.2.1, fun names N harr hparse hne hall => ?_⟩
      obtain ⟨var, names1, rfl⟩ := List.exists_cons_of_ne_nil hne
      have e1 := hn.2.2 harr _ hparse var (List.mem_cons_self _ _)
      rw [hall var (List.mem_cons_self _ _)] at e1
      cases e1
      rfl
    · exact Or.inl he
  · obtain ⟨r, w1, hrun, hres⟩ := total_OracleSelect env hs fuel objv names
      (fun _ _ => hcb) hparse hnb w hidle
    have hr := hres hargs hconn hset hcass htype harr hsc
    rcases hpart r w1 hrun with ⟨_, herr⟩ | ⟨n, he, hn⟩ | ⟨_, hb⟩
    · exfalso
      rw [hr] at herr
      split at herr <;> rcases herr with h | h <;> cases h
    · refine ⟨r, w1, n, hrun, he, fun hd => ?_, fun hd hp => ?_, fun N hp hne hall => ?_⟩
      · exact hn.1 (fun t => (htype t).mpr hd)
      · refine hn.2.1 (fun t hsel => ?_) hp
        have h2 := (htype t).mp hsel
        rw [hd] at h2
        cases h2
      · obtain ⟨var, names1, rfl⟩ := List.exists_cons_of_ne_nil hne
        have e1 := hn.2.2 hp _ hparse var (List.mem_cons_self _ _)
        rw [hall var (List.mem_cons_self _ _)] at e1
        cases e1
        rfl
    · exact absurd hb hnb


/-- The engine of `example_env` succeeds at every call. -/
theorem example_env_succeeds (type : Int) : engine_succeeds (example_env type) := by
  intro t c
  cases c with
  | OCIAttrGet a => cases a <;> rfl
  | _ => rfl

/-- The callbacks of `example_env` leave the descriptors as they are. -/
theorem example_env_callbacks (type : Int) : callbacks_sound (example_env type) :=
  fun _ _ => ⟨rfl, fun h fb hm _ => h fb hm⟩

/-- C8, at `array_dml` with the lists `a b c` and `x y`: the call returns, with
`TCL_ERROR`, and no execute is made. -/
theorem array_dml_mismatch_rejected_witness :
    (select_args mismatched_array_dml).array_p = true ∧
    parse_bind_variables (select_query mismatched_array_dml)
      = .done ["1".toList, "2".toList] ∧
    split_count (example_env 0) (select_args mismatched_array_dml) example_world.tcl_vars
      example_world.sets "1".toList = some 3 ∧
    split_count (example_env 0) (select_args mismatched_array_dml) example_world.tcl_vars
      example_world.sets "2".toList = some 2 ∧
    ((OracleSelect (example_env 0) 1 mismatched_array_dml example_world).get
      (.TCL_OK, example_world)).1 = .TCL_ERROR ∧
    engine_succeeds (example_env 0) ∧
    (∀ c, example_world.dbh.connection = some c → c.fetch_buffers = none) ∧
    ∃ r w1, OracleSelect (example_env 0) 1 mismatched_array_dml example_world
        = .done (r, w1) ∧
      (r = .TCL_ERROR ∨ r = .NS_ERROR) ∧
      executes w1.trace = executes example_world.trace :=
  ⟨by decide!, by decide!, by decide!, by decide!, by decide!,
    example_env_succeeds 0, fun c h => by cases h; rfl,
    (array_dml_mismatch_rejected (example_env 0) 1 mismatched_array_dml example_world
      ["1".toList, "2".toList] "1".toList "2".toList 3 2 (by decide!) (by decide!)
      (List.mem_cons_self _ _) (List.mem_cons_of_mem _ (List.mem_cons_self _ _))
      (by decide!) (by decide!) (by decide)).2 (example_env_succeeds 0)
      (fun c h => by cases h; rfl)⟩

/-- C9, at a query, a scalar DML and an array DML with two lists of three
elements: the iteration counts of the executes are 0, 1 and 3; and the array
DML meets the conditions under which the execute is made. -/
theorem execute_iteration_count_witness :
    executes ((OracleSelect (example_env OCI_STMT_SELECT) 1 select_command example_world).get
      (.TCL_ERROR, example_world)).2.trace = [0] ∧
    executes ((OracleSelect (example_env 0) 1 scalar_dml example_world).get
      (.TCL_ERROR, example_world)).2.trace = [1] ∧
    executes ((OracleSelect (example_env 0) 1 matched_array_dml example_world).get
      (.TCL_ERROR, example_world)).2.trace = [3] ∧
    ∃ r w1 n, OracleSelect (example_env 0) 1 matched_array_dml example_world = .done (r, w1) ∧
      executes w1.trace = executes example_world.trace ++ [n] ∧
      ((select_args matched_array_dml).dml_p = false → n = 0) ∧
      ((select_args matched_array_dml).dml_p = true →
        (select_args matched_array_dml).array_p = false → n = 1) ∧
      (∀ N, (select_args matched_array_dml).array_p = true →
        ["1".toList, "2".toList] ≠ [] →
        (∀ var ∈ ["1".toList, "2".toList],
          split_count (example_env 0) (select_args matched_array_dml)
            example_world.tcl_vars example_world.sets var = some N) → n = N) :=
  ⟨by decide!, by decide!, by decide!,
    (execute_iteration_count (example_env 0) 1 matched_array_dml example_world).2
      ["1".toList, "2".toList] (example_env_succeeds 0) (example_env_callbacks 0)
      (fun c h => by cases h; rfl) (fun h => by cases h) (by decide!) (by decide!) rfl
      (by unfold is_builtin; decide!) (by decide!)
      (fun _ => ⟨fun h => absurd h (show ¬ ((0 : Int) = 1) by decide),
        fun h => absurd h (by decide!)⟩)
      (fun _ => ⟨3, by decide!⟩) (fun h => absurd h (by decide!))⟩


/-! ## Operations of the recovery and what they keep -/

theorem recovery_oci {I : World → Prop} (hI : RecoveryInv I) (env : Env) (c : NativeCall)
    (hc : is_recovery_call c = true) : Preserves I (oci env c) :=
  triple_oci (fun w hw => hI.call w c hw hc)

theorem recovery_set_connection {I : World → Prop} (hI : RecoveryInv I) (cid : Nat)
    (f : ora_connection_t → ora_connection_t) (hf : ∀ c, released c (f c)) :
    Preserves I (set_connection cid f) :=
  triple_set_connection (fun w c hw hc _ => hI.conn w c (f c) hw hc (hf c))

theorem recovery_set_fetchbuf {I : World → Prop} (hI : RecoveryInv I) (cid i : Nat)
    (f : fetch_buffer_t → fetch_buffer_t) : Preserves I (set_fetchbuf cid i f) := by
  unfold set_fetchbuf
  refine preserves_bind (preserves_fetchbuf_at cid i) (fun fb => ?_)
  exact recovery_set_connection hI cid _ (fun c => ⟨rfl, rfl, fun h => h, fun h => h⟩)

theorem recovery_Ns_DbSetException {I : World → Prop} (hI : RecoveryInv I)
    (code msg : String) : Preserves I (Ns_DbSetException code msg) :=
  triple_modify_world (fun w hw => hI.exception w code msg hw)

theorem recovery_oci_error_p_with {I : World → Prop} (hI : RecoveryInv I) (env : Env)
    (flush close : M Ns_ReturnCode) (hf : Preserves I flush) (hc : Preserves I close)
    (dbh : Bool) (ocifn : String) (st : oci_status_t) :
    Preserves I (oci_error_p_with env flush close dbh ocifn st) := by
  unfold oci_error_p_with
  refine preserves_bind preserves_get_world (fun w => ?_)
  refine preserves_ite (preserves_pure _) (preserves_ite (preserves_pure _) ?_)
  refine preserves_bind ?_ (fun code => preserves_bind ?_ (fun _ => preserves_pure _))
  · refine preserves_ite ?_ (preserves_pure _)
    split
    · exact preserves_pure _
    · refine preserves_bind (recovery_oci hI env _ rfl) (fun r1 => ?_)
      refine preserves_bind (recovery_oci hI env _ rfl) (fun _ => ?_)
      refine preserves_ite ?_ (preserves_ite ?_ (preserves_pure _))
      · exact preserves_bind hf (fun _ => preserves_bind hc (fun _ => preserves_pure _))
      · exact preserves_bind hc (fun _ => preserves_pure _)
  · exact preserves_when (recovery_Ns_DbSetException hI _ _)

theorem recovery_flush_fetchbuf {I : World → Prop} (hI : RecoveryInv I) (env : Env)
    (err : Bool → String → oci_status_t → M Bool)
    (he : ∀ d f st, Preserves I (err d f st)) (cid i : Nat) :
    Preserves I (flush_fetchbuf env err cid i) := by
  unfold flush_fetchbuf
  refine preserves_bind (preserves_fetchbuf_at cid i) (fun fb => ?_)
  refine preserves_bind (preserves_when ?_) (fun _ => ?_)
  · refine preserves_bind (recovery_oci hI env _ rfl) (fun r => ?_)
    exact preserves_bind (he _ _ _) (fun _ => recovery_set_fetchbuf hI cid i _)
  refine preserves_bind (recovery_set_fetchbuf hI cid i _) (fun _ => ?_)
  refine preserves_bind (preserves_fetchbuf_at cid i) (fun fb1 => ?_)
  refine preserves_when ?_
  refine preserves_bind (preserves_for_loop _ (fun _ => ?_) _ _)
    (fun _ => recovery_set_fetchbuf hI cid i _)
  refine preserves_bind (recovery_oci hI env _ rfl) (fun r => ?_)
  refine preserves_bind (he _ _ _) (fun _ => ?_)
  exact preserves_bind (preserves_fetchbuf_at cid i) (fun _ => preserves_pure _)

theorem recovery_Ns_OracleFlush_with {I : World → Prop} (hI : RecoveryInv I) (env : Env)
    (err : Bool → String → oci_status_t → M Bool)
    (he : ∀ d f st, Preserves I (err d f st)) :
    Preserves I (Ns_OracleFlush_with env err) := by
  unfold Ns_OracleFlush_with
  refine preserves_bind preserves_get_world (fun w => ?_)
  split
  · exact preserves_pure _
  · refine preserves_bind ?_ (fun freed => ?_)
    · refine preserves_ite ?_ (preserves_pure _)
      refine preserves_bind (recovery_oci hI env _ rfl) (fun r => ?_)
      refine preserves_bind (he _ _ _) (fun b => ?_)
      refine preserves_ite (preserves_pure _) ?_
      exact preserves_bind
        (recovery_set_connection hI _ _ (fun c => ⟨rfl, rfl, fun h => (by cases h), fun h => h⟩))
        (fun _ => preserves_pure _)
    · refine preserves_ite ?_ (preserves_pure _)
      refine preserves_bind
        (recovery_set_connection hI _ _ (fun c => ⟨rfl, rfl, fun h => h, fun h => (by cases h)⟩))
        (fun _ => ?_)
      refine preserves_bind (preserves_connection_at _) (fun c => ?_)
      split
      · exact preserves_pure _
      · refine preserves_bind (preserves_for_loop _
          (fun i => recovery_flush_fetchbuf hI env err he _ i) _ _) (fun _ => ?_)
        exact preserves_bind
          (recovery_set_connection hI _ _ (fun c => ⟨rfl, rfl, fun h => h, fun h => h⟩))
          (fun _ => preserves_pure _)

theorem recovery_close_release {I : World → Prop} (hI : RecoveryInv I) (env : Env)
    (err : Bool → String → oci_status_t → M Bool)
    (he : ∀ d f st, Preserves I (err d f st)) (cid : Nat) (t : HandleType)
    (clear : ora_connection_t → ora_connection_t) (hclear : ∀ c, released c (clear c)) :
    Preserves I (close_release env err cid t clear) := by
  unfold close_release
  refine preserves_bind (preserves_connection_at cid) (fun _ => ?_)
  refine preserves_bind (recovery_oci hI env _ rfl) (fun r => ?_)
  exact preserves_bind (he _ _ _) (fun _ => recovery_set_connection hI cid clear hclear)

theorem recovery_Ns_OracleCloseDb_with {I : World → Prop} (hI : RecoveryInv I) (env : Env)
    (err : Bool → String → oci_status_t → M Bool)
    (he : ∀ d f st, Preserves I (err d f st)) :
    Preserves I (Ns_OracleCloseDb_with env err) := by
  unfold Ns_OracleCloseDb_with
  refine preserves_bind preserves_get_world (fun w => ?_)
  split
  · exact preserves_pure _
  · refine preserves_bind (recovery_oci hI env _ rfl) (fun r => ?_)
    refine preserves_bind (he _ _ _) (fun _ => ?_)
    refine preserves_bind
      (recovery_close_release hI env err he _ _ _ (fun c => ⟨rfl, rfl, fun h => h, fun h => h⟩))
      (fun _ => ?_)
    refine preserves_bind
      (recovery_close_release hI env err he _ _ _ (fun c => ⟨rfl, rfl, fun h => h, fun h => h⟩))
      (fun _ => ?_)
    refine preserves_bind
      (recovery_close_release hI env err he _ _ _ (fun c => ⟨rfl, rfl, fun h => h, fun h => h⟩))
      (fun _ => ?_)
    refine preserves_bind
      (recovery_close_release hI env err he _ _ _ (fun c => ⟨rfl, rfl, fun h => h, fun h => h⟩))
      (fun _ => ?_)
    refine preserves_bind
      (recovery_close_release hI env err he _ _ _ (fun c => ⟨rfl, rfl, fun h => h, fun h => h⟩))
      (fun _ => ?_)
    refine preserves_bind (preserves_connection_at _) (fun _ => ?_)
    exact preserves_bind (triple_modify_world (fun w hw => hI.close w hw))
      (fun _ => preserves_pure _)

theorem recovery_oci_error_p {I : World → Prop} (hI : RecoveryInv I) (env : Env)
    (fuel : Nat) :
    ∀ (dbh : Bool) (ocifn : String) (st : oci_status_t),
      Preserves I (oci_error_p env fuel dbh ocifn st) := by
  induction fuel with
  | zero =>
    intro dbh ocifn st
    exact recovery_oci_error_p_with hI env _ _ preserves_timeout preserves_timeout dbh ocifn st
  | succ n ih =>
    intro dbh ocifn st
    exact recovery_oci_error_p_with hI env _ _
      (recovery_Ns_OracleFlush_with hI env _ ih)
      (recovery_Ns_OracleCloseDb_with hI env _ ih) dbh ocifn st

theorem recovery_Ns_OracleFlush {I : World → Prop} (hI : RecoveryInv I) (env : Env)
    (fuel : Nat) : Preserves I (Ns_OracleFlush env fuel) :=
  recovery_Ns_OracleFlush_with hI env _ (recovery_oci_error_p hI env fuel)

theorem recovery_Ns_OracleCloseDb {I : World → Prop} (hI : RecoveryInv I) (env : Env)
    (fuel : Nat) : Preserves I (Ns_OracleCloseDb env fuel) :=
  recovery_Ns_OracleCloseDb_with hI env _ (recovery_oci_error_p hI env fuel)

theorem LifecycleInv.recovery {I : World → Prop} (hI : LifecycleInv I) : RecoveryInv I where
  call := fun w c h hc => hI.call w c h (by unfold is_lifecycle_call; rw [hc]; rfl)
  conn := fun w c c1 h _ _ => hI.other w _ h rfl
  close := fun w h => hI.other w _ h rfl
  exception := fun w code msg h => hI.other w _ h rfl

theorem lifecycle_modify {I : World → Prop} (hI : LifecycleInv I) (f : World → World)
    (hf : ∀ w, (f w).trace = w.trace) : Preserves I (modify_world f) :=
  triple_modify_world (fun w hw => hI.other w _ hw (hf w))

theorem lifecycle_set_connection {I : World → Prop} (hI : LifecycleInv I) (cid : Nat)
    (f : ora_connection_t → ora_connection_t) : Preserves I (set_connection cid f) :=
  triple_set_connection (fun w _ hw _ _ => hI.other w _ hw rfl)

theorem lifecycle_oci {I : World → Prop} (hI : LifecycleInv I) (env : Env) (c : NativeCall)
    (hc : is_lifecycle_call c = true) : Preserves I (oci env c) :=
  triple_oci (fun w hw => hI.call w c hw hc)

theorem lifecycle_open_step {I : World → Prop} (hI : LifecycleInv I) (env : Env)
    (err : Bool → String → oci_status_t → M Bool) (he : ∀ d f st, Preserves I (err d f st))
    (cid : Nat) (c : NativeCall) (hc : is_lifecycle_call c = true) (ocifn : String)
    (store : ora_connection_t → ora_connection_t) :
    Preserves I (open_step env err cid c ocifn store) := by
  unfold open_step
  refine preserves_bind (lifecycle_oci hI env c hc) (fun r => ?_)
  exact preserves_bind (preserves_when (lifecycle_set_connection hI cid store))
    (fun _ => he _ _ _)

theorem lifecycle_open_steps {I : World → Prop} (hI : LifecycleInv I) (env : Env)
    (err : Bool → String → oci_status_t → M Bool) (he : ∀ d f st, Preserves I (err d f st))
    (cid : Nat) : ∀ s ∈ open_steps env err cid, Preserves I s := by
  intro s hs
  simp only [open_steps, List.mem_cons, List.mem_singleton, List.not_mem_nil, or_false] at hs
  rcases hs with h | h | h | h | h | h | h | h | h | h <;> subst h <;>
    exact lifecycle_open_step hI env err he cid _ (by rfl) _ _

theorem lifecycle_Ns_OracleOpenDb_with {I : World → Prop} (hI : LifecycleInv I) (env : Env)
    (err : Bool → String → oci_status_t → M Bool) (he : ∀ d f st, Preserves I (err d f st)) :
    Preserves I (Ns_OracleOpenDb_with env err) := by
  unfold Ns_OracleOpenDb_with
  refine preserves_bind preserves_get_world (fun w => ?_)
  refine preserves_ite (preserves_pure _) (preserves_ite (preserves_pure _) ?_)
  refine preserves_bind (lifecycle_modify hI _ (fun _ => rfl)) (fun _ => ?_)
  refine preserves_bind (lifecycle_oci hI env _
    (by cases env.convert_encoding_p <;> rfl)) (fun r => ?_)
  refine preserves_bind (preserves_when (lifecycle_set_connection hI _ _)) (fun _ => ?_)
  refine preserves_bind (he _ _ _) (fun b => ?_)
  refine preserves_ite (preserves_pure _) ?_
  refine preserves_bind (preserves_run_steps _ (lifecycle_open_steps hI env err he _))
    (fun ok => ?_)
  refine preserves_ite ?_ (preserves_pure _)
  exact preserves_bind (lifecycle_modify hI _ (fun _ => rfl)) (fun _ => preserves_pure _)

theorem lifecycle_oci_error_p {I : World → Prop} (hI : LifecycleInv I) (env : Env)
    (fuel : Nat) (dbh : Bool) (ocifn : String) (st : oci_status_t) :
    Preserves I (oci_error_p env fuel dbh ocifn st) :=
  recovery_oci_error_p hI.recovery env fuel dbh ocifn st

theorem lifecycle_Ns_OracleFlush {I : World → Prop} (hI : LifecycleInv I) (env : Env)
    (fuel : Nat) : Preserves I (Ns_OracleFlush env fuel) :=
  recovery_Ns_OracleFlush hI.recovery env fuel

theorem lifecycle_Ns_OracleCloseDb {I : World → Prop} (hI : LifecycleInv I) (env : Env)
    (fuel : Nat) : Preserves I (Ns_OracleCloseDb env fuel) :=
  recovery_Ns_OracleCloseDb hI.recovery env fuel

theorem lifecycle_Ns_OracleOpenDb {I : World → Prop} (hI : LifecycleInv I) (env : Env)
    (fuel : Nat) : Preserves I (Ns_OracleOpenDb env fuel) :=
  lifecycle_Ns_OracleOpenDb_with hI env _ (lifecycle_oci_error_p hI env fuel)

theorem lifecycle_tcl_error_p {I : World → Prop} (hI : LifecycleInv I) (env : Env)
    (fuel : Nat) (ocifn : String) (st : oci_status_t) :
    Preserves I (tcl_error_p env fuel ocifn st) := by
  unfold tcl_error_p
  refine preserves_bind preserves_get_world (fun w => ?_)
  refine preserves_ite (preserves_pure _) ?_
  refine preserves_bind (preserves_when ?_) (fun _ => ?_)
  · refine preserves_bind (lifecycle_oci hI env _ rfl) (fun r1 => ?_)
    refine preserves_bind (lifecycle_oci hI env _ rfl) (fun _ => ?_)
    refine preserves_when ?_
    refine preserves_bind (lifecycle_Ns_OracleFlush hI env fuel) (fun _ => ?_)
    refine preserves_bind (lifecycle_Ns_OracleCloseDb hI env fuel) (fun _ => ?_)
    exact preserves_bind (lifecycle_Ns_OracleOpenDb hI env fuel) (fun _ => preserves_pure _)
  · exact preserves_bind (lifecycle_modify hI _ (fun _ => rfl)) (fun _ => preserves_pure _)

/-- The calls that satisfy `p` stay as they are under the recovery and the
reopening when no call of these satisfies `p`. -/
theorem lifecycle_calls_are (p : NativeCall → Bool) (k : List NativeCall)
    (hp : ∀ c, is_lifecycle_call c = true → p c = false) : LifecycleInv (calls_are p k) where
  call := fun w c h hc => by
    unfold calls_are at *
    simp only [List.filter_append, List.filter_cons, List.filter_nil, hp c hc]
    simpa using h
  other := fun w w1 h ht => by
    unfold calls_are at *
    rw [ht]; exact h

theorem recovery_stmt_null : RecoveryInv stmt_null where
  call := fun w c h _ => h
  conn := fun w c c1 h hc hr c2 h2 => by
    simp only [Option.some.injEq] at h2
    subst h2
    cases hs : c1.stmt with
    | false => rfl
    | true => have := h c hc; rw [hr.2.2.1 hs] at this; cases this
  close := fun w h c hc => by cases hc
  exception := fun w code msg h => h

theorem recovery_and {I J : World → Prop} (hI : RecoveryInv I) (hJ : RecoveryInv J) :
    RecoveryInv (fun w => I w ∧ J w) where
  call := fun w c h hc => ⟨hI.call w c h.1 hc, hJ.call w c h.2 hc⟩
  conn := fun w c c1 h hc hr => ⟨hI.conn w c c1 h.1 hc hr, hJ.conn w c c1 h.2 hc hr⟩
  close := fun w h => ⟨hI.close w h.1, hJ.close w h.2⟩
  exception := fun w code msg h => ⟨hI.exception w code msg h.1, hJ.exception w code msg h.2⟩

/-! ## The lifecycle operations with an engine whose release and open calls succeed -/

/-- With release calls that succeed, `Ns_OracleCloseDb` on a handle with a
connection detaches, frees the five handles, each once, and leaves the handle
with no connection. -/
theorem Ns_OracleCloseDb_apply (env : Env) (hs : calls_succeed env is_recovery_call)
    (fuel : Nat) (w : World) (c : ora_connection_t) (hc : w.dbh.connection = some c) :
    Ns_OracleCloseDb env fuel w
      = .done (.NS_OK,
          { w with
            trace := w.trace ++ [.OCIServerDetach, .OCIHandleFree .OCI_HTYPE_SVCCTX,
              .OCIHandleFree .OCI_HTYPE_SERVER, .OCIHandleFree .OCI_HTYPE_ERROR,
              .OCIHandleFree .OCI_HTYPE_SESSION, .OCIHandleFree .OCI_HTYPE_ENV],
            dbh := { w.dbh with connection := none, connected := false } }) := by
  have h1 : ∀ t, (env.engine t .OCIServerDetach).status = .OCI_SUCCESS := fun t => hs t _ rfl
  have h2 : ∀ t h, (env.engine t (.OCIHandleFree h)).status = .OCI_SUCCESS :=
    fun t h => hs t _ rfl
  unfold Ns_OracleCloseDb Ns_OracleCloseDb_with
  rw [get_world_bind]
  simp only [hc]
  simp [bind_apply, oci, close_release, connection_at, set_connection, h1, h2,
    oci_error_p_success, modify_world, pure_apply, hc]

/-- The connection that `Ns_OracleOpenDb` leaves when all its calls succeed. -/
theorem Ns_OracleOpenDb_apply (env : Env) (hs : calls_succeed env is_open_call)
    (fuel : Nat) (w : World) (hu : w.dbh.user = true) (hp : w.dbh.password = true) :
    Ns_OracleOpenDb env fuel w
      = .done (.NS_OK,
          { w with
            trace := w.trace ++
              [if env.convert_encoding_p then .OCIEnvNlsCreate else .OCIEnvCreate,
               .OCIHandleAlloc .OCI_HTYPE_ERROR, .OCIHandleAlloc .OCI_HTYPE_SERVER,
               .OCIHandleAlloc .OCI_HTYPE_SVCCTX, .OCIServerAttach,
               .OCIAttrSet .OCI_ATTR_SERVER, .OCIHandleAlloc .OCI_HTYPE_SESSION,
               .OCIAttrSet .OCI_ATTR_USERNAME, .OCIAttrSet .OCI_ATTR_PASSWORD,
               .OCISessionBegin, .OCIAttrSet .OCI_ATTR_SESSION],
            next_id := w.next_id + 1,
            dbh := { w.dbh with
              connected := true,
              connection := some
                { id := w.next_id, env := true, err := true, srv := true, svc := true,
                  auth := true, stmt := false, mode := .autocommit, n_columns := 0,
                  fetch_buffers := none, interp := false } } }) := by
  have h0 : ∀ t, (env.engine t
      (if env.convert_encoding_p then .OCIEnvNlsCreate else .OCIEnvCreate)).status
        = .OCI_SUCCESS := fun t => hs t _ (by cases env.convert_encoding_p <;> rfl)
  have h1 : ∀ t, (env.engine t (.OCIHandleAlloc .OCI_HTYPE_ERROR)).status = .OCI_SUCCESS :=
    fun t => hs t _ rfl
  have h2 : ∀ t, (env.engine t (.OCIHandleAlloc .OCI_HTYPE_SERVER)).status = .OCI_SUCCESS :=
    fun t => hs t _ rfl
  have h3 : ∀ t, (env.engine t (.OCIHandleAlloc .OCI_HTYPE_SVCCTX)).status = .OCI_SUCCESS :=
    fun t => hs t _ rfl
  have h4 : ∀ t, (env.engine t .OCIServerAttach).status = .OCI_SUCCESS := fun t => hs t _ rfl
  have h5 : ∀ t, (env.engine t (.OCIAttrSet .OCI_ATTR_SERVER)).status = .OCI_SUCCESS :=
    fun t => hs t _ rfl
  have h6 : ∀ t, (env.engine t (.OCIHandleAlloc .OCI_HTYPE_SESSION)).status = .OCI_SUCCESS :=
    fun t => hs t _ rfl
  have h7 : ∀ t, (env.engine t (.OCIAttrSet .OCI_ATTR_USERNAME)).status = .OCI_SUCCESS :=
    fun t => hs t _ rfl
  have h8 : ∀ t, (env.engine t (.OCIAttrSet .OCI_ATTR_PASSWORD)).status = .OCI_SUCCESS :=
    fun t => hs t _ rfl
  have h9 : ∀ t, (env.engine t .OCISessionBegin).status = .OCI_SUCCESS := fun t => hs t _ rfl
  have h10 : ∀ t, (env.engine t (.OCIAttrSet .OCI_ATTR_SESSION)).status = .OCI_SUCCESS :=
    fun t => hs t _ rfl
  unfold Ns_OracleOpenDb Ns_OracleOpenDb_with
  rw [get_world_bind]
  simp [bind_apply, oci, open_steps, open_step, run_steps, M.when, set_connection, h0, h1, h2,
    h3, h4, h5, h6, h7, h8, h9, h10, oci_error_p_success, modify_world, pure_apply, hu, hp]

/-- Without a connection `Ns_OracleFlush` returns `NS_OK` and does nothing. -/
theorem Ns_OracleFlush_closed (env : Env) (fuel : Nat) (w : World)
    (hc : w.dbh.connection = none) : Ns_OracleFlush env fuel w = .done (.NS_OK, w) := by
  unfold Ns_OracleFlush Ns_OracleFlush_with
  rw [get_world_bind]
  simp only [hc]
  rfl

/-- On a connection with no statement handle, no array of descriptors and no
interpreter, `Ns_OracleFlush` returns `NS_OK`, makes no call and leaves the
state as it is. -/
theorem Ns_OracleFlush_flushed (env : Env) (fuel : Nat) (w : World) (hw : flushed w) :
    Ns_OracleFlush env fuel w = .done (.NS_OK, w) := by
  cases hc : w.dbh.connection with
  | none => exact Ns_OracleFlush_closed env fuel w hc
  | some c =>
    obtain ⟨h1, h2, h3⟩ := hw c hc
    cases w with
    | mk trace dbh result tcl_vars sets next_id =>
      cases dbh with
      | mk connection connected user password code msg =>
        cases c with
        | mk id e1 e2 e3 e4 e5 stmt mode n_columns fetch_buffers interp =>
          simp only at hc h1 h2 h3
          subst hc h1 h2 h3
          unfold Ns_OracleFlush Ns_OracleFlush_with
          rw [get_world_bind]
          simp [bind_apply, pure_apply, set_connection, connection_at]

/-- What `Ns_OracleFlush` leaves when it returns `NS_OK`: a connection that is
still there has no statement handle, no array of descriptors and no
interpreter. -/
theorem triple_flush_flushed (env : Env) (fuel : Nat) :
    Triple (fun _ => True) (Ns_OracleFlush env fuel) (fun r w => r = .NS_OK → flushed w) := by
  unfold Ns_OracleFlush Ns_OracleFlush_with
  refine triple_bind triple_get_world (fun w0 => ?_)
  cases hc : w0.dbh.connection with
  | none =>
    refine triple_pure (fun w hw _ c h => ?_)
    rw [← hw.2, hc] at h
    cases h
  | some c0 =>
    simp only
    refine triple_bind (Q := fun freed w => freed = true → stmt_null w) ?_ (fun freed => ?_)
    · refine triple_ite (fun _ => ?_) (fun hs => triple_pure (fun w hw _ c h => ?_))
      · refine triple_bind (Q := fun _ _ => True) (fun _ _ _ _ _ => trivial) (fun r => ?_)
        refine triple_bind (Q := fun _ _ => True) (fun _ _ _ _ _ => trivial) (fun b => ?_)
        refine triple_ite (fun _ => triple_pure (fun _ _ h => by cases h)) (fun _ => ?_)
        refine triple_bind (Q := fun _ w => stmt_null w) ?_
          (fun _ => triple_pure (fun _ h _ => h))
        refine triple_set_connection (fun w c _ _ _ c1 h1 => ?_)
        simp only [Option.some.injEq] at h1
        subst h1
        rfl
      · rw [← hw.2, hc] at h
        cases h
        simpa using hs
    · refine triple_ite (fun hf => ?_) (fun _ => triple_pure (fun _ _ h => by cases h))
      refine triple_bind
        (Q := fun _ w => ∀ c, w.dbh.connection = some c → c.stmt = false ∧ c.interp = false)
        ?_ (fun _ => ?_)
      · refine triple_set_connection (fun w c hw hwc _ c1 h1 => ?_)
        simp only [Option.some.injEq] at h1
        subst h1
        exact ⟨hw hf c hwc, rfl⟩
      · refine triple_bind triple_connection_at (fun c => ?_)
        cases hfb : c.fetch_buffers with
        | none =>
          refine triple_pure (fun w hw _ c1 h1 => ?_)
          have h2 := hw.2.1
          rw [h1] at h2
          simp only [Option.some.injEq] at h2
          subst h2
          exact ⟨(hw.1 c1 h1).1, hfb, (hw.1 c1 h1).2⟩
        | some fbs =>
          simp only
          refine triple_bind
            (Q := fun _ w => ∀ c, w.dbh.connection = some c → c.stmt = false ∧ c.interp = false)
            ?_ (fun _ => ?_)
          · refine triple_weaken (preserves_for_loop _
              (fun i => recovery_flush_fetchbuf (I := fun w => ∀ c, w.dbh.connection = some c →
                c.stmt = false ∧ c.interp = false) ?_ env _
                (fun d f st => recovery_oci_error_p ?_ env fuel d f st) _ i) _ _)
              (fun _ h => h.1) (fun _ _ h => h)
            all_goals exact
              { call := fun w c h _ => h
                conn := fun w c c1 h hc hr c2 h2 => by
                  simp only [Option.some.injEq] at h2
                  subst h2
                  have := h c hc
                  refine ⟨?_, ?_⟩
                  · cases hs : c1.stmt with
                    | false => rfl
                    | true => rw [hr.2.2.1 hs] at this; cases this.1
                  · cases hs : c1.interp with
                    | false => rfl
                    | true => rw [hr.2.2.2 hs] at this; cases this.2
                close := fun w h c hc => by cases hc
                exception := fun w code msg h => h }
          · refine triple_bind (Q := fun _ w => flushed w) ?_
              (fun _ => triple_pure (fun _ h _ => h))
            refine triple_set_connection (fun w c hw hwc _ c1 h1 => ?_)
            simp only [Option.some.injEq] at h1
            subst h1
            exact ⟨(hw c hwc).1, rfl, (hw c hwc).2⟩

theorem total_release_fetchbuf (env : Env) (hs : calls_succeed env is_recovery_call)
    (fuel cid n i : Nat) (hi : i < n) :
    Total (columns_ready cid n) (flush_fetchbuf env (oci_error_p env fuel) cid i)
      (fun _ => columns_ready cid n) := by
  have hoci : Total (columns_ready cid n) (oci env .OCIDescriptorFree)
      (fun r w => columns_ready cid n w ∧ r.status = .OCI_SUCCESS) :=
    total_oci (fun _ hw => ⟨columns_ready_congr rfl hw, hs _ _ rfl⟩)
  unfold flush_fetchbuf
  refine total_bind (total_fetchbuf_at cid n i hi) (fun fb => ?_)
  refine total_bind (Q := fun _ => columns_ready cid n) ?_ (fun _ => ?_)
  · refine total_when (fun _ => ?_) (fun _ _ hw => hw)
    refine total_bind hoci (fun r => ?_)
    refine total_assume (fun hr => ?_)
    refine total_bind (total_oci_error_p env fuel true _ _ hr) (fun _ => ?_)
    exact total_weaken (total_set_fetchbuf cid n i hi _) (fun _ h => h.1) (fun _ _ h => h)
  · refine total_bind (total_set_fetchbuf cid n i hi _) (fun _ => ?_)
    refine total_bind (total_fetchbuf_at cid n i hi) (fun fb1 => ?_)
    refine total_when (fun _ => ?_) (fun _ _ hw => hw)
    refine total_bind (Q := fun _ => columns_ready cid n) ?_
      (fun _ => total_set_fetchbuf cid n i hi _)
    refine total_for_loop _ fb1.n_rows (fun j _ => ?_) fb1.n_rows 0 (by omega)
    refine total_bind hoci (fun r => ?_)
    refine total_assume (fun hr => ?_)
    refine total_bind (total_oci_error_p env fuel true _ _ hr) (fun _ => ?_)
    refine total_bind (total_weaken (total_fetchbuf_at cid n i hi) (fun _ h => h.1)
      (fun _ _ h => h)) (fun _ => total_pure (fun _ hw => hw))

theorem total_flush_returns (env : Env) (hs : calls_succeed env is_recovery_call)
    (fuel cid : Nat) :
    Total (settled cid) (Ns_OracleFlush env fuel) (fun r w => r = .NS_OK ∧ settled cid w) := by
  intro w hw
  have hw0 := hw
  obtain ⟨c, hc, hid, hl⟩ := hw
  subst hid
  unfold Ns_OracleFlush Ns_OracleFlush_with
  rw [get_world_bind]
  simp only [hc]
  refine total_bind (P := settled c.id) (Q := fun freed w => settled c.id w ∧ freed = true)
    (R := fun r w => r = Ns_ReturnCode.NS_OK ∧ settled c.id w) ?_ (fun freed => ?_) w hw0
  · refine total_ite (fun _ => ?_) (fun _ => total_pure (fun _ h => ⟨h, rfl⟩))
    refine total_bind (Q := fun r w => settled c.id w ∧ r.status = .OCI_SUCCESS)
      (total_oci (fun _ h => ⟨settled_congr rfl h,
        hs _ (.OCIHandleFree .OCI_HTYPE_STMT) rfl⟩)) (fun r => ?_)
    refine total_assume (fun hr => ?_)
    refine total_bind (total_oci_error_p env fuel true _ _ hr) (fun b => ?_)
    refine total_if_false ?_
    exact total_bind (total_settled_set_connection c.id _ (fun _ => ⟨rfl, rfl, rfl⟩))
      (fun _ => total_pure (fun _ h => ⟨h, rfl⟩))
  · refine total_if_true ?_
    refine total_bind (total_settled_set_connection c.id _ (fun _ => ⟨rfl, rfl, rfl⟩))
      (fun _ => ?_)
    refine total_bind (total_connection_at (fun w h => ?_)) (fun c1 => ?_)
    · obtain ⟨c2, h2, hid2, _⟩ := h
      exact ⟨c2, h2, hid2⟩
    · split
      · exact total_pure (fun _ h => ⟨rfl, h.1⟩)
      · rename_i fbs hfbs
        refine total_weaken (S := columns_ready c.id c1.n_columns)
          (T := fun r w => r = Ns_ReturnCode.NS_OK ∧ settled c.id w) ?_ (fun w h => ?_) (fun _ _ h => h)
        · refine total_bind (total_for_loop _ c1.n_columns
            (fun j hj => total_release_fetchbuf env hs fuel c.id c1.n_columns j hj)
            c1.n_columns 0 (by omega)) (fun _ => ?_)
          refine total_bind (Q := fun _ w => settled c.id w) (total_set_connection (fun w h => ?_))
            (fun _ => total_pure (fun _ h => ⟨rfl, h⟩))
          obtain ⟨c2, h2, hid2, _⟩ := h
          exact ⟨c2, h2, hid2, _, rfl, hid2, fun fbs h => by cases h⟩
        · obtain ⟨⟨c2, h2, hid2, hl2⟩, h3, hid3⟩ := h
          rw [h2] at h3
          cases h3
          exact ⟨c1, h2, hid2, rfl, fun fbs1 hf1 => hl2 fbs1 hf1, fun _ => by rw [hfbs]; simp⟩

/-- With release calls that succeed, `Ns_OracleFlush` returns `NS_OK` on a
connection whose array of descriptors is as long as `n_columns` says, and
leaves the connection with no statement handle, no array of descriptors and
no interpreter. -/
theorem total_flush_ok (env : Env) (hs : calls_succeed env is_recovery_call)
    (fuel cid : Nat) :
    Total (settled cid) (Ns_OracleFlush env fuel)
      (fun r w => r = .NS_OK ∧ settled cid w ∧ flushed w) :=
  total_weaken (total_and (total_flush_returns env hs fuel cid) (triple_flush_flushed env fuel))
    (fun _ h => ⟨h, trivial⟩) (fun _ _ h => ⟨h.1.1, h.1.2, h.2 h.1.1⟩)

theorem engine_succeeds_calls {env : Env} (hs : engine_succeeds env) (q : NativeCall → Bool) :
    calls_succeed env q := fun t c _ => hs t c


/-! ## The classifiers at a failed call -/

theorem settled_open_at {cid : Nat} {w : World} (h : settled cid w) : open_at cid w := by
  obtain ⟨c, hc, hid, _⟩ := h
  exact ⟨c, hc, hid⟩

theorem total_close_ok (env : Env) (hs : calls_succeed env is_recovery_call) (fuel cid : Nat) :
    Total (open_at cid) (Ns_OracleCloseDb env fuel)
      (fun r w => r = .NS_OK ∧ w.dbh.connection = none ∧ w.dbh.connected = false) := by
  intro w hw
  obtain ⟨c, hc, _⟩ := hw
  exact ⟨_, _, Ns_OracleCloseDb_apply env hs fuel w c hc, rfl, rfl, rfl⟩

/-- The flush and the close of a recovery, with release calls that succeed:
they return and leave the handle with no connection. -/
theorem total_flush_close {K : World → Prop} (hK : RecoveryInv K) (env : Env)
    (hs : calls_succeed env is_recovery_call) (fuel cid : Nat) :
    Total (fun w => settled cid w ∧ K w)
      (do
        let _ ← Ns_OracleFlush env fuel
        let _ ← Ns_OracleCloseDb env fuel
        pure () : M Unit)
      (fun _ w => (w.dbh.connection = none ∧ w.dbh.connected = false) ∧ K w) := by
  refine total_bind (total_and (total_flush_ok env hs fuel cid) (recovery_Ns_OracleFlush hK env fuel))
    (fun _ => ?_)
  refine total_bind (Q := fun _ w => (w.dbh.connection = none ∧ w.dbh.connected = false) ∧ K w)
    ?_ (fun _ => total_pure (fun _ h => h))
  refine total_weaken (total_and (total_close_ok env hs fuel cid)
    (recovery_Ns_OracleCloseDb hK env fuel)) (fun w h => ⟨settled_open_at h.1.2.1, h.2⟩)
    (fun _ _ h => ⟨h.1.2, h.2⟩)



theorem calls_succeed_recovery {env : Env} (hs : calls_succeed env is_lifecycle_call) :
    calls_succeed env is_recovery_call :=
  fun t c hc => hs t c (by unfold is_lifecycle_call; rw [hc]; rfl)

theorem calls_succeed_open {env : Env} (hs : calls_succeed env is_lifecycle_call) :
    calls_succeed env is_open_call :=
  fun t c hc => hs t c (by unfold is_lifecycle_call; rw [hc]; simp)

/-- The classifier `tcl_error_p` at `OCI_ERROR` with one of its three fatal
codes, and release and open calls that succeed: it returns 1, the message is
appended to the result, and the handle holds a new connection. -/
theorem total_tcl_error_p_fatal (env : Env) (hs : calls_succeed env is_lifecycle_call)
    (code : Int) (hcode : reports_code env code) (hf : code ∈ tcl_fatal_codes)
    (fuel cid n : Nat) (r0 : String) (ocifn : String) :
    Total (fun w => settled cid w ∧ w.dbh.user = true ∧ w.dbh.password = true ∧
        w.next_id = n ∧ w.result = r0)
      (tcl_error_p env fuel ocifn .OCI_ERROR)
      (fun b w => b = true ∧ w.dbh.connection = some (fresh_connection n) ∧
        w.dbh.connected = true ∧ w.next_id = n + 1 ∧
        w.result = r0 ++ error_text ocifn .OCI_ERROR) := by
  have hK : RecoveryInv (fun w : World => w.dbh.user = true ∧ w.dbh.password = true ∧
      w.next_id = n ∧ w.result = r0) :=
    { call := fun w c h _ => h
      conn := fun w c c1 h _ _ => h
      close := fun w h => h
      exception := fun w code msg h => h }
  intro w hw
  obtain ⟨c, hc, hid, hl⟩ := hw.1
  unfold tcl_error_p
  rw [get_world_bind]
  simp only [hc, Option.map_some', reduceCtorEq, if_false, Option.isSome_some, and_self]
  refine total_bind (P := fun w => settled cid w ∧ w.dbh.user = true ∧ w.dbh.password = true ∧
      w.next_id = n ∧ w.result = r0)
    (Q := fun _ w => w.dbh.connection = some (fresh_connection n) ∧
        w.dbh.connected = true ∧ w.next_id = n + 1 ∧ w.result = r0) ?_ (fun _ => ?_) w hw
  · unfold M.when
    simp only [hc, Option.map_some', Option.isSome_some, and_self, if_true]
    refine total_bind (Q := fun r w => (settled cid w ∧ w.dbh.user = true ∧
        w.dbh.password = true ∧ w.next_id = n ∧ w.result = r0) ∧ r.value = code)
      (total_oci (fun w h => ⟨⟨settled_congr rfl h.1, h.2⟩, hcode _⟩)) (fun r1 => ?_)
    refine total_assume (fun hr => ?_)
    refine total_bind (Q := fun _ w => settled cid w ∧ w.dbh.user = true ∧
        w.dbh.password = true ∧ w.next_id = n ∧ w.result = r0)
      (total_oci (fun w h => ⟨settled_congr rfl h.1, h.2⟩)) (fun _ => ?_)
    rw [hr, if_pos hf]
    refine total_bind (total_and (total_flush_ok env (calls_succeed_recovery hs) fuel cid)
        (recovery_Ns_OracleFlush hK env fuel)) (fun _ => ?_)
    refine total_bind (Q := fun _ w => w.dbh.user = true ∧ w.dbh.password = true ∧
        w.next_id = n ∧ w.result = r0) ?_ (fun _ => ?_)
    · exact total_weaken (total_and (total_close_ok env (calls_succeed_recovery hs) fuel cid)
        (recovery_Ns_OracleCloseDb hK env fuel))
        (fun w h => by exact ⟨settled_open_at h.1.2.1, h.2⟩) (fun _ _ h => h.2)
    · refine total_bind (Q := fun _ w => w.dbh.connection = some (fresh_connection n) ∧
        w.dbh.connected = true ∧ w.next_id = n + 1 ∧ w.result = r0) ?_
        (fun _ => total_pure (fun _ h => h))
      intro w1 h1
      refine ⟨_, _, Ns_OracleOpenDb_apply env (calls_succeed_open hs) fuel w1 h1.1 h1.2.1, ?_⟩
      obtain ⟨_, _, h3, h4⟩ := h1
      exact ⟨by rw [h3]; rfl, rfl, by rw [← h3], h4⟩
  · refine total_bind (Q := fun _ w => w.dbh.connection = some (fresh_connection n) ∧
        w.dbh.connected = true ∧ w.next_id = n + 1 ∧
        w.result = r0 ++ error_text ocifn .OCI_ERROR) ?_
      (fun _ => total_pure (fun _ h => ⟨rfl, h⟩))
    refine total_modify_world (fun w h => ⟨h.1, h.2.1, h.2.2.1, ?_⟩)
    show w.result ++ _ = _
    rw [h.2.2.2]
    rfl

/-- The classifier `tcl_error_p` at `OCI_ERROR` with a code that is not one of
its three fatal codes: two calls, the message, and nothing else. -/
theorem tcl_error_p_plain (env : Env) (fuel : Nat) (ocifn : String) (w : World)
    (c : ora_connection_t) (hc : w.dbh.connection = some c)
    (hcode : (env.engine w.trace.length .OCIErrorGet).value ∉ tcl_fatal_codes) :
    tcl_error_p env fuel ocifn .OCI_ERROR w
      = .done (true,
          { w with
            trace := w.trace ++ [.OCIErrorGet, .OCIAttrGet .OCI_ATTR_PARSE_ERROR_OFFSET],
            result := w.result ++ error_text ocifn .OCI_ERROR }) := by
  unfold tcl_error_p
  rw [get_world_bind]
  simp [hc, bind_apply, M.when, oci, hcode, Tcl_AppendResult, modify_world, pure_apply,
    error_text, M.pure]

/-- The classifier `oci_error_p` at `OCI_ERROR` with a code after which it
does not recover: two calls, the exception, and nothing else. -/
theorem oci_error_p_plain (env : Env) (fuel : Nat) (ocifn : String) (w : World)
    (c : ora_connection_t) (hc : w.dbh.connection = some c)
    (h1 : (env.engine w.trace.length .OCIErrorGet).value ∉ oci_fatal_codes)
    (h2 : (env.engine w.trace.length .OCIErrorGet).value ≠ 20)
    (h3 : (env.engine w.trace.length .OCIErrorGet).value ≠ 1034) :
    oci_error_p env fuel true ocifn .OCI_ERROR w
      = .done (true,
          { w with
            trace := w.trace ++ [.OCIErrorGet, .OCIAttrGet .OCI_ATTR_PARSE_ERROR_OFFSET],
            dbh := { w.dbh with
              cExceptionCode := toString (env.engine w.trace.length .OCIErrorGet).value,
              dsExceptionMsg := error_text ocifn .OCI_ERROR } }) := by
  cases fuel <;>
  · unfold oci_error_p oci_error_p_with
    rw [get_world_bind]
    simp [hc, bind_apply, M.when, oci, h1, h2, h3, Ns_DbSetException, modify_world, pure_apply,
      error_text]

/-- The classifiers at a status that is neither a success nor `OCI_ERROR`:
no call is made, `oci_error_p` sets the exception and `tcl_error_p` appends
the message, and both return 1. -/
theorem classifiers_other_status (env : Env) (fuel : Nat) (ocifn : String)
    (st : oci_status_t) (h1 : st ≠ .OCI_SUCCESS) (h2 : st ≠ .OCI_SUCCESS_WITH_INFO)
    (h3 : st ≠ .OCI_ERROR) (w : World) :
    oci_error_p env fuel true ocifn st w
      = .done (true,
          { w with dbh := { w.dbh with cExceptionCode := toString (0 : Int),
                                       dsExceptionMsg := error_text ocifn st } }) ∧
    tcl_error_p env fuel ocifn st w
      = .done (true, { w with result := w.result ++ error_text ocifn st }) := by
  constructor
  · cases fuel <;>
    · unfold oci_error_p oci_error_p_with
      rw [get_world_bind]
      simp [h1, h2, h3, bind_apply, M.when, Ns_DbSetException, modify_world, pure_apply,
        error_text]
  · unfold tcl_error_p
    rw [get_world_bind]
    simp [h1, h3, bind_apply, M.when, Tcl_AppendResult, modify_world, pure_apply, error_text,
      M.pure]

theorem tcl_error_p_with_info (env : Env) (fuel : Nat) (ocifn : String) (w : World) :
    tcl_error_p env fuel ocifn .OCI_SUCCESS_WITH_INFO w
      = .done (true,
          { w with result := w.result ++ error_text ocifn .OCI_SUCCESS_WITH_INFO }) := rfl

theorem oci_error_p_succ (env : Env) (fuel : Nat) (dbh : Bool) (ocifn : String)
    (st : oci_status_t) :
    oci_error_p env (fuel + 1) dbh ocifn st
      = oci_error_p_with env (Ns_OracleFlush env fuel) (Ns_OracleCloseDb env fuel) dbh ocifn st :=
  rfl

/-- The classifier `oci_error_p` at `OCI_ERROR` with an error code after which
it closes the connection, and release calls that succeed: it returns 1 and the
handle is left with no connection. -/
theorem total_oci_error_p_closing {K : World → Prop} (hK : RecoveryInv K) (env : Env)
    (hs : calls_succeed env is_recovery_call) (code : Int) (hcode : reports_code env code)
    (hf : code ∈ oci_fatal_codes ∨ code = 20 ∨ code = 1034) (fuel cid : Nat)
    (ocifn : String) :
    Total (fun w => settled cid w ∧ K w)
      (oci_error_p env (fuel + 1) true ocifn .OCI_ERROR)
      (fun b w => b = true ∧ w.dbh.connection = none ∧ w.dbh.connected = false ∧
        w.dbh.cExceptionCode = toString code ∧ K w) := by
  intro w hw
  obtain ⟨c, hc, hid, hl⟩ := hw.1
  rw [oci_error_p_succ]
  unfold oci_error_p_with
  rw [get_world_bind]
  simp only [hc, Option.map_some', if_true, reduceCtorEq, if_false]
  refine total_bind (P := fun w => settled cid w ∧ K w)
    (Q := fun errorcode w => ((w.dbh.connection = none ∧ w.dbh.connected = false) ∧ K w) ∧
      errorcode = code) ?_ (fun errorcode => ?_) w hw
  · refine total_bind (Q := fun r w => (settled cid w ∧ K w) ∧ r.value = code)
      (total_oci (fun w h => ⟨⟨settled_congr rfl h.1, hK.call w _ h.2 rfl⟩, hcode _⟩))
      (fun r1 => ?_)
    refine total_assume (fun hr => ?_)
    refine total_bind (Q := fun _ w => settled cid w ∧ K w)
      (total_oci (fun w h => ⟨settled_congr rfl h.1, hK.call w _ h.2 rfl⟩)) (fun _ => ?_)
    rw [hr]
    by_cases h1 : code ∈ oci_fatal_codes
    · rw [if_pos h1]
      refine total_bind (total_and (total_flush_ok env hs fuel cid)
        (recovery_Ns_OracleFlush hK env fuel)) (fun _ => ?_)
      refine total_bind (Q := fun _ w => (w.dbh.connection = none ∧ w.dbh.connected = false) ∧ K w)
        ?_ (fun _ => total_pure (fun _ h => ⟨h, rfl⟩))
      exact total_weaken (total_and (total_close_ok env hs fuel cid)
        (recovery_Ns_OracleCloseDb hK env fuel)) (fun w h => ⟨settled_open_at h.1.2.1, h.2⟩)
        (fun _ _ h => ⟨h.1.2, h.2⟩)
    · rw [if_neg h1, if_pos (hf.resolve_left h1)]
      refine total_bind (Q := fun _ w => (w.dbh.connection = none ∧ w.dbh.connected = false) ∧ K w)
        ?_ (fun _ => total_pure (fun _ h => ⟨h, rfl⟩))
      exact total_weaken (total_and (total_close_ok env hs fuel cid)
        (recovery_Ns_OracleCloseDb hK env fuel)) (fun w h => ⟨settled_open_at h.1, h.2⟩)
        (fun _ _ h => ⟨h.1.2, h.2⟩)
  · refine total_assume (fun he => ?_)
    subst he
    refine total_bind (Q := fun _ w => (w.dbh.connection = none ∧ w.dbh.connected = false) ∧
      w.dbh.cExceptionCode = toString errorcode ∧ K w) ?_
      (fun _ => total_pure (fun _ h => ⟨rfl, h.1.1, h.1.2, h.2.1, h.2.2⟩))
    unfold M.when
    simp only [if_true]
    exact total_modify_world (fun w h => ⟨h.1, rfl, hK.exception w _ _ h.2⟩)

theorem tcl_error_p_failure (env : Env) (fuel : Nat) (ocifn : String) (st : oci_status_t)
    (h : st ≠ .OCI_SUCCESS) :
    Triple (fun _ => True) (tcl_error_p env fuel ocifn st) (fun b _ => b = true) := by
  unfold tcl_error_p
  refine triple_bind (Q := fun _ _ => True) (fun _ _ _ _ _ => trivial) (fun w => ?_)
  simp only [h, if_false]
  refine triple_bind (Q := fun _ _ => True) (fun _ _ _ _ _ => trivial) (fun _ => ?_)
  refine triple_bind (Q := fun _ _ => True) (fun _ _ _ _ _ => trivial) (fun _ => ?_)
  exact triple_pure (fun _ _ => rfl)

theorem recovery_true : RecoveryInv (fun _ => True) where
  call := fun _ _ _ _ => trivial
  conn := fun _ _ _ _ _ _ => trivial
  close := fun _ _ => trivial
  exception := fun _ _ _ _ => trivial

theorem code_env_succeeds (code : Int) : calls_succeed (code_env code) is_lifecycle_call := by
  intro t c _
  cases c <;> rfl

theorem code_env_reports (code : Int) : reports_code (code_env code) code := fun _ => rfl

theorem failing_execute_env_succeeds (code : Int) :
    calls_succeed (failing_execute_env code) is_lifecycle_call := by
  intro t c h
  cases c <;> first | rfl | cases h

theorem example_world_settled : settled 0 example_world :=
  ⟨example_connection, rfl, rfl, fun fbs h => by cases h⟩

/-- The execute of `Ns_OracleExec` when the engine fails it with a code after
which `oci_error_p` closes the connection: the function is sent to its error
exit and the handle is left with no connection. -/
theorem total_exec_execute_fatal (env : Env) (hs : calls_succeed env is_recovery_call)
    (code : Int) (hcode : reports_code env code)
    (hf : code ∈ oci_fatal_codes ∨ code = 20 ∨ code = 1034)
    (hx : ∀ t n m, (env.engine t (.OCIStmtExecute n m)).status = .OCI_ERROR)
    (fuel cid iters : Nat) :
    Total (settled cid) (Ns_OracleExec_execute env (fuel + 1) cid iters)
      (fun b w => b = true ∧ w.dbh.connection = none ∧ w.dbh.connected = false ∧
        w.dbh.cExceptionCode = toString code) := by
  unfold Ns_OracleExec_execute
  refine total_bind (total_connection_at (fun w h => settled_open_at h)) (fun c => ?_)
  refine total_bind (Q := fun r w => settled cid w ∧ r.status = .OCI_ERROR)
    (total_oci (fun w h => ⟨settled_congr rfl h.1, hx _ _ _⟩)) (fun r => ?_)
  refine total_assume (fun hr => ?_)
  rw [hr]
  simp only [if_true]
  refine total_bind (Q := fun r w => settled cid w ∧ r.status = .OCI_SUCCESS)
    (total_oci (fun w h => ⟨settled_congr rfl h, hs _ .OCIErrorGet rfl⟩)) (fun r1 => ?_)
  refine total_assume (fun hr1 => ?_)
  refine total_bind (total_oci_error_p env (fuel + 1) true _ _ hr1) (fun b => ?_)
  refine total_if_false ?_
  exact total_weaken (total_oci_error_p_closing recovery_true env hs code hcode hf fuel cid _)
    (fun _ h => ⟨h, trivial⟩) (fun _ _ h => ⟨h.1, h.2.1, h.2.2.1, h.2.2.2.1⟩)

/-- C14: after a session-fatal error code `oci_error_p` leaves the handle
without a connection, where the claim, and the comment `close and re-open the
handle` of its branch, have a fresh one.  At a failed call with such a code,
and with release and open calls that succeed: for the codes 1041, 3113 and
12571 `tcl_error_p` does what the claim says, it flushes, closes and reopens,
returns 1 with the message appended to the result, and the handle holds a new
connection, in autocommit mode, with no statement handle and with the
identity `next_id` that no connection had before.  For the codes 1041, 3113,
12571, 28, 1012 and 24324 `oci_error_p` flushes and closes, and no call of
`Ns_OracleOpenDb` follows: it returns 1, the exception carries the code, and
the handle is left with no connection and marked as not connected; so is the
handle after the execute of `Ns_OracleExec` when the engine fails it with
such a code. -/
theorem session_fatal_recovery (env : Env) (fuel : Nat) (ocifn : String) (code : Int)
    (w : World) (c : ora_connection_t)
    (hc : w.dbh.connection = some c)
    (hl : ∀ fbs, c.fetch_buffers = some fbs → fbs.length = c.n_columns)
    (hcode : reports_code env code)
    (hs : calls_succeed env is_lifecycle_call)
    (hu : w.dbh.user = true) (hp : w.dbh.password = true) :
    (code ∈ tcl_fatal_codes →
      ∃ w1, tcl_error_p env fuel ocifn .OCI_ERROR w = .done (true, w1) ∧
        w1.dbh.connection = some (fresh_connection w.next_id) ∧ w1.dbh.connected = true ∧
        w1.next_id = w.next_id + 1 ∧ w1.result = w.result ++ error_text ocifn .OCI_ERROR) ∧
    (code ∈ oci_fatal_codes →
      ∃ w1, oci_error_p env (fuel + 1) true ocifn .OCI_ERROR w = .done (true, w1) ∧
        w1.dbh.connection = none ∧ w1.dbh.connected = false ∧
        w1.dbh.cExceptionCode = toString code) ∧
    (code ∈ oci_fatal_codes →
      (∀ t n m, (env.engine t (.OCIStmtExecute n m)).status = .OCI_ERROR) →
      ∀ iters, ∃ w1, Ns_OracleExec_execute env (fuel + 1) c.id iters w = .done (true, w1) ∧
        w1.dbh.connection = none ∧ w1.dbh.connected = false ∧
        w1.dbh.cExceptionCode = toString code) := by
  have hset : settled c.id w := ⟨c, hc, rfl, hl⟩
  refine ⟨fun hf => ?_, fun hf => ?_, fun hf hx iters => ?_⟩
  · obtain ⟨b, w1, h1, h2⟩ := total_tcl_error_p_fatal env hs code hcode hf fuel c.id w.next_id
      w.result ocifn w ⟨hset, hu, hp, rfl, rfl⟩
    obtain ⟨hb, rest⟩ := h2
    subst hb
    exact ⟨w1, h1, rest⟩
  · obtain ⟨b, w1, h1, h2⟩ := total_oci_error_p_closing recovery_true env
      (calls_succeed_recovery hs) code hcode (Or.inl hf) fuel c.id ocifn w ⟨hset, trivial⟩
    obtain ⟨hb, h3, h4, h5, _⟩ := h2
    subst hb
    exact ⟨w1, h1, h3, h4, h5⟩
  · obtain ⟨b, w1, h1, h2⟩ := total_exec_execute_fatal env (calls_succeed_recovery hs) code
      hcode (Or.inl hf) hx fuel c.id iters w hset
    obtain ⟨hb, rest⟩ := h2
    subst hb
    exact ⟨w1, h1, rest⟩

/-- C14, at the failing input in full: `Ns_OracleExec` on an update whose
execute the engine fails with ORA-03113 returns `NS_ERROR` and leaves the
handle with no connection; the calls end with the releases of the close, and
no call of an open follows them. -/
theorem session_fatal_counterexample :
    Ns_OracleExec (failing_execute_env 3113) 1 "update t set a = 1".toList example_world
      = .done (.NS_ERROR,
          { example_world with
            trace := [.OCIHandleAlloc .OCI_HTYPE_STMT,
              .OCIStmtPrepare "update t set a = 1".toList,
              .OCIAttrGet .OCI_ATTR_STMT_TYPE,
              .OCIStmtExecute 1 .OCI_COMMIT_ON_SUCCESS, .OCIErrorGet, .OCIErrorGet,
              .OCIAttrGet .OCI_ATTR_PARSE_ERROR_OFFSET, .OCIHandleFree .OCI_HTYPE_STMT,
              .OCIServerDetach, .OCIHandleFree .OCI_HTYPE_SVCCTX,
              .OCIHandleFree .OCI_HTYPE_SERVER, .OCIHandleFree .OCI_HTYPE_ERROR,
              .OCIHandleFree .OCI_HTYPE_SESSION, .OCIHandleFree .OCI_HTYPE_ENV],
            dbh := { example_world.dbh with
              connection := none, connected := false, cExceptionCode := "3113",
              dsExceptionMsg := "error in `OCIStmtExecute ()': OCI_ERROR" } }) := by
  decide!

/-- C14, at the connection of `example_world` and ORA-03113: `tcl_error_p`
leaves a new connection with the identity 1, while `oci_error_p` and the
execute of `Ns_OracleExec` leave none. -/
theorem session_fatal_recovery_witness :
    example_world.dbh.connection = some example_connection ∧
    reports_code (failing_execute_env 3113) 3113 ∧
    calls_succeed (failing_execute_env 3113) is_lifecycle_call ∧
    (∃ w1, tcl_error_p (failing_execute_env 3113) 0 "OCIStmtExecute" .OCI_ERROR example_world
        = .done (true, w1) ∧
      w1.dbh.connection = some (fresh_connection example_world.next_id) ∧
      w1.dbh.connected = true ∧ w1.next_id = example_world.next_id + 1 ∧
      w1.result = example_world.result ++ error_text "OCIStmtExecute" .OCI_ERROR) ∧
    (∃ w1, oci_error_p (failing_execute_env 3113) (0 + 1) true "OCIStmtExecute" .OCI_ERROR
        example_world = .done (true, w1) ∧
      w1.dbh.connection = none ∧ w1.dbh.connected = false ∧
      w1.dbh.cExceptionCode = toString (3113 : Int)) ∧
    (∃ w1, Ns_OracleExec_execute (failing_execute_env 3113) (0 + 1) example_connection.id 1
        example_world = .done (true, w1) ∧
      w1.dbh.connection = none ∧ w1.dbh.connected = false ∧
      w1.dbh.cExceptionCode = toString (3113 : Int)) :=
  have h := session_fatal_recovery (failing_execute_env 3113) 0 "OCIStmtExecute" 3113
    example_world example_connection rfl (fun fbs h => by cases h) (fun _ => rfl)
    (failing_execute_env_succeeds 3113) rfl rfl
  ⟨rfl, fun _ => rfl, failing_execute_env_succeeds 3113, h.1 (by decide), h.2.1 (by decide),
    h.2.2 (by decide) (fun _ _ _ => rfl) 1⟩

/-- C15, amended: at `OCI_SUCCESS_WITH_INFO` the classifier `oci_error_p`
returns 0 and leaves the state as it is, while `tcl_error_p` returns 1 and
appends the message `Error - OCI_SUCCESS_WITH_INFO` to the result of the
interpreter; neither makes a native call or starts a recovery. -/
theorem success_with_info_verdicts (env : Env) (fuel : Nat) (dbh : Bool) (ocifn : String)
    (w : World) :
    oci_error_p env fuel dbh ocifn .OCI_SUCCESS_WITH_INFO w = .done (false, w) ∧
    tcl_error_p env fuel ocifn .OCI_SUCCESS_WITH_INFO w
      = .done (true,
          { w with result := w.result ++ error_text ocifn .OCI_SUCCESS_WITH_INFO }) :=
  ⟨oci_error_p_success env fuel dbh ocifn _ (Or.inr rfl) w, tcl_error_p_with_info env fuel ocifn w⟩

/-- C15, where the claim fails: a query whose prepare the engine ends with
`OCI_SUCCESS_WITH_INFO` is refused by `OracleSelect`, which returns
`TCL_ERROR` with the message of `tcl_error_p` as the result, after it has
freed the statement handle. -/
theorem success_with_info_counterexample :
    OracleSelect with_info_env 1 select_command example_world
      = .done (.TCL_ERROR,
          { example_world with
            trace := [.OCIHandleAlloc .OCI_HTYPE_STMT,
              .OCIStmtPrepare "select a from t where b = :1".toList,
              .OCIHandleFree .OCI_HTYPE_STMT],
            result := "error in `OCIStmtPrepare ()': Error - OCI_SUCCESS_WITH_INFO" }) := by
  decide!

/-- C16, amended: the two classifiers agree on the verdict except at
`OCI_SUCCESS_WITH_INFO`, and they do not react to the same codes.  At
`OCI_SUCCESS` both return 0 and leave the state alone; at every status other
than `OCI_SUCCESS` and `OCI_SUCCESS_WITH_INFO` a call of either that returns
returns 1, and at the statuses other than `OCI_ERROR` among these both do
return, after `oci_error_p` has set the exception and `tcl_error_p` has
appended the message; at `OCI_SUCCESS_WITH_INFO` `oci_error_p` returns 0 and
`tcl_error_p` returns 1.  At `OCI_ERROR`, with release and open calls that
succeed: for the codes 1041, 3113 and 12571 `tcl_error_p` leaves the handle
with a new connection, and for every other code it leaves the connection as
it is; for the codes 20 and 1034 `oci_error_p` closes the connection; for
every code that is none of 1041, 3113, 12571, 28, 1012, 24324, 20 and 1034
both make the same two calls and leave the connection as it is.  The codes
that select the session-fatal branch of `tcl_error_p` select that of
`oci_error_p` too, which 28, 1012 and 24324 select as well. -/
theorem classifiers_compared (env : Env) (fuel : Nat) (ocifn : String) (w : World) :
    (oci_error_p env fuel true ocifn .OCI_SUCCESS w = .done (false, w) ∧
      tcl_error_p env fuel ocifn .OCI_SUCCESS w = .done (false, w)) ∧
    (∀ st, st ≠ .OCI_SUCCESS → st ≠ .OCI_SUCCESS_WITH_INFO → ∀ b w1,
      (oci_error_p env fuel true ocifn st w = .done (b, w1) → b = true) ∧
      (tcl_error_p env fuel ocifn st w = .done (b, w1) → b = true)) ∧
    (∀ st, st ≠ .OCI_SUCCESS → st ≠ .OCI_SUCCESS_WITH_INFO → st ≠ .OCI_ERROR →
      oci_error_p env fuel true ocifn st w
        = .done (true,
            { w with dbh := { w.dbh with cExceptionCode := toString (0 : Int),
                                         dsExceptionMsg := error_text ocifn st } }) ∧
      tcl_error_p env fuel ocifn st w
        = .done (true, { w with result := w.result ++ error_text ocifn st })) ∧
    (oci_error_p env fuel true ocifn .OCI_SUCCESS_WITH_INFO w = .done (false, w) ∧
      tcl_error_p env fuel ocifn .OCI_SUCCESS_WITH_INFO w
        = .done (true,
            { w with result := w.result ++ error_text ocifn .OCI_SUCCESS_WITH_INFO })) ∧
    (∀ c code, w.dbh.connection = some c →
      (∀ fbs, c.fetch_buffers = some fbs → fbs.length = c.n_columns) →
      reports_code env code → calls_succeed env is_lifecycle_call →
      w.dbh.user = true → w.dbh.password = true →
      (code ∈ tcl_fatal_codes →
        ∃ w1, tcl_error_p env fuel ocifn .OCI_ERROR w = .done (true, w1) ∧
          w1.dbh.connection = some (fresh_connection w.next_id) ∧
          w1.dbh.connected = true) ∧
      (code ∉ tcl_fatal_codes →
        tcl_error_p env fuel ocifn .OCI_ERROR w
          = .done (true,
              { w with
                trace := w.trace ++ [.OCIErrorGet, .OCIAttrGet .OCI_ATTR_PARSE_ERROR_OFFSET],
                result := w.result ++ error_text ocifn .OCI_ERROR })) ∧
      (code = 20 ∨ code = 1034 →
        ∃ w1, oci_error_p env (fuel + 1) true ocifn .OCI_ERROR w = .done (true, w1) ∧
          w1.dbh.connection = none ∧ w1.dbh.connected = false) ∧
      (code ∉ oci_fatal_codes → code ≠ 20 → code ≠ 1034 →
        oci_error_p env fuel true ocifn .OCI_ERROR w
          = .done (true,
              { w with
                trace := w.trace ++ [.OCIErrorGet, .OCIAttrGet .OCI_ATTR_PARSE_ERROR_OFFSET],
                dbh := { w.dbh with cExceptionCode := toString code,
                                    dsExceptionMsg := error_text ocifn .OCI_ERROR } }) ∧
        tcl_error_p env fuel ocifn .OCI_ERROR w
          = .done (true,
              { w with
                trace := w.trace ++ [.OCIErrorGet, .OCIAttrGet .OCI_ATTR_PARSE_ERROR_OFFSET],
                result := w.result ++ error_text ocifn .OCI_ERROR }))) ∧
    ((∀ code, code ∈ tcl_fatal_codes → code ∈ oci_fatal_codes) ∧
      ∀ code, code ∈ [28, 1012, 24324] → code ∈ oci_fatal_codes ∧ code ∉ tcl_fatal_codes) := by
  refine ⟨⟨oci_error_p_success env fuel true ocifn _ (Or.inl rfl) w,
    tcl_error_p_success env fuel ocifn w⟩, fun st h1 h2 b w1 => ?_,
    fun st h1 h2 h3 => classifiers_other_status env fuel ocifn st h1 h2 h3 w,
    ⟨oci_error_p_success env fuel true ocifn _ (Or.inr rfl) w,
      tcl_error_p_with_info env fuel ocifn w⟩,
    fun c code hc hl hcode hs hu hp => ?_, by decide⟩
  · exact ⟨fun h => oci_error_p_failure env fuel true ocifn st ⟨h1, h2⟩ w trivial b w1 h,
      fun h => tcl_error_p_failure env fuel ocifn st h1 w trivial b w1 h⟩
  · have hset : settled c.id w := ⟨c, hc, rfl, hl⟩
    have hclose : code ∈ oci_fatal_codes ∨ code = 20 ∨ code = 1034 →
        ∃ w1, oci_error_p env (fuel + 1) true ocifn .OCI_ERROR w = .done (true, w1) ∧
          w1.dbh.connection = none ∧ w1.dbh.connected = false := by
      intro hf
      obtain ⟨b, w1, h1, h2⟩ := total_oci_error_p_closing recovery_true env
        (calls_succeed_recovery hs) code hcode hf fuel c.id ocifn w ⟨hset, trivial⟩
      obtain ⟨hb, h3, h4, _⟩ := h2
      subst hb
      exact ⟨w1, h1, h3, h4⟩
    have hplain : code ∉ tcl_fatal_codes →
        tcl_error_p env fuel ocifn .OCI_ERROR w
          = .done (true,
              { w with
                trace := w.trace ++ [.OCIErrorGet, .OCIAttrGet .OCI_ATTR_PARSE_ERROR_OFFSET],
                result := w.result ++ error_text ocifn .OCI_ERROR }) :=
      fun hn => tcl_error_p_plain env fuel ocifn w c hc (by rw [hcode]; exact hn)
    refine ⟨fun hf => ?_, hplain, fun hf => hclose (Or.inr hf),
      fun h1 h2 h3 => ⟨?_, hplain ?_⟩⟩
    · obtain ⟨b, w1, h1, h2⟩ := total_tcl_error_p_fatal env hs code hcode hf fuel c.id
        w.next_id w.result ocifn w ⟨hset, hu, hp, rfl, rfl⟩
      obtain ⟨hb, h3, h4, _⟩ := h2
      subst hb
      exact ⟨w1, h1, h3, h4⟩
    · have := oci_error_p_plain env fuel ocifn w c hc (by rw [hcode]; exact h1)
        (by rw [hcode]; exact h2) (by rw [hcode]; exact h3)
      rw [hcode] at this
      exact this
    · intro hn
      apply h1
      simp only [tcl_fatal_codes, List.mem_cons, List.mem_singleton, List.not_mem_nil,
        or_false] at hn
      rcases hn with h | h | h <;> subst h <;> decide

/-- C16, where the claim fails: at the status `OCI_SUCCESS_WITH_INFO`
`oci_error_p` returns 0 and leaves the state alone, while `tcl_error_p`
returns 1 with its message in the result; and at a call that the engine fails
with ORA-01034, `oci_error_p` closes the connection of `example_world`, so
that the process of the server goes away, while `tcl_error_p` leaves it
open. -/
theorem classifiers_counterexample :
    oci_error_p (example_env 0) 1 true "OCIStmtExecute" .OCI_SUCCESS_WITH_INFO example_world
      = .done (false, example_world) ∧
    tcl_error_p (example_env 0) 1 "OCIStmtExecute" .OCI_SUCCESS_WITH_INFO example_world
      = .done (true,
          { example_world with
            result := "error in `OCIStmtExecute ()': Error - OCI_SUCCESS_WITH_INFO" }) ∧
    oci_error_p (code_env 1034) 1 true "OCIStmtExecute" .OCI_ERROR example_world
      = .done (true,
          { example_world with
            trace := [.OCIErrorGet, .OCIAttrGet .OCI_ATTR_PARSE_ERROR_OFFSET,
              .OCIServerDetach, .OCIHandleFree .OCI_HTYPE_SVCCTX,
              .OCIHandleFree .OCI_HTYPE_SERVER, .OCIHandleFree .OCI_HTYPE_ERROR,
              .OCIHandleFree .OCI_HTYPE_SESSION, .OCIHandleFree .OCI_HTYPE_ENV],
            dbh := { example_world.dbh with
              connection := none, connected := false, cExceptionCode := "1034",
              dsExceptionMsg := "error in `OCIStmtExecute ()': OCI_ERROR" } }) ∧
    tcl_error_p (code_env 1034) 1 "OCIStmtExecute" .OCI_ERROR example_world
      = .done (true,
          { example_world with
            trace := [.OCIErrorGet, .OCIAttrGet .OCI_ATTR_PARSE_ERROR_OFFSET],
            result := "error in `OCIStmtExecute ()': OCI_ERROR" }) := by
  decide!

/-- C16, at the connection of `example_world`: with ORA-03113 `tcl_error_p`
leaves a new connection, with ORA-01034 `oci_error_p` leaves none, and with
ORA-00600 both leave the connection as it is. -/
theorem classifiers_compared_witness :
    example_world.dbh.connection = some example_connection ∧
    reports_code (code_env 3113) 3113 ∧ reports_code (code_env 1034) 1034 ∧
    reports_code (code_env 600) 600 ∧
    calls_succeed (code_env 3113) is_lifecycle_call ∧
    calls_succeed (code_env 1034) is_lifecycle_call ∧
    (∃ w1, tcl_error_p (code_env 3113) 0 "OCIStmtExecute" .OCI_ERROR example_world
        = .done (true, w1) ∧
      w1.dbh.connection = some (fresh_connection example_world.next_id) ∧
      w1.dbh.connected = true) ∧
    (∃ w1, oci_error_p (code_env 1034) (0 + 1) true "OCIStmtExecute" .OCI_ERROR
        example_world = .done (true, w1) ∧
      w1.dbh.connection = none ∧ w1.dbh.connected = false) ∧
    (oci_error_p (code_env 600) 0 true "OCIStmtExecute" .OCI_ERROR example_world
        = .done (true,
            { example_world with
              trace := example_world.trace ++
                [.OCIErrorGet, .OCIAttrGet .OCI_ATTR_PARSE_ERROR_OFFSET],
              dbh := { example_world.dbh with
                cExceptionCode := toString (600 : Int),
                dsExceptionMsg := error_text "OCIStmtExecute" .OCI_ERROR } }) ∧
      tcl_error_p (code_env 600) 0 "OCIStmtExecute" .OCI_ERROR example_world
        = .done (true,
            { example_world with
              trace := example_world.trace ++
                [.OCIErrorGet, .OCIAttrGet .OCI_ATTR_PARSE_ERROR_OFFSET],
              result := example_world.result ++ error_text "OCIStmtExecute" .OCI_ERROR })) :=
  ⟨rfl, fun _ => rfl, fun _ => rfl, fun _ => rfl, code_env_succeeds 3113,
    code_env_succeeds 1034,
    ((classifiers_compared (code_env 3113) 0 "OCIStmtExecute" example_world).2.2.2.2.1
      example_connection 3113 rfl (fun fbs h => by cases h) (fun _ => rfl)
      (code_env_succeeds 3113) rfl rfl).1 (by decide),
    ((classifiers_compared (code_env 1034) 0 "OCIStmtExecute" example_world).2.2.2.2.1
      example_connection 1034 rfl (fun fbs h => by cases h) (fun _ => rfl)
      (code_env_succeeds 1034) rfl rfl).2.2.1 (Or.inr rfl),
    ((classifiers_compared (code_env 600) 0 "OCIStmtExecute" example_world).2.2.2.2.1
      example_connection 600 rfl (fun fbs h => by cases h) (fun _ => rfl)
      (code_env_succeeds 600) rfl rfl).2.2.2 (by decide) (by decide) (by decide)⟩


/-! ## Flushing, closing and resetting a handle -/

theorem triple_close_closed (env : Env) (fuel : Nat) (w : World) :
    Triple (fun w0 => w0 = w) (Ns_OracleCloseDb env fuel)
      (fun r w1 => w1.dbh.connection = none ∧
        (w.dbh.connection ≠ none → r = .NS_OK ∧ w1.dbh.connected = false)) := by
  unfold Ns_OracleCloseDb Ns_OracleCloseDb_with
  refine triple_bind triple_get_world (fun w0 => ?_)
  cases hc : w0.dbh.connection with
  | none =>
    refine triple_pure (fun w1 hw => ?_)
    obtain ⟨h1, h2⟩ := hw
    subst h1 h2
    exact ⟨hc, fun h => absurd hc h⟩
  | some c0 =>
    simp only
    refine triple_bind (Q := fun _ _ => True) (fun _ _ _ _ _ => trivial) (fun _ => ?_)
    refine triple_bind (Q := fun _ _ => True) (fun _ _ _ _ _ => trivial) (fun _ => ?_)
    refine triple_bind (Q := fun _ _ => True) (fun _ _ _ _ _ => trivial) (fun _ => ?_)
    refine triple_bind (Q := fun _ _ => True) (fun _ _ _ _ _ => trivial) (fun _ => ?_)
    refine triple_bind (Q := fun _ _ => True) (fun _ _ _ _ _ => trivial) (fun _ => ?_)
    refine triple_bind (Q := fun _ _ => True) (fun _ _ _ _ _ => trivial) (fun _ => ?_)
    refine triple_bind (Q := fun _ _ => True) (fun _ _ _ _ _ => trivial) (fun _ => ?_)
    refine triple_bind (Q := fun _ _ => True) (fun _ _ _ _ _ => trivial) (fun _ => ?_)
    refine triple_bind (Q := fun _ w1 => w1.dbh.connection = none ∧ w1.dbh.connected = false)
      (triple_modify_world (fun _ _ => ⟨rfl, rfl⟩))
      (fun _ => triple_pure (fun _ h => ⟨h.1, fun _ => ⟨rfl, h.2⟩⟩))

/-- Without a connection `Ns_OracleCloseDb` returns `NS_ERROR` and does
nothing. -/
theorem Ns_OracleCloseDb_closed (env : Env) (fuel : Nat) (w : World)
    (hc : w.dbh.connection = none) : Ns_OracleCloseDb env fuel w = .done (.NS_ERROR, w) := by
  unfold Ns_OracleCloseDb Ns_OracleCloseDb_with
  rw [get_world_bind]
  simp only [hc]
  rfl

/-- C18: a call of `Ns_OracleCloseDb` that returns leaves the handle with no
connection, and when there was one it returns `NS_OK` and the handle is marked
as not connected; a second call on the handle then returns `NS_ERROR`, makes
no native call and leaves the state as it is.  And with release calls that
succeed the first call on a handle with a connection does return, after one
detach and one release of each of the five handles. -/
theorem close_twice (env : Env) (fuel : Nat) (w : World) :
    (∀ r w1, Ns_OracleCloseDb env fuel w = .done (r, w1) →
      w1.dbh.connection = none ∧
      (w.dbh.connection ≠ none → r = .NS_OK ∧ w1.dbh.connected = false) ∧
      Ns_OracleCloseDb env fuel w1 = .done (.NS_ERROR, w1)) ∧
    (calls_succeed env is_recovery_call → w.dbh.connection ≠ none →
      ∃ w1, Ns_OracleCloseDb env fuel w = .done (.NS_OK, w1) ∧
        w1.trace = w.trace ++ [.OCIServerDetach, .OCIHandleFree .OCI_HTYPE_SVCCTX,
          .OCIHandleFree .OCI_HTYPE_SERVER, .OCIHandleFree .OCI_HTYPE_ERROR,
          .OCIHandleFree .OCI_HTYPE_SESSION, .OCIHandleFree .OCI_HTYPE_ENV] ∧
        w1.dbh.connection = none ∧ w1.dbh.connected = false ∧
        Ns_OracleCloseDb env fuel w1 = .done (.NS_ERROR, w1)) := by
  refine ⟨fun r w1 h => ?_, fun hs hc => ?_⟩
  · obtain ⟨h1, h2⟩ := triple_close_closed env fuel w w rfl r w1 h
    exact ⟨h1, h2, Ns_OracleCloseDb_closed env fuel w1 h1⟩
  · cases hc0 : w.dbh.connection with
    | none => exact absurd hc0 hc
    | some c =>
      exact ⟨_, Ns_OracleCloseDb_apply env hs fuel w c hc0, rfl, rfl, rfl,
        Ns_OracleCloseDb_closed env fuel _ rfl⟩

theorem example_env_calls (type : Int) (q : NativeCall → Bool) :
    calls_succeed (example_env type) q :=
  engine_succeeds_calls (example_env_succeeds type) q

/-- C18, at `example_world`: the first close returns `NS_OK` after six release
calls, the second returns `NS_ERROR` and changes nothing. -/
theorem close_twice_witness :
    calls_succeed (example_env 0) is_recovery_call ∧
    example_world.dbh.connection ≠ none ∧
    ∃ w1, Ns_OracleCloseDb (example_env 0) 0 example_world = .done (.NS_OK, w1) ∧
      w1.trace = example_world.trace ++ [.OCIServerDetach, .OCIHandleFree .OCI_HTYPE_SVCCTX,
        .OCIHandleFree .OCI_HTYPE_SERVER, .OCIHandleFree .OCI_HTYPE_ERROR,
        .OCIHandleFree .OCI_HTYPE_SESSION, .OCIHandleFree .OCI_HTYPE_ENV] ∧
      w1.dbh.connection = none ∧ w1.dbh.connected = false ∧
      Ns_OracleCloseDb (example_env 0) 0 w1 = .done (.NS_ERROR, w1) :=
  ⟨example_env_calls 0 _, (by decide),
    (close_twice (example_env 0) 0 example_world).2 (example_env_calls 0 _) (by decide)⟩

/-- C17, amended: when a call of `Ns_OracleFlush` returns `NS_OK`, a
connection that is still there has no statement handle, no array of
descriptors and no interpreter, and a second call right after it returns
`NS_OK`, makes no native call and leaves the state as it is.  With release
calls that succeed and an array of descriptors that is as long as `n_columns`
says, the first call does return `NS_OK`.  But the first call returns
`NS_ERROR` when the release of the statement handle is reported as an error,
and then nothing is said about the handle. -/
theorem flush_twice (env : Env) (fuel : Nat) (w : World) :
    (∀ r w1, Ns_OracleFlush env fuel w = .done (r, w1) → r = .NS_OK →
      flushed w1 ∧ Ns_OracleFlush env fuel w1 = .done (.NS_OK, w1)) ∧
    (calls_succeed env is_recovery_call →
      (∀ c fbs, w.dbh.connection = some c → c.fetch_buffers = some fbs →
        fbs.length = c.n_columns) →
      ∃ w1, Ns_OracleFlush env fuel w = .done (.NS_OK, w1) ∧ flushed w1 ∧
        Ns_OracleFlush env fuel w1 = .done (.NS_OK, w1)) := by
  refine ⟨fun r w1 h hr => ?_, fun hs hl => ?_⟩
  · have hf := triple_flush_flushed env fuel w trivial r w1 h hr
    exact ⟨hf, Ns_OracleFlush_flushed env fuel w1 hf⟩
  · cases hc : w.dbh.connection with
    | none =>
      exact ⟨w, Ns_OracleFlush_closed env fuel w hc, fun c h => (by rw [hc] at h; cases h),
        Ns_OracleFlush_closed env fuel w hc⟩
    | some c =>
      obtain ⟨r, w1, h1, h2, _, h3⟩ := total_flush_ok env hs fuel c.id w
        ⟨c, hc, rfl, fun fbs hf => hl c fbs hc hf⟩
      subst h2
      exact ⟨w1, h1, h3, Ns_OracleFlush_flushed env fuel w1 h3⟩

/-- C17, where the claim fails: with an engine that fails the release of the
statement handle, the flush of a connection with a statement handle returns
`NS_ERROR` and leaves the statement handle, and a second flush asks the engine
to release the handle once more. -/
theorem flush_twice_counterexample :
    Ns_OracleFlush failing_free_env 1 statement_world
      = .done (.NS_ERROR,
          { statement_world with
            trace := [.OCIHandleFree .OCI_HTYPE_STMT, .OCIErrorGet,
              .OCIAttrGet .OCI_ATTR_PARSE_ERROR_OFFSET],
            dbh := { statement_world.dbh with
              cExceptionCode := "600",
              dsExceptionMsg := "error in `OCIHandleFree ()': OCI_ERROR" } }) ∧
    (Ns_OracleFlush failing_free_env 1 >>= fun _ => Ns_OracleFlush failing_free_env 1)
        statement_world
      = .done (.NS_ERROR,
          { statement_world with
            trace := [.OCIHandleFree .OCI_HTYPE_STMT, .OCIErrorGet,
              .OCIAttrGet .OCI_ATTR_PARSE_ERROR_OFFSET, .OCIHandleFree .OCI_HTYPE_STMT,
              .OCIErrorGet, .OCIAttrGet .OCI_ATTR_PARSE_ERROR_OFFSET],
            dbh := { statement_world.dbh with
              cExceptionCode := "600",
              dsExceptionMsg := "error in `OCIHandleFree ()': OCI_ERROR" } }) := by
  decide!

/-- C17, at `statement_world` with an engine whose calls succeed: the first
flush returns `NS_OK` and the second changes nothing. -/
theorem flush_twice_witness :
    calls_succeed (example_env 0) is_recovery_call ∧
    ∃ w1, Ns_OracleFlush (example_env 0) 0 statement_world = .done (.NS_OK, w1) ∧
      flushed w1 ∧ Ns_OracleFlush (example_env 0) 0 w1 = .done (.NS_OK, w1) :=
  ⟨example_env_calls 0 _,
    (flush_twice (example_env 0) 0 statement_world).2 (example_env_calls 0 _)
      (fun c fbs hc hf => by cases hc; cases hf)⟩

theorem mode_recovery (m : TransactionMode) : RecoveryInv (mode_is m) where
  call := fun w c h _ => h
  conn := fun w c c1 h hc hr c2 h2 => by
    simp only [Option.some.injEq] at h2
    subst h2
    rw [hr.2.1]
    exact h c hc
  close := fun w h c hc => by cases hc
  exception := fun w code msg h => h

/-- C12, amended: `Ns_OracleResetHandle` returns `NS_OK` and does nothing on a
handle with no connection and on a connection in autocommit mode; on a
connection in explicit-transaction mode it issues one rollback, and when the
rollback succeeds it sets the mode to autocommit and returns `NS_OK`.  When
the rollback is reported as an error, a call that returns returns `NS_ERROR`
and a connection that is still there is still in explicit-transaction mode;
the call does return so when the status of the rollback is neither a success
nor `OCI_ERROR`, and when it is `OCI_ERROR` with a code after which
`oci_error_p` does not recover. -/
theorem reset_handle (env : Env) (fuel : Nat) (w : World) :
    (w.dbh.connection = none → Ns_OracleResetHandle env fuel w = .done (.NS_OK, w)) ∧
    (∀ c, w.dbh.connection = some c → c.mode = .autocommit →
      Ns_OracleResetHandle env fuel w = .done (.NS_OK, w)) ∧
    (∀ c, w.dbh.connection = some c → c.mode = .transaction →
      succeeded (env.engine w.trace.length .OCITransRollback).status →
      Ns_OracleResetHandle env fuel w
        = .done (.NS_OK,
            { with_mode w c .autocommit with trace := w.trace ++ [.OCITransRollback] })) ∧
    (∀ c, w.dbh.connection = some c → c.mode = .transaction →
      ¬ succeeded (env.engine w.trace.length .OCITransRollback).status →
      (∀ r w1, Ns_OracleResetHandle env fuel w = .done (r, w1) →
        r = .NS_ERROR ∧ mode_is .transaction w1) ∧
      ((env.engine w.trace.length .OCITransRollback).status ≠ .OCI_ERROR →
        Ns_OracleResetHandle env fuel w
          = .done (.NS_ERROR,
              { w with
                trace := w.trace ++ [.OCITransRollback],
                dbh := { w.dbh with
                  cExceptionCode := toString (0 : Int),
                  dsExceptionMsg := error_text "OCITransRollback"
                    (env.engine w.trace.length .OCITransRollback).status } })) ∧
      ((env.engine w.trace.length .OCITransRollback).status = .OCI_ERROR →
        (env.engine (w.trace.length + 1) .OCIErrorGet).value ∉ oci_fatal_codes →
        (env.engine (w.trace.length + 1) .OCIErrorGet).value ≠ 20 →
        (env.engine (w.trace.length + 1) .OCIErrorGet).value ≠ 1034 →
        Ns_OracleResetHandle env fuel w
          = .done (.NS_ERROR,
              { w with
                trace := w.trace ++ [.OCITransRollback, .OCIErrorGet,
                  .OCIAttrGet .OCI_ATTR_PARSE_ERROR_OFFSET],
                dbh := { w.dbh with
                  cExceptionCode := toString (env.engine (w.trace.length + 1) .OCIErrorGet).value,
                  dsExceptionMsg := error_text "OCITransRollback" .OCI_ERROR } }))) := by
  refine ⟨fun hc => ?_, fun c hc hm => ?_, fun c hc hm hs => ?_, fun c hc hm hs => ⟨?_, ?_, ?_⟩⟩
  · unfold Ns_OracleResetHandle
    rw [get_world_bind]
    simp only [hc]
    rfl
  · unfold Ns_OracleResetHandle
    rw [get_world_bind]
    simp only [hc, hm, reduceCtorEq, if_false]
    rfl
  · unfold Ns_OracleResetHandle
    rw [get_world_bind]
    simp only [hc, hm, if_true]
    simp only [bind_apply, oci, oci_error_p_success env fuel true _ _ hs, Bool.false_eq_true,
      if_false, set_connection, hc, if_true, pure_apply, with_mode]
  · intro r w1 h
    unfold Ns_OracleResetHandle at h
    rw [get_world_bind] at h
    simp only [hc, hm, if_true] at h
    rw [bind_apply] at h
    simp only [oci] at h
    rw [bind_apply] at h
    have hmode : mode_is .transaction
        { w with trace := w.trace ++ [NativeCall.OCITransRollback] } := by
      intro c1 h1
      rw [hc] at h1
      cases h1
      exact hm
    cases he : oci_error_p env fuel true "OCITransRollback"
        (env.engine w.trace.length .OCITransRollback).status
        { w with trace := w.trace ++ [NativeCall.OCITransRollback] } with
    | done p =>
      obtain ⟨b, w2⟩ := p
      rw [he] at h
      have hb := oci_error_p_failure env fuel true "OCITransRollback" _ (not_succeeded hs)
        _ trivial b w2 he
      subst hb
      simp only [if_true] at h
      cases h
      exact ⟨rfl, recovery_oci_error_p (mode_recovery .transaction) env fuel true _ _ _ hmode
        _ _ he⟩
    | fault => rw [he] at h; cases h
    | timeout => rw [he] at h; cases h
  · intro hne
    obtain ⟨h1, h2⟩ := not_succeeded hs
    unfold Ns_OracleResetHandle
    rw [get_world_bind]
    simp only [hc, hm, if_true]
    rw [bind_apply]
    simp only [oci]
    rw [bind_apply, (classifiers_other_status env fuel "OCITransRollback" _ h1 h2 hne _).1]
    simp only [if_true, pure_apply, hc]
  · intro he h1 h2 h3
    unfold Ns_OracleResetHandle
    rw [get_world_bind]
    simp only [hc, hm, if_true]
    rw [bind_apply]
    simp only [oci]
    rw [bind_apply, he, oci_error_p_plain env fuel "OCITransRollback"
      { w with trace := w.trace ++ [.OCITransRollback] } c hc
      (by simpa using h1) (by simpa using h2) (by simpa using h3)]
    simp [pure_apply, hc]

/-- C12, where the claim fails: with an engine that fails the rollback with
ORA-00600, the reset of a connection in explicit-transaction mode returns
`NS_ERROR` and leaves the connection in explicit-transaction mode. -/
theorem reset_handle_counterexample :
    Ns_OracleResetHandle failing_rollback_env 1 transaction_world
      = .done (.NS_ERROR,
          { transaction_world with
            trace := [.OCITransRollback, .OCIErrorGet,
              .OCIAttrGet .OCI_ATTR_PARSE_ERROR_OFFSET],
            dbh := { transaction_world.dbh with
              cExceptionCode := "600",
              dsExceptionMsg := "error in `OCITransRollback ()': OCI_ERROR" } }) ∧
    transaction_world.dbh.connection
      = some { example_connection with mode := .transaction } := by
  decide!

/-- C12, at `transaction_world` with an engine whose calls succeed: one
rollback, and the mode is autocommit afterwards. -/
theorem reset_handle_witness :
    transaction_world.dbh.connection = some { example_connection with mode := .transaction } ∧
    succeeded ((example_env 0).engine transaction_world.trace.length .OCITransRollback).status ∧
    Ns_OracleResetHandle (example_env 0) 0 transaction_world
      = .done (.NS_OK,
          { with_mode transaction_world { example_connection with mode := .transaction }
              .autocommit with
            trace := transaction_world.trace ++ [.OCITransRollback] }) :=
  ⟨rfl, Or.inl rfl,
    (reset_handle (example_env 0) 0 transaction_world).2.2.1
      { example_connection with mode := .transaction } rfl rfl (Or.inl rfl)⟩


/-! ## The built-in statements use no statement handle -/

theorem no_statement_call {k : List NativeCall} {w : World} (c : NativeCall)
    (hc : is_statement_call c = false) (h : no_statement k w) :
    no_statement k { w with trace := w.trace ++ [c] } := by
  refine ⟨h.1, ?_⟩
  have := h.2
  unfold calls_are at *
  simp only [List.filter_append, List.filter_cons, List.filter_nil, hc]
  simpa using this

theorem no_statement_conn {k : List NativeCall} {w : World} {c : ora_connection_t}
    (c1 : ora_connection_t) (hc : w.dbh.connection = some c)
    (hs : c1.stmt = true → c.stmt = true) (h : no_statement k w) :
    no_statement k { w with dbh := { w.dbh with connection := some c1 } } := by
  refine ⟨fun c2 h2 => ?_, h.2⟩
  simp only [Option.some.injEq] at h2
  subst h2
  cases hs1 : c1.stmt with
  | false => rfl
  | true => have := h.1 c hc; rw [hs hs1] at this; cases this

theorem no_statement_other {k : List NativeCall} {w w1 : World} (ht : w1.trace = w.trace)
    (hc : w1.dbh.connection = w.dbh.connection) (h : no_statement k w) :
    no_statement k w1 := by
  refine ⟨fun c hc1 => h.1 c (by rw [← hc]; exact hc1), ?_⟩
  have := h.2
  unfold calls_are at *
  rw [ht]
  exact this

theorem recovery_no_statement (k : List NativeCall) : RecoveryInv (no_statement k) where
  call := fun w c h hc => no_statement_call c (by cases c <;> first | rfl | cases hc) h
  conn := fun w c c1 h hc hr => no_statement_conn c1 hc hr.2.2.1 h
  close := fun w h => ⟨fun c hc => (by cases hc), h.2⟩
  exception := fun w code msg h => no_statement_other rfl rfl h

theorem triple_builtin_end {k : List NativeCall} (env : Env) (fuel : Nat) (cid : Nat)
    (call : NativeCall) (hcall : is_statement_call call = false) (ocifn : String) :
    Triple (no_statement k)
      (do
        let r ← oci env call
        if (← oci_error_p env fuel true ocifn r.status) then do
          let _ ← Ns_OracleFlush env fuel
          pure Ns_ReturnCode.NS_ERROR
        else do
          set_connection cid (fun c => { c with mode := .autocommit })
          pure Ns_ReturnCode.NS_DML)
      (fun r w => (r = .NS_DML ∨ r = .NS_ERROR) ∧ no_statement k w) := by
  have hI := recovery_no_statement k
  refine triple_bind (Q := fun _ => no_statement k)
    (triple_oci (fun w hw => no_statement_call call hcall hw)) (fun r => ?_)
  refine triple_bind (recovery_oci_error_p hI env fuel _ _ _) (fun b => ?_)
  refine triple_ite (fun _ => ?_) (fun _ => ?_)
  · exact triple_bind (recovery_Ns_OracleFlush hI env fuel)
      (fun _ => triple_pure (fun w hw => ⟨Or.inr rfl, hw⟩))
  · refine triple_bind (Q := fun _ => no_statement k)
      (triple_set_connection (fun w c hw hc _ => no_statement_conn _ hc (fun h => h) hw))
      (fun _ => triple_pure (fun w hw => ⟨Or.inl rfl, hw⟩))

/-- On a built-in statement `handle_builtins` returns `NS_DML` or `NS_ERROR`,
and it allocates no statement handle and prepares and executes nothing. -/
theorem triple_builtin_statement (k : List NativeCall) (env : Env) (fuel : Nat)
    (sql : List Char) (hb : is_builtin sql) :
    Triple (no_statement k) (handle_builtins env fuel sql)
      (fun r w => (r = .NS_DML ∨ r = .NS_ERROR) ∧ no_statement k w) := by
  unfold handle_builtins
  refine triple_bind preserves_get_world (fun w => ?_)
  refine triple_ite (fun h1 => ?_) (fun h1 => triple_ite (fun h2 => ?_)
    (fun h2 => triple_ite (fun h3 => ?_) (fun h3 => ?_)))
  · split
    · exact triple_fault
    · exact triple_bind (Q := fun _ => no_statement k)
        (triple_set_connection (fun w c hw hc _ => no_statement_conn _ hc (fun h => h) hw))
        (fun _ => triple_pure (fun w hw => ⟨Or.inl rfl, hw⟩))
  · split
    · exact triple_fault
    · exact triple_builtin_end env fuel _ .OCITransCommit rfl _
  · split
    · exact triple_fault
    · exact triple_builtin_end env fuel _ .OCITransRollback rfl _
  · rcases hb with h | h | h
    · exact absurd h h1
    · exact absurd h h2
    · exact absurd h h3

theorem triple_false_pre {α : Type} {P : World → Prop} {Q : α → World → Prop} {m : M α}
    (h : ∀ w, ¬ P w) : Triple P m Q :=
  fun w hw => absurd hw (h w)

theorem triple_Ns_OracleExec_builtin (k : List NativeCall) (env : Env) (fuel : Nat)
    (sql : List Char) (hb : is_builtin sql) :
    Triple (no_statement k) (Ns_OracleExec env fuel sql)
      (fun r w => (r = .NS_DML ∨ r = .NS_ERROR) ∧ no_statement k w) := by
  unfold Ns_OracleExec
  refine triple_bind preserves_get_world (fun w0 => ?_)
  split
  · exact triple_pure (fun w hw => ⟨Or.inr rfl, hw⟩)
  · refine triple_bind (recovery_Ns_OracleFlush (recovery_no_statement k) env fuel) (fun _ => ?_)
    refine triple_bind (triple_builtin_statement k env fuel sql hb) (fun code => ?_)
    cases code
    · exact triple_false_pre (fun w h => by rcases h.1 with e | e <;> cases e)
    · exact triple_pure (fun w hw => ⟨Or.inr rfl, hw.2⟩)
    · exact triple_pure (fun w hw => ⟨Or.inl rfl, hw.2⟩)
    · exact triple_pure (fun w hw => ⟨Or.inr rfl, hw.2⟩)
    · exact triple_pure (fun w hw => ⟨Or.inr rfl, hw.2⟩)

theorem triple_no_statement_modify {k : List NativeCall} {f : World → World}
    (ht : ∀ w, (f w).trace = w.trace) (hc : ∀ w, (f w).dbh.connection = w.dbh.connection) :
    Preserves (no_statement k) (modify_world f) :=
  triple_modify_world (fun w hw => no_statement_other (ht w) (hc w) hw)

theorem triple_no_statement_fail {k : List NativeCall} (m : M Unit)
    (h : Preserves (no_statement k) m) :
    Triple (no_statement k) (do m; pure SelectResult.TCL_ERROR)
      (fun r w => (r = .TCL_OK ∨ r = .TCL_ERROR) ∧ no_statement k w) :=
  triple_bind h (fun _ => triple_pure (fun _ hw => ⟨Or.inr rfl, hw⟩))

theorem triple_OracleSelect_builtin (k : List NativeCall) (env : Env) (fuel : Nat)
    (objv : List (List Char)) (hb : is_builtin (select_query objv)) :
    Triple (no_statement k) (OracleSelect env fuel objv)
      (fun r w => (r = .TCL_OK ∨ r = .TCL_ERROR) ∧ no_statement k w) := by
  unfold OracleSelect
  refine triple_ite (fun _ => triple_no_statement_fail _
    (triple_no_statement_modify (fun _ => rfl) (fun _ => rfl))) (fun _ => ?_)
  refine triple_bind preserves_get_world (fun w0 => ?_)
  split
  · exact triple_no_statement_fail _ (triple_no_statement_modify (fun _ => rfl) (fun _ => rfl))
  · refine triple_bind (Q := fun _ => no_statement k)
      (triple_set_connection (fun w c hw hc _ => no_statement_conn _ hc (fun h => h) hw))
      (fun _ => ?_)
    refine triple_ite (fun _ => triple_no_statement_fail _
      (triple_no_statement_modify (fun _ => rfl) (fun _ => rfl))) (fun _ => ?_)
    refine triple_bind (Q := fun _ => no_statement k) ?_ (fun b => ?_)
    · unfold allow_sql_p
      refine triple_ite (fun _ => triple_ite (fun _ => ?_) (fun _ => triple_pure (fun _ h => h)))
        (fun _ => triple_pure (fun _ h => h))
      exact triple_bind (recovery_Ns_DbSetException (recovery_no_statement k) _ _)
        (fun _ => triple_pure (fun _ h => h))
    refine triple_ite (fun _ => triple_no_statement_fail _
      (triple_no_statement_modify (fun _ => rfl) (fun _ => rfl))) (fun _ => ?_)
    refine triple_bind (triple_builtin_statement k env fuel _ hb) (fun code => ?_)
    cases code
    · exact triple_false_pre (fun w h => by rcases h.1 with e | e <;> cases e)
    · exact triple_bind (Q := fun _ => no_statement k)
        (triple_weaken (triple_no_statement_modify (fun _ => rfl) (fun _ => rfl))
          (fun _ h => h.2) (fun _ _ h => h))
        (fun _ => triple_pure (fun _ hw => ⟨Or.inr rfl, hw⟩))
    · exact triple_pure (fun w hw => ⟨Or.inl rfl, hw.2⟩)
    · exact triple_false_pre (fun w h => by rcases h.1 with e | e <;> cases e)
    · exact triple_false_pre (fun w h => by rcases h.1 with e | e <;> cases e)

/-- With an engine whose calls succeed, `handle_builtins` returns `NS_DML` on
a built-in statement. -/
theorem total_builtin_statement (env : Env) (hs : engine_succeeds env) (fuel cid : Nat)
    (sql : List Char) (hb : is_builtin sql) :
    Total (open_at cid) (handle_builtins env fuel sql) (fun r _ => r = .NS_DML) := by
  intro w hw
  obtain ⟨c, hc, _⟩ := hw
  have hok : ∀ t call, succeeded (env.engine t call).status := fun t call => Or.inl (hs t call)
  unfold handle_builtins
  rw [get_world_bind]
  simp only [hc]
  by_cases h1 : strcasecmp_eq sql "begin transaction".toList = true
  · rw [if_pos h1]
    exact ⟨_, _, (by simp only [bind_apply, set_connection, hc, if_true, pure_apply]; rfl), rfl⟩
  · rw [if_neg h1]
    by_cases h2 : strcasecmp_eq sql "end transaction".toList = true
    · rw [if_pos h2]
      exact ⟨_, _, (by
        simp only [bind_apply, oci, oci_error_p_success env fuel true _ _ (hok _ _),
          Bool.false_eq_true, if_false, set_connection, hc, if_true, pure_apply]
        rfl), rfl⟩
    · rw [if_neg h2]
      have h3 : strcasecmp_eq sql "abort transaction".toList = true := by
        rcases hb with h | h | h
        · exact absurd h h1
        · exact absurd h h2
        · exact h
      rw [if_pos h3]
      exact ⟨_, _, (by
        simp only [bind_apply, oci, oci_error_p_success env fuel true _ _ (hok _ _),
          Bool.false_eq_true, if_false, set_connection, hc, if_true, pure_apply]
        rfl), rfl⟩

theorem total_Ns_OracleExec_builtin (env : Env) (hs : engine_succeeds env) (fuel cid : Nat)
    (sql : List Char) (hb : is_builtin sql) :
    Total (settled cid) (Ns_OracleExec env fuel sql) (fun r _ => r = .NS_DML) := by
  intro w hw
  obtain ⟨c, hc, hid, hl⟩ := hw
  unfold Ns_OracleExec
  rw [get_world_bind]
  simp only [hc]
  refine total_bind (total_flush_ok env (engine_succeeds_calls hs _) fuel cid) (fun _ => ?_)
    w ⟨c, hc, hid, hl⟩
  refine total_bind (total_weaken (total_builtin_statement env hs fuel cid sql hb)
    (fun _ h => settled_open_at h.2.1) (fun _ _ h => h)) (fun code => ?_)
  intro w1 h1
  subst h1
  exact ⟨_, _, rfl, rfl⟩

theorem allow_sql_p_pass (env : Env) (h : env.FOR_CASSANDRACLE = false) (sql : List Char)
    (w : World) : allow_sql_p env sql w = .done (true, w) := by
  unfold allow_sql_p
  simp only [h, Bool.false_eq_true, if_false]
  rfl

theorem total_OracleSelect_builtin (env : Env) (hs : engine_succeeds env) (fuel : Nat)
    (objv : List (List Char)) (hb : is_builtin (select_query objv))
    (hargs : ¬ (objv.length < 4 ∨
      (strcmp_eq (objv.getD 3 []) "-bind".toList = true ∧ objv.length < 6)))
    (hcass : env.FOR_CASSANDRACLE = false) (w : World) (hc : w.dbh.connection ≠ none)
    (hset : ¬ (((select_args objv).set.bind (fun set => w.sets.lookup set)).isNone = true ∧
      (select_args objv).set.isSome = true)) :
    ∃ w1, OracleSelect env fuel objv w = .done (.TCL_OK, w1) := by
  cases hc0 : w.dbh.connection with
  | none => exact absurd hc0 hc
  | some c =>
    unfold OracleSelect
    rw [if_neg hargs, get_world_bind]
    simp only [hc0]
    rw [bind_apply, set_connection_apply c.id _ w c hc0 rfl]
    simp only
    rw [if_neg hset, bind_apply, allow_sql_p_pass env hcass]
    simp only [Bool.not_true, Bool.false_eq_true, if_false]
    obtain ⟨r, w1, h1, h2⟩ := total_builtin_statement env hs fuel c.id _ hb
      { w with dbh := { w.dbh with connection := some { c with interp := true } } }
      ⟨_, rfl, rfl⟩
    subst h2
    rw [bind_apply, h1]
    exact ⟨w1, rfl⟩

/-- C11: on each of the three built-in statements, a call of `Ns_OracleExec`
that returns returns `NS_DML` or `NS_ERROR`, and a call of `OracleSelect` that
returns returns `TCL_OK` or `TCL_ERROR`; neither has allocated a statement
handle or issued a prepare or an execute, and the statement handle of the
connection, which was null, is null afterwards.  And with an engine whose
calls succeed the calls do return their handled result: `Ns_OracleExec`
returns `NS_DML` on a connection whose array of descriptors is as long as
`n_columns` says, and `OracleSelect` returns `TCL_OK` on a well-formed command
that is let through. -/
theorem builtins_use_no_statement (env : Env) (fuel : Nat) (w : World) (hw : stmt_null w) :
    (∀ sql, is_builtin sql →
      (∀ r w1, Ns_OracleExec env fuel sql w = .done (r, w1) →
        (r = .NS_DML ∨ r = .NS_ERROR) ∧
        w1.trace.filter is_statement_call = w.trace.filter is_statement_call ∧
        stmt_null w1) ∧
      (engine_succeeds env → w.dbh.connection ≠ none →
        (∀ c fbs, w.dbh.connection = some c → c.fetch_buffers = some fbs →
          fbs.length = c.n_columns) →
        ∃ w1, Ns_OracleExec env fuel sql w = .done (.NS_DML, w1) ∧
          w1.trace.filter is_statement_call = w.trace.filter is_statement_call ∧
          stmt_null w1)) ∧
    (∀ objv, is_builtin (select_query objv) →
      (∀ r w1, OracleSelect env fuel objv w = .done (r, w1) →
        (r = .TCL_OK ∨ r = .TCL_ERROR) ∧
        w1.trace.filter is_statement_call = w.trace.filter is_statement_call ∧
        stmt_null w1) ∧
      (engine_succeeds env → w.dbh.connection ≠ none →
        ¬ (objv.length < 4 ∨
          (strcmp_eq (objv.getD 3 []) "-bind".toList = true ∧ objv.length < 6)) →
        ¬ (((select_args objv).set.bind (fun set => w.sets.lookup set)).isNone = true ∧
          (select_args objv).set.isSome = true) →
        env.FOR_CASSANDRACLE = false →
        ∃ w1, OracleSelect env fuel objv w = .done (.TCL_OK, w1) ∧
          w1.trace.filter is_statement_call = w.trace.filter is_statement_call ∧
          stmt_null w1)) := by
  have h0 : no_statement (w.trace.filter is_statement_call) w := ⟨hw, rfl⟩
  refine ⟨fun sql hb => ?_, fun objv hb => ?_⟩
  · have hp : ∀ r w1, Ns_OracleExec env fuel sql w = .done (r, w1) →
        (r = .NS_DML ∨ r = .NS_ERROR) ∧
        w1.trace.filter is_statement_call = w.trace.filter is_statement_call ∧
        stmt_null w1 := fun r w1 h => by
      obtain ⟨h1, h2, h3⟩ := triple_Ns_OracleExec_builtin _ env fuel sql hb w h0 r w1 h
      exact ⟨h1, h3, h2⟩
    refine ⟨hp, fun hs hc hl => ?_⟩
    cases hc0 : w.dbh.connection with
    | none => exact absurd hc0 hc
    | some c =>
      obtain ⟨r, w1, h1, h2⟩ := total_Ns_OracleExec_builtin env hs fuel c.id sql hb w
        ⟨c, hc0, rfl, fun fbs hf => hl c fbs hc0 hf⟩
      subst h2
      exact ⟨w1, h1, (hp _ w1 h1).2⟩
  · have hp : ∀ r w1, OracleSelect env fuel objv w = .done (r, w1) →
        (r = .TCL_OK ∨ r = .TCL_ERROR) ∧
        w1.trace.filter is_statement_call = w.trace.filter is_statement_call ∧
        stmt_null w1 := fun r w1 h => by
      obtain ⟨h1, h2, h3⟩ := triple_OracleSelect_builtin _ env fuel objv hb w h0 r w1 h
      exact ⟨h1, h3, h2⟩
    refine ⟨hp, fun hs hc hargs hset hcass => ?_⟩
    obtain ⟨w1, h1⟩ := total_OracleSelect_builtin env hs fuel objv hb hargs hcass w hc hset
    exact ⟨w1, h1, (hp _ w1 h1).2⟩

/-- C11, at `example_world` with an engine whose calls succeed: `end
transaction` through `Ns_OracleExec` and through `OracleSelect` returns the
handled result, with no statement call and no statement handle. -/
theorem builtins_use_no_statement_witness :
    stmt_null example_world ∧ is_builtin "end transaction".toList ∧
    is_builtin (select_query builtin_command) ∧ engine_succeeds (example_env 0) ∧
    (∃ w1, Ns_OracleExec (example_env 0) 0 "end transaction".toList example_world
        = .done (.NS_DML, w1) ∧
      w1.trace.filter is_statement_call = example_world.trace.filter is_statement_call ∧
      stmt_null w1) ∧
    (∃ w1, OracleSelect (example_env 0) 0 builtin_command example_world
        = .done (.TCL_OK, w1) ∧
      w1.trace.filter is_statement_call = example_world.trace.filter is_statement_call ∧
      stmt_null w1) :=
  have hw : stmt_null example_world := fun c hc => by cases hc; rfl
  have hb : is_builtin "end transaction".toList := Or.inr (Or.inl (by decide))
  have hb2 : is_builtin (select_query builtin_command) := Or.inr (Or.inl (by decide))
  have h := builtins_use_no_statement (example_env 0) 0 example_world hw
  ⟨hw, hb, hb2, example_env_succeeds 0,
    (h.1 _ hb).2 (example_env_succeeds 0) (by decide) (fun c fbs hc hf => by cases hc; cases hf),
    (h.2 _ hb2).2 (example_env_succeeds 0) (by decide) (by decide) (by decide) rfl⟩

/-! ## A statement of the wrong kind -/

theorem triple_conj {α : Type} {P S : World → Prop} {Q T : α → World → Prop} {m : M α}
    (h1 : Triple P m Q) (h2 : Triple S m T) :
    Triple (fun w => P w ∧ S w) m (fun a w => Q a w ∧ T a w) :=
  fun w hw a w1 hm => ⟨h1 w hw.1 a w1 hm, h2 w hw.2 a w1 hm⟩

/-- With release calls that succeed, a call of `Ns_OracleFlush` that returns
leaves a connection with no statement handle and no array of descriptors. -/
theorem triple_flush_succeeds (env : Env) (hs : calls_succeed env is_recovery_call)
    (fuel : Nat) :
    Triple (fun _ => True) (Ns_OracleFlush env fuel) (fun _ w => flushed w) := by
  have hcode : Triple (fun _ => True) (Ns_OracleFlush env fuel) (fun r _ => r = .NS_OK) := by
    unfold Ns_OracleFlush Ns_OracleFlush_with
    refine triple_bind (Q := fun _ _ => True) (fun _ _ _ _ _ => trivial) (fun w0 => ?_)
    split
    · exact triple_pure (fun _ _ => rfl)
    · refine triple_bind (Q := fun freed _ => freed = true) ?_ (fun freed => ?_)
      · refine triple_ite (fun _ => ?_) (fun _ => triple_pure (fun _ _ => rfl))
        refine triple_bind (Q := fun r _ => r.status = .OCI_SUCCESS)
          (triple_oci (fun _ _ => hs _ (.OCIHandleFree .OCI_HTYPE_STMT) rfl)) (fun r => ?_)
        refine triple_bind (Q := fun b _ => b = false) ?_ (fun b => ?_)
        · intro w hw b w1 h
          rw [oci_error_p_success env fuel true _ _ (Or.inl hw)] at h
          cases h
          rfl
        · refine triple_ite (fun hb => triple_false_pre (fun w h => ?_)) (fun _ => ?_)
          · rw [h] at hb; cases hb
          · exact triple_bind (Q := fun _ _ => True) (fun _ _ _ _ _ => trivial)
              (fun _ => triple_pure (fun _ _ => rfl))
      · refine triple_ite (fun _ => ?_) (fun hf => triple_false_pre (fun w h => hf h))
        refine triple_bind (Q := fun _ _ => True) (fun _ _ _ _ _ => trivial) (fun _ => ?_)
        refine triple_bind (Q := fun _ _ => True) (fun _ _ _ _ _ => trivial) (fun c => ?_)
        split
        · exact triple_pure (fun _ _ => rfl)
        · refine triple_bind (Q := fun _ _ => True) (fun _ _ _ _ _ => trivial) (fun _ => ?_)
          exact triple_bind (Q := fun _ _ => True) (fun _ _ _ _ _ => trivial)
            (fun _ => triple_pure (fun _ _ => rfl))
  exact triple_weaken (triple_conj hcode (triple_flush_flushed env fuel))
    (fun _ _ => ⟨trivial, trivial⟩) (fun _ _ h => h.2 h.1)

theorem lifecycle_not_bind_or_execute (c : NativeCall) (h : is_lifecycle_call c = true) :
    is_bind_or_execute c = false := by
  cases c <;> first | rfl | cases h

theorem lifecycle_binds (k : List NativeCall) :
    LifecycleInv (calls_are is_bind_or_execute k) :=
  lifecycle_calls_are _ k lifecycle_not_bind_or_execute

theorem calls_are_call {p : NativeCall → Bool} {k : List NativeCall} {w : World}
    (c : NativeCall) (hc : p c = false) (h : calls_are p k w) :
    calls_are p k { w with trace := w.trace ++ [c] } := by
  unfold calls_are at *
  simp only [List.filter_append, List.filter_cons, List.filter_nil, hc]
  simpa using h

/-- The error exits of `OracleSelect`: the flush and the error code. -/
theorem triple_exit {I : World → Prop} (hI : LifecycleInv I) (env : Env) (fuel : Nat)
    (r : SelectResult) (hr : r = .TCL_ERROR ∨ r = .NS_ERROR) :
    Triple I (do let _ ← Ns_OracleFlush env fuel; pure r : M SelectResult)
      (fun res w => (res = .TCL_ERROR ∨ res = .NS_ERROR) ∧ I w ∧
        (calls_succeed env is_recovery_call → flushed w)) := by
  refine triple_bind (Q := fun _ w => I w ∧ (calls_succeed env is_recovery_call → flushed w))
    ?_ (fun _ => triple_pure (fun _ h => ⟨hr, h⟩))
  intro w hw a w1 h
  exact ⟨lifecycle_Ns_OracleFlush hI env fuel w hw a w1 h,
    fun hs => triple_flush_succeeds env hs fuel w trivial a w1 h⟩

/-- A call of `select_statement` on a statement of the wrong kind that returns
returns an error, and it has made no bind and no execute. -/
theorem triple_select_mismatch (k : List NativeCall) (env : Env) (fuel : Nat)
    (a : SelectArgs) (hmis : kind_mismatch env a) (cid : Nat) (query : List Char) :
    Triple (calls_are is_bind_or_execute k) (select_statement env fuel a cid query)
      (fun r w => (r = .TCL_ERROR ∨ r = .NS_ERROR) ∧ calls_are is_bind_or_execute k w ∧
        (calls_succeed env is_recovery_call → flushed w)) := by
  have hI := lifecycle_binds k
  have hset : ∀ (f : ora_connection_t → ora_connection_t),
      Preserves (calls_are is_bind_or_execute k) (set_connection cid f) :=
    fun f => lifecycle_set_connection hI cid f
  have hres : Preserves (calls_are is_bind_or_execute k) Tcl_SetResult_exception :=
    lifecycle_modify hI _ (fun _ => rfl)
  unfold select_statement
  refine triple_bind (Q := fun _ => calls_are is_bind_or_execute k)
    (triple_oci (fun w hw => calls_are_call _ rfl hw)) (fun r => ?_)
  refine triple_bind (preserves_when (hset _)) (fun _ => ?_)
  refine triple_bind (lifecycle_tcl_error_p hI env fuel _ _) (fun b => ?_)
  refine triple_ite (fun _ => triple_exit hI env fuel _ (Or.inl rfl)) (fun _ => ?_)
  refine triple_bind (Q := fun _ => calls_are is_bind_or_execute k)
    (triple_oci (fun w hw => calls_are_call _ rfl hw)) (fun r => ?_)
  refine triple_bind (lifecycle_tcl_error_p hI env fuel _ _) (fun b => ?_)
  refine triple_ite (fun _ => triple_exit hI env fuel _ (Or.inl rfl)) (fun _ => ?_)
  refine triple_bind (Q := fun rep w => calls_are is_bind_or_execute k w ∧
    ∃ t, rep = env.engine t (.OCIAttrGet .OCI_ATTR_STMT_TYPE))
    (triple_oci (fun w hw => ⟨calls_are_call _ rfl hw, ⟨_, rfl⟩⟩)) (fun rep => ?_)
  refine triple_assume (fun hrep => ?_)
  refine triple_bind (lifecycle_oci_error_p hI env fuel _ _ _) (fun b => ?_)
  refine triple_ite (fun _ => triple_bind hres
    (fun _ => triple_exit hI env fuel _ (Or.inr rfl))) (fun _ => ?_)
  refine triple_bind (Q := fun _ w => calls_are is_bind_or_execute k w) ?_ (fun attrs_ok => ?_)
  · refine preserves_ite ?_ (preserves_pure _)
    refine preserves_bind ?_ (fun rows_ok => ?_)
    · refine preserves_ite ?_ (preserves_pure _)
      refine preserves_bind (triple_oci (fun w hw => calls_are_call _ rfl hw)) (fun r => ?_)
      exact preserves_bind (lifecycle_oci_error_p hI env fuel _ _ _)
        (fun b => preserves_ite (preserves_pure _) (preserves_pure _))
    · refine preserves_ite (preserves_ite ?_ (preserves_pure _)) (preserves_pure _)
      refine preserves_bind (triple_oci (fun w hw => calls_are_call _ rfl hw)) (fun r => ?_)
      exact preserves_bind (lifecycle_oci_error_p hI env fuel _ _ _)
        (fun b => preserves_ite (preserves_pure _) (preserves_pure _))
  refine triple_ite (fun _ => triple_bind hres
    (fun _ => triple_exit hI env fuel _ (Or.inr rfl))) (fun _ => ?_)
  have hexc : ∀ code msg, Preserves (calls_are is_bind_or_execute k)
      (Ns_DbSetException code msg) := fun code msg => lifecycle_modify hI _ (fun _ => rfl)
  refine triple_ite (fun _ => triple_bind (hexc _ _)
    (fun _ => triple_bind hres (fun _ => triple_exit hI env fuel _ (Or.inl rfl))))
    (fun hm1 => ?_)
  refine triple_ite (fun _ => triple_bind (hexc _ _)
    (fun _ => triple_bind hres (fun _ => triple_exit hI env fuel _ (Or.inl rfl))))
    (fun hm2 => ?_)
  exfalso
  obtain ⟨t, ht⟩ := hrep
  rcases hmis with ⟨h1, h2⟩ | ⟨h1, h2⟩
  · have := h1 t
    rw [← ht] at this
    exact hm1 ⟨this, by rw [h2]; rfl⟩
  · have := h1 t
    rw [← ht] at this
    exact hm2 ⟨this, h2⟩

theorem calls_are_other {p : NativeCall → Bool} {k : List NativeCall} {w w1 : World}
    (ht : w1.trace = w.trace) (h : calls_are p k w) : calls_are p k w1 := by
  unfold calls_are at *
  rw [ht]
  exact h

/-- What `handle_builtins` keeps of the calls recorded: the calls that are of
no class that the recovery, a commit or a rollback belongs to. -/
theorem calls_are_handle_builtins (p : NativeCall → Bool) (k : List NativeCall)
    (hp : ∀ c, is_lifecycle_call c = true → p c = false)
    (hcommit : p .OCITransCommit = false) (hrollback : p .OCITransRollback = false)
    (env : Env) (fuel : Nat) (sql : List Char) :
    Triple (calls_are p k) (handle_builtins env fuel sql)
      (fun r w => calls_are p k w ∧ (r = .NS_DML → is_builtin sql)) := by
  have hI := lifecycle_calls_are p k hp
  have hend : ∀ (cid : Nat) (call : NativeCall) (ocifn : String), p call = false →
      Preserves (calls_are p k)
        (do
          let r ← oci env call
          if (← oci_error_p env fuel true ocifn r.status) then do
            let _ ← Ns_OracleFlush env fuel
            pure Ns_ReturnCode.NS_ERROR
          else do
            set_connection cid (fun c => { c with mode := .autocommit })
            pure Ns_ReturnCode.NS_DML) := by
    intro cid call ocifn hcall
    refine preserves_bind (triple_oci (fun w hw => calls_are_call call hcall hw)) (fun r => ?_)
    refine preserves_bind (lifecycle_oci_error_p hI env fuel _ _ _) (fun b => ?_)
    refine preserves_ite ?_ ?_
    · exact preserves_bind (lifecycle_Ns_OracleFlush hI env fuel) (fun _ => preserves_pure _)
    · exact preserves_bind (lifecycle_set_connection hI _ _) (fun _ => preserves_pure _)
  unfold handle_builtins
  refine triple_bind preserves_get_world (fun w => ?_)
  refine triple_ite (fun h1 => ?_) (fun h1 => triple_ite (fun h2 => ?_)
    (fun h2 => triple_ite (fun h3 => ?_) (fun h3 => ?_)))
  · split
    · exact triple_fault
    · exact triple_bind (lifecycle_set_connection hI _ _)
        (fun _ => triple_pure (fun w hw => ⟨hw, fun _ => Or.inl h1⟩))
  · split
    · exact triple_fault
    · exact triple_weaken (hend _ .OCITransCommit _ hcommit) (fun _ h => h)
        (fun _ _ h => ⟨h, fun _ => Or.inr (Or.inl h2)⟩)
  · split
    · exact triple_fault
    · exact triple_weaken (hend _ .OCITransRollback _ hrollback) (fun _ h => h)
        (fun _ _ h => ⟨h, fun _ => Or.inr (Or.inr h3)⟩)
  · refine triple_bind (Q := fun _ => calls_are p k) ?_ (fun b => ?_)
    · unfold allow_sql_p
      refine preserves_ite (preserves_ite ?_ (preserves_pure _)) (preserves_pure _)
      exact preserves_bind (lifecycle_modify hI _ (fun _ => rfl)) (fun _ => preserves_pure _)
    refine triple_ite (fun _ => triple_pure (fun w hw => ⟨hw, fun h => by cases h⟩))
      (fun _ => ?_)
    exact triple_bind (lifecycle_Ns_OracleFlush hI env fuel)
      (fun _ => triple_pure (fun w hw => ⟨hw, fun h => by cases h⟩))

/-- A call of `OracleSelect` on a statement of the wrong kind, which is no
built-in, that returns returns an error, and it has made no bind and no
execute. -/
theorem triple_OracleSelect_mismatch (k : List NativeCall) (env : Env) (fuel : Nat)
    (objv : List (List Char)) (hnb : ¬ is_builtin (select_query objv))
    (hmis : kind_mismatch env (select_args objv)) :
    Triple (calls_are is_bind_or_execute k) (OracleSelect env fuel objv)
      (fun r w => (r = .TCL_ERROR ∨ r = .NS_ERROR) ∧ calls_are is_bind_or_execute k w) := by
  have hI := lifecycle_binds k
  have hfail : ∀ (f : World → World), (∀ w, (f w).trace = w.trace) →
      Triple (calls_are is_bind_or_execute k) (do modify_world f; pure SelectResult.TCL_ERROR)
        (fun r w => (r = .TCL_ERROR ∨ r = .NS_ERROR) ∧ calls_are is_bind_or_execute k w) :=
    fun f hf => triple_bind (lifecycle_modify hI f hf)
      (fun _ => triple_pure (fun _ hw => ⟨Or.inl rfl, hw⟩))
  unfold OracleSelect
  refine triple_ite (fun _ => hfail _ (fun _ => rfl)) (fun _ => ?_)
  refine triple_bind preserves_get_world (fun w0 => ?_)
  split
  · exact hfail _ (fun _ => rfl)
  · refine triple_bind (lifecycle_set_connection hI _ _) (fun _ => ?_)
    refine triple_ite (fun _ => hfail _ (fun _ => rfl)) (fun _ => ?_)
    refine triple_bind (Q := fun _ => calls_are is_bind_or_execute k) ?_ (fun b => ?_)
    · unfold allow_sql_p
      refine preserves_ite (preserves_ite ?_ (preserves_pure _)) (preserves_pure _)
      exact preserves_bind (lifecycle_modify hI _ (fun _ => rfl)) (fun _ => preserves_pure _)
    refine triple_ite (fun _ => hfail _ (fun _ => rfl)) (fun _ => ?_)
    refine triple_bind (calls_are_handle_builtins _ k lifecycle_not_bind_or_execute rfl rfl
      env fuel _) (fun code => ?_)
    cases code
    · exact triple_weaken (triple_select_mismatch k env fuel _ hmis _ _) (fun _ h => h.1)
        (fun _ _ h => ⟨h.1, h.2.1⟩)
    · exact triple_weaken (hfail _ (fun _ => rfl)) (fun _ h => h.1) (fun _ _ h => h)
    · exact triple_false_pre (fun w h => hnb (h.2 rfl))
    · exact triple_weaken (hfail _ (fun _ => rfl)) (fun _ h => h.1) (fun _ _ h => h)
    · exact triple_weaken (hfail _ (fun _ => rfl)) (fun _ h => h.1) (fun _ _ h => h)

/-- The exit of `OracleSelect` for a statement of the wrong kind, with release
calls that succeed: the message becomes the result of the interpreter, the
statement is flushed and `TCL_ERROR` is returned. -/
theorem total_mismatch_exit (env : Env) (hs : calls_succeed env is_recovery_call)
    (fuel cid : Nat) (msg : String) :
    Total (settled cid)
      (do
        Ns_DbSetException "ORA" msg
        Tcl_SetResult_exception
        let _ ← Ns_OracleFlush env fuel
        pure SelectResult.TCL_ERROR)
      (fun r w => r = .TCL_ERROR ∧ w.result = msg ∧ flushed w) := by
  have hK : RecoveryInv (fun w : World => w.result = msg) :=
    { call := fun w c h _ => h
      conn := fun w c c1 h _ _ => h
      close := fun w h => h
      exception := fun w code m h => h }
  refine total_bind (Q := fun _ w => settled cid w ∧ w.dbh.dsExceptionMsg = msg)
    (total_modify_world (fun w hw => ⟨settled_congr rfl hw, rfl⟩)) (fun _ => ?_)
  refine total_bind (Q := fun _ w => settled cid w ∧ w.result = msg)
    (total_modify_world (fun w hw => ⟨settled_congr rfl hw.1, hw.2⟩)) (fun _ => ?_)
  refine total_bind (total_and (total_flush_ok env hs fuel cid)
    (recovery_Ns_OracleFlush hK env fuel)) (fun _ => ?_)
  exact total_pure (fun w h => ⟨rfl, h.2, h.1.2.2⟩)

theorem entry_state_settled {cid : Nat} {k : List Nat} {vars : List (List Char × List Char)}
    {sets : List (List Char × List (List Char × List Char))} {w : World}
    (h : entry_state cid k vars sets w) : settled cid w :=
  idle_settled h.1

/-- With an engine whose calls succeed, `select_statement` on a statement of
the wrong kind returns `TCL_ERROR` with the message as the result and the
statement flushed. -/
theorem total_select_mismatch (env : Env) (hs : engine_succeeds env) (fuel : Nat)
    (a : SelectArgs) (hmis : kind_mismatch env a) (cid : Nat) (query : List Char)
    (k : List Nat) (vars : List (List Char × List Char))
    (sets : List (List Char × List (List Char × List Char))) :
    Total (entry_state cid k vars sets) (select_statement env fuel a cid query)
      (fun r w => r = .TCL_ERROR ∧ w.result = mismatch_message a ∧ flushed w) := by
  have hrec := engine_succeeds_calls hs is_recovery_call
  unfold select_statement
  refine total_bind (total_entry_oci env hs cid k vars sets _ rfl) (fun r => ?_)
  refine total_assume (fun hr => ?_)
  refine total_bind (Q := fun _ => entry_state cid k vars sets)
    (total_when (fun _ => total_entry_set_connection cid k vars sets _ (fun _ => ⟨rfl, rfl⟩))
      (fun _ _ h => h)) (fun _ => ?_)
  refine total_bind (total_tcl_error_p env fuel _ _ hr) (fun b => ?_)
  refine total_if_false ?_
  refine total_bind (total_entry_oci env hs cid k vars sets _ rfl) (fun r => ?_)
  refine total_assume (fun hr => ?_)
  refine total_bind (total_tcl_error_p env fuel _ _ hr) (fun b => ?_)
  refine total_if_false ?_
  refine total_bind (Q := fun rep w => entry_state cid k vars sets w ∧
    (rep.status = .OCI_SUCCESS ∧ ∃ t, rep = env.engine t (.OCIAttrGet .OCI_ATTR_STMT_TYPE)))
    ?_ (fun rep => ?_)
  · intro w hw
    obtain ⟨r1, w1, h1, hq, hst⟩ := total_entry_oci env hs cid k vars sets
      (.OCIAttrGet .OCI_ATTR_STMT_TYPE) rfl w hw
    refine ⟨r1, w1, h1, hq, hst, w.trace.length, ?_⟩
    cases h1
    rfl
  refine total_assume (fun hrep => ?_)
  refine total_bind (total_oci_error_p env fuel true _ _ hrep.1) (fun b => ?_)
  refine total_if_false ?_
  refine total_bind (Q := fun ok w => entry_state cid k vars sets w ∧ ok = true) ?_
    (fun attrs_ok => ?_)
  · refine total_ite (fun _ => ?_) (fun _ => total_pure (fun _ h => ⟨h, rfl⟩))
    refine total_bind (Q := fun ok w => entry_state cid k vars sets w ∧ ok = true) ?_
      (fun rows_ok => ?_)
    · exact total_ite (fun _ => total_entry_attr_set env hs fuel cid k vars sets
          (.OCIAttrSet .OCI_ATTR_PREFETCH_ROWS) rfl _)
        (fun _ => total_pure (fun _ h => ⟨h, rfl⟩))
    · refine total_if_true ?_
      exact total_ite (fun _ => total_entry_attr_set env hs fuel cid k vars sets
          (.OCIAttrSet .OCI_ATTR_PREFETCH_MEMORY) rfl _)
        (fun _ => total_pure (fun _ h => ⟨h, rfl⟩))
  refine total_if_not_true ?_
  obtain ⟨hst, t, ht⟩ := hrep
  have hmsg1 : rep.value ≠ OCI_STMT_SELECT ∧ (!a.dml_p) = true →
      "Query was not a statement returning rows." = mismatch_message a := by
    intro h
    unfold mismatch_message
    have : a.dml_p = false := by simpa using h.2
    rw [this]
    rfl
  refine total_ite (fun hm1 => ?_) (fun hm1 => total_ite (fun hm2 => ?_) (fun hm2 => ?_))
  · exact total_weaken (total_mismatch_exit env hrec fuel cid _)
      (fun _ h => entry_state_settled h) (fun _ _ h => ⟨h.1, by rw [← hmsg1 hm1]; exact h.2.1, h.2.2⟩)
  · refine total_weaken (total_mismatch_exit env hrec fuel cid _)
      (fun _ h => entry_state_settled h) (fun _ _ h => ⟨h.1, ?_, h.2.2⟩)
    rw [h.2.1]
    unfold mismatch_message
    rw [hm2.2]
    rfl
  · exfalso
    rcases hmis with ⟨h1, h2⟩ | ⟨h1, h2⟩
    · have := h1 t
      rw [← ht] at this
      exact hm1 ⟨this, by rw [h2]; rfl⟩
    · have := h1 t
      rw [← ht] at this
      exact hm2 ⟨this, h2⟩

theorem handle_builtins_pass (env : Env) (fuel : Nat) (sql : List Char)
    (hnb : ¬ is_builtin sql) (hcass : env.FOR_CASSANDRACLE = false) (w : World) :
    handle_builtins env fuel sql w = .done (.NS_OK, w) := by
  unfold handle_builtins
  rw [get_world_bind]
  rw [if_neg (fun h => hnb (Or.inl h)), if_neg (fun h => hnb (Or.inr (Or.inl h))),
    if_neg (fun h => hnb (Or.inr (Or.inr h))), bind_apply, allow_sql_p_pass env hcass]
  rfl

theorem total_OracleSelect_mismatch (env : Env) (hs : engine_succeeds env) (fuel : Nat)
    (objv : List (List Char)) (hnb : ¬ is_builtin (select_query objv))
    (hmis : kind_mismatch env (select_args objv))
    (hargs : ¬ (objv.length < 4 ∨
      (strcmp_eq (objv.getD 3 []) "-bind".toList = true ∧ objv.length < 6)))
    (hcass : env.FOR_CASSANDRACLE = false) (w : World) (hc : w.dbh.connection ≠ none)
    (hidle : ∀ c, w.dbh.connection = some c → c.fetch_buffers = none)
    (hset : ¬ (((select_args objv).set.bind (fun set => w.sets.lookup set)).isNone = true ∧
      (select_args objv).set.isSome = true)) :
    ∃ w1, OracleSelect env fuel objv w = .done (.TCL_ERROR, w1) ∧
      w1.result = mismatch_message (select_args objv) ∧ flushed w1 := by
  cases hc0 : w.dbh.connection with
  | none => exact absurd hc0 hc
  | some c =>
    unfold OracleSelect
    rw [if_neg hargs, get_world_bind]
    simp only [hc0]
    rw [bind_apply, set_connection_apply c.id _ w c hc0 rfl]
    simp only
    rw [if_neg hset, bind_apply, allow_sql_p_pass env hcass]
    simp only [Bool.not_true, Bool.false_eq_true, if_false]
    rw [bind_apply, handle_builtins_pass env fuel _ hnb hcass]
    simp only
    obtain ⟨r, w1, h1, h2, h3⟩ := total_select_mismatch env hs fuel (select_args objv) hmis c.id
      (select_query objv) (executes w.trace) w.tcl_vars w.sets
      { w with dbh := { w.dbh with connection := some { c with interp := true } } }
      ⟨⟨_, rfl, rfl, hidle c hc0⟩, rfl, rfl, rfl⟩
    subst h2
    exact ⟨w1, h1, h3⟩

/-- C19: in `OracleSelect`, when the engine reports a kind of statement that
the subcommand is not for (not a query for `select`, `1row` and `0or1row`, a
query for `dml` and `array_dml`), every call that returns returns an error and
has made no native bind and no native execute.  And with an engine whose calls
succeed, on a well-formed command that is let through and a connection that
holds no array of descriptors, the call does return: `TCL_ERROR`, with the
message of the mismatch as the result of the interpreter, the statement
flushed (no statement handle, no array of descriptors), and no bind and no
execute made. -/
theorem kind_mismatch_rejected (env : Env) (fuel : Nat) (objv : List (List Char))
    (w : World) (hnb : ¬ is_builtin (select_query objv))
    (hmis : kind_mismatch env (select_args objv)) :
    (∀ r w1, OracleSelect env fuel objv w = .done (r, w1) →
      (r = .TCL_ERROR ∨ r = .NS_ERROR) ∧
      w1.trace.filter is_bind_or_execute = w.trace.filter is_bind_or_execute) ∧
    (engine_succeeds env → w.dbh.connection ≠ none →
      (∀ c, w.dbh.connection = some c → c.fetch_buffers = none) →
      ¬ (objv.length < 4 ∨
        (strcmp_eq (objv.getD 3 []) "-bind".toList = true ∧ objv.length < 6)) →
      ¬ (((select_args objv).set.bind (fun set => w.sets.lookup set)).isNone = true ∧
        (select_args objv).set.isSome = true) →
      env.FOR_CASSANDRACLE = false →
      ∃ w1, OracleSelect env fuel objv w = .done (.TCL_ERROR, w1) ∧
        w1.result = mismatch_message (select_args objv) ∧ flushed w1 ∧
        w1.trace.filter is_bind_or_execute = w.trace.filter is_bind_or_execute) := by
  have hp : ∀ r w1, OracleSelect env fuel objv w = .done (r, w1) →
      (r = .TCL_ERROR ∨ r = .NS_ERROR) ∧
      w1.trace.filter is_bind_or_execute = w.trace.filter is_bind_or_execute :=
    fun r w1 h => triple_OracleSelect_mismatch _ env fuel objv hnb hmis w rfl r w1 h
  refine ⟨hp, fun hs hc hidle hargs hset hcass => ?_⟩
  obtain ⟨w1, h1, h2, h3⟩ := total_OracleSelect_mismatch env hs fuel objv hnb hmis hargs hcass
    w hc hidle hset
  exact ⟨w1, h1, h2, h3, (hp _ w1 h1).2⟩

/-- C19, at `example_world`: `ns_ora select` on a statement that the engine
reports as no query, and `ns_ora dml` on a statement that it reports as a
query, return `TCL_ERROR` with the message, and no bind and no execute is
made. -/
theorem kind_mismatch_rejected_witness :
    ¬ is_builtin (select_query select_command) ∧
    kind_mismatch (example_env 0) (select_args select_command) ∧
    ¬ is_builtin (select_query dml_of_query) ∧
    kind_mismatch (example_env OCI_STMT_SELECT) (select_args dml_of_query) ∧
    (∃ w1, OracleSelect (example_env 0) 0 select_command example_world
        = .done (.TCL_ERROR, w1) ∧
      w1.result = mismatch_message (select_args select_command) ∧ flushed w1 ∧
      w1.trace.filter is_bind_or_execute = example_world.trace.filter is_bind_or_execute) ∧
    (∃ w1, OracleSelect (example_env OCI_STMT_SELECT) 0 dml_of_query example_world
        = .done (.TCL_ERROR, w1) ∧
      w1.result = mismatch_message (select_args dml_of_query) ∧ flushed w1 ∧
      w1.trace.filter is_bind_or_execute = example_world.trace.filter is_bind_or_execute) :=
  have hnb1 : ¬ is_builtin (select_query select_command) := by
    unfold is_builtin; decide
  have hnb2 : ¬ is_builtin (select_query dml_of_query) := by
    unfold is_builtin; decide
  have hm1 : kind_mismatch (example_env 0) (select_args select_command) :=
    Or.inl ⟨fun _ => (show ¬ ((0 : Int) = 1) by decide), by decide⟩
  have hm2 : kind_mismatch (example_env OCI_STMT_SELECT) (select_args dml_of_query) :=
    Or.inr ⟨fun _ => rfl, by decide⟩
  ⟨hnb1, hm1, hnb2, hm2,
    (kind_mismatch_rejected (example_env 0) 0 select_command example_world hnb1 hm1).2
      (example_env_succeeds 0) (by decide) (fun c h => by cases h; rfl) (by decide) (by decide)
      rfl,
    (kind_mismatch_rejected (example_env OCI_STMT_SELECT) 0 dml_of_query example_world hnb2
      hm2).2 (example_env_succeeds _) (by decide) (fun c h => by cases h; rfl) (by decide)
      (by decide) rfl⟩


/-! ## Commit requests and the mode of the connection -/

theorem lifecycle_not_commit (c : NativeCall) (h : is_lifecycle_call c = true) :
    is_commit_request c = false := by
  cases c <;> first | rfl | cases h

theorem lifecycle_commits (k : List NativeCall) :
    LifecycleInv (calls_are is_commit_request k) :=
  lifecycle_calls_are _ k lifecycle_not_commit

/-- An execute in the mode that follows the mode of the connection, and its
report to a classifier: the execute asks for a commit exactly when the
connection is in autocommit mode. -/
theorem requests_flag_execute (env : Env) (cid n : Nat) (classify : oci_status_t → M Bool)
    (hcl : ∀ k1 st, Preserves (calls_are is_commit_request k1) (classify st))
    (w : World) (c : ora_connection_t) (hc : w.dbh.connection = some c) :
    requests_added
      (do
        let c ← connection_at cid
        let r ← oci env (.OCIStmtExecute n
          (if c.mode = .autocommit then .OCI_COMMIT_ON_SUCCESS else .OCI_DEFAULT))
        classify r.status)
      w (if c.mode = .autocommit then [.OCIStmtExecute n .OCI_COMMIT_ON_SUCCESS] else []) := by
  intro r w1 h
  rw [bind_apply] at h
  by_cases hid : c.id = cid
  · rw [connection_at_apply cid w c hc hid] at h
    simp only at h
    rw [bind_apply] at h
    simp only [oci] at h
    have := hcl _ _ _ rfl r w1 h
    unfold calls_are at this
    rw [this]
    cases hm : c.mode <;> simp [List.filter_append, is_commit_request]
  · unfold connection_at at h
    rw [hc] at h
    simp only [hid, if_false] at h
    cases h

theorem requests_Ns_OracleExec_execute (env : Env) (fuel : Nat) (cid n : Nat)
    (w : World) (c : ora_connection_t) (hc : w.dbh.connection = some c) :
    requests_added (Ns_OracleExec_execute env fuel cid n) w
      (if c.mode = .autocommit then [.OCIStmtExecute n .OCI_COMMIT_ON_SUCCESS] else []) := by
  unfold Ns_OracleExec_execute
  refine requests_flag_execute env cid n
    (fun st =>
      if st = .OCI_ERROR then do
        let r1 ← oci env .OCIErrorGet
        if (← oci_error_p env fuel true "OCIErrorGet" r1.status) then pure true
        else oci_error_p env fuel true "OCIStmtExecute" st
      else oci_error_p env fuel true "OCIStmtExecute" st) (fun k1 st => ?_) w c hc
  have hI := lifecycle_commits k1
  refine preserves_ite ?_ (lifecycle_oci_error_p hI env fuel _ _ _)
  refine preserves_bind (lifecycle_oci hI env _ rfl) (fun r1 => ?_)
  refine preserves_bind (lifecycle_oci_error_p hI env fuel _ _ _) (fun b => ?_)
  exact preserves_ite (preserves_pure _) (lifecycle_oci_error_p hI env fuel _ _ _)

theorem requests_OraclePLSQL_execute (env : Env) (fuel : Nat) (cid : Nat)
    (w : World) (c : ora_connection_t) (hc : w.dbh.connection = some c) :
    requests_added (OraclePLSQL_execute env fuel cid) w
      (if c.mode = .autocommit then [.OCIStmtExecute 1 .OCI_COMMIT_ON_SUCCESS] else []) :=
  requests_flag_execute env cid 1 (fun st => oci_error_p env fuel true "OCIStmtExecute" st)
    (fun k1 _ => lifecycle_oci_error_p (lifecycle_commits k1) env fuel _ _ _) w c hc

theorem requests_OracleExecPLSQL_execute (env : Env) (fuel : Nat) (cid : Nat)
    (w : World) (c : ora_connection_t) (hc : w.dbh.connection = some c) :
    requests_added (OracleExecPLSQL_execute env fuel cid) w
      (if c.mode = .autocommit then [.OCIStmtExecute 1 .OCI_COMMIT_ON_SUCCESS] else []) :=
  requests_flag_execute env cid 1 (fun st => tcl_error_p env fuel "OCIStmtExecute" st)
    (fun k1 _ => lifecycle_tcl_error_p (lifecycle_commits k1) env fuel _ _) w c hc

theorem requests_OracleExecPLSQLBind_execute (env : Env) (fuel : Nat) (cid : Nat)
    (w : World) (c : ora_connection_t) (hc : w.dbh.connection = some c) :
    requests_added (OracleExecPLSQLBind_execute env fuel cid) w
      (if c.mode = .autocommit then [.OCIStmtExecute 1 .OCI_COMMIT_ON_SUCCESS] else []) :=
  requests_flag_execute env cid 1 (fun st => tcl_error_p env fuel "OCIStmtExecute" st)
    (fun k1 _ => lifecycle_tcl_error_p (lifecycle_commits k1) env fuel _ _) w c hc

/-- The execute of the LOB paths asks for no commit. -/
theorem requests_lob_execute (env : Env) (fuel : Nat) (cid : Nat) (w : World) :
    requests_added (OracleLobDML_execute env fuel cid) w [] ∧
    requests_added (OracleLobDMLBind_execute env fuel cid) w [] := by
  have key : Preserves (calls_are is_commit_request (w.trace.filter is_commit_request))
      (do
        let _ ← connection_at cid
        let r ← oci env (.OCIStmtExecute 1 .OCI_DEFAULT)
        tcl_error_p env fuel "OCIStmtExecute" r.status) := by
    have hI := lifecycle_commits (w.trace.filter is_commit_request)
    refine preserves_bind (preserves_connection_at cid) (fun _ => ?_)
    refine preserves_bind (triple_oci (fun w hw => calls_are_call _ rfl hw)) (fun r => ?_)
    exact lifecycle_tcl_error_p hI env fuel _ _
  constructor
  · intro r w1 h
    have := key w rfl r w1 h
    unfold calls_are at this
    rw [this, List.append_nil]
  · intro r w1 h
    have := key w rfl r w1 h
    unfold calls_are at this
    rw [this, List.append_nil]

/-- The commit of the LOB paths: `OCITransCommit` exactly when the connection
is in autocommit mode. -/
theorem requests_lob_commit (env : Env) (fuel : Nat) (cid : Nat) (w : World)
    (c : ora_connection_t) (hc : w.dbh.connection = some c) :
    requests_added (OracleLobDML_commit env fuel cid) w
      (if c.mode = .autocommit then [.OCITransCommit] else []) ∧
    requests_added (OracleLobDMLBind_commit env fuel cid) w
      (if c.mode = .autocommit then [.OCITransCommit] else []) := by
  have key : requests_added
      (do
        let c ← connection_at cid
        if c.mode = .autocommit then do
          let r ← oci env .OCITransCommit
          tcl_error_p env fuel "OCITransCommit" r.status
        else pure false)
      w (if c.mode = .autocommit then [.OCITransCommit] else []) := by
    intro r w1 h
    rw [bind_apply] at h
    by_cases hid : c.id = cid
    · rw [connection_at_apply cid w c hc hid] at h
      simp only at h
      by_cases hm : c.mode = .autocommit
      · rw [if_pos hm] at h
        rw [if_pos hm]
        rw [bind_apply] at h
        simp only [oci] at h
        have := lifecycle_tcl_error_p (lifecycle_commits _) env fuel _ _ _ rfl r w1 h
        unfold calls_are at this
        rw [this]
        simp [List.filter_append, is_commit_request]
      · rw [if_neg hm] at h
        rw [if_neg hm]
        cases h
        rw [List.append_nil]
    · unfold connection_at at h
      rw [hc] at h
      simp only [hid, if_false] at h
      cases h
  exact ⟨key, key⟩

theorem preserves_return_binds_other {I : World → Prop}
    (hI : ∀ w w1, I w → w1.trace = w.trace → w1.dbh = w.dbh → I w1) (a : SelectArgs)
    (cid : Nat) (names : List (List Char)) :
    ∀ i, Preserves I (return_binds a cid names i) := by
  induction names with
  | nil => intro i; exact preserves_pure _
  | cons var vars ih =>
    intro i
    unfold return_binds
    refine preserves_bind (preserves_fetchbuf_at cid i) (fun fb => ?_)
    refine preserves_bind (preserves_when ?_) (fun _ => ih (i + 1))
    split
    · exact preserves_fault
    · split
      · exact triple_modify_world (fun w hw => hI w _ hw rfl rfl)
      · exact triple_modify_world (fun w hw => hI w _ hw rfl rfl)

theorem calls_are_append {p : NativeCall → Bool} {k : List NativeCall} {w : World}
    (c : NativeCall) (hc : p c = true) (h : calls_are p k w) :
    calls_are p (k ++ [c]) { w with trace := w.trace ++ [c] } := by
  unfold calls_are at *
  simp only [List.filter_append, List.filter_cons, List.filter_nil, hc, if_true]
  rw [h]

theorem mode_is_other {m : TransactionMode} {w w1 : World} (h : mode_is m w)
    (hc : w1.dbh.connection = w.dbh.connection) : mode_is m w1 :=
  fun c hc1 => h c (by rw [← hc]; exact hc1)

/-- The execute of `OracleSelect` and what follows it: the execute asks for no
commit, and `OCITransCommit` is called exactly when the subcommand is `dml` or
`array_dml`, the connection is in autocommit mode and the execute has not been
reported as an error. -/
theorem requests_OracleSelect_execute (env : Env) (fuel : Nat) (a : SelectArgs) (cid : Nat)
    (names : List (List Char)) (iters : Nat) (w : World) (c : ora_connection_t)
    (hc : w.dbh.connection = some c) :
    requests_added (OracleSelect_execute env fuel a cid names iters) w
      (if a.dml_p = true ∧ c.mode = .autocommit ∧
          succeeded (env.engine w.trace.length (.OCIStmtExecute iters .OCI_DEFAULT)).status
        then [.OCITransCommit] else []) := by
  intro res w1 h
  unfold OracleSelect_execute at h
  rw [get_world_bind] at h
  simp only at h
  rw [bind_apply] at h
  simp only [oci] at h
  generalize hst : (env.engine w.trace.length (.OCIStmtExecute iters .OCI_DEFAULT)) = rep at h
  let k0 := w.trace.filter is_commit_request
  have hI := lifecycle_commits k0
  have hJ := frame_mode_is c.mode
  have key : Triple (fun w0 => calls_are is_commit_request k0 w0 ∧ mode_is c.mode w0)
      (do
        M.when ((a.array_p || a.dml_p) = true)
          (set_connection cid (fun c =>
            { c with fetch_buffers := c.fetch_buffers.map (env.callbacks w.trace.length) }))
        M.when ((a.dml_p && !a.array_p) = true) (return_binds a cid names 0)
        let c ← connection_at cid
        M.when (c.n_columns > 0 ∧ c.fetch_buffers.isSome)
          (set_connection cid (fun c => { c with fetch_buffers := none }))
        if (← oci_error_p env fuel true "OCIStmtExecute" rep.status) then do
          Tcl_SetResult_exception
          let _ ← Ns_OracleFlush env fuel
          pure SelectResult.TCL_ERROR
        else if a.dml_p then do
          let c ← connection_at cid
          if c.mode = .autocommit then do
            let r ← oci env .OCITransCommit
            if (← oci_error_p env fuel true "OCITransCommit" r.status) then do
              Tcl_SetResult_exception
              let _ ← Ns_OracleFlush env fuel
              pure SelectResult.TCL_ERROR
            else pure SelectResult.TCL_OK
          else pure SelectResult.TCL_OK
        else pure SelectResult.fetch_rows : M SelectResult)
      (fun _ w1 => calls_are is_commit_request
        (k0 ++ (if a.dml_p = true ∧ c.mode = .autocommit ∧ succeeded rep.status
          then [.OCITransCommit] else [])) w1) := by
    have hexit : ∀ (k1 : List NativeCall),
        Preserves (calls_are is_commit_request k1)
          (do
            Tcl_SetResult_exception
            let _ ← Ns_OracleFlush env fuel
            pure SelectResult.TCL_ERROR : M SelectResult) := fun k1 =>
      preserves_bind (lifecycle_modify (lifecycle_commits k1) _ (fun _ => rfl))
        (fun _ => preserves_bind (lifecycle_Ns_OracleFlush (lifecycle_commits k1) env fuel)
          (fun _ => preserves_pure _))
    refine triple_bind (triple_conj (preserves_when (lifecycle_set_connection hI _ _))
      (preserves_when (preserves_set_connection hJ _ _ (fun _ => ⟨rfl, rfl⟩)))) (fun _ => ?_)
    refine triple_bind (triple_conj
      (preserves_when (preserves_return_binds_other
        (fun w w1 hw ht _ => calls_are_other ht hw) a cid names 0))
      (preserves_when (preserves_return_binds_other
        (fun w w1 hw _ hd => mode_is_other hw (by rw [hd])) a cid names 0))) (fun _ => ?_)
    refine triple_bind (triple_conj (preserves_connection_at cid) (preserves_connection_at cid))
      (fun c1 => ?_)
    refine triple_bind (triple_conj (preserves_when (lifecycle_set_connection hI _ _))
      (preserves_when (preserves_set_connection hJ _ _ (fun _ => ⟨rfl, rfl⟩)))) (fun _ => ?_)
    refine triple_bind (Q := fun b w0 => (calls_are is_commit_request k0 w0 ∧
      (b = false → mode_is c.mode w0)) ∧
      ((b = false → succeeded rep.status) ∧ (b = true → ¬ succeeded rep.status)))
      ?_ (fun b => ?_)
    · intro w0 hw0 b w2 hrun
      refine ⟨⟨lifecycle_oci_error_p hI env fuel _ _ _ w0 hw0.1 b w2 hrun,
        triple_oci_error_p_false env fuel true _ _ w0 hw0.2 b w2 hrun⟩, fun hb => ?_,
        fun hb hs => ?_⟩
      · by_contra hns
        have := oci_error_p_failure env fuel true "OCIStmtExecute" _ (not_succeeded hns)
          w0 trivial b w2 hrun
        rw [hb] at this
        cases this
      · rw [oci_error_p_success env fuel true _ _ hs] at hrun
        cases hrun
        cases hb
    refine triple_ite (fun hb => ?_) (fun hb => ?_)
    · refine triple_assume (fun hq => ?_)
      have hns := hq.2 hb
      rw [if_neg (fun h => hns h.2.2), List.append_nil]
      exact triple_weaken (hexit k0) (fun _ h => h.1) (fun _ _ h => h)
    · refine triple_assume (fun hq => ?_)
      have hbf : b = false := by simpa using hb
      have hsucc := hq.1 hbf
      refine triple_weaken (S := fun w0 => calls_are is_commit_request k0 w0 ∧
        mode_is c.mode w0) (T := fun _ w1 => calls_are is_commit_request
          (k0 ++ (if a.dml_p = true ∧ c.mode = .autocommit ∧ succeeded rep.status
            then [.OCITransCommit] else [])) w1) ?_ (fun _ h => ⟨h.1, h.2 hbf⟩)
        (fun _ _ h => h)
      by_cases hd : a.dml_p = true
      · rw [if_pos hd]
        refine triple_bind (Q := fun c1 w0 => calls_are is_commit_request k0 w0 ∧
          c1.mode = c.mode) ?_ (fun c1 => ?_)
        · intro w0 hw0 c1 w2 hrun
          have h3 := triple_connection_at (P := calls_are is_commit_request k0) w0 hw0.1 c1 w2 hrun
          have h4 := triple_connection_at (P := mode_is c.mode) w0 hw0.2 c1 w2 hrun
          exact ⟨h3.1, h4.1 c1 h4.2.1⟩
        refine triple_assume (fun hm1 => ?_)
        rw [hm1]
        by_cases hm : c.mode = .autocommit
        · rw [if_pos hm, if_pos ⟨hd, hm, hsucc⟩]
          refine triple_bind (Q := fun _ w0 => calls_are is_commit_request
            (k0 ++ [.OCITransCommit]) w0)
            (triple_oci (fun w hw => calls_are_append _ rfl hw)) (fun r => ?_)
          refine triple_bind (lifecycle_oci_error_p (lifecycle_commits _) env fuel _ _ _)
            (fun b1 => ?_)
          exact triple_ite (fun _ => hexit _) (fun _ => triple_pure (fun _ h => h))
        · rw [if_neg hm, if_neg (fun h => hm h.2.1), List.append_nil]
          exact triple_pure (fun _ h => h)
      · rw [if_neg hd, if_neg (fun h => hd h.1), List.append_nil]
        exact triple_pure (fun _ h => h.1)
  have := key _ ⟨by
    show List.filter is_commit_request (w.trace ++ [.OCIStmtExecute iters .OCI_DEFAULT]) = k0
    simp [List.filter_append, is_commit_request, k0], fun c1 h1 => by
      rw [hc] at h1
      cases h1
      rfl⟩ res w1 h
  exact this

theorem total_flag_execute (env : Env) (hs : engine_succeeds env) (cid n : Nat)
    (classify : oci_status_t → M Bool)
    (hcl : ∀ w, classify .OCI_SUCCESS w = .done (false, w))
    (w : World) (c : ora_connection_t) (hc : w.dbh.connection = some c) (hid : c.id = cid) :
    ∃ w1,
      (do
        let c ← connection_at cid
        let r ← oci env (.OCIStmtExecute n
          (if c.mode = .autocommit then .OCI_COMMIT_ON_SUCCESS else .OCI_DEFAULT))
        classify r.status : M Bool) w = .done (false, w1) := by
  rw [bind_apply, connection_at_apply cid w c hc hid]
  simp only
  rw [bind_apply]
  simp only [oci]
  rw [hs, hcl]
  exact ⟨_, rfl⟩

/-- With an engine whose calls succeed, the executes and the commits of the
DML paths return and report no error. -/
theorem total_dml_fragments (env : Env) (hs : engine_succeeds env) (fuel n : Nat)
    (w : World) (c : ora_connection_t) (hc : w.dbh.connection = some c) :
    (∃ w1, Ns_OracleExec_execute env fuel c.id n w = .done (false, w1)) ∧
    (∃ w1, OraclePLSQL_execute env fuel c.id w = .done (false, w1)) ∧
    (∃ w1, OracleExecPLSQL_execute env fuel c.id w = .done (false, w1)) ∧
    (∃ w1, OracleExecPLSQLBind_execute env fuel c.id w = .done (false, w1)) ∧
    (∃ w1, OracleLobDML_execute env fuel c.id w = .done (false, w1)) ∧
    (∃ w1, OracleLobDML_commit env fuel c.id w = .done (false, w1)) ∧
    (∃ w1, OracleLobDMLBind_execute env fuel c.id w = .done (false, w1)) ∧
    (∃ w1, OracleLobDMLBind_commit env fuel c.id w = .done (false, w1)) := by
  have hexec : ∃ w1,
      (do
        let _ ← connection_at c.id
        let r ← oci env (.OCIStmtExecute 1 .OCI_DEFAULT)
        tcl_error_p env fuel "OCIStmtExecute" r.status : M Bool) w = .done (false, w1) := by
    rw [bind_apply, connection_at_apply c.id w c hc rfl]
    simp only
    rw [bind_apply]
    simp only [oci]
    rw [hs, tcl_error_p_success]
    exact ⟨_, rfl⟩
  have hcommit : ∃ w1,
      (do
        let c1 ← connection_at c.id
        if c1.mode = .autocommit then do
          let r ← oci env .OCITransCommit
          tcl_error_p env fuel "OCITransCommit" r.status
        else pure false : M Bool) w = .done (false, w1) := by
    rw [bind_apply, connection_at_apply c.id w c hc rfl]
    simp only
    by_cases hm : c.mode = .autocommit
    · rw [if_pos hm, bind_apply]
      simp only [oci]
      rw [hs, tcl_error_p_success]
      exact ⟨_, rfl⟩
    · rw [if_neg hm]
      exact ⟨_, rfl⟩
  refine ⟨?_, ?_, ?_, ?_, hexec, hcommit, hexec, hcommit⟩
  · unfold Ns_OracleExec_execute
    exact total_flag_execute env hs c.id n
      (fun st =>
        if st = .OCI_ERROR then do
          let r1 ← oci env .OCIErrorGet
          if (← oci_error_p env fuel true "OCIErrorGet" r1.status) then pure true
          else oci_error_p env fuel true "OCIStmtExecute" st
        else oci_error_p env fuel true "OCIStmtExecute" st)
      (fun w0 => by
        simp only [reduceCtorEq, if_false]
        exact oci_error_p_success env fuel true _ _ (Or.inl rfl) w0) w c hc rfl
  · exact total_flag_execute env hs c.id 1 (fun st => oci_error_p env fuel true _ st)
      (fun w0 => oci_error_p_success env fuel true _ _ (Or.inl rfl) w0) w c hc rfl
  · exact total_flag_execute env hs c.id 1 (fun st => tcl_error_p env fuel _ st)
      (fun w0 => tcl_error_p_success env fuel _ w0) w c hc rfl
  · exact total_flag_execute env hs c.id 1 (fun st => tcl_error_p env fuel _ st)
      (fun w0 => tcl_error_p_success env fuel _ w0) w c hc rfl

/-- With an engine whose calls succeed, the execute of `OracleSelect` and what
follows it return `TCL_OK` for `dml` and `array_dml`. -/
theorem total_OracleSelect_execute (env : Env) (hs : engine_succeeds env) (fuel : Nat)
    (a : SelectArgs) (hcb : a.dml_p = true → a.array_p = false → callbacks_sound env)
    (cid : Nat) (names : List (List Char)) (iters : Nat) :
    Total (fun w => columns_ready cid names.length w ∧
        ((a.dml_p && !a.array_p) = true → bufs_upto names.length w))
      (OracleSelect_execute env fuel a cid names iters)
      (fun res _ => res = if a.dml_p = true then .TCL_OK else .fetch_rows) := by
  intro w hw
  unfold OracleSelect_execute
  rw [get_world_bind]
  simp only
  refine total_bind (P := fun w0 => columns_ready cid names.length w0 ∧
      ((a.dml_p && !a.array_p) = true → bufs_upto names.length w0))
    (Q := fun r w0 => (columns_ready cid names.length w0 ∧
      ((a.dml_p && !a.array_p) = true → bufs_upto names.length w0)) ∧
      r.status = .OCI_SUCCESS)
    (total_oci (fun w0 h => ⟨⟨columns_ready_congr rfl h.1,
      fun hd => bufs_upto_congr rfl (h.2 hd)⟩, hs _ _⟩)) (fun r => ?_) w hw
  refine total_assume (fun hr => ?_)
  exact total_after_execute env hs fuel a hcb cid names _ r hr

/-- C13, amended: in explicit-transaction mode none of the DML paths asks for
a commit: the executes of `Ns_OracleExec`, `OraclePLSQL`, `OracleExecPLSQL`
and `OracleExecPLSQLBind` are made in the mode `OCI_DEFAULT`, and
`OracleSelect`, `OracleLobDML` and `OracleLobDMLBind` do not call
`OCITransCommit`.  In autocommit mode the first four make their execute in the
mode `OCI_COMMIT_ON_SUCCESS`, whatever the outcome of the execute;
`OracleLobDML` and `OracleLobDMLBind` execute in the mode `OCI_DEFAULT` and
call `OCITransCommit` once when they reach their commit; and `OracleSelect`
with `dml` or `array_dml` executes in the mode `OCI_DEFAULT` and calls
`OCITransCommit` once when the execute has not been reported as an error, and
asks for no commit when it has.  With an engine whose calls succeed the
executes and the commits return. -/
theorem commit_follows_mode (env : Env) (fuel : Nat) (w : World) (c : ora_connection_t)
    (hc : w.dbh.connection = some c) (n iters : Nat) (a : SelectArgs)
    (names : List (List Char)) :
    (c.mode = .transaction →
      requests_added (Ns_OracleExec_execute env fuel c.id n) w [] ∧
      requests_added (OraclePLSQL_execute env fuel c.id) w [] ∧
      requests_added (OracleExecPLSQL_execute env fuel c.id) w [] ∧
      requests_added (OracleExecPLSQLBind_execute env fuel c.id) w [] ∧
      requests_added (OracleSelect_execute env fuel a c.id names iters) w [] ∧
      requests_added (OracleLobDML_execute env fuel c.id) w [] ∧
      requests_added (OracleLobDML_commit env fuel c.id) w [] ∧
      requests_added (OracleLobDMLBind_execute env fuel c.id) w [] ∧
      requests_added (OracleLobDMLBind_commit env fuel c.id) w []) ∧
    (c.mode = .autocommit →
      requests_added (Ns_OracleExec_execute env fuel c.id n) w
        [.OCIStmtExecute n .OCI_COMMIT_ON_SUCCESS] ∧
      requests_added (OraclePLSQL_execute env fuel c.id) w
        [.OCIStmtExecute 1 .OCI_COMMIT_ON_SUCCESS] ∧
      requests_added (OracleExecPLSQL_execute env fuel c.id) w
        [.OCIStmtExecute 1 .OCI_COMMIT_ON_SUCCESS] ∧
      requests_added (OracleExecPLSQLBind_execute env fuel c.id) w
        [.OCIStmtExecute 1 .OCI_COMMIT_ON_SUCCESS] ∧
      (a.dml_p = true →
        succeeded (env.engine w.trace.length (.OCIStmtExecute iters .OCI_DEFAULT)).status →
        requests_added (OracleSelect_execute env fuel a c.id names iters) w
          [.OCITransCommit]) ∧
      (a.dml_p = true →
        ¬ succeeded (env.engine w.trace.length (.OCIStmtExecute iters .OCI_DEFAULT)).status →
        requests_added (OracleSelect_execute env fuel a c.id names iters) w []) ∧
      requests_added (OracleLobDML_execute env fuel c.id) w [] ∧
      requests_added (OracleLobDML_commit env fuel c.id) w [.OCITransCommit] ∧
      requests_added (OracleLobDMLBind_execute env fuel c.id) w [] ∧
      requests_added (OracleLobDMLBind_commit env fuel c.id) w [.OCITransCommit]) ∧
    (engine_succeeds env →
      (∃ w1, Ns_OracleExec_execute env fuel c.id n w = .done (false, w1)) ∧
      (∃ w1, OraclePLSQL_execute env fuel c.id w = .done (false, w1)) ∧
      (∃ w1, OracleExecPLSQL_execute env fuel c.id w = .done (false, w1)) ∧
      (∃ w1, OracleExecPLSQLBind_execute env fuel c.id w = .done (false, w1)) ∧
      (∃ w1, OracleLobDML_execute env fuel c.id w = .done (false, w1)) ∧
      (∃ w1, OracleLobDML_commit env fuel c.id w = .done (false, w1)) ∧
      (∃ w1, OracleLobDMLBind_execute env fuel c.id w = .done (false, w1)) ∧
      (∃ w1, OracleLobDMLBind_commit env fuel c.id w = .done (false, w1)) ∧
      (a.dml_p = true → (a.array_p = false → callbacks_sound env) →
        columns_ready c.id names.length w →
        (a.array_p = false → bufs_upto names.length w) →
        ∃ w1, OracleSelect_execute env fuel a c.id names iters w = .done (.TCL_OK, w1))) := by
  have h1 := requests_Ns_OracleExec_execute env fuel c.id n w c hc
  have h2 := requests_OraclePLSQL_execute env fuel c.id w c hc
  have h3 := requests_OracleExecPLSQL_execute env fuel c.id w c hc
  have h4 := requests_OracleExecPLSQLBind_execute env fuel c.id w c hc
  have h5 := requests_OracleSelect_execute env fuel a c.id names iters w c hc
  have h6 := requests_lob_execute env fuel c.id w
  have h7 := requests_lob_commit env fuel c.id w c hc
  refine ⟨fun hm => ?_, fun hm => ?_, fun hs => ?_⟩
  · rw [hm] at h1 h2 h3 h4 h5 h7
    simp only [reduceCtorEq, if_false, false_and, and_false] at h1 h2 h3 h4 h5 h7
    exact ⟨h1, h2, h3, h4, h5, h6.1, h7.1, h6.2, h7.2⟩
  · rw [hm] at h1 h2 h3 h4 h5 h7
    simp only [if_true, true_and] at h1 h2 h3 h4 h5 h7
    refine ⟨h1, h2, h3, h4, fun hd hsucc => ?_, fun hd hsucc => ?_, h6.1, h7.1, h6.2, h7.2⟩
    · rw [if_pos ⟨hd, hsucc⟩] at h5
      exact h5
    · rw [if_neg (fun h => hsucc h.2)] at h5
      exact h5
  · obtain ⟨t1, t2, t3, t4, t5, t6, t7, t8⟩ := total_dml_fragments env hs fuel n w c hc
    refine ⟨t1, t2, t3, t4, t5, t6, t7, t8, fun hd hcb hready hbufs => ?_⟩
    obtain ⟨r, w1, hrun, hres⟩ := total_OracleSelect_execute env hs fuel a
      (fun _ harr => hcb harr) c.id names iters w
      ⟨hready, fun hsc => hbufs (by
        simp only [Bool.and_eq_true, Bool.not_eq_true'] at hsc
        exact hsc.2)⟩
    rw [if_pos hd] at hres
    subst hres
    exact ⟨w1, hrun⟩

/-- C13, where the claim fails: `ns_ora dml` on a connection in autocommit
mode, with an engine that fails the execute with ORA-00600: the execute is
made in the mode `OCI_DEFAULT`, `OracleSelect` returns `TCL_ERROR`, and no
commit has been asked for. -/
theorem commit_follows_mode_counterexample :
    example_connection.mode = .autocommit ∧
    OracleSelect (failing_execute_env 600) 1 plain_dml example_world
      = .done (.TCL_ERROR,
          { example_world with
            trace := [.OCIHandleAlloc .OCI_HTYPE_STMT,
              .OCIStmtPrepare "update t set a = 1".toList,
              .OCIAttrGet .OCI_ATTR_STMT_TYPE, .OCIStmtExecute 1 .OCI_DEFAULT,
              .OCIErrorGet, .OCIAttrGet .OCI_ATTR_PARSE_ERROR_OFFSET,
              .OCIHandleFree .OCI_HTYPE_STMT],
            dbh := { example_world.dbh with
              cExceptionCode := "600",
              dsExceptionMsg := "error in `OCIStmtExecute ()': OCI_ERROR" },
            result := "error in `OCIStmtExecute ()': OCI_ERROR" }) := by
  decide!

/-- C13, at `example_world`, whose connection is in autocommit mode, and at
`transaction_world`: the execute of `Ns_OracleExec` asks for the commit in the
first and not in the second, and with an engine whose calls succeed it
returns. -/
theorem commit_follows_mode_witness :
    example_world.dbh.connection = some example_connection ∧
    transaction_world.dbh.connection
      = some { example_connection with mode := .transaction } ∧
    engine_succeeds (example_env 0) ∧
    requests_added (Ns_OracleExec_execute (example_env 0) 0 example_connection.id 1)
      example_world [.OCIStmtExecute 1 .OCI_COMMIT_ON_SUCCESS] ∧
    requests_added (Ns_OracleExec_execute (example_env 0) 0 example_connection.id 1)
      transaction_world [] ∧
    (∃ w1, Ns_OracleExec_execute (example_env 0) 0 example_connection.id 1 example_world
      = .done (false, w1)) :=
  ⟨rfl, rfl, example_env_succeeds 0,
    ((commit_follows_mode (example_env 0) 0 example_world example_connection rfl 1 1
      (select_args plain_dml) []).2.1 rfl).1,
    ((commit_follows_mode (example_env 0) 0 transaction_world
      { example_connection with mode := .transaction } rfl 1 1
      (select_args plain_dml) []).1 rfl).1,
    ((commit_follows_mode (example_env 0) 0 example_world example_connection rfl 1 1
      (select_args plain_dml) []).2.2 (example_env_succeeds 0)).1⟩

/-! ## The single-row modes -/

theorem total_flush_fit {K : World → Prop} (hK : RecoveryInv K) (env : Env)
    (hs : calls_succeed env is_recovery_call) (fuel : Nat) :
    Total (fun w => buffers_fit w ∧ K w) (Ns_OracleFlush env fuel)
      (fun _ w => flushed w ∧ K w) := by
  intro w hw
  cases hc : w.dbh.connection with
  | none =>
    exact ⟨.NS_OK, w, Ns_OracleFlush_closed env fuel w hc,
      fun c h => (by rw [hc] at h; cases h), hw.2⟩
  | some c =>
    obtain ⟨r, w1, h1, h2, h3⟩ := total_and (total_flush_ok env hs fuel c.id)
      (recovery_Ns_OracleFlush hK env fuel) w
      ⟨⟨c, hc, rfl, fun fbs hf => hw.1 c fbs hc hf⟩, hw.2⟩
    exact ⟨r, w1, h1, h2.2.2, h3⟩

theorem recovery_result (msg : String) : RecoveryInv (fun w : World => w.result = msg) where
  call := fun _ _ h _ => h
  conn := fun _ _ _ h _ _ => h
  close := fun _ h => h
  exception := fun _ _ _ h => h

/-- `Oracle0or1Row` on a query with no row. -/
theorem Oracle0or1Row_none (env : Env) (fuel : Nat)
    (getrow : List (List Char × List Char) →
      M (Ns_ReturnCode × List (List Char × List Char)))
    (row0 r : List (List Char × List Char)) (nrows : Int) (w w1 : World)
    (h1 : getrow row0 w = .done ((.NS_END_DATA, r), w1)) :
    Oracle0or1Row env fuel getrow (some row0) nrows w = .done ((some r, 0), w1) := by
  unfold Oracle0or1Row
  simp only
  rw [bind_apply, h1]
  rfl

/-- `Oracle0or1Row` on a query with one row. -/
theorem Oracle0or1Row_one (env : Env) (fuel : Nat)
    (getrow : List (List Char × List Char) →
      M (Ns_ReturnCode × List (List Char × List Char)))
    (row0 x r : List (List Char × List Char)) (nrows : Int) (w w1 w2 : World)
    (h1 : getrow row0 w = .done ((.NS_OK, x), w1))
    (h2 : getrow x w1 = .done ((.NS_END_DATA, r), w2)) :
    Oracle0or1Row env fuel getrow (some row0) nrows w = .done ((some r, 1), w2) := by
  unfold Oracle0or1Row
  simp only
  rw [bind_apply, h1]
  simp only [reduceCtorEq, if_false]
  rw [bind_apply, h2]
  rfl

/-- `Oracle0or1Row` on a query with more than one row. -/
theorem Oracle0or1Row_more (env : Env) (hs : calls_succeed env is_recovery_call) (fuel : Nat)
    (getrow : List (List Char × List Char) →
      M (Ns_ReturnCode × List (List Char × List Char)))
    (row0 x y : List (List Char × List Char)) (nrows : Int) (w w1 w2 : World)
    (h1 : getrow row0 w = .done ((.NS_OK, x), w1))
    (h2 : getrow x w1 = .done ((.NS_OK, y), w2)) (hfit : buffers_fit w2) :
    ∃ w3, Oracle0or1Row env fuel getrow (some row0) nrows w = .done ((none, nrows), w3) ∧
      w3.result = "Query returned more than one row." ∧ flushed w3 := by
  obtain ⟨r, w3, h3, h4, h5⟩ := total_flush_fit
    (recovery_result "Query returned more than one row.") env hs fuel
    { w2 with
      dbh := { w2.dbh with cExceptionCode := "ORA",
                           dsExceptionMsg := "Query returned more than one row." },
      result := "Query returned more than one row." }
    ⟨fun c fbs hc hf => hfit c fbs hc hf, rfl⟩
  refine ⟨w3, ?_, h5, h4⟩
  unfold Oracle0or1Row
  simp only
  rw [bind_apply, h1]
  simp only [reduceCtorEq, if_false]
  rw [bind_apply, h2]
  simp only
  rw [bind_apply]
  simp only [Ns_DbSetException, modify_world]
  rw [bind_apply]
  simp only [Tcl_SetResult_exception, modify_world]
  rw [bind_apply, h3]
  rfl

theorem yields_nil {getrow : List (List Char × List Char) →
      M (Ns_ReturnCode × List (List Char × List Char))}
    {row : List (List Char × List Char)} {w : World} (h : yields getrow [] row w) :
    ∃ w1, getrow row w = .done ((.NS_END_DATA, row), w1) ∧ buffers_fit w1 := h

theorem yields_cons {getrow : List (List Char × List Char) →
      M (Ns_ReturnCode × List (List Char × List Char))}
    {x row : List (List Char × List Char)} {rows : List (List (List Char × List Char))}
    {w : World} (h : yields getrow (x :: rows) row w) :
    ∃ w1, getrow row w = .done ((.NS_OK, x), w1) ∧ buffers_fit w1 ∧ yields getrow rows x w1 := h

/-- The tail of `OracleSelect` in the mode `1row`, on a query with no row. -/
theorem select_rows_1row_none (env : Env) (hs : calls_succeed env is_recovery_call)
    (fuel : Nat)
    (bindrow : List (List Char × List Char) → M (Option (List (List Char × List Char))))
    (getrow : List (List Char × List Char) →
      M (Ns_ReturnCode × List (List Char × List Char)))
    (nrows : Int) (w w0 : World) (cols : List (List Char × List Char))
    (hb : bindrow [] w = .done (some cols, w0)) (hy : yields getrow [] cols w0) :
    ∃ w2, select_rows env fuel bindrow getrow "1row".toList nrows w = .done (.TCL_ERROR, w2) ∧
      w2.result = "Query did not return a row." ∧ flushed w2 := by
  obtain ⟨w1, h1, hfit⟩ := yields_nil hy
  obtain ⟨r, w2, h2, h3, h4⟩ := total_flush_fit
    (recovery_result "Query did not return a row.") env hs fuel
    { w1 with
      dbh := { w1.dbh with cExceptionCode := "ORA",
                           dsExceptionMsg := "Query did not return a row." },
      result := "Query did not return a row." }
    ⟨fun c fbs hc hf => hfit c fbs hc hf, rfl⟩
  refine ⟨w2, ?_, h4, h3⟩
  unfold select_rows
  rw [bind_apply, hb]
  simp only
  rw [if_pos (Or.inl (by decide))]
  rw [bind_apply, Oracle0or1Row_none env fuel getrow cols cols nrows w0 w1 h1]
  simp only
  rw [bind_apply, if_pos ⟨rfl, by decide, by decide⟩]
  rw [bind_apply]
  simp only [Ns_DbSetException, modify_world]
  rw [bind_apply]
  simp only [Tcl_SetResult_exception, modify_world, pure_apply]
  rw [bind_apply, h2]
  rfl

/-- The tail of `OracleSelect` in the mode `0or1row`, on a query with no row. -/
theorem select_rows_0or1row_none (env : Env) (fuel : Nat)
    (bindrow : List (List Char × List Char) → M (Option (List (List Char × List Char))))
    (getrow : List (List Char × List Char) →
      M (Ns_ReturnCode × List (List Char × List Char)))
    (nrows : Int) (w w0 : World) (cols : List (List Char × List Char))
    (hb : bindrow [] w = .done (some cols, w0)) (hy : yields getrow [] cols w0) :
    ∃ w1, getrow cols w0 = .done ((.NS_END_DATA, cols), w1) ∧
      select_rows env fuel bindrow getrow "0or1row".toList nrows w = .done (.TCL_OK, w1) := by
  obtain ⟨w1, h1, _⟩ := yields_nil hy
  refine ⟨w1, h1, ?_⟩
  unfold select_rows
  rw [bind_apply, hb]
  simp only
  rw [if_pos (Or.inr (by decide))]
  rw [bind_apply, Oracle0or1Row_none env fuel getrow cols cols nrows w0 w1 h1]
  simp only
  rw [bind_apply, if_neg (fun h => absurd h.2.1 (by decide))]
  rfl

/-- The tail of `OracleSelect` in a single-row mode, on a query with one row. -/
theorem select_rows_one (env : Env) (fuel : Nat)
    (bindrow : List (List Char × List Char) → M (Option (List (List Char × List Char))))
    (getrow : List (List Char × List Char) →
      M (Ns_ReturnCode × List (List Char × List Char)))
    (nrows : Int) (w w0 w1 w2 : World) (cols x : List (List Char × List Char))
    (subcommand : List Char)
    (hsub : subcommand = "1row".toList ∨ subcommand = "0or1row".toList)
    (hb : bindrow [] w = .done (some cols, w0))
    (h1 : getrow cols w0 = .done ((.NS_OK, x), w1))
    (h2 : getrow x w1 = .done ((.NS_END_DATA, x), w2)) :
    select_rows env fuel bindrow getrow subcommand nrows w =
      .done (.TCL_OK, entered x true w2) := by
  unfold select_rows
  rw [bind_apply, hb]
  simp only
  rw [if_pos (by rcases hsub with h | h <;> subst h <;> decide)]
  rw [bind_apply, Oracle0or1Row_one env fuel getrow cols x x nrows w0 w1 w2 h1 h2]
  simp only
  rw [bind_apply, if_neg (fun h => h.2.2 rfl)]
  rfl

/-- The tail of `OracleSelect` in a single-row mode, on a query with more
than one row. -/
theorem select_rows_more (env : Env) (hs : calls_succeed env is_recovery_call) (fuel : Nat)
    (bindrow : List (List Char × List Char) → M (Option (List (List Char × List Char))))
    (getrow : List (List Char × List Char) →
      M (Ns_ReturnCode × List (List Char × List Char)))
    (nrows : Int) (w w0 : World) (cols x y : List (List Char × List Char))
    (rows : List (List (List Char × List Char))) (subcommand : List Char)
    (hsub : subcommand = "1row".toList ∨ subcommand = "0or1row".toList)
    (hb : bindrow [] w = .done (some cols, w0))
    (hy : yields getrow (x :: y :: rows) cols w0) :
    ∃ w2, select_rows env fuel bindrow getrow subcommand nrows w = .done (.TCL_ERROR, w2) ∧
      w2.result = "Query returned more than one row." ∧ flushed w2 := by
  obtain ⟨w1, h1, _, hy1⟩ := yields_cons hy
  obtain ⟨w2, h2, hfit, _⟩ := yields_cons hy1
  obtain ⟨w3, h3, h4, h5⟩ := Oracle0or1Row_more env hs fuel getrow cols x y nrows w0 w1 w2
    h1 h2 hfit
  obtain ⟨r, w4, h6, h7, h8⟩ := total_flush_fit
    (recovery_result "Query returned more than one row.") env hs fuel w3
    ⟨fun c fbs hc hf => (by rw [(h5 c hc).2.1] at hf; cases hf), h4⟩
  refine ⟨w4, ?_, h8, h7⟩
  unfold select_rows
  rw [bind_apply, hb]
  simp only
  rw [if_pos (by rcases hsub with h | h <;> subst h <;> decide)]
  rw [bind_apply, h3]
  simp only
  rw [bind_apply, if_neg (fun h => absurd h.1 (by decide))]
  simp only [pure_apply]
  rw [bind_apply, h6]
  rfl

/-- The command continues with the tail `select_rows` when its statement has
been executed. -/
theorem OracleSelect_rows_fetch (env : Env) (fuel : Nat)
    (bindrow : List (List Char × List Char) → M (Option (List (List Char × List Char))))
    (getrow : List (List Char × List Char) →
      M (Ns_ReturnCode × List (List Char × List Char)))
    (nrows : Int) (objv : List (List Char)) (w w1 : World)
    (h : OracleSelect env fuel objv w = .done (.fetch_rows, w1)) :
    OracleSelect_rows env fuel bindrow getrow nrows objv w =
      select_rows env fuel bindrow getrow (objv.getD 1 []) nrows w1 := by
  unfold OracleSelect_rows
  rw [bind_apply, h]

theorem example_rows_yield (w : World) (hfit : buffers_fit w) :
    yields (example_getrow example_columns example_rows) example_rows example_columns w :=
  ⟨w, rfl, hfit, w, rfl, hfit, w, rfl, hfit⟩

/-- C20: in the modes `1row` and `0or1row` the tail of `OracleSelect`
binds the row, `bindrow` standing for `Ns_OracleBindRow`, and fetches with
`getrow`, standing for `Ns_OracleGetRow`. Let the query yield the rows
`rows` after the set `cols` of column names was bound, and let the calls of
the recovery succeed. With no row, the mode `1row` ends in `TCL_ERROR` with
the message `Query did not return a row.` and the statement flushed, and the
mode `0or1row` ends in `TCL_OK` in the state the fetch left, no set entered
and the result untouched. With exactly one row both modes end in `TCL_OK`
and enter that row as a dynamic set, its handle appended to the result. With
more than one row both modes end in `TCL_ERROR` with the message
`Query returned more than one row.` and the statement flushed. -/
theorem single_row_modes (env : Env) (hs : calls_succeed env is_recovery_call) (fuel : Nat)
    (bindrow : List (List Char × List Char) → M (Option (List (List Char × List Char))))
    (getrow : List (List Char × List Char) →
      M (Ns_ReturnCode × List (List Char × List Char)))
    (nrows : Int) (w w0 : World) (cols : List (List Char × List Char))
    (rows : List (List (List Char × List Char)))
    (hb : bindrow [] w = .done (some cols, w0)) (hy : yields getrow rows cols w0) :
    (rows = [] →
      (∃ w2, select_rows env fuel bindrow getrow "1row".toList nrows w =
          .done (.TCL_ERROR, w2) ∧
        w2.result = "Query did not return a row." ∧ flushed w2) ∧
      (∃ w1, getrow cols w0 = .done ((.NS_END_DATA, cols), w1) ∧
        select_rows env fuel bindrow getrow "0or1row".toList nrows w =
          .done (.TCL_OK, w1))) ∧
    (∀ x, rows = [x] →
      ∃ w1 w2, getrow cols w0 = .done ((.NS_OK, x), w1) ∧
        getrow x w1 = .done ((.NS_END_DATA, x), w2) ∧
        select_rows env fuel bindrow getrow "1row".toList nrows w =
          .done (.TCL_OK, entered x true w2) ∧
        select_rows env fuel bindrow getrow "0or1row".toList nrows w =
          .done (.TCL_OK, entered x true w2)) ∧
    (2 ≤ rows.length →
      (∃ w2, select_rows env fuel bindrow getrow "1row".toList nrows w =
          .done (.TCL_ERROR, w2) ∧
        w2.result = "Query returned more than one row." ∧ flushed w2) ∧
      (∃ w2, select_rows env fuel bindrow getrow "0or1row".toList nrows w =
          .done (.TCL_ERROR, w2) ∧
        w2.result = "Query returned more than one row." ∧ flushed w2)) := by
  refine ⟨fun h => ?_, fun x h => ?_, fun h => ?_⟩
  · subst h
    exact ⟨select_rows_1row_none env hs fuel bindrow getrow nrows w w0 cols hb hy,
      select_rows_0or1row_none env fuel bindrow getrow nrows w w0 cols hb hy⟩
  · subst h
    obtain ⟨w1, h1, _, hy1⟩ := yields_cons hy
    obtain ⟨w2, h2, _⟩ := yields_nil hy1
    exact ⟨w1, w2, h1, h2,
      select_rows_one env fuel bindrow getrow nrows w w0 w1 w2 cols x "1row".toList
        (Or.inl rfl) hb h1 h2,
      select_rows_one env fuel bindrow getrow nrows w w0 w1 w2 cols x "0or1row".toList
        (Or.inr rfl) hb h1 h2⟩
  · cases rows with
    | nil => exact absurd h (by simp)
    | cons x rest =>
      cases rest with
      | nil => exact absurd h (by simp)
      | cons y rest =>
        exact ⟨select_rows_more env hs fuel bindrow getrow nrows w w0 cols x y rest
            "1row".toList (Or.inl rfl) hb hy,
          select_rows_more env hs fuel bindrow getrow nrows w w0 cols x y rest
            "0or1row".toList (Or.inr rfl) hb hy⟩

theorem example_world_fits : buffers_fit example_world := by
  intro c fbs hc hf
  cases hc
  cases hf

/-- C20, at a query with the single row `a = 1`: both modes return `TCL_OK`
and enter the row as a dynamic set. -/
theorem single_row_modes_witness :
    calls_succeed (example_env 0) is_recovery_call ∧
    example_bindrow example_columns [] example_world =
      .done (some example_columns, example_world) ∧
    yields (example_getrow example_columns [[("a".toList, "1".toList)]])
      [[("a".toList, "1".toList)]] example_columns example_world ∧
    ∃ w1 w2,
      example_getrow example_columns [[("a".toList, "1".toList)]] example_columns
          example_world = .done ((.NS_OK, [("a".toList, "1".toList)]), w1) ∧
        example_getrow example_columns [[("a".toList, "1".toList)]]
          [("a".toList, "1".toList)] w1 =
          .done ((.NS_END_DATA, [("a".toList, "1".toList)]), w2) ∧
        select_rows (example_env 0) 0 (example_bindrow example_columns)
          (example_getrow example_columns [[("a".toList, "1".toList)]]) "1row".toList 0
          example_world = .done (.TCL_OK, entered [("a".toList, "1".toList)] true w2) ∧
        select_rows (example_env 0) 0 (example_bindrow example_columns)
          (example_getrow example_columns [[("a".toList, "1".toList)]]) "0or1row".toList 0
          example_world = .done (.TCL_OK, entered [("a".toList, "1".toList)] true w2) :=
  ⟨example_env_calls 0 _, rfl,
    ⟨example_world, rfl, example_world_fits, example_world, rfl, example_world_fits⟩,
    (single_row_modes (example_env 0) (example_env_calls 0 _) 0
      (example_bindrow example_columns)
      (example_getrow example_columns [[("a".toList, "1".toList)]]) 0
      example_world example_world example_columns [[("a".toList, "1".toList)]] rfl
      ⟨example_world, rfl, example_world_fits, example_world, rfl, example_world_fits⟩).2.1
      _ rfl⟩


/-! ## The growth and the windows of `DynamicBindOut` -/

theorem bind_out_growth_aux (E : Nat) (piece : Piece) (fb : fetch_buffer_t) :
    (DynamicBindOut E 0 piece fb).2.buf_size
      = (if (DynamicBindOut E 0 piece fb).2.fetch_length ≥ fb.buf_size / 2
          then fb.buf_size + E else fb.buf_size) ∧
    (DynamicBindOut E 0 piece fb).2.fetch_length
      = (match piece with
        | .OCI_ONE_PIECE => 0
        | .OCI_FIRST_PIECE => 0
        | .OCI_NEXT_PIECE => (fb.fetch_length + fb.piecewise_fetch_length) % 65536
        | .OCI_LAST_PIECE => fb.fetch_length) := by
  unfold DynamicBindOut
  cases piece <;> simp only [ne_eq, not_true_eq_false, if_false] <;>
    split_ifs <;> simp_all

/-- C25, where the claim fails: with an increment of 4096 bytes and pieces of
4096 bytes, the buffer of a fresh descriptor has 4096, 8192 and 12288 bytes at
the successive calls: it grows by the increment and is not doubled. -/
theorem bind_out_growth_counterexample :
    (piecewise_out_calls 4096 .OCI_FIRST_PIECE malloc_fetch_buffer [4096, 4096, 4096]).map
        (fun d => d.buf_size) = [4096, 8192, 12288] ∧
    (12288 : Nat) ≠ 2 * 8192 := by
  decide

/-- C25, amended: as long as the fill offset stays below 65536, which the 16
bits of `fetch_length` can hold, a call of `DynamicBindOut` with iteration 0
adds the increment `EXEC_PLSQL_BUFFER_SIZE` to `buf_size` when the fill
offset of the call is at least half of `buf_size`, and leaves `buf_size` as
it is otherwise; the fill offset is not changed by the growth: it is 0 at a
first or only piece, and at a next piece it is the offset of the call before
plus the length of the piece stored since. -/
theorem bind_out_growth (E : Nat) (piece : Piece) (fb : fetch_buffer_t)
    (hfit : fb.fetch_length + fb.piecewise_fetch_length < 65536) :
    (DynamicBindOut E 0 piece fb).2.buf_size
      = (if (DynamicBindOut E 0 piece fb).2.fetch_length ≥ fb.buf_size / 2
          then fb.buf_size + E else fb.buf_size) ∧
    (DynamicBindOut E 0 piece fb).2.fetch_length
      = (match piece with
        | .OCI_ONE_PIECE => 0
        | .OCI_FIRST_PIECE => 0
        | .OCI_NEXT_PIECE => fb.fetch_length + fb.piecewise_fetch_length
        | .OCI_LAST_PIECE => fb.fetch_length) := by
  obtain ⟨h1, h2⟩ := bind_out_growth_aux E piece fb
  refine ⟨h1, ?_⟩
  rw [h2]
  cases piece <;> simp only
  exact Nat.mod_eq_of_lt hfit

/-- C25, amended, at the second call of a bind with an increment of 4096
bytes, after a first piece of 4096 bytes: the offset is 4096, which is at
least half of the 4096 bytes of the buffer, and the buffer gets 8192 bytes. -/
theorem bind_out_growth_witness :
    (piece_stored 4096 (DynamicBindOut 4096 0 .OCI_FIRST_PIECE malloc_fetch_buffer).2).fetch_length
      + (piece_stored 4096
          (DynamicBindOut 4096 0 .OCI_FIRST_PIECE malloc_fetch_buffer).2).piecewise_fetch_length
      < 65536 ∧
    (DynamicBindOut 4096 0 .OCI_NEXT_PIECE
        (piece_stored 4096 (DynamicBindOut 4096 0 .OCI_FIRST_PIECE malloc_fetch_buffer).2)).2.buf_size
      = 4096 + 4096 ∧
    (DynamicBindOut 4096 0 .OCI_NEXT_PIECE
        (piece_stored 4096
          (DynamicBindOut 4096 0 .OCI_FIRST_PIECE malloc_fetch_buffer).2)).2.fetch_length
      = 0 + 4096 :=
  have h := bind_out_growth 4096 .OCI_NEXT_PIECE
    (piece_stored 4096 (DynamicBindOut 4096 0 .OCI_FIRST_PIECE malloc_fetch_buffer).2)
    (by decide)
  ⟨by decide, h.1.trans (by decide), h.2.trans (by decide)⟩

theorem switch_body_simplified (c : Char) (s : Scanner)
    (h : s.state = .instr_state → quote_guard s) :
    switch_body c s = simplified_switch_body c s := by
  unfold switch_body simplified_switch_body
  cases hs : s.state with
  | base_state => rfl
  | bind_state => rfl
  | instr_state =>
    have hg := h hs
    unfold quote_guard at hg
    simp only [hg, and_true]

theorem quote_guard_step (c : Char) (cs : List Char) (s s1 : Scanner)
    (hr : s.rest = c :: cs) (h : s.state = .instr_state → quote_guard s)
    (h1 : switch_body c s = some s1) :
    (advance s1).state = .instr_state → quote_guard (advance s1) := by
  have hadv : ∀ t : Scanner, (advance t).state = t.state ∧
      (advance t).current_string_length = t.current_string_length := by
    intro t
    unfold advance
    cases t.rest <;> exact ⟨rfl, rfl⟩
  unfold switch_body at h1
  cases hs : s.state with
  | base_state =>
    rw [hs] at h1
    simp only at h1
    split_ifs at h1 with hq hcol
    · cases h1
      intro _
      exact Or.inr (hadv _).2
    · cases h1
      intro hst
      rw [(hadv _).1] at hst
      cases hst
    · cases h1
      intro hst
      rw [(hadv _).1, hs] at hst
      cases hst
  | instr_state =>
    rw [hs] at h1
    simp only at h1
    cases h1
    intro hst
    rw [(hadv _).1] at hst
    by_cases hq : c = '\''
    · have hg := h hs
      unfold quote_guard at hg
      simp only [hq, hg, and_self, if_true] at hst
      cases hst
    · left
      unfold advance
      simp only [hq, false_and, if_false, hr]
      exact hq
  | bind_state =>
    rw [hs] at h1
    simp only at h1
    intro hst
    rw [(hadv _).1] at hst
    split_ifs at h1 with he hb hl hl
    · cases h1
      cases hst
    · cases hbf : s.before with
      | nil => rw [hbf] at h1; cases h1
      | cons b bs =>
        rw [hbf] at h1
        cases h1
        cases hst
    all_goals first
      | (cases h1; done)
      | (cases h1; cases hst)

theorem scan_loop_simplified (fuel : Nat) :
    ∀ s : Scanner, (s.state = .instr_state → quote_guard s) →
      scan_loop fuel s = simplified_scan_loop fuel s := by
  induction fuel with
  | zero =>
    intro s _
    unfold scan_loop simplified_scan_loop
    rfl
  | succ fuel ih =>
    intro s h
    unfold scan_loop simplified_scan_loop
    cases hr : s.rest with
    | nil => rfl
    | cons c cs =>
      simp only
      by_cases hz : c = '\x00'
      · simp only [hz, if_true]
      · simp only [hz, if_false]
        rw [← switch_body_simplified c s h]
        cases h1 : switch_body c s with
        | none => rfl
        | some s1 => exact ih _ (quote_guard_step c cs s s1 hr h h1)

theorem scan_steps_guard (k : Nat) :
    ∀ s s1 : Scanner, (s.state = .instr_state → quote_guard s) →
      scan_steps k s = some s1 → (s1.state = .instr_state → quote_guard s1) := by
  induction k with
  | zero =>
    intro s s1 h hk
    unfold scan_steps at hk
    cases hk
    exact h
  | succ k ih =>
    intro s s1 h hk
    unfold scan_steps at hk
    cases hr : s.rest with
    | nil => rw [hr] at hk; cases hk
    | cons c cs =>
      rw [hr] at hk
      simp only at hk
      by_cases hz : c = '\x00'
      · simp only [hz, if_true] at hk
        cases hk
      · simp only [hz, if_false] at hk
        cases h1 : switch_body c s with
        | none => rw [h1] at hk; cases hk
        | some s2 =>
          rw [h1] at hk
          exact ih _ s1 (quote_guard_step c cs s s2 hr h h1) hk

/-- C29: for every input `parse_bind_variables` ends as the simplified scanner
does, in which every single quote read inside a literal closes it: with the
same list, or both in undefined behaviour when a name overruns `bindbuf`.
And in every state the loop reaches inside a literal, the guard
`lastchar != '\'' || current_string_length == 0` holds. -/
theorem doubled_quote_guard_redundant (input : List Char) :
    parse_bind_variables input = simplified_parse_bind_variables input ∧
    ∀ k s, scan_steps k (scan_init input) = some s → s.state = .instr_state →
      quote_guard s := by
  have h0 : (scan_init input).state = .instr_state → quote_guard (scan_init input) := by
    intro h
    cases h
  refine ⟨?_, fun k s hk => scan_steps_guard k _ s h0 hk⟩
  unfold parse_bind_variables simplified_parse_bind_variables scan_run
  rw [scan_loop_simplified _ _ h0]

/-- C29, at the input `'a''b'`: the two scanners agree, and after four
iterations the loop is inside the second literal, right after its opening
quote, where the guard holds because the literal is still empty. -/
theorem doubled_quote_guard_redundant_witness :
    parse_bind_variables "'a''b'".toList = simplified_parse_bind_variables "'a''b'".toList ∧
    scan_steps 4 (scan_init "'a''b'".toList)
      = some { before := ['\'', '\'', 'a', '\''], rest := ['b', '\''], state := .instr_state,
               lastchar := '\'', bindbuf := [], current_string_length := 0, names := [] } ∧
    quote_guard { before := ['\'', '\'', 'a', '\''], rest := ['b', '\''],
                  state := .instr_state, lastchar := '\'', bindbuf := [],
                  current_string_length := 0, names := [] } :=
  ⟨(doubled_quote_guard_redundant "'a''b'".toList).1, by decide,
    (doubled_quote_guard_redundant "'a''b'".toList).2 4 _ (by decide) rfl⟩

/-! ## Where the value of a placeholder comes from -/

theorem resolved_value_first_available (a : SelectArgs)
    (vars : List (List Char × List Char))
    (sets : List (List Char × List (List Char × List Char))) (var value : List Char)
    (h : resolved_value a vars sets var = some value) :
    first_available_value a vars sets var = some value := by
  unfold resolved_value at h
  unfold first_available_value
  cases hp : positional_index var with
  | some index =>
    rw [hp] at h
    simp only at h
    split_ifs at h with hc
    have h1 : 1 ≤ index := by omega
    simp only [Option.some_bind, h1, if_true, h]
  | none =>
    rw [hp] at h
    simp only [Option.none_bind]
    cases hs : a.set with
    | none =>
      rw [hs] at h
      simp only [Option.none_bind]
      exact h
    | some set =>
      rw [hs] at h
      simp only [Option.some_bind]
      simp only at h
      rw [h]

theorem total_bind_variable_unresolved (env : Env) (hs : engine_succeeds env)
    (fuel cid n : Nat) (k : List Nat) (vars : List (List Char × List Char))
    (sets : List (List Char × List (List Char × List Char))) (a : SelectArgs) (i : Nat)
    (hi : i < n) (var : List Char) (iters : Nat)
    (hnone : resolved_value a vars sets var = none) :
    Total (loop_state cid n k vars sets) (bind_variable env fuel a cid i var iters)
      (fun res w => res = none ∧ bind_state k vars sets w) := by
  refine total_weaken (total_and (Q := fun res _ => res = none)
    (T := fun _ w => bind_state k vars sets w) ?_
    (triple_weaken (triple_bind_variable k vars sets env fuel a cid i var iters)
      (fun _ h => h) (fun _ _ h => h.1)))
    (fun w h => ⟨h, h.2⟩) (fun _ _ h => h)
  unfold bind_variable
  refine total_bind (total_loop_set_fetchbuf cid n k vars sets i hi _) (fun _ => ?_)
  refine total_bind (total_bind_value cid n k vars sets a i hi var) (fun res => ?_)
  intro w hw
  have hres : res = none := by rw [hw.2, hnone]
  subst hres
  exact total_bind_error env hs fuel cid n k vars sets w hw.1

/-- C21, where the claim fails: `ns_ora dml db -bind s "update t set a = :x"`
with the variable `x` set in the interpreter and a set `s` that has no field
`x` returns `TCL_ERROR` with `undefined set element`, although the variable
would yield a value; no execute is made. -/
theorem bind_resolution_counterexample :
    first_available_value (select_args set_bind_dml) bind_set_world.tcl_vars
      bind_set_world.sets "x".toList = some "1".toList ∧
    OracleSelect (example_env 0) 1 set_bind_dml bind_set_world
      = .done (.TCL_ERROR,
          { bind_set_world with
            trace := [.OCIHandleAlloc .OCI_HTYPE_STMT,
              .OCIStmtPrepare "update t set a = :x".toList,
              .OCIAttrGet .OCI_ATTR_STMT_TYPE, .OCIHandleFree .OCI_HTYPE_STMT],
            dbh := { bind_set_world.dbh with
              connection := some { example_connection with n_columns := 1 } },
            result := "undefined set element `x'" }) := by
  decide!

/-- C21, amended: in the bind loop of `OracleSelect` the value of a
placeholder comes from one place, chosen by the form of its name and by the
presence of `-bind`, with no second try: a name that reads as a number `N`
takes the argument `N` places after the SQL text and nothing else, and is an
error when `N` is 0 or beyond the arguments; another name takes the field of
the set when `-bind` was given, and else the variable of the interpreter, and
is an error when that one place has no value.  A value that is found is the
first available one of the specification.  When no value is found the body
of the loop returns the error after a flush, and no execute has been made. -/
theorem bind_resolution (env : Env) (hs : engine_succeeds env) (fuel cid n : Nat)
    (k : List Nat) (vars : List (List Char × List Char))
    (sets : List (List Char × List (List Char × List Char))) (a : SelectArgs) (i : Nat)
    (hi : i < n) (var : List Char) (iters : Nat) (w : World)
    (hw : loop_state cid n k vars sets w) :
    (∃ w1, bind_value a cid i var w = .done (resolved_value a vars sets var, w1) ∧
      bind_state k vars sets w1) ∧
    resolved_value a vars sets var
      = (match positional_index var with
        | some index =>
            if 1 ≤ index ∧ index ≤ a.objv.length - a.argv_base - 1
              then a.objv[index + a.argv_base]? else none
        | none =>
            match a.set with
            | some set => (sets.lookup set).bind (fun fields => fields.lookup var)
            | none => vars.lookup var) ∧
    (∀ value, resolved_value a vars sets var = some value →
      first_available_value a vars sets var = some value) ∧
    (resolved_value a vars sets var = none →
      ∃ w1, bind_variable env fuel a cid i var iters w = .done (none, w1) ∧
        executes w1.trace = k) := by
  refine ⟨?_, ?_, fun value h => resolved_value_first_available a vars sets var value h,
    fun hnone => ?_⟩
  · obtain ⟨res, w1, h1, h2, h3⟩ := total_bind_value cid n k vars sets a i hi var w hw
    subst h3
    exact ⟨w1, h1, h2.2⟩
  · unfold resolved_value
    cases positional_index var with
    | some index =>
      simp only
      by_cases hc : index < 1 ∨ index > a.objv.length - a.argv_base - 1
      · rw [if_pos hc, if_neg (by omega)]
      · rw [if_neg hc, if_pos (by omega)]
    | none =>
      simp only
      cases a.set <;> rfl
  · obtain ⟨res, w1, h1, h2, h3⟩ := total_bind_variable_unresolved env hs fuel cid n k vars
      sets a i hi var iters hnone w hw
    subst h2
    exact ⟨w1, h1, h3.1⟩

/-- C21, amended, at the placeholder `x` of the command of the
counterexample, inside the bind loop: the set has no field `x`, so no value
is found, and the body of the loop returns the error. -/
theorem bind_resolution_witness :
    engine_succeeds (example_env 0) ∧
    loop_state 0 1 [] bind_set_world.tcl_vars bind_set_world.sets bind_loop_world ∧
    resolved_value (select_args set_bind_dml) bind_set_world.tcl_vars bind_set_world.sets
      "x".toList = none ∧
    ∃ w1, bind_variable (example_env 0) 1 (select_args set_bind_dml) 0 0 "x".toList 1
        bind_loop_world = .done (none, w1) ∧
      executes w1.trace = [] :=
  ⟨example_env_succeeds 0,
    ⟨⟨_, rfl, rfl, rfl, fun fbs h => (by cases h; rfl), fun _ h => (by cases h)⟩, rfl, rfl, rfl⟩,
    by decide,
    (bind_resolution (example_env 0) (example_env_succeeds 0) 1 0 1 [] bind_set_world.tcl_vars
      bind_set_world.sets (select_args set_bind_dml) 0 (by decide) "x".toList 1
      bind_loop_world
      ⟨⟨_, rfl, rfl, rfl, fun fbs h => (by cases h; rfl), fun _ h => (by cases h)⟩,
        rfl, rfl, rfl⟩).2.2.2 (by decide)⟩


/-! ## The teardown of `Ns_OracleCloseDb` -/

theorem total_oci_error_p_teardown (env : Env) (hcodes : no_closing_code env) (fuel cid : Nat)
    (k : List NativeCall) (ocifn : String) (st : oci_status_t) :
    Total (teardown_state cid k) (oci_error_p env fuel true ocifn st)
      (fun _ w => teardown_state cid k w) := by
  intro w hw
  obtain ⟨⟨c, hc, hid⟩, hk⟩ := hw
  by_cases h1 : st = .OCI_SUCCESS ∨ st = .OCI_SUCCESS_WITH_INFO
  · exact ⟨false, w, oci_error_p_success env fuel true ocifn st h1 w, ⟨c, hc, hid⟩, hk⟩
  · by_cases h2 : st = .OCI_ERROR
    · subst h2
      obtain ⟨c1, c2, c3⟩ := hcodes w.trace.length
      refine ⟨true, _, oci_error_p_plain env fuel ocifn w c hc c1 c2 c3, ⟨c, hc, hid⟩, ?_⟩
      simp only [List.filter_append, hk]
      simp [is_release_call]
    · refine ⟨true, _, (classifiers_other_status env fuel ocifn st (fun h => h1 (Or.inl h))
        (fun h => h1 (Or.inr h)) h2 w).1, ⟨c, hc, hid⟩, hk⟩

theorem total_close_release_teardown (env : Env) (hcodes : no_closing_code env)
    (fuel cid : Nat) (k : List NativeCall) (t : HandleType)
    (clear : ora_connection_t → ora_connection_t) (hclear : ∀ c, (clear c).id = c.id) :
    Total (teardown_state cid k) (close_release env (oci_error_p env fuel) cid t clear)
      (fun _ w => teardown_state cid (k ++ [.OCIHandleFree t]) w) := by
  unfold close_release
  refine total_bind (total_connection_at (fun w hw => hw.1)) (fun _ => ?_)
  refine total_bind (Q := fun _ w => teardown_state cid (k ++ [.OCIHandleFree t]) w)
    (total_oci (fun w hw => ?_)) (fun r => ?_)
  · obtain ⟨⟨c, hc, hid⟩, hk⟩ := hw.1
    refine ⟨⟨c, hc, hid⟩, ?_⟩
    simp only [List.filter_append, hk]
    simp [is_release_call]
  refine total_bind (total_oci_error_p_teardown env hcodes fuel cid _ _ _) (fun _ => ?_)
  refine total_set_connection (fun w hw => ?_)
  obtain ⟨⟨c, hc, hid⟩, hk⟩ := hw
  exact ⟨c, hc, hid, ⟨clear c, rfl, by rw [hclear c]; exact hid⟩, hk⟩

/-- C28, where the claim fails.  With calls that succeed, the handles are
allocated in the order environment, error, server, service context, session,
and released in the order service context, server, error, session,
environment, which is not the reverse.  And when the first detach fails with
ORA-03113, the classifier closes the connection itself, and the teardown that
called it goes on with the struct that has been freed. -/
theorem close_teardown_counterexample :
    Ns_OracleOpenDb (example_env 0) 1 closed_world
      = .done (.NS_OK,
          { closed_world with
            trace := [.OCIEnvCreate, .OCIHandleAlloc .OCI_HTYPE_ERROR,
              .OCIHandleAlloc .OCI_HTYPE_SERVER, .OCIHandleAlloc .OCI_HTYPE_SVCCTX,
              .OCIServerAttach, .OCIAttrSet .OCI_ATTR_SERVER,
              .OCIHandleAlloc .OCI_HTYPE_SESSION, .OCIAttrSet .OCI_ATTR_USERNAME,
              .OCIAttrSet .OCI_ATTR_PASSWORD, .OCISessionBegin,
              .OCIAttrSet .OCI_ATTR_SESSION],
            dbh := { closed_world.dbh with
              connection := some (fresh_connection 1), connected := true },
            next_id := 2 }) ∧
    Ns_OracleCloseDb (example_env 0) 1 example_world
      = .done (.NS_OK,
          { example_world with
            trace := [.OCIServerDetach, .OCIHandleFree .OCI_HTYPE_SVCCTX,
              .OCIHandleFree .OCI_HTYPE_SERVER, .OCIHandleFree .OCI_HTYPE_ERROR,
              .OCIHandleFree .OCI_HTYPE_SESSION, .OCIHandleFree .OCI_HTYPE_ENV],
            dbh := { example_world.dbh with connection := none, connected := false } }) ∧
    Ns_OracleCloseDb failing_detach_env 2 example_world = .fault := by
  decide!

/-- C28, amended: on a handle with a connection, and with an engine that
never reports one of the error codes after which `oci_error_p` closes the
connection itself, `Ns_OracleCloseDb` returns `NS_OK` whatever the statuses of
its calls are; the releases it has made are the detach and then the handles
of the service context, the server, the error, the session and the
environment, each once and in this order; and the handle is left with no
connection and marked as not connected. -/
theorem close_teardown (env : Env) (hcodes : no_closing_code env) (fuel : Nat) (w : World)
    (hc : w.dbh.connection ≠ none) :
    ∃ w1, Ns_OracleCloseDb env fuel w = .done (.NS_OK, w1) ∧
      w1.trace.filter is_release_call
        = w.trace.filter is_release_call ++
          [.OCIServerDetach, .OCIHandleFree .OCI_HTYPE_SVCCTX,
            .OCIHandleFree .OCI_HTYPE_SERVER, .OCIHandleFree .OCI_HTYPE_ERROR,
            .OCIHandleFree .OCI_HTYPE_SESSION, .OCIHandleFree .OCI_HTYPE_ENV] ∧
      w1.dbh.connection = none ∧ w1.dbh.connected = false := by
  cases hconn : w.dbh.connection with
  | none => exact absurd hconn hc
  | some c0 =>
    have hstart : teardown_state c0.id (w.trace.filter is_release_call) w :=
      ⟨⟨c0, hconn, rfl⟩, rfl⟩
    have key : Total (teardown_state c0.id (w.trace.filter is_release_call))
        (Ns_OracleCloseDb env fuel)
        (fun r w1 => r = Ns_ReturnCode.NS_OK ∧
          w1.trace.filter is_release_call
            = w.trace.filter is_release_call ++
              [.OCIServerDetach, .OCIHandleFree .OCI_HTYPE_SVCCTX,
                .OCIHandleFree .OCI_HTYPE_SERVER, .OCIHandleFree .OCI_HTYPE_ERROR,
                .OCIHandleFree .OCI_HTYPE_SESSION, .OCIHandleFree .OCI_HTYPE_ENV] ∧
          w1.dbh.connection = none ∧ w1.dbh.connected = false) := by
      intro w2 hw2
      have hconn2 : ∃ c2, w2.dbh.connection = some c2 ∧ c2.id = c0.id := hw2.1
      obtain ⟨c2, hc2, hid2⟩ := hconn2
      unfold Ns_OracleCloseDb Ns_OracleCloseDb_with
      rw [get_world_bind]
      simp only [hc2, hid2]
      refine total_bind
        (Q := fun _ w4 => teardown_state c0.id
          (w.trace.filter is_release_call ++ [.OCIServerDetach]) w4)
        (total_oci (fun w3 hw3 => ?_)) (fun r => ?_) w2 hw2
      · obtain ⟨⟨c, hc3, hid⟩, hk⟩ := hw3
        refine ⟨⟨c, hc3, hid⟩, ?_⟩
        simp only [List.filter_append, hk]
        simp [is_release_call]
      refine total_bind (total_oci_error_p_teardown env hcodes fuel c0.id _ _ _) (fun _ => ?_)
      refine total_bind (total_close_release_teardown env hcodes fuel c0.id _ _ _
        (fun _ => rfl)) (fun _ => ?_)
      refine total_bind (total_close_release_teardown env hcodes fuel c0.id _ _ _
        (fun _ => rfl)) (fun _ => ?_)
      refine total_bind (total_close_release_teardown env hcodes fuel c0.id _ _ _
        (fun _ => rfl)) (fun _ => ?_)
      refine total_bind (total_close_release_teardown env hcodes fuel c0.id _ _ _
        (fun _ => rfl)) (fun _ => ?_)
      refine total_bind (total_close_release_teardown env hcodes fuel c0.id _ _ _
        (fun _ => rfl)) (fun _ => ?_)
      refine total_bind (total_connection_at (fun w hw => hw.1)) (fun _ => ?_)
      refine total_bind (Q := fun _ w1 =>
          w1.trace.filter is_release_call
            = w.trace.filter is_release_call ++
              [.OCIServerDetach, .OCIHandleFree .OCI_HTYPE_SVCCTX,
                .OCIHandleFree .OCI_HTYPE_SERVER, .OCIHandleFree .OCI_HTYPE_ERROR,
                .OCIHandleFree .OCI_HTYPE_SESSION, .OCIHandleFree .OCI_HTYPE_ENV] ∧
          w1.dbh.connection = none ∧ w1.dbh.connected = false)
        (total_modify_world (fun w3 hw3 => ?_)) (fun _ => total_pure (fun _ h => ⟨rfl, h⟩))
      refine ⟨?_, rfl, rfl⟩
      have := hw3.1.2
      simp only [List.append_assoc, List.singleton_append, List.cons_append,
        List.nil_append] at this
      exact this
    obtain ⟨r, w1, h1, h2, h3⟩ := key w hstart
    subst h2
    exact ⟨w1, h1, h3⟩

theorem failing_release_env_codes : no_closing_code failing_release_env :=
  fun _ => show (600 : Int) ∉ oci_fatal_codes ∧ (600 : Int) ≠ 20 ∧ (600 : Int) ≠ 1034 from
    by decide

/-- C28, amended, with an engine that fails the detach with ORA-00600 and
every release of a handle with `OCI_INVALID_HANDLE`. -/
theorem close_teardown_witness :
    no_closing_code failing_release_env ∧
    example_world.dbh.connection ≠ none ∧
    ∃ w1, Ns_OracleCloseDb failing_release_env 1 example_world = .done (.NS_OK, w1) ∧
      w1.trace.filter is_release_call
        = example_world.trace.filter is_release_call ++
          [.OCIServerDetach, .OCIHandleFree .OCI_HTYPE_SVCCTX,
            .OCIHandleFree .OCI_HTYPE_SERVER, .OCIHandleFree .OCI_HTYPE_ERROR,
            .OCIHandleFree .OCI_HTYPE_SESSION, .OCIHandleFree .OCI_HTYPE_ENV] ∧
      w1.dbh.connection = none ∧ w1.dbh.connected = false :=
  ⟨failing_release_env_codes, (by decide),
    close_teardown failing_release_env failing_release_env_codes 1 example_world (by decide)⟩

/-! ## The buffers of the columns -/

theorem column_buffer_table (L X size : Nat) (fb : fetch_buffer_t) :
    (fb.type = OCI_TYPECODE_CLOB ∨ fb.type = OCI_TYPECODE_BLOB →
      column_buffer L X size fb = fb) ∧
    (fb.type = SQLT_RDD →
      (column_buffer L X size fb).size = 18 ∧ (column_buffer L X size fb).buf_size = 18 + 8) ∧
    (fb.type = SQLT_NUM →
      (column_buffer L X size fb).size = 81 ∧ (column_buffer L X size fb).buf_size = 81 + 8) ∧
    (fb.type = SQLT_DAT →
      (column_buffer L X size fb).size = 20 ∧ (column_buffer L X size fb).buf_size = 20 + 8) ∧
    (fb.type = SQLT_TIMESTAMP →
      (column_buffer L X size fb).size = 26 ∧ (column_buffer L X size fb).buf_size = 26 + 8) ∧
    (fb.type = SQLT_TIMESTAMP_TZ →
      (column_buffer L X size fb).size = 33 ∧ (column_buffer L X size fb).buf_size = 33 + 8) ∧
    (fb.type = SQLT_LNG →
      (column_buffer L X size fb).size = fb.size ∧ (column_buffer L X size fb).buf_size = L) ∧
    (default_case fb.type →
      (column_buffer L X size fb).size = size ∧
      (column_buffer L X size fb).buf_size
        = (if fb.type = SQLT_BIN then 2 * size + 8 else size + 8) * X) := by
  refine ⟨fun h => ?_, fun h => ?_, fun h => ?_, fun h => ?_, fun h => ?_, fun h => ?_,
    fun h => ?_, fun h => ?_⟩
  · unfold column_buffer
    rw [if_pos h]
  · simp [column_buffer, h, OCI_TYPECODE_CLOB, OCI_TYPECODE_BLOB, SQLT_RDD]
  · simp [column_buffer, h, OCI_TYPECODE_CLOB, OCI_TYPECODE_BLOB, SQLT_RDD, SQLT_NUM]
  · simp [column_buffer, h, OCI_TYPECODE_CLOB, OCI_TYPECODE_BLOB, SQLT_RDD, SQLT_NUM, SQLT_LNG,
      SQLT_DAT]
  · simp [column_buffer, h, OCI_TYPECODE_CLOB, OCI_TYPECODE_BLOB, SQLT_RDD, SQLT_NUM, SQLT_LNG,
      SQLT_DAT, SQLT_TIMESTAMP]
  · simp [column_buffer, h, OCI_TYPECODE_CLOB, OCI_TYPECODE_BLOB, SQLT_RDD, SQLT_NUM, SQLT_LNG,
      SQLT_DAT, SQLT_TIMESTAMP, SQLT_TIMESTAMP_TZ]
  · simp [column_buffer, h, OCI_TYPECODE_CLOB, OCI_TYPECODE_BLOB, SQLT_RDD, SQLT_NUM, SQLT_LNG]
  · unfold column_buffer
    unfold default_case at h
    obtain ⟨h1, h2, h3, h4, h5, h6, h7, h8⟩ := h
    simp only [h1, h2, h3, h4, h5, h6, h7, h8, or_self, if_false]
    refine ⟨trivial, ?_⟩
    split_ifs <;> ring

theorem column_buffer_buf (L X size : Nat) (fb : fetch_buffer_t)
    (h : fb.type ≠ OCI_TYPECODE_CLOB ∧ fb.type ≠ OCI_TYPECODE_BLOB) :
    (column_buffer L X size fb).buf = some [] := by
  unfold column_buffer
  simp only [h.1, h.2, or_self, if_false]
  split_ifs <;> rfl

theorem with_fetchbuf_self (w : World) (c : ora_connection_t) (fbs : List fetch_buffer_t)
    (i : Nat) (fb : fetch_buffer_t) (hc : w.dbh.connection = some c)
    (hf : c.fetch_buffers = some fbs) (hi : fbs[i]? = some fb) :
    with_fetchbuf w c i fb = w := by
  have hset : fbs.set i fb = fbs := by
    apply List.ext_getElem?
    intro j
    by_cases hj : i = j
    · subst hj
      rcases Nat.lt_or_ge i fbs.length with h | h
      · rw [List.getElem?_set_self h, hi]
      · rw [List.getElem?_eq_none h] at hi
        cases hi
    · rw [List.getElem?_set_ne hj]
  cases w with
  | mk trace dbh result tcl_vars sets next_id =>
    cases dbh with
    | mk connection connected user password code msg =>
      cases c with
      | mk id env err srv svc auth stmt mode n_columns fetch_buffers interp =>
        simp only at hc hf
        subst hc hf
        simp only [with_fetchbuf, Option.map_some', hset]

theorem fetchbuf_at_with (cid i : Nat) (w : World) (c : ora_connection_t)
    (fbs : List fetch_buffer_t) (d : fetch_buffer_t) (hid : c.id = cid)
    (hf : c.fetch_buffers = some fbs) (hi : i < fbs.length) :
    fetchbuf_at cid i (with_fetchbuf w c i d) = .done (d, with_fetchbuf w c i d) :=
  fetchbuf_at_apply cid i (with_fetchbuf w c i d) _ (fbs.set i d) d rfl hid
    (by simp only [hf, Option.map_some']) (List.getElem?_set_self hi)

theorem set_fetchbuf_with (cid i : Nat) (w : World) (c : ora_connection_t)
    (fbs : List fetch_buffer_t) (d : fetch_buffer_t) (f : fetch_buffer_t → fetch_buffer_t)
    (hid : c.id = cid) (hf : c.fetch_buffers = some fbs) (hi : i < fbs.length) :
    set_fetchbuf cid i f (with_fetchbuf w c i d) = .done ((), with_fetchbuf w c i (f d)) := by
  unfold set_fetchbuf
  rw [bind_apply, fetchbuf_at_with cid i w c fbs d hid hf hi]
  simp only
  rw [set_connection_apply cid _ (with_fetchbuf w c i d) _ rfl hid]
  simp only [with_fetchbuf, hf, Option.map_some', List.set_set]

theorem connection_at_with (cid i : Nat) (w : World) (c : ora_connection_t)
    (d : fetch_buffer_t) (hid : c.id = cid) :
    connection_at cid (with_fetchbuf w c i d)
      = .done ({ c with fetch_buffers := c.fetch_buffers.map (fun fbs => fbs.set i d) },
          with_fetchbuf w c i d) :=
  connection_at_apply cid (with_fetchbuf w c i d) _ rfl hid

theorem oci_with (env : Env) (call : NativeCall) (i : Nat) (w : World) (c : ora_connection_t)
    (d : fetch_buffer_t) :
    oci env call (with_fetchbuf w c i d)
      = .done (env.engine w.trace.length call,
          with_fetchbuf { w with trace := w.trace ++ [call] } c i d) := rfl

theorem getElem?_lt {α : Type} {l : List α} {i : Nat} {a : α} (h : l[i]? = some a) :
    i < l.length := by
  rcases Nat.lt_or_ge i l.length with h1 | h1
  · exact h1
  · rw [List.getElem?_eq_none h1] at h
    cases h

theorem size_column_fixed (env : Env) (fuel L X cid i : Nat) (w : World)
    (c : ora_connection_t) (fbs : List fetch_buffer_t) (fb : fetch_buffer_t)
    (hc : w.dbh.connection = some c) (hid : c.id = cid) (hf : c.fetch_buffers = some fbs)
    (hi : fbs[i]? = some fb) (hd : ¬ default_case fb.type) :
    size_column env fuel L X cid i w
      = .done (true, with_fetchbuf w c i (column_buffer L X 0 fb)) := by
  have hilt := getElem?_lt hi
  rw [← with_fetchbuf_self w c fbs i fb hc hf hi]
  unfold size_column
  rw [bind_apply, fetchbuf_at_with cid i w c fbs fb hid hf hilt]
  simp only [hd, if_false]
  rw [bind_apply, set_fetchbuf_with cid i w c fbs fb _ hid hf hilt]
  simp only [pure_apply]
  rw [with_fetchbuf_self w c fbs i fb hc hf hi]

theorem size_column_default (env : Env) (fuel L X cid i : Nat) (w : World)
    (c : ora_connection_t) (fbs : List fetch_buffer_t) (fb : fetch_buffer_t)
    (hc : w.dbh.connection = some c) (hid : c.id = cid) (hf : c.fetch_buffers = some fbs)
    (hi : fbs[i]? = some fb) (hd : default_case fb.type)
    (hs : (env.engine w.trace.length (.OCIAttrGet .OCI_ATTR_DATA_SIZE)).status = .OCI_SUCCESS) :
    size_column env fuel L X cid i w
      = .done (true,
          with_fetchbuf { w with trace := w.trace ++ [.OCIAttrGet .OCI_ATTR_DATA_SIZE] } c i
            (column_buffer L X
              (env.engine w.trace.length (.OCIAttrGet .OCI_ATTR_DATA_SIZE)).value.toNat fb)) := by
  have hilt := getElem?_lt hi
  have hcb : ∀ v, column_buffer L X v { fb with size := v } = column_buffer L X v fb := by
    intro v
    unfold column_buffer default_case at *
    obtain ⟨h1, h2, h3, h4, h5, h6, h7, h8⟩ := hd
    simp only [h1, h2, h3, h4, h5, h6, h7, h8, or_self, if_false]
  rw [← with_fetchbuf_self w c fbs i fb hc hf hi]
  unfold size_column
  rw [bind_apply, fetchbuf_at_with cid i w c fbs fb hid hf hilt]
  simp only [hd, if_true]
  rw [bind_apply, oci_with]
  simp only
  rw [bind_apply, set_fetchbuf_with cid i _ c fbs fb _ hid hf hilt]
  simp only
  rw [bind_apply, oci_error_p_success env fuel true _ _ (Or.inl hs)]
  simp only [Bool.false_eq_true, if_false]
  rw [bind_apply, set_fetchbuf_with cid i _ c fbs _ _ hid hf hilt]
  simp only [pure_apply, hcb]
  rw [with_fetchbuf_self w c fbs i fb hc hf hi]

/-- C23, where the claim fails: with `CharExpansion` set to 2, the column of
type `SQLT_BIN` for which the engine reports 10 bytes gets a buffer of
`(2 * 10 + 8) * 2 = 56` bytes: the factor scales the buffers of binary
columns too. -/
theorem column_sizing_counterexample :
    size_column column_env 1 16384 2 0 0 (column_world SQLT_BIN)
      = .done (true,
          with_fetchbuf
            { column_world SQLT_BIN with trace := [.OCIAttrGet .OCI_ATTR_DATA_SIZE] }
            { example_connection with
              stmt := true, n_columns := 1,
              fetch_buffers := some [{ malloc_fetch_buffer with type := SQLT_BIN }] } 0
            { malloc_fetch_buffer with
              type := SQLT_BIN, size := 10, buf_size := 56, buf := some [],
              allocated := 56 }) ∧
    (56 : Nat) ≠ 2 * 10 + 8 := by
  decide!

/-- C23, amended: the `switch` of the first loop of `Ns_OracleBindRow` leaves
in the descriptor of a column what `column_buffer` says, for the size that
the engine reports in the `default` case: nothing for a CLOB or a BLOB; the
fixed sizes 18, 81, 20, 26 and 33 with 8 bytes more for `SQLT_RDD`,
`SQLT_NUM`, `SQLT_DAT`, `SQLT_TIMESTAMP` and `SQLT_TIMESTAMP_TZ`, whatever the
engine would report; `lob_buffer_size` bytes for `SQLT_LNG`; and for every
other type `s + 8` bytes, or `2 * s + 8` for `SQLT_BIN`, times the
character-expansion factor in both cases. -/
theorem column_sizing (env : Env) (fuel L X cid i : Nat) (w : World)
    (c : ora_connection_t) (fbs : List fetch_buffer_t) (fb : fetch_buffer_t)
    (hc : w.dbh.connection = some c) (hid : c.id = cid) (hf : c.fetch_buffers = some fbs)
    (hi : fbs[i]? = some fb) :
    (¬ default_case fb.type →
      size_column env fuel L X cid i w
        = .done (true, with_fetchbuf w c i (column_buffer L X 0 fb))) ∧
    (default_case fb.type →
      (env.engine w.trace.length (.OCIAttrGet .OCI_ATTR_DATA_SIZE)).status = .OCI_SUCCESS →
      size_column env fuel L X cid i w
        = .done (true,
            with_fetchbuf { w with trace := w.trace ++ [.OCIAttrGet .OCI_ATTR_DATA_SIZE] } c i
              (column_buffer L X
                (env.engine w.trace.length (.OCIAttrGet .OCI_ATTR_DATA_SIZE)).value.toNat
                fb))) ∧
    (∀ size,
      (fb.type = OCI_TYPECODE_CLOB ∨ fb.type = OCI_TYPECODE_BLOB →
        column_buffer L X size fb = fb) ∧
      (fb.type = SQLT_RDD →
        (column_buffer L X size fb).size = 18 ∧
          (column_buffer L X size fb).buf_size = 18 + 8) ∧
      (fb.type = SQLT_NUM →
        (column_buffer L X size fb).size = 81 ∧
          (column_buffer L X size fb).buf_size = 81 + 8) ∧
      (fb.type = SQLT_DAT →
        (column_buffer L X size fb).size = 20 ∧
          (column_buffer L X size fb).buf_size = 20 + 8) ∧
      (fb.type = SQLT_TIMESTAMP →
        (column_buffer L X size fb).size = 26 ∧
          (column_buffer L X size fb).buf_size = 26 + 8) ∧
      (fb.type = SQLT_TIMESTAMP_TZ →
        (column_buffer L X size fb).size = 33 ∧
          (column_buffer L X size fb).buf_size = 33 + 8) ∧
      (fb.type = SQLT_LNG →
        (column_buffer L X size fb).size = fb.size ∧
          (column_buffer L X size fb).buf_size = L) ∧
      (default_case fb.type →
        (column_buffer L X size fb).size = size ∧
        (column_buffer L X size fb).buf_size
          = (if fb.type = SQLT_BIN then 2 * size + 8 else size + 8) * X)) :=
  ⟨size_column_fixed env fuel L X cid i w c fbs fb hc hid hf hi,
    size_column_default env fuel L X cid i w c fbs fb hc hid hf hi,
    fun size => column_buffer_table L X size fb⟩

/-- C23, amended, at a column of type `SQLT_NUM`, for which the engine is not
asked: the buffer has `81 + 8` bytes. -/
theorem column_sizing_witness :
    (column_world SQLT_NUM).dbh.connection
      = some { example_connection with
          stmt := true, n_columns := 1,
          fetch_buffers := some [{ malloc_fetch_buffer with type := SQLT_NUM }] } ∧
    ¬ default_case SQLT_NUM ∧
    size_column column_env 1 16384 1 0 0 (column_world SQLT_NUM)
      = .done (true,
          with_fetchbuf (column_world SQLT_NUM)
            { example_connection with
              stmt := true, n_columns := 1,
              fetch_buffers := some [{ malloc_fetch_buffer with type := SQLT_NUM }] } 0
            (column_buffer 16384 1 0 { malloc_fetch_buffer with type := SQLT_NUM })) ∧
    (column_buffer 16384 1 0 { malloc_fetch_buffer with type := SQLT_NUM }).buf_size
      = 81 + 8 :=
  ⟨rfl, by decide,
    (column_sizing column_env 1 16384 1 0 0 (column_world SQLT_NUM) _ _
      { malloc_fetch_buffer with type := SQLT_NUM } rfl rfl rfl rfl).1 (by decide),
    (((column_sizing column_env 1 16384 1 0 0 (column_world SQLT_NUM) _ _
      { malloc_fetch_buffer with type := SQLT_NUM } rfl rfl rfl rfl).2.2 0).2.2.1 rfl).2⟩

/-! ## The margin of the buffers -/

/-- C22, where the claim fails: the bind loop of `ns_ora dml` gives the
descriptor of the placeholder `:1` a buffer, with `DML_BUFFER_SIZE` as its
length in `fetch_length`, and leaves `size` and `buf_size` at the 0 of
`malloc_fetch_buffers`. -/
theorem buffer_margin_counterexample :
    bind_variable (example_env 0) 1 (select_args scalar_dml) 0 0 "1".toList 1 bind_loop_world
      = .done (some 1,
          with_fetchbuf
            { bind_loop_world with
              trace := [.OCIBindByName "1".toList 4096 true, .OCIBindDynamic] }
            { example_connection with
              stmt := true, n_columns := 1, fetch_buffers := some [malloc_fetch_buffer] } 0
            { malloc_fetch_buffer with
              type := -1, bind := true, buf := some "v".toList, allocated := 4096,
              fetch_length := 4096, size := 0, buf_size := 0 }) ∧
    ¬ ((0 : Nat) + 8 ≤ 0) := by
  decide!

/-- C22, amended: with a character-expansion factor of at least 1, a
descriptor to which `Ns_OracleBindRow` gives a buffer for a column that is
not of type `SQLT_LNG` records a `buf_size` of at least `size + 8`; for a
column of type `SQLT_LNG` it records `lob_buffer_size` and leaves `size` as
`malloc_fetch_buffers` set it, so that the margin is there exactly when
`lob_buffer_size` is at least 8 more.  The growth steps, `DynamicBindOut`
and the start of a pass of the loop of a LONG column, leave `size` alone and
never decrease `buf_size`, so they keep the margin where it is there. -/
theorem buffer_margin (L X size : Nat) (hX : 1 ≤ X) (fb : fetch_buffer_t) :
    (fb.type ≠ SQLT_LNG → fb.buf = none → (column_buffer L X size fb).buf ≠ none →
      (column_buffer L X size fb).size + 8 ≤ (column_buffer L X size fb).buf_size) ∧
    (fb.type = SQLT_LNG →
      (column_buffer L X size fb).buf ≠ none ∧
      (column_buffer L X size fb).size = fb.size ∧
      (column_buffer L X size fb).buf_size = L) ∧
    (∀ E iter piece,
      (DynamicBindOut E iter piece fb).2.size = fb.size ∧
      fb.buf_size ≤ (DynamicBindOut E iter piece fb).2.buf_size) ∧
    (∀ ret_len,
      (long_window ret_len fb).size = fb.size ∧
      fb.buf_size ≤ (long_window ret_len fb).buf_size) := by
  refine ⟨fun hl hb hbuf => ?_, fun hl => ?_, fun E iter piece => ?_, fun ret_len => ?_⟩
  · unfold column_buffer at hbuf ⊢
    split_ifs at hbuf ⊢ <;> first
      | exact absurd hb hbuf
      | exact absurd ‹fb.type = SQLT_LNG› hl
      | exact le_refl _
      | (simp only
         have := Nat.le_mul_of_pos_right (size * 2 + 8) hX
         omega)
      | (simp only
         have := Nat.le_mul_of_pos_right (size + 8) hX
         omega)
  · have h := (column_buffer_table L X size fb).2.2.2.2.2.2.1 hl
    refine ⟨?_, h⟩
    rw [column_buffer_buf L X size fb (by rw [hl]; decide)]
    exact fun h => (by cases h)
  · refine ⟨?_, DynamicBindOut_buf_size_le E iter piece fb⟩
    unfold DynamicBindOut
    cases piece <;> simp only <;> split_ifs <;> rfl
  · unfold long_window
    split_ifs
    · exact ⟨rfl, by simp only; omega⟩
    · exact ⟨rfl, le_refl _⟩

/-- C22, amended, at a column of type `SQLT_BIN` of 10 bytes with the factor
2: the buffer has 56 bytes, which is 38 more than `size + 8`. -/
theorem buffer_margin_witness :
    (1 : Nat) ≤ 2 ∧
    ({ malloc_fetch_buffer with type := SQLT_BIN } : fetch_buffer_t).type ≠ SQLT_LNG ∧
    ({ malloc_fetch_buffer with type := SQLT_BIN } : fetch_buffer_t).buf = none ∧
    (column_buffer 16384 2 10 { malloc_fetch_buffer with type := SQLT_BIN }).buf ≠ none ∧
    (column_buffer 16384 2 10 { malloc_fetch_buffer with type := SQLT_BIN }).size + 8
      ≤ (column_buffer 16384 2 10 { malloc_fetch_buffer with type := SQLT_BIN }).buf_size :=
  ⟨by decide, by decide, rfl, by decide,
    (buffer_margin 16384 2 10 (by decide) { malloc_fetch_buffer with type := SQLT_BIN }).1
      (by decide) rfl (by decide)⟩

/-! ## The value of a LONG column -/

theorem get_world_with (i : Nat) (w : World) (c : ora_connection_t) (d : fetch_buffer_t) :
    get_world (with_fetchbuf w c i d) = .done (with_fetchbuf w c i d, with_fetchbuf w c i d) :=
  rfl

/-- A pass of the loop of a LONG column whose fetch asks for more data. -/
theorem long_loop_pass_more (env : Env) (fuel : Nat) (pieces : Nat → List Char)
    (cid i n : Nat) (ret_len : Nat) (w : World) (c : ora_connection_t)
    (fbs : List fetch_buffer_t) (d : fetch_buffer_t) (hid : c.id = cid)
    (hf : c.fetch_buffers = some fbs) (hi : i < fbs.length)
    (h1 : (env.engine w.trace.length .OCIStmtGetPieceInfo).status = .OCI_SUCCESS)
    (h2 : ∀ window,
      (env.engine (w.trace.length + 1) (.OCIStmtSetPieceInfo window)).status = .OCI_SUCCESS)
    (h3 : (env.engine (w.trace.length + 2) .OCIStmtFetch).status = .OCI_NEED_DATA) :
    long_loop env fuel pieces cid i (n + 1) ret_len (with_fetchbuf w c i d)
      = long_loop env fuel pieces cid i n (pieces (w.trace.length + 2)).length
          (with_fetchbuf
            { w with trace := w.trace ++ [.OCIStmtGetPieceInfo,
                .OCIStmtSetPieceInfo ((long_window ret_len d).buf_size
                  - (long_window ret_len d).fetch_length), .OCIStmtFetch] } c i
            (window_filled (pieces (w.trace.length + 2)) (long_window ret_len d))) := by
  rw [long_loop]
  rw [bind_apply, set_fetchbuf_with cid i w c fbs d _ hid hf hi]
  simp only
  rw [bind_apply, fetchbuf_at_with cid i w c fbs _ hid hf hi]
  simp only
  rw [bind_apply, oci_with]
  simp only
  rw [bind_apply, oci_error_p_success env fuel true _ _ (Or.inl h1)]
  simp only [Bool.false_eq_true, if_false]
  rw [bind_apply, oci_with]
  simp only
  rw [bind_apply, oci_error_p_success env fuel true _ _ (Or.inl (by simpa using h2 _))]
  simp only [Bool.false_eq_true, if_false]
  rw [bind_apply, get_world_with]
  simp only
  rw [bind_apply, oci_with]
  simp only
  rw [bind_apply, set_fetchbuf_with cid i _ c fbs _ _ hid hf hi]
  simp only [List.length_append, List.length_singleton, List.length_cons, List.length_nil,
    with_fetchbuf, List.append_assoc, List.singleton_append]
  simp only [h3, ne_eq, not_true_eq_false, if_false, bind_apply, pure_apply,
    Bool.false_eq_true, reduceCtorEq, or_true, if_true]
  rfl

/-- The pass of the loop of a LONG column whose fetch succeeds: the loop
ends, and the offset is where the last piece starts. -/
theorem long_loop_pass_last (env : Env) (fuel : Nat) (pieces : Nat → List Char)
    (cid i n : Nat) (ret_len : Nat) (w : World) (c : ora_connection_t)
    (fbs : List fetch_buffer_t) (d : fetch_buffer_t) (hid : c.id = cid)
    (hf : c.fetch_buffers = some fbs) (hi : i < fbs.length)
    (h1 : (env.engine w.trace.length .OCIStmtGetPieceInfo).status = .OCI_SUCCESS)
    (h2 : ∀ window,
      (env.engine (w.trace.length + 1) (.OCIStmtSetPieceInfo window)).status = .OCI_SUCCESS)
    (h3 : (env.engine (w.trace.length + 2) .OCIStmtFetch).status = .OCI_SUCCESS) :
    long_loop env fuel pieces cid i (n + 1) ret_len (with_fetchbuf w c i d)
      = .done (true,
          with_fetchbuf
            { w with trace := w.trace ++ [.OCIStmtGetPieceInfo,
                .OCIStmtSetPieceInfo ((long_window ret_len d).buf_size
                  - (long_window ret_len d).fetch_length), .OCIStmtFetch] } c i
            (window_filled (pieces (w.trace.length + 2)) (long_window ret_len d))) := by
  rw [long_loop]
  rw [bind_apply, set_fetchbuf_with cid i w c fbs d _ hid hf hi]
  simp only
  rw [bind_apply, fetchbuf_at_with cid i w c fbs _ hid hf hi]
  simp only
  rw [bind_apply, oci_with]
  simp only
  rw [bind_apply, oci_error_p_success env fuel true _ _ (Or.inl h1)]
  simp only [Bool.false_eq_true, if_false]
  rw [bind_apply, oci_with]
  simp only
  rw [bind_apply, oci_error_p_success env fuel true _ _ (Or.inl (by simpa using h2 _))]
  simp only [Bool.false_eq_true, if_false]
  rw [bind_apply, get_world_with]
  simp only
  rw [bind_apply, oci_with]
  simp only
  rw [bind_apply, set_fetchbuf_with cid i _ c fbs _ _ hid hf hi]
  simp only [List.length_append, List.length_singleton, List.length_cons, List.length_nil,
    with_fetchbuf, List.append_assoc, List.singleton_append]
  simp only [h3, ne_eq, reduceCtorEq, not_false_eq_true, if_true, bind_apply,
    oci_error_p_success env fuel true _ _ (Or.inl rfl), Bool.false_eq_true, if_false,
    or_self, pure_apply]
  rfl

theorem long_window_facts (ret_len : Nat) (d : fetch_buffer_t) :
    (long_window ret_len d).fetch_length = (d.fetch_length + ret_len) % 65536 ∧
    d.buf_size ≤ (long_window ret_len d).buf_size ∧
    (long_window ret_len d).buf.getD [] = d.buf.getD [] := by
  unfold long_window
  split_ifs
  · refine ⟨rfl, by simp only; omega, ?_⟩
    simp only [Option.getD_some]
  · exact ⟨rfl, le_refl _, rfl⟩

/-- The loop of a LONG column with an engine that delivers the pieces `ps`
and then the piece `last`: it ends with the offset, of 16 bits, at the start
of the last piece, and with the pieces in the buffer when the offset has not
passed 65535. -/
theorem long_loop_run (env : Env) (fuel : Nat) (pieces : Nat → List Char) (cid i : Nat)
    (c : ora_connection_t) (fbs : List fetch_buffer_t) (hid : c.id = cid)
    (hf : c.fetch_buffers = some fbs) (hi : i < fbs.length) (last : List Char) :
    ∀ (ps : List (List Char)) (n : Nat) (w : World) (d : fetch_buffer_t) (ret_len : Nat),
      ps.length < n → delivers_long env pieces w.trace.length ps last →
      ∃ w1 d1, long_loop env fuel pieces cid i n ret_len (with_fetchbuf w c i d)
          = .done (true, with_fetchbuf w1 c i d1) ∧
        d1.fetch_length = (d.fetch_length + ret_len + ps.flatten.length) % 65536 ∧
        d.buf_size ≤ d1.buf_size ∧
        (∀ content, d.buf = some content → d.fetch_length + ret_len = content.length →
          content.length + ps.flatten.length < 65536 →
          d1.buf = some (content ++ ps.flatten ++ last)) := by
  intro ps
  induction ps with
  | nil =>
    intro n w d ret_len hn hdel
    obtain ⟨h1, h2, h3, h4⟩ := hdel
    obtain ⟨m, rfl⟩ : ∃ m, n = m + 1 := ⟨n - 1, by simp only [List.length_nil] at hn; omega⟩
    obtain ⟨f1, f2, f3⟩ := long_window_facts ret_len d
    refine ⟨_, _, long_loop_pass_last env fuel pieces cid i m ret_len w c fbs d hid hf hi
      h1 h2 h3, ?_, f2, ?_⟩
    · simp only [window_filled, f1, List.flatten_nil, List.length_nil, Nat.add_zero]
    · intro content hbuf hlen hlt
      simp only [List.flatten_nil, List.length_nil, Nat.add_zero] at hlt
      simp only [window_filled, f1, f3, hbuf, Option.getD_some, hlen, Nat.mod_eq_of_lt hlt,
        List.take_length, h4, List.flatten_nil, List.append_nil]
  | cons p ps ih =>
    intro n w d ret_len hn hdel
    obtain ⟨h1, h2, h3, h4, h5⟩ := hdel
    obtain ⟨m, rfl⟩ : ∃ m, n = m + 1 := ⟨n - 1, by simp only [List.length_cons] at hn; omega⟩
    obtain ⟨f1, f2, f3⟩ := long_window_facts ret_len d
    rw [long_loop_pass_more env fuel pieces cid i m ret_len w c fbs d hid hf hi h1 h2 h3]
    obtain ⟨w1, d1, e1, e2, e3, e4⟩ := ih m
      { w with trace := w.trace ++ [.OCIStmtGetPieceInfo,
          .OCIStmtSetPieceInfo ((long_window ret_len d).buf_size
            - (long_window ret_len d).fetch_length), .OCIStmtFetch] }
      (window_filled (pieces (w.trace.length + 2)) (long_window ret_len d))
      (pieces (w.trace.length + 2)).length
      (by simp only [List.length_cons] at hn; omega)
      (by
        have : (w.trace ++ [NativeCall.OCIStmtGetPieceInfo,
            NativeCall.OCIStmtSetPieceInfo ((long_window ret_len d).buf_size
              - (long_window ret_len d).fetch_length), NativeCall.OCIStmtFetch]).length
            = w.trace.length + 3 := by simp
        simp only [this]
        exact h5)
    have g1 : (window_filled (pieces (w.trace.length + 2)) (long_window ret_len d)).fetch_length
        = (d.fetch_length + ret_len) % 65536 := by
      simp only [window_filled, f1]
    have g2 : (window_filled (pieces (w.trace.length + 2)) (long_window ret_len d)).buf_size
        = (long_window ret_len d).buf_size := rfl
    refine ⟨w1, d1, e1, ?_, ?_, ?_⟩
    · rw [e2, g1, h4]
      simp only [List.flatten_cons, List.length_append]
      omega
    · rw [g2] at e3
      exact le_trans f2 e3
    · intro content hbuf hlen hlt
      simp only [List.flatten_cons, List.length_append] at hlt
      have hc : content.length < 65536 := by omega
      have := e4 (content ++ p)
        (by simp only [window_filled, f1, f3, hbuf, Option.getD_some, hlen,
              Nat.mod_eq_of_lt hc, List.take_length, h4])
        (by rw [g1, hlen, Nat.mod_eq_of_lt hc, h4, List.length_append])
        (by rw [List.length_append]; omega)
      rw [this]
      simp only [List.flatten_cons, List.append_assoc]

theorem c_string_length_le (s : List Char) : (c_string s).length ≤ s.length := by
  unfold c_string
  exact (List.takeWhile_prefix _).length_le

/-- C26: the loop of a LONG column never decreases the size of the buffer,
but it loses the last piece.  With an engine that delivers the pieces `ps`
and then, with the fetch that succeeds, the piece `last`, the `SQLT_LNG` case
of `Ns_OracleGetRow` ends with the offset `fetch_length`, of 16 bits, at the
sum of the lengths of `ps` modulo 65536, where it writes the terminator, so
that the value it puts into the row has at most that many bytes: when `last`
is not empty the value is shorter than what the engine has delivered.  When
the pieces `ps` have less than 65536 bytes together, the offset is the sum of
their lengths, and the value is the C string of the pieces `ps` alone. -/
theorem long_value_drops_last_piece (env : Env) (fuel : Nat) (pieces : Nat → List Char)
    (cid i n : Nat) (w : World) (c : ora_connection_t) (fbs : List fetch_buffer_t)
    (fb : fetch_buffer_t) (hc : w.dbh.connection = some c) (hid : c.id = cid)
    (hf : c.fetch_buffers = some fbs) (hi : fbs[i]? = some fb) (hnull : fb.is_null = 0)
    (ps : List (List Char)) (last : List Char) (hn : ps.length < n)
    (hdel : delivers_long env pieces w.trace.length ps last) :
    ∃ w1 d1 value, long_column env fuel pieces cid i n w
        = .done (some value, with_fetchbuf w1 c i d1) ∧
      d1.fetch_length = (ps.map List.length).sum % 65536 ∧
      fb.buf_size ≤ d1.buf_size ∧
      (last ≠ [] → value.length < ((ps ++ [last]).map List.length).sum) ∧
      ((ps.map List.length).sum < 65536 →
        value = c_string ps.flatten ∧
        d1.fetch_length = (ps.map List.length).sum ∧
        d1.buf = some ps.flatten) := by
  have hilt := getElem?_lt hi
  obtain ⟨w1, d1, e1, e2, e3, e4⟩ := long_loop_run env fuel pieces cid i c fbs hid hf hilt
    last ps n w { fb with buf := some [], fetch_length := 0 } 0 hn hdel
  simp only [Nat.add_zero, Nat.zero_add] at e2
  have e5 := e4 [] rfl rfl
  simp only [List.nil_append, List.length_nil, Nat.zero_add] at e5
  have hlen : ps.flatten.length = (ps.map List.length).sum := List.length_flatten ps
  refine ⟨w1, { d1 with buf := some ((d1.buf.getD []).take d1.fetch_length) },
    c_string ((d1.buf.getD []).take d1.fetch_length), ?_, ?_, e3, fun hlast => ?_,
    fun hlt => ?_⟩
  · rw [← with_fetchbuf_self w c fbs i fb hc hf hi]
    unfold long_column
    rw [bind_apply, fetchbuf_at_with cid i w c fbs fb hid hf hilt]
    simp only [hnull]
    rw [if_neg (by decide), if_neg (by decide)]
    rw [bind_apply, bind_apply, set_fetchbuf_with cid i w c fbs fb _ hid hf hilt]
    simp only
    rw [e1]
    simp only [if_true]
    rw [bind_apply, fetchbuf_at_with cid i w1 c fbs d1 hid hf hilt]
    simp only
    rw [bind_apply, set_fetchbuf_with cid i w1 c fbs d1 _ hid hf hilt]
    simp only [pure_apply]
  · rw [e2, hlen]
  · have h1 := c_string_length_le ((d1.buf.getD []).take d1.fetch_length)
    have h2 : ((d1.buf.getD []).take d1.fetch_length).length ≤ d1.fetch_length :=
      List.length_take_le _ _
    have h3 : 0 < last.length := List.length_pos.mpr hlast
    have h4 := Nat.mod_le ps.flatten.length 65536
    rw [List.map_append, List.sum_append, ← hlen]
    simp only [List.map_cons, List.map_nil, List.sum_cons, List.sum_nil, Nat.add_zero]
    omega
  · have hb := e5 (by rw [hlen]; exact hlt)
    have hfl : d1.fetch_length = ps.flatten.length := by
      rw [e2, Nat.mod_eq_of_lt (by rw [hlen]; exact hlt)]
    refine ⟨?_, ?_, ?_⟩
    · simp only [hb, hfl, Option.getD_some, List.take_left']
    · rw [hfl, hlen]
    · simp only [hb, hfl, Option.getD_some, List.take_left']

/-- C26, at a value that the engine delivers in the pieces `hello ` and
`world`: the row gets `hello `; and at a value delivered in the one piece
`hello`: the row gets the empty string. -/
theorem long_value_drops_last_piece_witness :
    (∃ w1 d1, long_column long_env 1 long_pieces 0 0 5 long_world
        = .done (some (c_string ["hello ".toList].flatten),
            with_fetchbuf w1
              { example_connection with
                stmt := true, n_columns := 1,
                fetch_buffers := some [{ malloc_fetch_buffer with
                  type := SQLT_LNG, buf_size := 16, buf := some [], allocated := 16 }] }
              0 d1) ∧
      d1.fetch_length = (["hello ".toList].map List.length).sum ∧
      d1.buf = some ["hello ".toList].flatten ∧
      16 ≤ d1.buf_size ∧
      ("world".toList ≠ [] →
        (c_string ["hello ".toList].flatten).length
          < ((["hello ".toList] ++ ["world".toList]).map List.length).sum)) ∧
    long_column (example_env 0) 1 (fun _ => "hello".toList) 0 0 5 long_world
      = .done (some [],
          with_fetchbuf
            { long_world with
              trace := [.OCIStmtGetPieceInfo, .OCIStmtSetPieceInfo 16, .OCIStmtFetch] }
            { example_connection with
              stmt := true, n_columns := 1,
              fetch_buffers := some [{ malloc_fetch_buffer with
                type := SQLT_LNG, buf_size := 16, buf := some [], allocated := 16 }] } 0
            { malloc_fetch_buffer with
              type := SQLT_LNG, buf_size := 16, buf := some [], allocated := 16 }) :=
  have h := long_value_drops_last_piece long_env 1 long_pieces 0 0 5 long_world _ _ _ rfl rfl
    rfl rfl rfl ["hello ".toList] "world".toList (by decide)
    ⟨rfl, fun _ => rfl, rfl, rfl, rfl, fun _ => rfl, rfl, rfl⟩
  ⟨by
    obtain ⟨w1, d1, value, h1, _, h3, h4, h5⟩ := h
    obtain ⟨h6, h7, h8⟩ := h5 (by decide)
    rw [h6] at h1 h4
    exact ⟨w1, d1, h1, h7, h8, h3, h4⟩,
    by decide!⟩

/-! ## An error exit of `OraclePLSQL` without a flush -/

/-- C27: `ns_ora plsql db "begin :c := f; :c := g; end;" c`, with an engine
whose calls succeed, returns `TCL_ERROR` at the second placeholder with the
name of the ref cursor, after the statement handle and the array of
descriptors have been allocated, and without a flush: the connection is left
with the statement handle, with the array of two descriptors, and with the
statement handle of the first ref cursor. -/
theorem plsql_second_ref_cursor_not_flushed :
    OraclePLSQL (example_env 0) 1 32768 two_ref_cursors example_world
      = .done (.TCL_ERROR,
          { example_world with
            trace := [.OCIHandleAlloc .OCI_HTYPE_STMT,
              .OCIStmtPrepare "begin :c := f; :c := g; end;".toList,
              .OCIHandleAlloc .OCI_HTYPE_STMT, .OCIBindByName "c".toList 0 false],
            dbh := { example_world.dbh with
              connection := some { example_connection with
                stmt := true, n_columns := 2, interp := true,
                fetch_buffers := some
                  [{ malloc_fetch_buffer with
                      type := -1, name := some "c".toList, inout := .BIND_OUT, stmt := true,
                      bind := true },
                   { malloc_fetch_buffer with type := -1, name := some "c".toList }] } },
            result := "invalid plsql statement, you can only have a single ref cursors. " }) ∧
    ¬ flushed
      { example_world with
        dbh := { example_world.dbh with
          connection := some { example_connection with
            stmt := true, n_columns := 2, interp := true,
            fetch_buffers := some
              [{ malloc_fetch_buffer with
                  type := -1, name := some "c".toList, inout := .BIND_OUT, stmt := true,
                  bind := true },
               { malloc_fetch_buffer with type := -1, name := some "c".toList }] } } } := by
  refine ⟨by decide!, fun h => ?_⟩
  have h1 := (h _ rfl).1
  exact absurd h1 (by decide)

/-! ## Streaming a LOB -/

theorem lob_written_append (xs ys : List NativeCall) :
    lob_written (xs ++ ys) = lob_written xs ++ lob_written ys := by
  induction xs with
  | nil => rfl
  | cons x xs ih =>
    cases x <;> simp [lob_written, ih]

end NsOracle
